import Mathlib

/-!
# Timeline evaluation and atlas text of spine-c (`Animation.c`, `Atlas.c`)

A shallow embedding of the timeline engine of `spine-c/src/spine/Animation.c` and of the
line reader of `spine-c/src/spine/Atlas.c`, and theorems about them.

Conventions of the embedding:

* a C `float` is read in two ways. The sections `Curves` to `Dispatch and animations` read
  it as an exact rational (`ℚ`), with no rounding: they carry the statements in which no
  arithmetic result is compared (order of the keyframes, the branch taken, what is read and
  written) and the statements that are worded in exact arithmetic. The section
  `Float arithmetic` embeds the same functions once more, operation by operation, with every
  `+`, `-`, `*`, `/` handed to a rounding `fl`: `Rounded.binary32` is IEEE 754 binary32,
  round to nearest, ties to even, one rounding per operation (`FLT_EVAL_METHOD` 0, no
  contraction), and `Rounded.unrounded` is exact arithmetic. A value that is not finite is
  `none`; infinities and NaN are not followed further;
* a C `int` is an integer (`ℤ`); no computation here comes near the range of `int`;
* a C array is a `List`; every read and write goes through `readAt` / `writeAt`, which
  return `none` outside the bounds of the array (undefined behaviour in C);
* a function returns `Option`: `none` stands for undefined behaviour (a read or a write
  outside an array, an integer division by zero) or for a loop that never ends;
* the `while (1)` loop of `binarySearch` takes fuel; `binarySearch` supplies
  `valuesLength` units, enough for every array of at least two keyframes
  (`binarySearch_spec`);
* the `while` loops that bring an angle into `[-180, 180]` are total functions of the
  rational amount in the exact reading (recursion on the number of turns left); in the
  `Rounded` reading they take fuel, `Rounded.turns amount`, and a loop that has not ended
  within the fuel is `none`: with `binary32` a loop that ends does so within this fuel;
* `fmodf` is the exact remainder `x - n * y` with `n` the quotient rounded toward zero, as
  the C library defines it.
* the atlas text is a `List Char`, the bytes that may be read; a `const char*` into it is
  an integer offset from its first byte and the null pointer is `none`; the static
  `nextStart` of `readLine` is an argument and a result of every function that reaches it;
* the loops over the text take fuel, one unit more than the text has bytes: each turn
  reads the byte next to the one read before, so the loop ends, or reads outside the
  text, before the fuel does;
* `isspace` is that of the "C" locale and `size_t` is 64 bits wide.
-/

namespace Spine

/-! ## Memory -/

/-- Read of `xs[i]`; `none` outside the array. -/
def readAt {α : Type} (xs : List α) (i : Int) : Option α :=
  if i < 0 then none else xs[i.toNat]?

/-- Write of `xs[i] = v`; `none` outside the array. -/
def writeAt {α : Type} (xs : List α) (i : Int) (v : α) : Option (List α) :=
  if i < 0 then none
  else if i.toNat < xs.length then some (xs.set i.toNat v) else none

/-- Modelled from the spec: the `CALLOC(float, n)` macro of `extension.h`, `n` floats that
are all zero ("coefficients start at 0"). -/
def CALLOC (n : Int) : List ℚ := List.replicate n.toNat 0

/-! ## The pose -/

/-- Modelled from the spec: the setup (rest) values of a bone, `bone->data`. -/
structure BoneData where
  x : ℚ
  y : ℚ
  rotation : ℚ
  scaleX : ℚ
  scaleY : ℚ
deriving DecidableEq, Repr

/-- Modelled from the spec: a bone of the pose, its setup values and its current values. -/
structure Bone where
  data : BoneData
  x : ℚ
  y : ℚ
  rotation : ℚ
  scaleX : ℚ
  scaleY : ℚ
deriving DecidableEq, Repr

/-- Modelled from the spec: an attachment handle, as the attachment resolution returns it. -/
abbrev Attachment := Nat

/-- Modelled from the spec: a slot of the pose, its colour and its attachment
(`none` is the null attachment). -/
structure Slot where
  r : ℚ
  g : ℚ
  b : ℚ
  a : ℚ
  attachment : Option Attachment
deriving DecidableEq, Repr

/-- Modelled from the spec: the pose, `skeleton->bones` and `skeleton->slots`. -/
structure Skeleton where
  bones : List Bone
  slots : List Slot
deriving DecidableEq, Repr

/-- Modelled from the spec: the type of `Skeleton_getAttachmentForSlotIndex`, the external
attachment resolution `resolveAttachment(poseContext, slotIndex, name)`; the functions
below take it as a parameter. -/
abbrev Resolver := Skeleton → Int → String → Option Attachment

/-- Modelled from the spec: `Slot_setAttachment`, "set slot attachment by slot index and
resolved attachment handle". -/
def Slot_setAttachment (slot : Slot) (attachment : Option Attachment) : Slot :=
  { slot with attachment := attachment }

/-- Store through the pointer `skeleton->bones[i]`. -/
def setBone (skeleton : Skeleton) (i : Int) (bone : Bone) : Option Skeleton :=
  (writeAt skeleton.bones i bone).map fun bs => { skeleton with bones := bs }

/-- Store through the pointer `skeleton->slots[i]`. -/
def setSlot (skeleton : Skeleton) (i : Int) (slot : Slot) : Option Skeleton :=
  (writeAt skeleton.slots i slot).map fun ss => { skeleton with slots := ss }

/-! ## Curves -/

def CURVE_LINEAR : ℚ := 0
def CURVE_STEPPED : ℚ := -1
def CURVE_SEGMENTS : Int := 10

/-- Modelled from the spec: `struct CurveTimeline`, the curve-coefficient array. -/
structure CurveTimeline where
  curves : List ℚ
deriving DecidableEq, Repr

def _CurveTimeline_init (frameCount : Int) : CurveTimeline :=
  { curves := CALLOC ((frameCount - 1) * 6) }

def CurveTimeline_setLinear (self : CurveTimeline) (frameIndex : Int) : Option CurveTimeline :=
  (writeAt self.curves (frameIndex * 6) CURVE_LINEAR).map fun c => { curves := c }

def CurveTimeline_setStepped (self : CurveTimeline) (frameIndex : Int) : Option CurveTimeline :=
  (writeAt self.curves (frameIndex * 6) CURVE_STEPPED).map fun c => { curves := c }

def CurveTimeline_setCurve (self : CurveTimeline) (frameIndex : Int) (cx1 cy1 cx2 cy2 : ℚ) :
    Option CurveTimeline :=
  let subdiv_step : ℚ := 1 / CURVE_SEGMENTS
  let subdiv_step2 := subdiv_step * subdiv_step
  let subdiv_step3 := subdiv_step2 * subdiv_step
  let pre1 := 3 * subdiv_step
  let pre2 := 3 * subdiv_step2
  let pre4 := 6 * subdiv_step2
  let pre5 := 6 * subdiv_step3
  let tmp1x := -cx1 * 2 + cx2
  let tmp1y := -cy1 * 2 + cy2
  let tmp2x := (cx1 - cx2) * 3 + 1
  let tmp2y := (cy1 - cy2) * 3 + 1
  let i := frameIndex * 6
  match writeAt self.curves i (cx1 * pre1 + tmp1x * pre2 + tmp2x * subdiv_step3) with
  | none => none
  | some c =>
  match writeAt c (i + 1) (cy1 * pre1 + tmp1y * pre2 + tmp2y * subdiv_step3) with
  | none => none
  | some c =>
  match writeAt c (i + 2) (tmp1x * pre4 + tmp2x * pre5) with
  | none => none
  | some c =>
  match writeAt c (i + 3) (tmp1y * pre4 + tmp2y * pre5) with
  | none => none
  | some c =>
  match writeAt c (i + 4) (tmp2x * pre5) with
  | none => none
  | some c =>
  match writeAt c (i + 5) (tmp2y * pre5) with
  | none => none
  | some c =>
  some { curves := c }

/-- The `while (1)` loop of `CurveTimeline_getCurvePercent` and the `return` after it;
`i` counts down from `CURVE_SEGMENTS - 2`. -/
def getCurvePercentLoop (percent dddfx dddfy : ℚ) : Nat → ℚ → ℚ → ℚ → ℚ → ℚ → ℚ → ℚ
  | i, dfx, dfy, ddfx, ddfy, x, y =>
    if x ≥ percent then
      let lastX := x - dfx
      let lastY := y - dfy
      lastY + (y - lastY) * (percent - lastX) / (x - lastX)
    else
      match i with
      | 0 => y + (1 - y) * (percent - x) / (1 - x)
      | i + 1 =>
        let dfx := dfx + ddfx
        let dfy := dfy + ddfy
        let ddfx := ddfx + dddfx
        let ddfy := ddfy + dddfy
        getCurvePercentLoop percent dddfx dddfy i dfx dfy ddfx ddfy (x + dfx) (y + dfy)

def CurveTimeline_getCurvePercent (self : CurveTimeline) (frameIndex : Int) (percent : ℚ) :
    Option ℚ :=
  let curveIndex := frameIndex * 6
  match readAt self.curves curveIndex with
  | none => none
  | some dfx =>
  if dfx = CURVE_LINEAR then some percent
  else if dfx = CURVE_STEPPED then some 0
  else
    match readAt self.curves (curveIndex + 1) with
    | none => none
    | some dfy =>
    match readAt self.curves (curveIndex + 2) with
    | none => none
    | some ddfx =>
    match readAt self.curves (curveIndex + 3) with
    | none => none
    | some ddfy =>
    match readAt self.curves (curveIndex + 4) with
    | none => none
    | some dddfx =>
    match readAt self.curves (curveIndex + 5) with
    | none => none
    | some dddfy =>
    some (getCurvePercentLoop percent dddfx dddfy (CURVE_SEGMENTS - 2).toNat
      dfx dfy ddfx ddfy dfx dfy)

/-! ## Keyframe search -/

/-- The `while (1)` loop of `binarySearch`, with fuel. -/
def binarySearchLoop (values : List ℚ) (target : ℚ) (step : Int) :
    Nat → Int → Int → Int → Option Int
  | 0, _, _, _ => none
  | fuel + 1, low, high, current =>
    match readAt values ((current + 1) * step) with
    | none => none
    | some v =>
      let low := if v ≤ target then current + 1 else low
      let high := if v ≤ target then high else current
      if low = high then some ((low + 1) * step)
      else binarySearchLoop values target step fuel low high ((low + high) >>> (1 : Nat))

def binarySearch (values : List ℚ) (valuesLength : Int) (target : ℚ) (step : Int) :
    Option Int :=
  if step = 0 then none
  else
    let low : Int := 0
    let high := Int.tdiv valuesLength step - 2
    if high = 0 then some step
    else binarySearchLoop values target step valuesLength.toNat low high (high >>> (1 : Nat))

/-! ## Timelines -/

/-- Modelled from the spec: `struct BaseTimeline`, shared by the Rotate, Translate and
Scale timelines: curve coefficients, the flat keyframe array and the target bone. -/
structure BaseTimeline where
  super : CurveTimeline
  framesLength : Int
  frames : List ℚ
  boneIndex : Int
deriving DecidableEq, Repr

/-- Modelled from the spec: `ColorTimeline`, laid out as `struct BaseTimeline` with a
target slot. -/
structure ColorTimeline where
  super : CurveTimeline
  framesLength : Int
  frames : List ℚ
  slotIndex : Int
deriving DecidableEq, Repr

/-- Modelled from the spec: `AttachmentTimeline`: keyframe times, one attachment name per
keyframe (`none` is the null name) and the target slot; it has no curves. -/
structure AttachmentTimeline where
  framesLength : Int
  frames : List ℚ
  slotIndex : Int
  attachmentNames : List (Option String)
deriving DecidableEq, Repr

def _BaseTimeline_new (frameCount frameSize : Int) : BaseTimeline :=
  { super := _CurveTimeline_init frameCount
    framesLength := frameCount * frameSize
    frames := CALLOC (frameCount * frameSize)
    boneIndex := 0 }

/-- The loop `while (amount > 180) amount -= 360;` in exact arithmetic, where it always
ends; `Rounded.whileAbove180` is the loop on floats. -/
def whileAbove180 (amount : ℚ) : ℚ :=
  if 180 < amount then whileAbove180 (amount - 360) else amount
termination_by (⌈amount / 360⌉).toNat
decreasing_by
  have h1 : (amount - 360) / 360 = amount / 360 - 1 := by ring
  have h2 : (0 : ℚ) < amount / 360 := by positivity
  have h3 : 0 < ⌈amount / 360⌉ := Int.ceil_pos.mpr h2
  rw [h1, Int.ceil_sub_one]
  omega

/-- The loop `while (amount < -180) amount += 360;` in exact arithmetic, where it always
ends; `Rounded.whileBelowNeg180` is the loop on floats. -/
def whileBelowNeg180 (amount : ℚ) : ℚ :=
  if amount < -180 then whileBelowNeg180 (amount + 360) else amount
termination_by (⌈-amount / 360⌉).toNat
decreasing_by
  have h1 : -(amount + 360) / 360 = -amount / 360 - 1 := by ring
  have h2 : (0 : ℚ) < -amount / 360 := by
    have : (0 : ℚ) < -amount := by linarith
    positivity
  have h3 : 0 < ⌈-amount / 360⌉ := Int.ceil_pos.mpr h2
  rw [h1, Int.ceil_sub_one]
  omega

/-- The two loops in sequence, as `_RotateTimeline_apply` runs them three times, in exact
arithmetic; `Rounded.shortestArc` is the pair of loops on floats. -/
def shortestArc (amount : ℚ) : ℚ := whileBelowNeg180 (whileAbove180 amount)

/-- The argument `percent < 0 ? 0 : (percent > 1 ? 1 : percent)`. -/
def clampPercent (percent : ℚ) : ℚ :=
  if percent < 0 then 0 else if percent > 1 then 1 else percent

def ROTATE_LAST_FRAME_TIME : Int := -2
def ROTATE_FRAME_VALUE : Int := 1

/-- The function in exact arithmetic; `Rounded._RotateTimeline_apply` is the same function
with every `float` operation rounded. -/
def _RotateTimeline_apply (self : BaseTimeline) (skeleton : Skeleton) (time alpha : ℚ) :
    Option Skeleton :=
  match readAt self.frames 0 with
  | none => none
  | some first =>
  if time < first then some skeleton
  else
    match readAt skeleton.bones self.boneIndex with
    | none => none
    | some bone =>
    match readAt self.frames (self.framesLength - 2) with
    | none => none
    | some last =>
    if time ≥ last then
      match readAt self.frames (self.framesLength - 1) with
      | none => none
      | some value =>
      let amount := shortestArc (bone.data.rotation + value - bone.rotation)
      setBone skeleton self.boneIndex { bone with rotation := bone.rotation + amount * alpha }
    else
      match binarySearch self.frames self.framesLength time 2 with
      | none => none
      | some frameIndex =>
      match readAt self.frames (frameIndex - 1) with
      | none => none
      | some lastFrameValue =>
      match readAt self.frames frameIndex with
      | none => none
      | some frameTime =>
      match readAt self.frames (frameIndex + ROTATE_LAST_FRAME_TIME) with
      | none => none
      | some lastFrameTime =>
      let percent := 1 - (time - frameTime) / (lastFrameTime - frameTime)
      match CurveTimeline_getCurvePercent self.super (Int.tdiv frameIndex 2 - 1)
        (clampPercent percent) with
      | none => none
      | some percent =>
      match readAt self.frames (frameIndex + ROTATE_FRAME_VALUE) with
      | none => none
      | some frameValue =>
      let amount := shortestArc (frameValue - lastFrameValue)
      let amount := shortestArc
        (bone.data.rotation + (lastFrameValue + amount * percent) - bone.rotation)
      setBone skeleton self.boneIndex { bone with rotation := bone.rotation + amount * alpha }

def RotateTimeline_setFrame (self : BaseTimeline) (frameIndex : Int) (time angle : ℚ) :
    Option BaseTimeline :=
  let frameIndex := frameIndex * 2
  match writeAt self.frames frameIndex time with
  | none => none
  | some f =>
  match writeAt f (frameIndex + 1) angle with
  | none => none
  | some f =>
  some { self with frames := f }

def TRANSLATE_LAST_FRAME_TIME : Int := -3
def TRANSLATE_FRAME_X : Int := 1
def TRANSLATE_FRAME_Y : Int := 2

/-- The function in exact arithmetic; `Rounded._TranslateTimeline_apply` is the same
function with every `float` operation rounded. -/
def _TranslateTimeline_apply (self : BaseTimeline) (skeleton : Skeleton) (time alpha : ℚ) :
    Option Skeleton :=
  match readAt self.frames 0 with
  | none => none
  | some first =>
  if time < first then some skeleton
  else
    match readAt skeleton.bones self.boneIndex with
    | none => none
    | some bone =>
    match readAt self.frames (self.framesLength - 3) with
    | none => none
    | some last =>
    if time ≥ last then
      match readAt self.frames (self.framesLength - 2) with
      | none => none
      | some valueX =>
      match readAt self.frames (self.framesLength - 1) with
      | none => none
      | some valueY =>
      setBone skeleton self.boneIndex
        { bone with
          x := bone.x + (bone.data.x + valueX - bone.x) * alpha
          y := bone.y + (bone.data.y + valueY - bone.y) * alpha }
    else
      match binarySearch self.frames self.framesLength time 3 with
      | none => none
      | some frameIndex =>
      match readAt self.frames (frameIndex - 2) with
      | none => none
      | some lastFrameX =>
      match readAt self.frames (frameIndex - 1) with
      | none => none
      | some lastFrameY =>
      match readAt self.frames frameIndex with
      | none => none
      | some frameTime =>
      match readAt self.frames (frameIndex + TRANSLATE_LAST_FRAME_TIME) with
      | none => none
      | some lastFrameTime =>
      let percent := 1 - (time - frameTime) / (lastFrameTime - frameTime)
      match CurveTimeline_getCurvePercent self.super (Int.tdiv frameIndex 3 - 1)
        (clampPercent percent) with
      | none => none
      | some percent =>
      match readAt self.frames (frameIndex + TRANSLATE_FRAME_X) with
      | none => none
      | some frameX =>
      match readAt self.frames (frameIndex + TRANSLATE_FRAME_Y) with
      | none => none
      | some frameY =>
      setBone skeleton self.boneIndex
        { bone with
          x := bone.x + (bone.data.x + lastFrameX + (frameX - lastFrameX) * percent - bone.x)
            * alpha
          y := bone.y + (bone.data.y + lastFrameY + (frameY - lastFrameY) * percent - bone.y)
            * alpha }

def TranslateTimeline_setFrame (self : BaseTimeline) (frameIndex : Int) (time x y : ℚ) :
    Option BaseTimeline :=
  let frameIndex := frameIndex * 3
  match writeAt self.frames frameIndex time with
  | none => none
  | some f =>
  match writeAt f (frameIndex + 1) x with
  | none => none
  | some f =>
  match writeAt f (frameIndex + 2) y with
  | none => none
  | some f =>
  some { self with frames := f }

/-- The function in exact arithmetic; `Rounded._ScaleTimeline_apply` is the same function
with every `float` operation rounded. -/
def _ScaleTimeline_apply (self : BaseTimeline) (skeleton : Skeleton) (time alpha : ℚ) :
    Option Skeleton :=
  match readAt self.frames 0 with
  | none => none
  | some first =>
  if time < first then some skeleton
  else
    match readAt skeleton.bones self.boneIndex with
    | none => none
    | some bone =>
    match readAt self.frames (self.framesLength - 3) with
    | none => none
    | some last =>
    if time ≥ last then
      match readAt self.frames (self.framesLength - 2) with
      | none => none
      | some valueX =>
      match readAt self.frames (self.framesLength - 1) with
      | none => none
      | some valueY =>
      setBone skeleton self.boneIndex
        { bone with
          scaleX := bone.scaleX + (bone.data.scaleX - 1 + valueX - bone.scaleX) * alpha
          scaleY := bone.scaleY + (bone.data.scaleY - 1 + valueY - bone.scaleY) * alpha }
    else
      match binarySearch self.frames self.framesLength time 3 with
      | none => none
      | some frameIndex =>
      match readAt self.frames (frameIndex - 2) with
      | none => none
      | some lastFrameX =>
      match readAt self.frames (frameIndex - 1) with
      | none => none
      | some lastFrameY =>
      match readAt self.frames frameIndex with
      | none => none
      | some frameTime =>
      match readAt self.frames (frameIndex + TRANSLATE_LAST_FRAME_TIME) with
      | none => none
      | some lastFrameTime =>
      let percent := 1 - (time - frameTime) / (lastFrameTime - frameTime)
      match CurveTimeline_getCurvePercent self.super (Int.tdiv frameIndex 3 - 1)
        (clampPercent percent) with
      | none => none
      | some percent =>
      match readAt self.frames (frameIndex + TRANSLATE_FRAME_X) with
      | none => none
      | some frameX =>
      match readAt self.frames (frameIndex + TRANSLATE_FRAME_Y) with
      | none => none
      | some frameY =>
      setBone skeleton self.boneIndex
        { bone with
          scaleX := bone.scaleX
            + (bone.data.scaleX - 1 + lastFrameX + (frameX - lastFrameX) * percent
              - bone.scaleX) * alpha
          scaleY := bone.scaleY
            + (bone.data.scaleY - 1 + lastFrameY + (frameY - lastFrameY) * percent
              - bone.scaleY) * alpha }

def ScaleTimeline_setFrame (self : BaseTimeline) (frameIndex : Int) (time x y : ℚ) :
    Option BaseTimeline :=
  TranslateTimeline_setFrame self frameIndex time x y

def COLOR_LAST_FRAME_TIME : Int := -5
def COLOR_FRAME_R : Int := 1
def COLOR_FRAME_G : Int := 2
def COLOR_FRAME_B : Int := 3
def COLOR_FRAME_A : Int := 4

/-- The function in exact arithmetic; `Rounded._ColorTimeline_apply` is the same function
with every `float` operation rounded. -/
def _ColorTimeline_apply (self : ColorTimeline) (skeleton : Skeleton) (time alpha : ℚ) :
    Option Skeleton :=
  match readAt self.frames 0 with
  | none => none
  | some first =>
  if time < first then some skeleton
  else
    match readAt skeleton.slots self.slotIndex with
    | none => none
    | some slot =>
    match readAt self.frames (self.framesLength - 5) with
    | none => none
    | some last =>
    if time ≥ last then
      let i := self.framesLength - 1
      match readAt self.frames (i - 3) with
      | none => none
      | some r =>
      match readAt self.frames (i - 2) with
      | none => none
      | some g =>
      match readAt self.frames (i - 1) with
      | none => none
      | some b =>
      match readAt self.frames i with
      | none => none
      | some a =>
      setSlot skeleton self.slotIndex { slot with r := r, g := g, b := b, a := a }
    else
      match binarySearch self.frames self.framesLength time 5 with
      | none => none
      | some frameIndex =>
      match readAt self.frames (frameIndex - 4) with
      | none => none
      | some lastFrameR =>
      match readAt self.frames (frameIndex - 3) with
      | none => none
      | some lastFrameG =>
      match readAt self.frames (frameIndex - 2) with
      | none => none
      | some lastFrameB =>
      match readAt self.frames (frameIndex - 1) with
      | none => none
      | some lastFrameA =>
      match readAt self.frames frameIndex with
      | none => none
      | some frameTime =>
      match readAt self.frames (frameIndex + COLOR_LAST_FRAME_TIME) with
      | none => none
      | some lastFrameTime =>
      let percent := 1 - (time - frameTime) / (lastFrameTime - frameTime)
      match CurveTimeline_getCurvePercent self.super (Int.tdiv frameIndex 5 - 1)
        (clampPercent percent) with
      | none => none
      | some percent =>
      match readAt self.frames (frameIndex + COLOR_FRAME_R) with
      | none => none
      | some frameR =>
      match readAt self.frames (frameIndex + COLOR_FRAME_G) with
      | none => none
      | some frameG =>
      match readAt self.frames (frameIndex + COLOR_FRAME_B) with
      | none => none
      | some frameB =>
      match readAt self.frames (frameIndex + COLOR_FRAME_A) with
      | none => none
      | some frameA =>
      let r := lastFrameR + (frameR - lastFrameR) * percent
      let g := lastFrameG + (frameG - lastFrameG) * percent
      let b := lastFrameB + (frameB - lastFrameB) * percent
      let a := lastFrameA + (frameA - lastFrameA) * percent
      if alpha < 1 then
        setSlot skeleton self.slotIndex
          { slot with
            r := slot.r + (r - slot.r) * alpha
            g := slot.g + (g - slot.g) * alpha
            b := slot.b + (b - slot.b) * alpha
            a := slot.a + (a - slot.a) * alpha }
      else
        setSlot skeleton self.slotIndex { slot with r := r, g := g, b := b, a := a }

def ColorTimeline_setFrame (self : ColorTimeline) (frameIndex : Int) (time r g b a : ℚ) :
    Option ColorTimeline :=
  let frameIndex := frameIndex * 5
  match writeAt self.frames frameIndex time with
  | none => none
  | some f =>
  match writeAt f (frameIndex + 1) r with
  | none => none
  | some f =>
  match writeAt f (frameIndex + 2) g with
  | none => none
  | some f =>
  match writeAt f (frameIndex + 3) b with
  | none => none
  | some f =>
  match writeAt f (frameIndex + 4) a with
  | none => none
  | some f =>
  some { self with frames := f }

def _AttachmentTimeline_apply (Skeleton_getAttachmentForSlotIndex : Resolver)
    (self : AttachmentTimeline) (skeleton : Skeleton) (time _alpha : ℚ) :
    Option Skeleton :=
  match readAt self.frames 0 with
  | none => none
  | some first =>
  if time < first then some skeleton
  else
    match readAt self.frames (self.framesLength - 1) with
    | none => none
    | some last =>
    match (if time ≥ last then some (self.framesLength - 1)
      else (binarySearch self.frames self.framesLength time 1).map fun i => i - 1) with
    | none => none
    | some frameIndex =>
    match readAt self.attachmentNames frameIndex with
    | none => none
    | some attachmentName =>
    match readAt skeleton.slots self.slotIndex with
    | none => none
    | some slot =>
    setSlot skeleton self.slotIndex
      (Slot_setAttachment slot
        (match attachmentName with
          | some name => Skeleton_getAttachmentForSlotIndex skeleton self.slotIndex name
          | none => none))

def AttachmentTimeline_new (frameCount : Int) : AttachmentTimeline :=
  { framesLength := frameCount
    frames := CALLOC frameCount
    slotIndex := 0
    attachmentNames := List.replicate frameCount.toNat none }

def AttachmentTimeline_setFrame (self : AttachmentTimeline) (frameIndex : Int) (time : ℚ)
    (attachmentName : Option String) : Option AttachmentTimeline :=
  match writeAt self.frames frameIndex time with
  | none => none
  | some f =>
  match writeAt self.attachmentNames frameIndex attachmentName with
  | none => none
  | some names =>
  some { self with frames := f, attachmentNames := names }

/-! ## Dispatch and animations -/

/-- The five `apply` entries a timeline's vtable can hold. -/
inductive Timeline where
  | rotate (self : BaseTimeline)
  | translate (self : BaseTimeline)
  | scale (self : BaseTimeline)
  | color (self : ColorTimeline)
  | attachment (self : AttachmentTimeline)
deriving DecidableEq, Repr

def Timeline_apply (Skeleton_getAttachmentForSlotIndex : Resolver) (self : Timeline)
    (skeleton : Skeleton) (time alpha : ℚ) : Option Skeleton :=
  match self with
  | .rotate tl => _RotateTimeline_apply tl skeleton time alpha
  | .translate tl => _TranslateTimeline_apply tl skeleton time alpha
  | .scale tl => _ScaleTimeline_apply tl skeleton time alpha
  | .color tl => _ColorTimeline_apply tl skeleton time alpha
  | .attachment tl =>
    _AttachmentTimeline_apply Skeleton_getAttachmentForSlotIndex tl skeleton time alpha

/-- Modelled from the spec: `struct Animation`, the ordered timelines and the duration. -/
structure Animation where
  timelineCount : Int
  timelines : List Timeline
  duration : ℚ
deriving DecidableEq, Repr

/-- The C library's `fmodf` in exact arithmetic: `x - n * y` with `n` the quotient `x / y`
rounded toward zero. -/
def fmodf (x y : ℚ) : ℚ := x - (Int.tdiv (x / y).num (x / y).den : ℤ) * y

/-- The loop `for (i = 0; i < n; ++i) Timeline_apply(self->timelines[i], ...)`, entered at
index `i` with `remaining` iterations to go. -/
def applyTimelines (Skeleton_getAttachmentForSlotIndex : Resolver) (timelines : List Timeline)
    (time alpha : ℚ) : Nat → Int → Skeleton → Option Skeleton
  | 0, _, skeleton => some skeleton
  | remaining + 1, i, skeleton =>
    match readAt timelines i with
    | none => none
    | some timeline =>
    match Timeline_apply Skeleton_getAttachmentForSlotIndex timeline skeleton time alpha with
    | none => none
    | some skeleton =>
    applyTimelines Skeleton_getAttachmentForSlotIndex timelines time alpha remaining (i + 1)
      skeleton

def Animation_apply (Skeleton_getAttachmentForSlotIndex : Resolver) (self : Animation)
    (skeleton : Skeleton) (time : ℚ) (loop : Int) : Option Skeleton :=
  let time := if loop ≠ 0 ∧ self.duration ≠ 0 then fmodf time self.duration else time
  let n := self.timelineCount
  applyTimelines Skeleton_getAttachmentForSlotIndex self.timelines time 1 n.toNat 0 skeleton

def Animation_mix (Skeleton_getAttachmentForSlotIndex : Resolver) (self : Animation)
    (skeleton : Skeleton) (time : ℚ) (loop : Int) (alpha : ℚ) : Option Skeleton :=
  let time := if loop ≠ 0 ∧ self.duration ≠ 0 then fmodf time self.duration else time
  let n := self.timelineCount
  applyTimelines Skeleton_getAttachmentForSlotIndex self.timelines time alpha n.toNat 0 skeleton

/-! ## Atlas text (`spine-c/src/spine/Atlas.c`) -/

/-- The `Str` of `Atlas.c`: a piece of the text, from `begin` up to but not including
`end` (named `end_` here); both are offsets into the text. -/
structure Str where
  begin : Int
  end_ : Int
deriving DecidableEq, Repr

/-- The C library's `isspace` in the "C" locale: space, `\t`, `\n`, `\v`, `\f`, `\r`. -/
def isspace (c : Char) : Bool :=
  c = ' ' || c = '\t' || c = '\n' || c = Char.ofNat 11 || c = Char.ofNat 12 || c = '\r'

/-- The loop `while (isspace(*str->begin) && str->begin < str->end) (str->begin)++;` of
`trim`; the result is the final `str->begin`. -/
def trimBegin (text : List Char) (end_ : Int) : Nat → Int → Option Int
  | 0, _ => none
  | fuel + 1, begin =>
    match readAt text begin with
    | none => none
    | some ch =>
    if isspace ch ∧ begin < end_ then trimBegin text end_ fuel (begin + 1) else some begin

/-- The loop `while (isspace(*str->end) && str->end >= str->begin) str->end--;` of `trim`;
the result is the final `str->end`. -/
def trimEnd (text : List Char) (begin : Int) : Nat → Int → Option Int
  | 0, _ => none
  | fuel + 1, end_ =>
    match readAt text end_ with
    | none => none
    | some ch =>
    if isspace ch ∧ end_ ≥ begin then trimEnd text begin fuel (end_ - 1) else some end_

def trim (text : List Char) (str : Str) : Option Str :=
  match trimBegin text str.end_ (text.length + 1) str.begin with
  | none => none
  | some begin =>
  if begin = str.end_ then some { begin := begin, end_ := str.end_ }
  else
    match trimEnd text begin (text.length + 1) (str.end_ - 1) with
    | none => none
    | some end_ => some { begin := begin, end_ := end_ + 1 }

/-- The loop `do { nextStart++; } while (nextStart != end && *nextStart != '\n');` of
`readLine`; the result is the final `nextStart`. -/
def readLineScan (text : List Char) (end_ : Int) : Nat → Int → Option Int
  | 0, _ => none
  | fuel + 1, nextStart =>
    let nextStart := nextStart + 1
    if nextStart ≠ end_ then
      match readAt text nextStart with
      | none => none
      | some ch => if ch ≠ '\n' then readLineScan text end_ fuel nextStart else some nextStart
    else some nextStart

/-- The function `readLine`. Its `static const char* nextStart` is passed in and returned;
the null pointer is `none`. The result is the returned `int`, the new `nextStart` and
`*str`. -/
def readLine (text : List Char) (nextStart : Int) (begin : Option Int) (end_ : Int)
    (str : Str) : Option (Int × Int × Str) :=
  match begin with
  | some begin => some (1, begin, str)
  | none =>
  if nextStart = end_ then some (0, nextStart, str)
  else
    match readLineScan text end_ (text.length + 1) nextStart with
    | none => none
    | some nextStart1 =>
    match trim text { begin := nextStart, end_ := nextStart1 } with
    | none => none
    | some str =>
    if nextStart1 ≠ end_ then some (1, nextStart1 + 1, str) else some (1, nextStart1, str)

/-- The `while (1)` loop of `beginPast`: `some begin` when it is left by `break`, `none`
when it is left by `return 0`. -/
def beginPastLoop (text : List Char) (end_ : Int) (c : Char) : Nat → Int → Option (Option Int)
  | 0, _ => none
  | fuel + 1, begin =>
    match readAt text begin with
    | none => none
    | some lastSkippedChar =>
    if begin = end_ then some none
    else if lastSkippedChar = c then some (some (begin + 1))
    else beginPastLoop text end_ c fuel (begin + 1)

/-- The function `beginPast`: the returned `int` and `*str`. -/
def beginPast (text : List Char) (str : Str) (c : Char) : Option (Int × Str) :=
  match beginPastLoop text str.end_ c (text.length + 1) str.begin with
  | none => none
  | some none => some (0, str)
  | some (some begin) => some (1, { str with begin := begin })

/-- The function `readValue`: the returned `int`, the new `nextStart` and `*str`. -/
def readValue (text : List Char) (nextStart : Int) (end_ : Int) (str : Str) :
    Option (Int × Int × Str) :=
  match readLine text nextStart none end_ str with
  | none => none
  | some (_, nextStart, str) =>
  match beginPast text str ':' with
  | none => none
  | some (r, str) =>
  if r = 0 then some (0, nextStart, str)
  else
    match trim text str with
    | none => none
    | some str => some (1, nextStart, str)

/-- The loop `for (i = 0; i < 3; ++i)` of `readTuple`, entered at index `i` with
`remaining` iterations to go. The result tells whether the loop was left by `return 0`,
and gives `i`, `str` and `tuple` at that point. -/
def readTupleLoop (text : List Char) :
    Nat → Int → Str → List Str → Option (Bool × Int × Str × List Str)
  | 0, i, str, tuple => some (false, i, str, tuple)
  | remaining + 1, i, str, tuple =>
    match readAt tuple i with
    | none => none
    | some ti =>
    match writeAt tuple i { ti with begin := str.begin } with
    | none => none
    | some tuple =>
    match beginPast text str ',' with
    | none => none
    | some (r, str) =>
    if r = 0 then
      if i = 0 then some (true, i, str, tuple) else some (false, i, str, tuple)
    else
      match readAt tuple i with
      | none => none
      | some ti =>
      match trim text { ti with end_ := str.begin - 2 } with
      | none => none
      | some ti =>
      match writeAt tuple i ti with
      | none => none
      | some tuple => readTupleLoop text remaining (i + 1) str tuple

/-- The function `readTuple`: the returned `int`, the new `nextStart` and the array
`tuple`. Its local `str` is not initialised, so using it after a `readLine` that returned
0 is undefined (`none`). -/
def readTuple (text : List Char) (nextStart : Int) (end_ : Int) (tuple : List Str) :
    Option (Int × Int × List Str) :=
  match readLine text nextStart none end_ { begin := 0, end_ := 0 } with
  | none => none
  | some (r, nextStart, str) =>
  if r = 0 then none
  else
    match beginPast text str ':' with
    | none => none
    | some (r, str) =>
    if r = 0 then some (0, nextStart, tuple)
    else
      match readTupleLoop text 3 0 str tuple with
      | none => none
      | some (true, _, _, tuple) => some (0, nextStart, tuple)
      | some (false, i, str, tuple) =>
      match trim text { begin := str.begin, end_ := str.end_ } with
      | none => none
      | some ti =>
      match writeAt tuple i ti with
      | none => none
      | some tuple => some (i + 1, nextStart, tuple)

/-- The conversion of an `int` to `size_t` (64 bits). -/
def toSize (n : Int) : Nat := if n < 0 then (2 ^ 64 + n).toNat else n.toNat

/-- The C library's `strncmp (s1, s2, n)`, for a string `s1` given by its characters
before the terminating NUL and `s2` the text from offset `p`: the difference of the first
two characters that differ among the first `n`, 0 when there is none or when both strings
end before. -/
def strncmp : List Char → List Char → Int → Nat → Option Int
  | _, _, _, 0 => some 0
  | s1, text, p, n + 1 =>
    match readAt text p with
    | none => none
    | some c2 =>
    match s1 with
    | [] => if c2 = Char.ofNat 0 then some 0 else some (0 - (c2.toNat : Int))
    | c1 :: s1 =>
      if c1 ≠ c2 then some ((c1.toNat : Int) - (c2.toNat : Int))
      else if c1 = Char.ofNat 0 then some 0
      else strncmp s1 text (p + 1) n

/-- The loop `for (i = count - 1; i >= 0; i--)` of `indexOf` and the `return -1` after it,
entered with `i + 1` equal to the first argument. -/
def indexOfLoop (array : List String) (text : List Char) (str : Str) (length : Int) :
    Nat → Option Int
  | 0 => some (-1)
  | i + 1 =>
    match readAt array (i : Int) with
    | none => none
    | some s =>
    match strncmp s.toList text str.begin (toSize length) with
    | none => none
    | some r => if r = 0 then some (i : Int) else indexOfLoop array text str length i

def indexOf (array : List String) (count : Int) (text : List Char) (str : Str) : Option Int :=
  let length := str.end_ - str.begin
  indexOfLoop array text str length count.toNat

def equals (text : List Char) (str : Str) (other : String) : Option Int :=
  match strncmp other.toList text str.begin (toSize (str.end_ - str.begin)) with
  | none => none
  | some r => some (if r = 0 then 1 else 0)

def formatNames : List String :=
  ["Alpha", "Intensity", "LuminanceAlpha", "RGB565", "RGBA4444", "RGB888", "RGBA8888"]

def textureFilterNames : List String :=
  ["Nearest", "Linear", "MipMap", "MipMapNearestNearest", "MipMapLinearNearest",
    "MipMapNearestLinear", "MipMapLinearLinear"]

/-! ## Float arithmetic (`float` as IEEE 754 binary32)

The definitions of this section follow `Animation.c` operation by operation. Every `+`,
`-`, `*`, `/` of the source on `float` operands is one call of `fadd`, `fsub`, `fmul`,
`fdiv`, which computes the exact result and hands it to a rounding `fl`; `binary32` is the
rounding of the C implementation (round to nearest, ties to even, one rounding per
operation), `unrounded` is exact arithmetic. A result that is not a finite float
(overflow, division by zero) is `none`, and so is every later result that uses it:
infinities and NaN are not followed further. -/

namespace Rounded

/-- Rounding of a rational to an integer, to nearest and ties to even. -/
def roundHalfEven (x : ℚ) : ℤ :=
  if x - ⌊x⌋ < 1 / 2 then ⌊x⌋
  else if 1 / 2 < x - ⌊x⌋ then ⌊x⌋ + 1
  else if ⌊x⌋ % 2 = 0 then ⌊x⌋ else ⌊x⌋ + 1

/-- The binary exponent of the unit in the last place of a binary32 number of the size of
`q`: `k - 23` for `2 ^ k ≤ |q| < 2 ^ (k + 1)`, and `-149` below `2 ^ (-126)`. -/
def ulpExponent (q : ℚ) : ℤ := max (Int.log 2 |q|) (-126) - 23

/-- The binary32 number nearest to `q`, ties to even; `none` when it is not finite. -/
@[irreducible]
def binary32 (q : ℚ) : Option ℚ :=
  let r := (roundHalfEven (q / 2 ^ ulpExponent q) : ℚ) * 2 ^ ulpExponent q
  if |r| < 2 ^ 128 then some r else none

/-- Exact arithmetic: no rounding and no overflow. -/
def unrounded (q : ℚ) : Option ℚ := some q

/-- The `float` sum `a + b`. -/
def fadd (fl : ℚ → Option ℚ) (a b : Option ℚ) : Option ℚ :=
  match a, b with
  | some a, some b => fl (a + b)
  | _, _ => none

/-- The `float` difference `a - b`. -/
def fsub (fl : ℚ → Option ℚ) (a b : Option ℚ) : Option ℚ :=
  match a, b with
  | some a, some b => fl (a - b)
  | _, _ => none

/-- The `float` product `a * b`. -/
def fmul (fl : ℚ → Option ℚ) (a b : Option ℚ) : Option ℚ :=
  match a, b with
  | some a, some b => fl (a * b)
  | _, _ => none

/-- The `float` quotient `a / b`; a division by zero does not give a finite float. -/
def fdiv (fl : ℚ → Option ℚ) (a b : Option ℚ) : Option ℚ :=
  match a, b with
  | some a, some b => if b = 0 then none else fl (a / b)
  | _, _ => none

/-- The `while (1)` loop of `CurveTimeline_getCurvePercent` and the `return` after it;
`i` counts down from `CURVE_SEGMENTS - 2`. -/
def getCurvePercentLoop (fl : ℚ → Option ℚ) (percent dddfx dddfy : ℚ) :
    Nat → ℚ → ℚ → ℚ → ℚ → ℚ → ℚ → Option ℚ
  | i, dfx, dfy, ddfx, ddfy, x, y =>
    if x ≥ percent then
      let lastX := fsub fl x dfx
      let lastY := fsub fl y dfy
      fadd fl lastY (fdiv fl (fmul fl (fsub fl y lastY) (fsub fl percent lastX)) (fsub fl x lastX))
    else
      match i with
      | 0 => fadd fl y (fdiv fl (fmul fl (fsub fl (1 : ℚ) y) (fsub fl percent x)) (fsub fl (1 : ℚ) x))
      | i + 1 =>
        match fl (dfx + ddfx) with
        | none => none
        | some dfx =>
        match fl (dfy + ddfy) with
        | none => none
        | some dfy =>
        match fl (ddfx + dddfx) with
        | none => none
        | some ddfx =>
        match fl (ddfy + dddfy) with
        | none => none
        | some ddfy =>
        match fl (x + dfx) with
        | none => none
        | some x =>
        match fl (y + dfy) with
        | none => none
        | some y => getCurvePercentLoop fl percent dddfx dddfy i dfx dfy ddfx ddfy x y

def CurveTimeline_getCurvePercent (fl : ℚ → Option ℚ) (self : CurveTimeline) (frameIndex : Int)
    (percent : ℚ) : Option ℚ :=
  let curveIndex := frameIndex * 6
  match readAt self.curves curveIndex with
  | none => none
  | some dfx =>
  if dfx = CURVE_LINEAR then some percent
  else if dfx = CURVE_STEPPED then some 0
  else
    match readAt self.curves (curveIndex + 1) with
    | none => none
    | some dfy =>
    match readAt self.curves (curveIndex + 2) with
    | none => none
    | some ddfx =>
    match readAt self.curves (curveIndex + 3) with
    | none => none
    | some ddfy =>
    match readAt self.curves (curveIndex + 4) with
    | none => none
    | some dddfx =>
    match readAt self.curves (curveIndex + 5) with
    | none => none
    | some dddfy =>
    getCurvePercentLoop fl percent dddfx dddfy (CURVE_SEGMENTS - 2).toNat
      dfx dfy ddfx ddfy dfx dfy

/-- The loop `while (amount > 180) amount -= 360;`, with fuel. -/
def whileAbove180 (fl : ℚ → Option ℚ) : Nat → ℚ → Option ℚ
  | 0, _ => none
  | fuel + 1, amount =>
    if amount > 180 then
      match fl (amount - 360) with
      | none => none
      | some amount => whileAbove180 fl fuel amount
    else some amount

/-- The loop `while (amount < -180) amount += 360;`, with fuel. -/
def whileBelowNeg180 (fl : ℚ → Option ℚ) : Nat → ℚ → Option ℚ
  | 0, _ => none
  | fuel + 1, amount =>
    if amount < -180 then
      match fl (amount + 360) with
      | none => none
      | some amount => whileBelowNeg180 fl fuel amount
    else some amount

/-- The fuel of the two loops: one turn for every 180 units of the amount, and one more.
With `binary32` a turn of the first loop takes 360 off an amount below `2 ^ 27`, between
256 and 512 off an amount below `2 ^ 33` and nothing off a larger one (likewise for the
second loop), so a loop that ends does so within this fuel. -/
def turns (amount : ℚ) : Nat := (⌈|amount| / 180⌉).toNat + 1

/-- The two loops in sequence, as `_RotateTimeline_apply` runs them three times. -/
def shortestArc (fl : ℚ → Option ℚ) (amount : Option ℚ) : Option ℚ :=
  match amount with
  | none => none
  | some amount =>
  match whileAbove180 fl (turns amount) amount with
  | none => none
  | some amount => whileBelowNeg180 fl (turns amount) amount

def _RotateTimeline_apply (fl : ℚ → Option ℚ) (self : BaseTimeline) (skeleton : Skeleton)
    (time alpha : ℚ) : Option Skeleton :=
  match readAt self.frames 0 with
  | none => none
  | some first =>
  if time < first then some skeleton
  else
    match readAt skeleton.bones self.boneIndex with
    | none => none
    | some bone =>
    match readAt self.frames (self.framesLength - 2) with
    | none => none
    | some last =>
    if time ≥ last then
      match readAt self.frames (self.framesLength - 1) with
      | none => none
      | some value =>
      match shortestArc fl (fsub fl (fadd fl bone.data.rotation value) bone.rotation) with
      | none => none
      | some amount =>
      match fadd fl bone.rotation (fmul fl amount alpha) with
      | none => none
      | some rotation => setBone skeleton self.boneIndex { bone with rotation := rotation }
    else
      match binarySearch self.frames self.framesLength time 2 with
      | none => none
      | some frameIndex =>
      match readAt self.frames (frameIndex - 1) with
      | none => none
      | some lastFrameValue =>
      match readAt self.frames frameIndex with
      | none => none
      | some frameTime =>
      match readAt self.frames (frameIndex + ROTATE_LAST_FRAME_TIME) with
      | none => none
      | some lastFrameTime =>
      match fsub fl (1 : ℚ) (fdiv fl (fsub fl time frameTime) (fsub fl lastFrameTime frameTime)) with
      | none => none
      | some percent =>
      match CurveTimeline_getCurvePercent fl self.super (Int.tdiv frameIndex 2 - 1)
        (clampPercent percent) with
      | none => none
      | some percent =>
      match readAt self.frames (frameIndex + ROTATE_FRAME_VALUE) with
      | none => none
      | some frameValue =>
      match shortestArc fl (fsub fl frameValue lastFrameValue) with
      | none => none
      | some amount =>
      match shortestArc fl
        (fsub fl (fadd fl bone.data.rotation (fadd fl lastFrameValue (fmul fl amount percent)))
          bone.rotation) with
      | none => none
      | some amount =>
      match fadd fl bone.rotation (fmul fl amount alpha) with
      | none => none
      | some rotation => setBone skeleton self.boneIndex { bone with rotation := rotation }

def _TranslateTimeline_apply (fl : ℚ → Option ℚ) (self : BaseTimeline) (skeleton : Skeleton)
    (time alpha : ℚ) : Option Skeleton :=
  match readAt self.frames 0 with
  | none => none
  | some first =>
  if time < first then some skeleton
  else
    match readAt skeleton.bones self.boneIndex with
    | none => none
    | some bone =>
    match readAt self.frames (self.framesLength - 3) with
    | none => none
    | some last =>
    if time ≥ last then
      match readAt self.frames (self.framesLength - 2) with
      | none => none
      | some valueX =>
      match readAt self.frames (self.framesLength - 1) with
      | none => none
      | some valueY =>
      match fadd fl bone.x (fmul fl (fsub fl (fadd fl bone.data.x valueX) bone.x) alpha) with
      | none => none
      | some x =>
      match fadd fl bone.y (fmul fl (fsub fl (fadd fl bone.data.y valueY) bone.y) alpha) with
      | none => none
      | some y => setBone skeleton self.boneIndex { bone with x := x, y := y }
    else
      match binarySearch self.frames self.framesLength time 3 with
      | none => none
      | some frameIndex =>
      match readAt self.frames (frameIndex - 2) with
      | none => none
      | some lastFrameX =>
      match readAt self.frames (frameIndex - 1) with
      | none => none
      | some lastFrameY =>
      match readAt self.frames frameIndex with
      | none => none
      | some frameTime =>
      match readAt self.frames (frameIndex + TRANSLATE_LAST_FRAME_TIME) with
      | none => none
      | some lastFrameTime =>
      match fsub fl (1 : ℚ) (fdiv fl (fsub fl time frameTime) (fsub fl lastFrameTime frameTime)) with
      | none => none
      | some percent =>
      match CurveTimeline_getCurvePercent fl self.super (Int.tdiv frameIndex 3 - 1)
        (clampPercent percent) with
      | none => none
      | some percent =>
      match readAt self.frames (frameIndex + TRANSLATE_FRAME_X) with
      | none => none
      | some frameX =>
      match readAt self.frames (frameIndex + TRANSLATE_FRAME_Y) with
      | none => none
      | some frameY =>
      match fadd fl bone.x
        (fmul fl
          (fsub fl
            (fadd fl (fadd fl bone.data.x lastFrameX)
              (fmul fl (fsub fl frameX lastFrameX) percent))
            bone.x)
          alpha) with
      | none => none
      | some x =>
      match fadd fl bone.y
        (fmul fl
          (fsub fl
            (fadd fl (fadd fl bone.data.y lastFrameY)
              (fmul fl (fsub fl frameY lastFrameY) percent))
            bone.y)
          alpha) with
      | none => none
      | some y => setBone skeleton self.boneIndex { bone with x := x, y := y }

def _ScaleTimeline_apply (fl : ℚ → Option ℚ) (self : BaseTimeline) (skeleton : Skeleton)
    (time alpha : ℚ) : Option Skeleton :=
  match readAt self.frames 0 with
  | none => none
  | some first =>
  if time < first then some skeleton
  else
    match readAt skeleton.bones self.boneIndex with
    | none => none
    | some bone =>
    match readAt self.frames (self.framesLength - 3) with
    | none => none
    | some last =>
    if time ≥ last then
      match readAt self.frames (self.framesLength - 2) with
      | none => none
      | some valueX =>
      match readAt self.frames (self.framesLength - 1) with
      | none => none
      | some valueY =>
      match fadd fl bone.scaleX
        (fmul fl (fsub fl (fadd fl (fsub fl bone.data.scaleX (1 : ℚ)) valueX) bone.scaleX)
          alpha) with
      | none => none
      | some scaleX =>
      match fadd fl bone.scaleY
        (fmul fl (fsub fl (fadd fl (fsub fl bone.data.scaleY (1 : ℚ)) valueY) bone.scaleY)
          alpha) with
      | none => none
      | some scaleY =>
      setBone skeleton self.boneIndex { bone with scaleX := scaleX, scaleY := scaleY }
    else
      match binarySearch self.frames self.framesLength time 3 with
      | none => none
      | some frameIndex =>
      match readAt self.frames (frameIndex - 2) with
      | none => none
      | some lastFrameX =>
      match readAt self.frames (frameIndex - 1) with
      | none => none
      | some lastFrameY =>
      match readAt self.frames frameIndex with
      | none => none
      | some frameTime =>
      match readAt self.frames (frameIndex + TRANSLATE_LAST_FRAME_TIME) with
      | none => none
      | some lastFrameTime =>
      match fsub fl (1 : ℚ) (fdiv fl (fsub fl time frameTime) (fsub fl lastFrameTime frameTime)) with
      | none => none
      | some percent =>
      match CurveTimeline_getCurvePercent fl self.super (Int.tdiv frameIndex 3 - 1)
        (clampPercent percent) with
      | none => none
      | some percent =>
      match readAt self.frames (frameIndex + TRANSLATE_FRAME_X) with
      | none => none
      | some frameX =>
      match readAt self.frames (frameIndex + TRANSLATE_FRAME_Y) with
      | none => none
      | some frameY =>
      match fadd fl bone.scaleX
        (fmul fl
          (fsub fl
            (fadd fl (fadd fl (fsub fl bone.data.scaleX (1 : ℚ)) lastFrameX)
              (fmul fl (fsub fl frameX lastFrameX) percent))
            bone.scaleX)
          alpha) with
      | none => none
      | some scaleX =>
      match fadd fl bone.scaleY
        (fmul fl
          (fsub fl
            (fadd fl (fadd fl (fsub fl bone.data.scaleY (1 : ℚ)) lastFrameY)
              (fmul fl (fsub fl frameY lastFrameY) percent))
            bone.scaleY)
          alpha) with
      | none => none
      | some scaleY =>
      setBone skeleton self.boneIndex { bone with scaleX := scaleX, scaleY := scaleY }

def _ColorTimeline_apply (fl : ℚ → Option ℚ) (self : ColorTimeline) (skeleton : Skeleton)
    (time alpha : ℚ) : Option Skeleton :=
  match readAt self.frames 0 with
  | none => none
  | some first =>
  if time < first then some skeleton
  else
    match readAt skeleton.slots self.slotIndex with
    | none => none
    | some slot =>
    match readAt self.frames (self.framesLength - 5) with
    | none => none
    | some last =>
    if time ≥ last then
      let i := self.framesLength - 1
      match readAt self.frames (i - 3) with
      | none => none
      | some r =>
      match readAt self.frames (i - 2) with
      | none => none
      | some g =>
      match readAt self.frames (i - 1) with
      | none => none
      | some b =>
      match readAt self.frames i with
      | none => none
      | some a =>
      setSlot skeleton self.slotIndex { slot with r := r, g := g, b := b, a := a }
    else
      match binarySearch self.frames self.framesLength time 5 with
      | none => none
      | some frameIndex =>
      match readAt self.frames (frameIndex - 4) with
      | none => none
      | some lastFrameR =>
      match readAt self.frames (frameIndex - 3) with
      | none => none
      | some lastFrameG =>
      match readAt self.frames (frameIndex - 2) with
      | none => none
      | some lastFrameB =>
      match readAt self.frames (frameIndex - 1) with
      | none => none
      | some lastFrameA =>
      match readAt self.frames frameIndex with
      | none => none
      | some frameTime =>
      match readAt self.frames (frameIndex + COLOR_LAST_FRAME_TIME) with
      | none => none
      | some lastFrameTime =>
      match fsub fl (1 : ℚ) (fdiv fl (fsub fl time frameTime) (fsub fl lastFrameTime frameTime)) with
      | none => none
      | some percent =>
      match CurveTimeline_getCurvePercent fl self.super (Int.tdiv frameIndex 5 - 1)
        (clampPercent percent) with
      | none => none
      | some percent =>
      match readAt self.frames (frameIndex + COLOR_FRAME_R) with
      | none => none
      | some frameR =>
      match readAt self.frames (frameIndex + COLOR_FRAME_G) with
      | none => none
      | some frameG =>
      match readAt self.frames (frameIndex + COLOR_FRAME_B) with
      | none => none
      | some frameB =>
      match readAt self.frames (frameIndex + COLOR_FRAME_A) with
      | none => none
      | some frameA =>
      match fadd fl lastFrameR (fmul fl (fsub fl frameR lastFrameR) percent) with
      | none => none
      | some r =>
      match fadd fl lastFrameG (fmul fl (fsub fl frameG lastFrameG) percent) with
      | none => none
      | some g =>
      match fadd fl lastFrameB (fmul fl (fsub fl frameB lastFrameB) percent) with
      | none => none
      | some b =>
      match fadd fl lastFrameA (fmul fl (fsub fl frameA lastFrameA) percent) with
      | none => none
      | some a =>
      if alpha < 1 then
        match fadd fl slot.r (fmul fl (fsub fl r slot.r) alpha) with
        | none => none
        | some r1 =>
        match fadd fl slot.g (fmul fl (fsub fl g slot.g) alpha) with
        | none => none
        | some g1 =>
        match fadd fl slot.b (fmul fl (fsub fl b slot.b) alpha) with
        | none => none
        | some b1 =>
        match fadd fl slot.a (fmul fl (fsub fl a slot.a) alpha) with
        | none => none
        | some a1 =>
        setSlot skeleton self.slotIndex { slot with r := r1, g := g1, b := b1, a := a1 }
      else
        setSlot skeleton self.slotIndex { slot with r := r, g := g, b := b, a := a }

/-- The dispatch through the vtable; the Attachment timeline does no `float` arithmetic. -/
def Timeline_apply (fl : ℚ → Option ℚ) (Skeleton_getAttachmentForSlotIndex : Resolver)
    (self : Timeline) (skeleton : Skeleton) (time alpha : ℚ) : Option Skeleton :=
  match self with
  | .rotate tl => _RotateTimeline_apply fl tl skeleton time alpha
  | .translate tl => _TranslateTimeline_apply fl tl skeleton time alpha
  | .scale tl => _ScaleTimeline_apply fl tl skeleton time alpha
  | .color tl => _ColorTimeline_apply fl tl skeleton time alpha
  | .attachment tl =>
    _AttachmentTimeline_apply Skeleton_getAttachmentForSlotIndex tl skeleton time alpha

/-- The loop `for (i = 0; i < n; ++i) Timeline_apply(self->timelines[i], ...)`, entered at
index `i` with `remaining` iterations to go. -/
def applyTimelines (fl : ℚ → Option ℚ) (Skeleton_getAttachmentForSlotIndex : Resolver)
    (timelines : List Timeline) (time alpha : ℚ) : Nat → Int → Skeleton → Option Skeleton
  | 0, _, skeleton => some skeleton
  | remaining + 1, i, skeleton =>
    match readAt timelines i with
    | none => none
    | some timeline =>
    match Timeline_apply fl Skeleton_getAttachmentForSlotIndex timeline skeleton time alpha with
    | none => none
    | some skeleton =>
    applyTimelines fl Skeleton_getAttachmentForSlotIndex timelines time alpha remaining (i + 1)
      skeleton

def Animation_apply (fl : ℚ → Option ℚ) (Skeleton_getAttachmentForSlotIndex : Resolver)
    (self : Animation) (skeleton : Skeleton) (time : ℚ) (loop : Int) : Option Skeleton :=
  let time := if loop ≠ 0 ∧ self.duration ≠ 0 then fmodf time self.duration else time
  let n := self.timelineCount
  applyTimelines fl Skeleton_getAttachmentForSlotIndex self.timelines time 1 n.toNat 0 skeleton

def Animation_mix (fl : ℚ → Option ℚ) (Skeleton_getAttachmentForSlotIndex : Resolver)
    (self : Animation) (skeleton : Skeleton) (time : ℚ) (loop : Int) (alpha : ℚ) :
    Option Skeleton :=
  let time := if loop ≠ 0 ∧ self.duration ≠ 0 then fmodf time self.duration else time
  let n := self.timelineCount
  applyTimelines fl Skeleton_getAttachmentForSlotIndex self.timelines time alpha n.toNat 0
    skeleton

end Rounded

/-! ## Vocabulary of the statements -/

/-- Component `c` of keyframe `k` in a flat keyframe array of stride `frameSize`
(component 0 is the time); 0 outside the array. -/
def frameAt (frames : List ℚ) (frameSize k c : Nat) : ℚ := frames.getD (k * frameSize + c) 0

/-- The data-model invariants of a keyframe array: `frameCount` keyframes of `frameSize`
floats each, `framesLength` their total, key times strictly increasing. -/
def Keyframes (frames : List ℚ) (framesLength : Int) (frameSize frameCount : Nat) : Prop :=
  frames.length = frameCount * frameSize ∧ framesLength = (frameCount * frameSize : Nat) ∧
    ∀ k, k + 1 < frameCount → frameAt frames frameSize k 0 < frameAt frames frameSize (k + 1) 0

/-- The keyframe array of a timeline. -/
def Timeline.frames : Timeline → List ℚ
  | .rotate tl => tl.frames
  | .translate tl => tl.frames
  | .scale tl => tl.frames
  | .color tl => tl.frames
  | .attachment tl => tl.frames

/-- The `framesLength` field of a timeline. -/
def Timeline.framesLength : Timeline → Int
  | .rotate tl => tl.framesLength
  | .translate tl => tl.framesLength
  | .scale tl => tl.framesLength
  | .color tl => tl.framesLength
  | .attachment tl => tl.framesLength

/-- The stride of a timeline's keyframe array, the `frameSize` its constructor passes to
`_BaseTimeline_new` (1 for the Attachment timeline). -/
def Timeline.frameSize : Timeline → Nat
  | .rotate _ => 2
  | .translate _ => 3
  | .scale _ => 3
  | .color _ => 5
  | .attachment _ => 1

/-- A Rotate, Translate or Scale timeline as its constructor and setters build it: the
keyframe array holds `frameCount` keyframes of `frameSize` floats with increasing times,
and the curve array holds six coefficients per segment. -/
def BaseTimeline.WellFormed (self : BaseTimeline) (frameSize frameCount : Nat) : Prop :=
  Keyframes self.frames self.framesLength frameSize frameCount ∧
    self.super.curves.length = (frameCount - 1) * 6

/-- A Color timeline as its constructor and setters build it. -/
def ColorTimeline.WellFormed (self : ColorTimeline) (frameCount : Nat) : Prop :=
  Keyframes self.frames self.framesLength 5 frameCount ∧
    self.super.curves.length = (frameCount - 1) * 6

/-- An Attachment timeline as its constructor and setters build it: one time and one name
per keyframe. -/
def AttachmentTimeline.WellFormed (self : AttachmentTimeline) (frameCount : Nat) : Prop :=
  Keyframes self.frames self.framesLength 1 frameCount ∧
    self.attachmentNames.length = frameCount

/-- A timeline of `frameCount` keyframes as its constructor and setters build it. -/
def Timeline.WellFormed : Timeline → Nat → Prop
  | .rotate tl, n => tl.WellFormed 2 n
  | .translate tl, n => tl.WellFormed 3 n
  | .scale tl, n => tl.WellFormed 3 n
  | .color tl, n => tl.WellFormed n
  | .attachment tl, n => tl.WellFormed n

/-- The bone or slot index of the timeline lies in the pose. -/
def Timeline.TargetIn : Timeline → Skeleton → Prop
  | .rotate tl, sk => 0 ≤ tl.boneIndex ∧ tl.boneIndex < sk.bones.length
  | .translate tl, sk => 0 ≤ tl.boneIndex ∧ tl.boneIndex < sk.bones.length
  | .scale tl, sk => 0 ≤ tl.boneIndex ∧ tl.boneIndex < sk.bones.length
  | .color tl, sk => 0 ≤ tl.slotIndex ∧ tl.slotIndex < sk.slots.length
  | .attachment tl, sk => 0 ≤ tl.slotIndex ∧ tl.slotIndex < sk.slots.length

/-- The curved variants: every timeline but the Attachment timeline. -/
def Timeline.Curved : Timeline → Prop
  | .attachment _ => False
  | _ => True

/-- The curve-coefficient array of a timeline (an Attachment timeline has none). -/
def Timeline.curves : Timeline → List ℚ
  | .rotate tl => tl.super.curves
  | .translate tl => tl.super.curves
  | .scale tl => tl.super.curves
  | .color tl => tl.super.curves
  | .attachment _ => []

/-- The timeline with another curve-coefficient array, keyframes and target unchanged. -/
def Timeline.withCurves : Timeline → List ℚ → Timeline
  | .rotate tl, c => .rotate { tl with super := { curves := c } }
  | .translate tl, c => .translate { tl with super := { curves := c } }
  | .scale tl, c => .scale { tl with super := { curves := c } }
  | .color tl, c => .color { tl with super := { curves := c } }
  | .attachment tl, _ => .attachment tl

/-- One coordinate of the cubic Bézier curve with control values `0`, `c1`, `c2`, `1`, at
parameter `s`. -/
def bezier (c1 c2 s : ℚ) : ℚ :=
  3 * (1 - s) ^ 2 * s * c1 + 3 * (1 - s) * s ^ 2 * c2 + s ^ 3

/-- Linear interpolation in `y`, with `x` as parameter, between the points `(x0, y0)` and
`(x1, y1)`. -/
def interpolate (x0 y0 x1 y1 t : ℚ) : ℚ := y0 + (y1 - y0) * (t - x0) / (x1 - x0)

/-- The polyline through the samples `B(k / 10)` of the cubic Bézier `B` with control points
`(0,0)`, `(cx1,cy1)`, `(cx2,cy2)`, `(1,1)`, as the statement about `CurveTimeline_setCurve`
words it: with `k` the first index in `1..9` for which `B_x(k / 10) ≥ t`, interpolate between
`B((k - 1) / 10)` and `B(k / 10)`; with no such `k`, between `B(9 / 10)` and `(1, 1)`. -/
def bezierPolyline (cx1 cy1 cx2 cy2 t : ℚ) : ℚ :=
  match (List.range' 1 9).find? (fun k : Nat => decide (t ≤ bezier cx1 cx2 ((k : ℚ) / 10))) with
  | some k =>
    interpolate (bezier cx1 cx2 (((k - 1 : Nat) : ℚ) / 10))
      (bezier cy1 cy2 (((k - 1 : Nat) : ℚ) / 10))
      (bezier cx1 cx2 ((k : ℚ) / 10)) (bezier cy1 cy2 ((k : ℚ) / 10)) t
  | none => interpolate (bezier cx1 cx2 (9 / 10)) (bezier cy1 cy2 (9 / 10)) 1 1 t

/-- The characters of the piece `str` of the text. -/
def slice (text : List Char) (str : Str) : List Char :=
  (text.drop str.begin.toNat).take (str.end_ - str.begin).toNat

/-- A line without the white space at its two ends, as the statements about `readLine`
word it. -/
def trimSpec (line : List Char) : List Char :=
  (line.dropWhile isspace).rdropWhile isspace

namespace Rounded

/-- The raw progress between two key times as the apply functions compute it: the `float`
value of `1 - (time - tUpper) / (tLower - tUpper)`. -/
def progress (fl : ℚ → Option ℚ) (time tLower tUpper : ℚ) : Option ℚ :=
  fsub fl (1 : ℚ) (fdiv fl (fsub fl time tUpper) (fsub fl tLower tUpper))

/-- The `float` value of `current + (target - current) * alpha`, in this order. -/
def blend (fl : ℚ → Option ℚ) (current : ℚ) (target : Option ℚ) (alpha : ℚ) : Option ℚ :=
  fadd fl current (fmul fl (fsub fl target current) alpha)

/-- The pose in which the bone has moved its `x` and `y` from their current values to the
targets by the weight `alpha`; `none` when a value is not finite. -/
def translateTo (fl : ℚ → Option ℚ) (skeleton : Skeleton) (boneIndex : Int) (bone : Bone)
    (targetX targetY : Option ℚ) (alpha : ℚ) : Option Skeleton :=
  match blend fl bone.x targetX alpha with
  | none => none
  | some x =>
  match blend fl bone.y targetY alpha with
  | none => none
  | some y => setBone skeleton boneIndex { bone with x := x, y := y }

/-- The pose in which the bone has moved its `scaleX` and `scaleY` from their current
values to the targets by the weight `alpha`; `none` when a value is not finite. -/
def scaleTo (fl : ℚ → Option ℚ) (skeleton : Skeleton) (boneIndex : Int) (bone : Bone)
    (targetX targetY : Option ℚ) (alpha : ℚ) : Option Skeleton :=
  match blend fl bone.scaleX targetX alpha with
  | none => none
  | some scaleX =>
  match blend fl bone.scaleY targetY alpha with
  | none => none
  | some scaleY => setBone skeleton boneIndex { bone with scaleX := scaleX, scaleY := scaleY }

/-- The pose in which the bone has turned from its current rotation toward the target along
the shortest arc, by the weight `alpha`: the `float` value of
`rotation + arc * alpha`, where `arc` is `target - rotation` after the two loops; `none`
when a value is not finite or a loop does not end. -/
def rotateTo (fl : ℚ → Option ℚ) (skeleton : Skeleton) (boneIndex : Int) (bone : Bone)
    (target : Option ℚ) (alpha : ℚ) : Option Skeleton :=
  match shortestArc fl (fsub fl target bone.rotation) with
  | none => none
  | some amount =>
  match fadd fl bone.rotation (fmul fl amount alpha) with
  | none => none
  | some rotation => setBone skeleton boneIndex { bone with rotation := rotation }

/-- The pose in which the slot has the colour `(r, g, b, a)` when `alpha` is 1 or more, and
has moved its colour from the current one to `(r, g, b, a)` by the weight `alpha` when
`alpha` is below 1; `none` when a value is not finite. -/
def colorTo (fl : ℚ → Option ℚ) (skeleton : Skeleton) (slotIndex : Int) (slot : Slot)
    (r g b a : Option ℚ) (alpha : ℚ) : Option Skeleton :=
  match r with
  | none => none
  | some r =>
  match g with
  | none => none
  | some g =>
  match b with
  | none => none
  | some b =>
  match a with
  | none => none
  | some a =>
  if alpha < 1 then
    match blend fl slot.r r alpha with
    | none => none
    | some r1 =>
    match blend fl slot.g g alpha with
    | none => none
    | some g1 =>
    match blend fl slot.b b alpha with
    | none => none
    | some b1 =>
    match blend fl slot.a a alpha with
    | none => none
    | some a1 => setSlot skeleton slotIndex { slot with r := r1, g := g1, b := b1, a := a1 }
  else setSlot skeleton slotIndex { slot with r := r, g := g, b := b, a := a }

/-- The `float` value of `lower + (upper - lower) * p`. -/
def lerp (fl : ℚ → Option ℚ) (lower upper p : ℚ) : Option ℚ :=
  fadd fl lower (fmul fl (fsub fl upper lower) p)

/-- The binary32 numbers: `m * 2 ^ e` with an integer `m` of less than 24 bits and
`-149 ≤ e ≤ 104`. -/
def IsBinary32 (q : ℚ) : Prop :=
  ∃ m e : ℤ, q = (m : ℚ) * 2 ^ e ∧ |m| < 2 ^ 24 ∧ -149 ≤ e ∧ e ≤ 104

/-- The pose a curved timeline leaves between its keyframes `k - 1` and `k` once the curve
evaluator has returned `p`: the target is the lower keyframe's value plus the difference of
the two keyframes' values times `p` (for the Rotate timeline the difference is first taken
through the two loops), and the bone or slot moves toward it by the weight `alpha`.
An Attachment timeline has no curve. -/
def segmentPose (fl : ℚ → Option ℚ) (tl : Timeline) (skeleton : Skeleton) (k : Nat)
    (alpha p : ℚ) : Option Skeleton :=
  match tl with
  | .rotate self =>
    match readAt skeleton.bones self.boneIndex with
    | none => none
    | some bone =>
    match shortestArc fl
      (fsub fl (frameAt self.frames 2 k 1) (frameAt self.frames 2 (k - 1) 1)) with
    | none => none
    | some amount =>
    rotateTo fl skeleton self.boneIndex bone
      (fadd fl bone.data.rotation
        (fadd fl (frameAt self.frames 2 (k - 1) 1) (fmul fl amount p)))
      alpha
  | .translate self =>
    match readAt skeleton.bones self.boneIndex with
    | none => none
    | some bone =>
    translateTo fl skeleton self.boneIndex bone
      (fadd fl (fadd fl bone.data.x (frameAt self.frames 3 (k - 1) 1))
        (fmul fl (fsub fl (frameAt self.frames 3 k 1) (frameAt self.frames 3 (k - 1) 1)) p))
      (fadd fl (fadd fl bone.data.y (frameAt self.frames 3 (k - 1) 2))
        (fmul fl (fsub fl (frameAt self.frames 3 k 2) (frameAt self.frames 3 (k - 1) 2)) p))
      alpha
  | .scale self =>
    match readAt skeleton.bones self.boneIndex with
    | none => none
    | some bone =>
    scaleTo fl skeleton self.boneIndex bone
      (fadd fl (fadd fl (fsub fl bone.data.scaleX (1 : ℚ)) (frameAt self.frames 3 (k - 1) 1))
        (fmul fl (fsub fl (frameAt self.frames 3 k 1) (frameAt self.frames 3 (k - 1) 1)) p))
      (fadd fl (fadd fl (fsub fl bone.data.scaleY (1 : ℚ)) (frameAt self.frames 3 (k - 1) 2))
        (fmul fl (fsub fl (frameAt self.frames 3 k 2) (frameAt self.frames 3 (k - 1) 2)) p))
      alpha
  | .color self =>
    match readAt skeleton.slots self.slotIndex with
    | none => none
    | some slot =>
    colorTo fl skeleton self.slotIndex slot
      (lerp fl (frameAt self.frames 5 (k - 1) 1) (frameAt self.frames 5 k 1) p)
      (lerp fl (frameAt self.frames 5 (k - 1) 2) (frameAt self.frames 5 k 2) p)
      (lerp fl (frameAt self.frames 5 (k - 1) 3) (frameAt self.frames 5 k 3) p)
      (lerp fl (frameAt self.frames 5 (k - 1) 4) (frameAt self.frames 5 k 4) p)
      alpha
  | .attachment _ => none

end Rounded

/-- The time that `Animation_apply` and `Animation_mix` hand to the timelines:
`fmodf(time, duration)` when `loop` is set and the duration is not 0, else the time given. -/
def wrappedTime (duration time : ℚ) (loop : Int) : ℚ :=
  if loop ≠ 0 ∧ duration ≠ 0 then fmodf time duration else time

namespace Rounded

end Rounded

/-! ## Example data -/

/-- A pose of one bone (setup `x = 10`, `y = 20`, current `x = 1`, `y = 2`) and one slot. -/
def examplePose : Skeleton :=
  { bones := [⟨⟨10, 20, 0, 1, 1⟩, 1, 2, 0, 1, 1⟩], slots := [⟨1, 1, 1, 1, none⟩] }

/-- A pose of one bone at rest (setup rotation 0, current rotation 0) and one slot. -/
def restPose : Skeleton :=
  { bones := [⟨⟨0, 0, 0, 1, 1⟩, 0, 0, 0, 1, 1⟩], slots := [⟨1, 1, 1, 1, none⟩] }

/-- Translate keyframes `(t = 0, x = 0, y = 0)` and `(t = 1, x = 5, y = 5)`, linear. -/
def exampleTranslate : BaseTimeline :=
  { super := _CurveTimeline_init 2, framesLength := 6, frames := [0, 0, 0, 1, 5, 5],
    boneIndex := 0 }

/-- Rotate keyframes `(t = 0, angle = 0)` and `(t = 1, angle = 90)`, linear. -/
def exampleRotate90 : BaseTimeline :=
  { super := _CurveTimeline_init 2, framesLength := 4, frames := [0, 0, 1, 90], boneIndex := 0 }

/-- Rotate keyframes `(t = 0, angle = 170)` and `(t = 1, angle = -170)`, linear. -/
def exampleRotate170 : BaseTimeline :=
  { super := _CurveTimeline_init 2, framesLength := 4, frames := [0, 170, 1, -170],
    boneIndex := 0 }

/-- Attachment keyframes `(t = 0, "skinA")` and `(t = 1, null)`. -/
def exampleAttachment : AttachmentTimeline :=
  { framesLength := 2, frames := [0, 1], slotIndex := 0, attachmentNames := [some "skinA", none] }

/-- Scale keyframes `(t = 0, x = 1, y = 1)` and `(t = 1, x = 3, y = 5)`, linear. -/
def exampleScale : BaseTimeline :=
  { super := _CurveTimeline_init 2, framesLength := 6, frames := [0, 1, 1, 1, 3, 5],
    boneIndex := 0 }

/-- Color keyframes `(t = 0, 0, 0, 0, 0)` and `(t = 1, 1, 1, 1, 1)`, linear. -/
def exampleColor : ColorTimeline :=
  { super := _CurveTimeline_init 2, framesLength := 10,
    frames := [0, 0, 0, 0, 0, 1, 1, 1, 1, 1], slotIndex := 0 }

/-- A pose of one bone and one slot whose colour is all zero. -/
def darkPose : Skeleton :=
  { bones := [⟨⟨0, 0, 0, 1, 1⟩, 0, 0, 0, 1, 1⟩], slots := [⟨0, 0, 0, 0, none⟩] }

/-- A pose of one bone at rest and one slot that shows the attachment with handle 3. -/
def skinnedPose : Skeleton :=
  { bones := [⟨⟨0, 0, 0, 1, 1⟩, 0, 0, 0, 1, 1⟩], slots := [⟨1, 1, 1, 1, some 3⟩] }

/-- Translate keyframes `(t = 0, x = 1, y = 1)` and `(t = 1, x = 7, y = 7)`, linear. -/
def exampleTranslateB : BaseTimeline :=
  { super := _CurveTimeline_init 2, framesLength := 6, frames := [0, 1, 1, 1, 7, 7],
    boneIndex := 0 }

/-- Translate keyframes `(t = 0, 0, 0)`, `(t = 1, 10, 10)` and `(t = 2, 20, 20)` whose curve
array is the one `CurveTimeline_setStepped` with `frameIndex = 1` leaves: entry 0 linear,
entry 1 stepped. -/
def exampleTranslate3 : BaseTimeline :=
  { super := { curves := [0, 0, 0, 0, 0, 0, -1, 0, 0, 0, 0, 0] }, framesLength := 9,
    frames := [0, 0, 0, 1, 10, 10, 2, 20, 20], boneIndex := 0 }

/-- An attachment resolution that knows `"skinA"` as handle 7 and nothing else. -/
def exampleResolver : Resolver := fun _ _ name => if name = "skinA" then some 7 else none

/-- Translate keyframes `(t = 0, x = 0, y = 0)` and `(t = 1, x = 1/2, y = 1/2)`, linear. -/
def exampleTranslateHalf : BaseTimeline :=
  { super := _CurveTimeline_init 2, framesLength := 6, frames := [0, 0, 0, 1, 1 / 2, 1 / 2],
    boneIndex := 0 }

/-- A pose of one bone with setup `x = 0`, `y = 0` and current `x = 2 ^ 24 = 16777216`, `y = 0`, and
no slot. -/
def farPose : Skeleton :=
  { bones := [⟨⟨0, 0, 0, 1, 1⟩, 16777216, 0, 0, 1, 1⟩], slots := [] }

/-- Scale keyframes `(t = 0, 1, 1)` and `(t = 1, 13421773 / 2 ^ 27, 1)`, linear; the second
scale is the binary32 number nearest to `0.1`. -/
def exampleScaleTenth : BaseTimeline :=
  { super := _CurveTimeline_init 2, framesLength := 6,
    frames := [0, 1, 1, 1, 13421773 / 134217728, 1], boneIndex := 0 }

/-- Rotate keyframes `(t = 0, angle = 0)` and `(t = 1, angle = 1)`, linear. -/
def exampleRotateUnit : BaseTimeline :=
  { super := _CurveTimeline_init 2, framesLength := 4, frames := [0, 0, 1, 1], boneIndex := 0 }

/-- A pose of one bone with setup rotation `2 ^ 24 = 16777216` and current rotation
`2 ^ 24`, and no slot. -/
def farTurnPose : Skeleton :=
  { bones := [⟨⟨0, 0, 16777216, 1, 1⟩, 0, 0, 16777216, 1, 1⟩], slots := [] }

/-- Translate keyframes `(t = 0, x = 0, y = 0)` and `(t = 1, x = 2 ^ 24 = 16777216, y = 0)`,
linear. -/
def exampleTranslateFar : BaseTimeline :=
  { super := _CurveTimeline_init 2, framesLength := 6, frames := [0, 0, 0, 1, 16777216, 0],
    boneIndex := 0 }

/-- Translate keyframes `(t = 1, x = 1, y = 1)` and `(t = 2, x = 7, y = 7)`, linear. -/
def exampleTranslateLate : BaseTimeline :=
  { super := _CurveTimeline_init 2, framesLength := 6, frames := [1, 1, 1, 2, 7, 7],
    boneIndex := 0 }

/-- A pose of one bone with setup `x = 10`, `y = 0` and current `x = 10`, `y = 0`, and no
slot. -/
def tenPose : Skeleton :=
  { bones := [⟨⟨10, 0, 0, 1, 1⟩, 10, 0, 0, 1, 1⟩], slots := [] }

theorem readAt_nat {α : Type} (xs : List α) (i : Nat) : readAt xs (i : Int) = xs[i]? := by
  simp [readAt]

theorem readAt_getD (xs : List ℚ) (i : Int) (n : Nat) (hi : i = (n : Int))
    (hn : n < xs.length) : readAt xs i = some (xs.getD n 0) := by
  subst hi
  rw [readAt_nat, List.getD_eq_getElem?_getD, List.getElem?_eq_getElem hn]
  rfl

theorem readAt_frame (frames : List ℚ) (frameSize frameCount k c : Nat) (i : Int)
    (hlen : frames.length = frameCount * frameSize) (hk : k < frameCount) (hc : c < frameSize)
    (hi : i = ((k * frameSize + c : Nat) : Int)) :
    readAt frames i = some (frameAt frames frameSize k c) := by
  apply readAt_getD _ _ _ hi
  rw [hlen]
  calc k * frameSize + c < k * frameSize + frameSize := by omega
    _ = (k + 1) * frameSize := by ring
    _ ≤ frameCount * frameSize := Nat.mul_le_mul_right _ hk

theorem readAt_some_of_lt {α : Type} (xs : List α) (i : Int) (h0 : 0 ≤ i)
    (h1 : i < xs.length) : ∃ v, readAt xs i = some v ∧ xs[i.toNat]? = some v := by
  have h2 : i.toNat < xs.length := by omega
  refine ⟨xs[i.toNat], ?_, List.getElem?_eq_getElem h2⟩
  simp [readAt, not_lt.mpr h0, List.getElem?_eq_getElem h2]

theorem writeAt_of_lt {α : Type} (xs : List α) (i : Int) (v : α) (h0 : 0 ≤ i)
    (h1 : i < xs.length) : writeAt xs i v = some (xs.set i.toNat v) := by
  have h2 : i.toNat < xs.length := by omega
  simp [writeAt, not_lt.mpr h0, h2]

/-! ## Keyframe search -/

/-- The loop of `binarySearch` ends within `high - low` iterations at an index `r` between
`low` and `high`; the key time at `r` is at most the target unless `r` is the initial `low`,
and the key time at `r + 1` exceeds the target unless `r` is the initial `high`. -/
theorem binarySearchLoop_spec (values : List ℚ) (target : ℚ) (step n : Nat)
    (hlen : values.length = n * step) (hstep : 0 < step) :
    ∀ (fuel : Nat) (low high current : Int), 0 ≤ low → low ≤ current → current < high →
      high + 1 < n → (high - low).toNat ≤ fuel →
      ∃ r : Nat, binarySearchLoop values target step fuel low high current
          = some (((r + 1 : Nat) : Int) * step) ∧ low ≤ r ∧ (r : Int) ≤ high ∧
        ((r : Int) = low ∨ frameAt values step r 0 ≤ target) ∧
        ((r : Int) = high ∨ target < frameAt values step (r + 1) 0) := by
  intro fuel
  induction fuel with
  | zero => intro low high current h0 h1 h2 h3 h4; omega
  | succ fuel ih =>
    intro low high current h0 h1 h2 h3 h4
    obtain ⟨c, hc⟩ : ∃ c : Nat, current = (c : Int) := ⟨current.toNat, by omega⟩
    subst hc
    have hread : readAt values (((c : Int) + 1) * step)
        = some (frameAt values step (c + 1) 0) :=
      readAt_frame values step n (c + 1) 0 _ hlen (by omega) hstep (by push_cast; ring)
    rw [binarySearchLoop, hread]
    dsimp only
    by_cases hv : frameAt values step (c + 1) 0 ≤ target
    · simp only [hv, if_true]
      by_cases he : (c : Int) + 1 = high
      · refine ⟨c + 1, ?_, ?_, ?_, Or.inr hv, Or.inl (by push_cast; exact he)⟩
        · simp [he]
        · push_cast; omega
        · push_cast; omega
      · rw [if_neg he]
        have hmid : ((c : Int) + 1 + high) >>> (1 : Nat) = ((c : Int) + 1 + high) / 2 := by
          rw [Int.shiftRight_eq_div_pow]; rfl
        obtain ⟨r, hr, hr1, hr2, hr3, hr4⟩ :=
          ih ((c : Int) + 1) high (((c : Int) + 1 + high) >>> (1 : Nat)) (by omega) (by omega)
            (by omega) h3 (by omega)
        refine ⟨r, hr, by omega, hr2, Or.inr ?_, hr4⟩
        rcases hr3 with hr3 | hr3
        · have : r = c + 1 := by omega
          subst this; exact hv
        · exact hr3
    · simp only [hv, if_false]
      have hv2 : target < frameAt values step (c + 1) 0 := not_le.mp hv
      by_cases he : low = (c : Int)
      · refine ⟨c, ?_, by omega, by omega, Or.inl he.symm, Or.inr hv2⟩
        simp [he]
      · rw [if_neg he]
        have hmid : (low + (c : Int)) >>> (1 : Nat) = (low + (c : Int)) / 2 := by
          rw [Int.shiftRight_eq_div_pow]; rfl
        obtain ⟨r, hr, hr1, hr2, hr3, hr4⟩ :=
          ih low c ((low + (c : Int)) >>> (1 : Nat)) h0 (by omega) (by omega) (by omega) (by omega)
        refine ⟨r, hr, hr1, by omega, hr3, Or.inr ?_⟩
        rcases hr4 with hr4 | hr4
        · have : r = c := by omega
          subst this; exact hv2
        · exact hr4

/-- On an array of at least two keyframes `binarySearch` returns, whatever the values, the
offset of a keyframe `r + 1` with `r + 1 < frameCount`, as `binarySearchLoop_spec` describes. -/
theorem binarySearch_spec (values : List ℚ) (target : ℚ) (step n : Nat)
    (hlen : values.length = n * step) (hstep : 0 < step) (hn : 2 ≤ n) :
    ∃ r : Nat, binarySearch values ((n * step : Nat) : Int) target step
        = some (((r + 1 : Nat) : Int) * step) ∧ r + 1 < n ∧
      (r = 0 ∨ frameAt values step r 0 ≤ target) ∧
      (r + 2 = n ∨ target < frameAt values step (r + 1) 0) := by
  have hs : (step : Int) ≠ 0 := by omega
  have hdiv : Int.tdiv ((n * step : Nat) : Int) (step : Int) = n := by
    push_cast
    exact Int.mul_tdiv_cancel _ hs
  unfold binarySearch
  rw [if_neg hs, hdiv]
  dsimp only
  by_cases h2 : (n : Int) - 2 = 0
  · rw [if_pos h2]
    exact ⟨0, by simp, by omega, Or.inl rfl, Or.inl (by omega)⟩
  · rw [if_neg h2]
    have hmid : ((n : Int) - 2) >>> (1 : Nat) = ((n : Int) - 2) / 2 := by
      rw [Int.shiftRight_eq_div_pow]; rfl
    have hfuel : ((n : Int) - 2 - 0).toNat ≤ (((n * step : Nat) : Int)).toNat := by
      have : n * 1 ≤ n * step := Nat.mul_le_mul_left n hstep
      simp only [Int.toNat_ofNat]
      omega
    obtain ⟨r, hr, hr1, hr2, hr3, hr4⟩ :=
      binarySearchLoop_spec values target step n hlen hstep _ 0 ((n : Int) - 2)
        (((n : Int) - 2) >>> (1 : Nat)) le_rfl (by omega) (by omega) (by omega) hfuel
    refine ⟨r, hr, by omega, ?_, ?_⟩
    · rcases hr3 with h | h
      · exact Or.inl (by omega)
      · exact Or.inr h
    · rcases hr4 with h | h
      · exact Or.inl (by omega)
      · exact Or.inr h

theorem Keyframes.time_mono {frames : List ℚ} {framesLength : Int} {frameSize frameCount : Nat}
    (h : Keyframes frames framesLength frameSize frameCount) :
    ∀ j, j < frameCount → ∀ i, i ≤ j →
      frameAt frames frameSize i 0 ≤ frameAt frames frameSize j 0 := by
  intro j
  induction j with
  | zero => intro _ i hi; rw [Nat.le_zero.mp hi]
  | succ j ih =>
    intro hj i hi
    rcases Nat.lt_or_ge i (j + 1) with hlt | hge
    · exact le_trans (ih (by omega) i (by omega)) (le_of_lt (h.2.2 j hj))
    · rw [Nat.le_antisymm hi hge]

/-- What the timelines use of `binarySearch`: for key times strictly increasing and
`first ≤ target < last` it returns the offset of the keyframe `k` whose segment holds the
target, `time (k - 1) ≤ target < time k`, and `k` is the least keyframe after the target. -/
theorem binarySearch_segment (values : List ℚ) (target : ℚ) (step n : Nat)
    (hkey : Keyframes values ((n * step : Nat) : Int) step n) (hstep : 0 < step) (hn : 2 ≤ n)
    (hlo : frameAt values step 0 0 ≤ target)
    (hhi : target < frameAt values step (n - 1) 0) :
    ∃ k : Nat, binarySearch values ((n * step : Nat) : Int) target step
        = some ((k : Int) * step) ∧ 1 ≤ k ∧ k < n ∧
      frameAt values step (k - 1) 0 ≤ target ∧ target < frameAt values step k 0 ∧
      ∀ j, j < n → target < frameAt values step j 0 → k ≤ j := by
  obtain ⟨r, hr, hr1, hr2, hr3⟩ := binarySearch_spec values target step n hkey.1 hstep hn
  have hA : frameAt values step r 0 ≤ target := by
    rcases hr2 with h | h
    · rw [h]; exact hlo
    · exact h
  have hB : target < frameAt values step (r + 1) 0 := by
    rcases hr3 with h | h
    · have : r + 1 = n - 1 := by omega
      rw [this]; exact hhi
    · exact h
  refine ⟨r + 1, hr, by omega, hr1, by simpa using hA, hB, ?_⟩
  intro j hj hjt
  by_contra hcon
  have hjr : j ≤ r := by omega
  have := hkey.time_mono r (by omega) j hjr
  exact absurd (lt_of_lt_of_le hjt (le_trans this hA)) (lt_irrefl _)

theorem whileAbove180_spec (a : ℚ) :
    ∃ m : ℕ, whileAbove180 a = a - 360 * m ∧ whileAbove180 a ≤ 180 ∧
      (a ≤ 180 → m = 0) ∧ (-180 ≤ a → -180 < whileAbove180 a ∨ m = 0) := by
  induction a using whileAbove180.induct with
  | case1 a h ih =>
    obtain ⟨m, h1, h2, h3, h4⟩ := ih
    rw [whileAbove180, if_pos h]
    refine ⟨m + 1, ?_, h2, ?_, ?_⟩
    · rw [h1]; push_cast; ring
    · intro h'; linarith
    · intro _
      left
      by_cases hm : a - 360 ≤ 180
      · have := h3 hm
        subst this
        rw [h1]; simp; linarith
      · rcases h4 (by linarith) with h5 | h5
        · exact h5
        · subst h5; rw [h1]; simp; linarith
  | case2 a h =>
    rw [whileAbove180, if_neg h]
    exact ⟨0, by simp, not_lt.mp h, fun _ => rfl, fun _ => Or.inr rfl⟩

theorem whileBelowNeg180_spec (a : ℚ) :
    ∃ m : ℕ, whileBelowNeg180 a = a + 360 * m ∧ -180 ≤ whileBelowNeg180 a ∧
      (-180 ≤ a → m = 0) ∧ (a ≤ 180 → whileBelowNeg180 a ≤ 180) := by
  induction a using whileBelowNeg180.induct with
  | case1 a h ih =>
    obtain ⟨m, h1, h2, h3, h4⟩ := ih
    rw [whileBelowNeg180, if_pos h]
    refine ⟨m + 1, ?_, h2, ?_, ?_⟩
    · rw [h1]; push_cast; ring
    · intro h'; linarith
    · intro _
      by_cases hm : -180 ≤ a + 360
      · have := h3 hm
        subst this
        rw [h1]; simp; linarith
      · exact h4 (by linarith)
  | case2 a h =>
    rw [whileBelowNeg180, if_neg h]
    exact ⟨0, by simp, not_lt.mp h, fun _ => rfl, fun h' => h'⟩

/-- The two loops bring any amount into `[-180, 180]` by whole turns and leave an amount
that is already there unchanged. -/
theorem shortestArc_spec (a : ℚ) :
    ∃ m : ℤ, shortestArc a = a + 360 * m ∧ -180 ≤ shortestArc a ∧ shortestArc a ≤ 180 ∧
      (-180 ≤ a → a ≤ 180 → m = 0) := by
  obtain ⟨m1, h1, h2, h3, h4⟩ := whileAbove180_spec a
  obtain ⟨m2, k1, k2, k3, k4⟩ := whileBelowNeg180_spec (whileAbove180 a)
  refine ⟨(m2 : ℤ) - m1, ?_, k2, k4 h2, ?_⟩
  · rw [shortestArc, k1, h1]; push_cast; ring
  · intro ha hb
    have e1 := h3 hb
    subst e1
    have e2 : whileAbove180 a = a := by rw [h1]; simp
    have e3 := k3 (by rw [e2]; exact ha)
    subst e3
    simp

theorem shortestArc_of_abs_le (a : ℚ) (h : |a| ≤ 180) : shortestArc a = a := by
  obtain ⟨m, h1, _, _, h4⟩ := shortestArc_spec a
  have := h4 (neg_le_of_abs_le h) (le_of_abs_le h)
  rw [h1, this]; simp

theorem abs_shortestArc_le (a : ℚ) : |shortestArc a| ≤ 180 := by
  obtain ⟨_, _, h2, h3, _⟩ := shortestArc_spec a
  exact abs_le.mpr ⟨h2, h3⟩

theorem clampPercent_raw (t0 t1 time : ℚ) (h0 : t0 ≤ time) (h1 : time < t1) :
    clampPercent (1 - (time - t1) / (t0 - t1)) = (time - t0) / (t1 - t0) ∧
      0 ≤ (time - t0) / (t1 - t0) ∧ (time - t0) / (t1 - t0) < 1 := by
  have hd : 0 < t1 - t0 := by linarith
  have hne : t0 - t1 ≠ 0 := by linarith
  have heq : 1 - (time - t1) / (t0 - t1) = (time - t0) / (t1 - t0) := by
    field_simp
    ring
  have hge : 0 ≤ (time - t0) / (t1 - t0) := div_nonneg (by linarith) hd.le
  have hlt : (time - t0) / (t1 - t0) < 1 := by rw [div_lt_one hd]; linarith
  refine ⟨?_, hge, hlt⟩
  rw [heq, clampPercent, if_neg (not_lt.mpr hge), if_neg (not_lt.mpr hlt.le)]

theorem getCurvePercent_some (self : CurveTimeline) (n k : Nat) (i : Int) (t : ℚ)
    (hlen : self.curves.length = (n - 1) * 6) (hk : k + 1 < n) (hi : i = (k : Int)) :
    ∃ p, CurveTimeline_getCurvePercent self i t = some p := by
  subst hi
  have r : ∀ c : Nat, c < 6 → ∃ v, readAt self.curves ((k : Int) * 6 + c) = some v := by
    intro c hc
    obtain ⟨v, hv, _⟩ := readAt_some_of_lt self.curves ((k : Int) * 6 + c) (by omega)
      (by rw [hlen]; push_cast; omega)
    exact ⟨v, hv⟩
  obtain ⟨v0, h0⟩ := r 0 (by omega)
  obtain ⟨v1, h1⟩ := r 1 (by omega)
  obtain ⟨v2, h2⟩ := r 2 (by omega)
  obtain ⟨v3, h3⟩ := r 3 (by omega)
  obtain ⟨v4, h4⟩ := r 4 (by omega)
  obtain ⟨v5, h5⟩ := r 5 (by omega)
  simp only [Nat.cast_ofNat, Nat.cast_zero, Nat.cast_one, add_zero] at h0 h1 h2 h3 h4 h5
  unfold CurveTimeline_getCurvePercent
  simp only [h0, h1, h2, h3, h4, h5]
  split_ifs <;> exact ⟨_, rfl⟩

theorem setBone_of_readAt (skeleton : Skeleton) (i : Int) (bone bone' : Bone)
    (h : readAt skeleton.bones i = some bone) :
    setBone skeleton i bone'
      = some { skeleton with bones := skeleton.bones.set i.toNat bone' } := by
  unfold readAt at h
  split_ifs at h with h0
  have h2 : i.toNat < skeleton.bones.length := by
    by_contra hc
    rw [List.getElem?_eq_none (not_lt.mp hc)] at h
    exact absurd h (by simp)
  simp [setBone, writeAt, h0, h2]

theorem setSlot_of_readAt (skeleton : Skeleton) (i : Int) (slot slot' : Slot)
    (h : readAt skeleton.slots i = some slot) :
    setSlot skeleton i slot'
      = some { skeleton with slots := skeleton.slots.set i.toNat slot' } := by
  unfold readAt at h
  split_ifs at h with h0
  have h2 : i.toNat < skeleton.slots.length := by
    by_contra hc
    rw [List.getElem?_eq_none (not_lt.mp hc)] at h
    exact absurd h (by simp)
  simp [setSlot, writeAt, h0, h2]

theorem two_le_count_of_between {frames : List ℚ} {frameSize frameCount : Nat} {time : ℚ}
    (h0 : frameAt frames frameSize 0 0 ≤ time)
    (h1 : time < frameAt frames frameSize (frameCount - 1) 0) : 2 ≤ frameCount := by
  by_contra hc
  have : frameCount - 1 = 0 := by omega
  rw [this] at h1
  exact absurd (lt_of_le_of_lt h0 h1) (lt_irrefl _)

/-! ## The Color timeline -/

theorem ColorTimeline_apply_after_last (self : ColorTimeline) (skeleton : Skeleton)
    (slot : Slot) (time alpha : ℚ) (n : Nat) (hn : 1 ≤ n) (hwf : self.WellFormed n)
    (hslot : readAt skeleton.slots self.slotIndex = some slot)
    (htime : frameAt self.frames 5 (n - 1) 0 ≤ time) :
    _ColorTimeline_apply self skeleton time alpha
      = some { skeleton with
          slots := skeleton.slots.set self.slotIndex.toNat
            { slot with
              r := frameAt self.frames 5 (n - 1) 1
              g := frameAt self.frames 5 (n - 1) 2
              b := frameAt self.frames 5 (n - 1) 3
              a := frameAt self.frames 5 (n - 1) 4 } } := by
  obtain ⟨⟨hlen, hfl, hinc⟩, _⟩ := hwf
  have hmono := Keyframes.time_mono ⟨hlen, hfl, hinc⟩ (n - 1) (by omega) 0 (by omega)
  have r0 := readAt_frame self.frames 5 n 0 0 0 hlen (by omega) (by omega) rfl
  have r1 := readAt_frame self.frames 5 n (n - 1) 0 (self.framesLength - 5) hlen (by omega)
    (by omega) (by omega)
  have r2 := readAt_frame self.frames 5 n (n - 1) 1 (self.framesLength - 1 - 3) hlen
    (by omega) (by omega) (by omega)
  have r3 := readAt_frame self.frames 5 n (n - 1) 2 (self.framesLength - 1 - 2) hlen
    (by omega) (by omega) (by omega)
  have r4 := readAt_frame self.frames 5 n (n - 1) 3 (self.framesLength - 1 - 1) hlen
    (by omega) (by omega) (by omega)
  have r5 := readAt_frame self.frames 5 n (n - 1) 4 (self.framesLength - 1) hlen
    (by omega) (by omega) (by omega)
  have hnot : ¬ time < frameAt self.frames 5 0 0 := not_lt.mpr (le_trans hmono htime)
  unfold _ColorTimeline_apply
  simp only [r0, hnot, if_false]
  simp only [hslot]
  simp only [r1]
  simp only [ge_iff_le, htime, if_true]
  simp only [r2]
  simp only [r3]
  simp only [r4]
  simp only [r5]
  exact setSlot_of_readAt _ _ _ _ hslot

theorem ColorTimeline_apply_between (self : ColorTimeline) (skeleton : Skeleton)
    (slot : Slot) (time alpha : ℚ) (n : Nat) (hwf : self.WellFormed n)
    (hslot : readAt skeleton.slots self.slotIndex = some slot)
    (h0 : frameAt self.frames 5 0 0 ≤ time) (h1 : time < frameAt self.frames 5 (n - 1) 0) :
    ∃ (k : Nat) (p : ℚ), 1 ≤ k ∧ k < n ∧
      frameAt self.frames 5 (k - 1) 0 ≤ time ∧ time < frameAt self.frames 5 k 0 ∧
      CurveTimeline_getCurvePercent self.super ((k - 1 : Nat) : Int)
          ((time - frameAt self.frames 5 (k - 1) 0)
            / (frameAt self.frames 5 k 0 - frameAt self.frames 5 (k - 1) 0)) = some p ∧
      _ColorTimeline_apply self skeleton time alpha
        = some { skeleton with
            slots := skeleton.slots.set self.slotIndex.toNat
              (if alpha < 1 then
                { slot with
                  r := slot.r + (frameAt self.frames 5 (k - 1) 1
                    + (frameAt self.frames 5 k 1 - frameAt self.frames 5 (k - 1) 1) * p
                    - slot.r) * alpha
                  g := slot.g + (frameAt self.frames 5 (k - 1) 2
                    + (frameAt self.frames 5 k 2 - frameAt self.frames 5 (k - 1) 2) * p
                    - slot.g) * alpha
                  b := slot.b + (frameAt self.frames 5 (k - 1) 3
                    + (frameAt self.frames 5 k 3 - frameAt self.frames 5 (k - 1) 3) * p
                    - slot.b) * alpha
                  a := slot.a + (frameAt self.frames 5 (k - 1) 4
                    + (frameAt self.frames 5 k 4 - frameAt self.frames 5 (k - 1) 4) * p
                    - slot.a) * alpha }
              else
                { slot with
                  r := frameAt self.frames 5 (k - 1) 1
                    + (frameAt self.frames 5 k 1 - frameAt self.frames 5 (k - 1) 1) * p
                  g := frameAt self.frames 5 (k - 1) 2
                    + (frameAt self.frames 5 k 2 - frameAt self.frames 5 (k - 1) 2) * p
                  b := frameAt self.frames 5 (k - 1) 3
                    + (frameAt self.frames 5 k 3 - frameAt self.frames 5 (k - 1) 3) * p
                  a := frameAt self.frames 5 (k - 1) 4
                    + (frameAt self.frames 5 k 4 - frameAt self.frames 5 (k - 1) 4) * p }) } := by
  have hn : 2 ≤ n := two_le_count_of_between h0 h1
  obtain ⟨⟨hlen, hfl, hinc⟩, hcurves⟩ := hwf
  have hkey : Keyframes self.frames ((n * 5 : Nat) : Int) 5 n := ⟨hlen, rfl, hinc⟩
  obtain ⟨k, hk, hk1, hk2, hk3, hk4, _⟩ :=
    binarySearch_segment self.frames time 5 n hkey (by omega) hn h0 h1
  obtain ⟨hc1, _, _⟩ := clampPercent_raw _ _ time hk3 hk4
  obtain ⟨p, hp⟩ := getCurvePercent_some self.super n (k - 1) (((k - 1 : Nat) : Int))
    ((time - frameAt self.frames 5 (k - 1) 0)
      / (frameAt self.frames 5 k 0 - frameAt self.frames 5 (k - 1) 0)) hcurves (by omega) rfl
  refine ⟨k, p, hk1, hk2, hk3, hk4, hp, ?_⟩
  have r0 := readAt_frame self.frames 5 n 0 0 0 hlen (by omega) (by omega) rfl
  have r1 := readAt_frame self.frames 5 n (n - 1) 0 (self.framesLength - 5) hlen (by omega)
    (by omega) (by omega)
  have q1 := readAt_frame self.frames 5 n (k - 1) 1 ((k : Int) * 5 - 4) hlen
    (by omega) (by omega) (by omega)
  have q2 := readAt_frame self.frames 5 n (k - 1) 2 ((k : Int) * 5 - 3) hlen
    (by omega) (by omega) (by omega)
  have q3 := readAt_frame self.frames 5 n (k - 1) 3 ((k : Int) * 5 - 2) hlen
    (by omega) (by omega) (by omega)
  have q4 := readAt_frame self.frames 5 n (k - 1) 4 ((k : Int) * 5 - 1) hlen
    (by omega) (by omega) (by omega)
  have r4 := readAt_frame self.frames 5 n k 0 ((k : Int) * 5) hlen hk2
    (by omega) (by omega)
  have r5 := readAt_frame self.frames 5 n (k - 1) 0
    ((k : Int) * 5 + COLOR_LAST_FRAME_TIME) hlen (by omega) (by omega)
    (by unfold COLOR_LAST_FRAME_TIME; omega)
  have s1 := readAt_frame self.frames 5 n k 1 ((k : Int) * 5 + COLOR_FRAME_R) hlen
    hk2 (by omega) (by unfold COLOR_FRAME_R; omega)
  have s2 := readAt_frame self.frames 5 n k 2 ((k : Int) * 5 + COLOR_FRAME_G) hlen
    hk2 (by omega) (by unfold COLOR_FRAME_G; omega)
  have s3 := readAt_frame self.frames 5 n k 3 ((k : Int) * 5 + COLOR_FRAME_B) hlen
    hk2 (by omega) (by unfold COLOR_FRAME_B; omega)
  have s4 := readAt_frame self.frames 5 n k 4 ((k : Int) * 5 + COLOR_FRAME_A) hlen
    hk2 (by omega) (by unfold COLOR_FRAME_A; omega)
  have hidx : Int.tdiv ((k : Int) * 5) 5 - 1 = ((k - 1 : Nat) : Int) := by
    have : Int.tdiv ((k : Int) * 5) 5 = k := Int.mul_tdiv_cancel _ (by norm_num)
    rw [this]; omega
  have hnot0 : ¬ time < frameAt self.frames 5 0 0 := not_lt.mpr h0
  have hnot1 : ¬ frameAt self.frames 5 (n - 1) 0 ≤ time := not_le.mpr h1
  rw [← hfl] at hk
  simp only [Nat.cast_ofNat] at hk
  unfold _ColorTimeline_apply
  simp only [r0, hnot0, if_false]
  simp only [hslot]
  simp only [r1]
  simp only [ge_iff_le, hnot1, if_false]
  simp only [hk]
  simp only [q1]
  simp only [q2]
  simp only [q3]
  simp only [q4]
  simp only [r4]
  simp only [r5]
  simp only [hidx, hc1, hp]
  simp only [s1]
  simp only [s2]
  simp only [s3]
  simp only [s4]
  split_ifs
  · exact setSlot_of_readAt _ _ _ _ hslot
  · exact setSlot_of_readAt _ _ _ _ hslot

/-! ## The Attachment timeline -/

theorem readAt_names {α : Type} (xs : List (Option α)) (i : Int) (k : Nat) (hi : i = (k : Int))
    (hk : k < xs.length) : readAt xs i = some (xs.getD k none) := by
  subst hi
  rw [readAt_nat, List.getD_eq_getElem?_getD, List.getElem?_eq_getElem hk]
  rfl

theorem AttachmentTimeline_apply_from_first (resolve : Resolver) (self : AttachmentTimeline)
    (skeleton : Skeleton) (slot : Slot) (time alpha : ℚ) (n : Nat) (hn : 1 ≤ n)
    (hwf : self.WellFormed n) (hslot : readAt skeleton.slots self.slotIndex = some slot)
    (h0 : frameAt self.frames 1 0 0 ≤ time) :
    ∃ k : Nat, k < n ∧ frameAt self.frames 1 k 0 ≤ time ∧
      (∀ j, j < n → frameAt self.frames 1 j 0 ≤ time → j ≤ k) ∧
      _AttachmentTimeline_apply resolve self skeleton time alpha
        = some { skeleton with
            slots := skeleton.slots.set self.slotIndex.toNat
              { slot with
                attachment := (self.attachmentNames.getD k none).bind
                  (resolve skeleton self.slotIndex) } } := by
  obtain ⟨⟨hlen, hfl, hinc⟩, hnames⟩ := hwf
  have hkeys : Keyframes self.frames self.framesLength 1 n := ⟨hlen, hfl, hinc⟩
  have r0 := readAt_frame self.frames 1 n 0 0 0 hlen (by omega) (by omega) rfl
  have r1 := readAt_frame self.frames 1 n (n - 1) 0 (self.framesLength - 1) hlen (by omega)
    (by omega) (by omega)
  have hnot0 : ¬ time < frameAt self.frames 1 0 0 := not_lt.mpr h0
  have hbind : ∀ name : Option String,
      (match name with
        | some name => resolve skeleton self.slotIndex name
        | none => none) = name.bind (resolve skeleton self.slotIndex) := by
    intro name; cases name <;> rfl
  by_cases hlast : frameAt self.frames 1 (n - 1) 0 ≤ time
  · refine ⟨n - 1, by omega, hlast, fun j hj _ => by omega, ?_⟩
    have rn := readAt_names self.attachmentNames (self.framesLength - 1) (n - 1) (by omega)
      (by omega)
    unfold _AttachmentTimeline_apply
    simp only [r0, hnot0, if_false]
    simp only [r1]
    simp only [ge_iff_le, hlast, if_true]
    simp only [rn]
    simp only [hslot]
    rw [hbind]
    exact setSlot_of_readAt _ _ _ _ hslot
  · have h1 : time < frameAt self.frames 1 (n - 1) 0 := not_le.mp hlast
    have hn2 : 2 ≤ n := two_le_count_of_between h0 h1
    have hkey : Keyframes self.frames ((n * 1 : Nat) : Int) 1 n := ⟨hlen, rfl, hinc⟩
    obtain ⟨k, hk, hk1, hk2, hk3, hk4, _⟩ :=
      binarySearch_segment self.frames time 1 n hkey (by omega) hn2 h0 h1
    rw [← hfl] at hk
    simp only [Nat.cast_one] at hk
    refine ⟨k - 1, by omega, hk3, ?_, ?_⟩
    · intro j hj hjt
      by_contra hcon
      have := hkeys.time_mono j hj k (by omega)
      exact absurd (lt_of_lt_of_le hk4 (le_trans this hjt)) (lt_irrefl _)
    · have rn := readAt_names self.attachmentNames ((k : Int) * 1 - 1) (k - 1) (by omega)
        (by omega)
      unfold _AttachmentTimeline_apply
      simp only [r0, hnot0, if_false]
      simp only [r1]
      simp only [ge_iff_le, hlast, if_false]
      simp only [hk, Option.map_some']
      simp only [rn]
      simp only [hslot]
      rw [hbind]
      exact setSlot_of_readAt _ _ _ _ hslot

/-! ## All timelines -/

/-- Before the first keyframe every `apply` returns without touching the pose. -/
theorem apply_of_lt_first (resolve : Resolver) (tl : Timeline) (skeleton : Skeleton)
    (time alpha : ℚ) (frameCount : Nat) (hcount : 1 ≤ frameCount)
    (hlen : tl.frames.length = frameCount * tl.frameSize)
    (htime : time < frameAt tl.frames tl.frameSize 0 0) :
    Timeline_apply resolve tl skeleton time alpha = some skeleton := by
  cases tl with
  | rotate self =>
    have hr := readAt_frame self.frames 2 frameCount 0 0 0 hlen (by omega) (by omega) rfl
    have ht : time < frameAt self.frames 2 0 0 := htime
    simp [Timeline_apply, _RotateTimeline_apply, hr, ht]
  | translate self =>
    have hr := readAt_frame self.frames 3 frameCount 0 0 0 hlen (by omega) (by omega) rfl
    have ht : time < frameAt self.frames 3 0 0 := htime
    simp [Timeline_apply, _TranslateTimeline_apply, hr, ht]
  | scale self =>
    have hr := readAt_frame self.frames 3 frameCount 0 0 0 hlen (by omega) (by omega) rfl
    have ht : time < frameAt self.frames 3 0 0 := htime
    simp [Timeline_apply, _ScaleTimeline_apply, hr, ht]
  | color self =>
    have hr := readAt_frame self.frames 5 frameCount 0 0 0 hlen (by omega) (by omega) rfl
    have ht : time < frameAt self.frames 5 0 0 := htime
    simp [Timeline_apply, _ColorTimeline_apply, hr, ht]
  | attachment self =>
    have hr := readAt_frame self.frames 1 frameCount 0 0 0 hlen (by omega) (by omega) rfl
    have ht : time < frameAt self.frames 1 0 0 := htime
    simp [Timeline_apply, _AttachmentTimeline_apply, hr, ht]

theorem readAt_bone_of_target (skeleton : Skeleton) (i : Int)
    (h : 0 ≤ i ∧ i < skeleton.bones.length) :
    ∃ bone, readAt skeleton.bones i = some bone := by
  obtain ⟨v, hv, _⟩ := readAt_some_of_lt skeleton.bones i h.1 h.2
  exact ⟨v, hv⟩

theorem readAt_slot_of_target (skeleton : Skeleton) (i : Int)
    (h : 0 ≤ i ∧ i < skeleton.slots.length) :
    ∃ slot, readAt skeleton.slots i = some slot := by
  obtain ⟨v, hv, _⟩ := readAt_some_of_lt skeleton.slots i h.1 h.2
  exact ⟨v, hv⟩

theorem exampleTranslate_wellFormed : exampleTranslate.WellFormed 3 2 := by
  refine ⟨⟨rfl, rfl, ?_⟩, rfl⟩
  intro k hk
  have hk2 : k < 1 := by omega
  interval_cases k
  norm_num [frameAt, exampleTranslate]

theorem applyTimelines_of_fixed (resolve : Resolver) (timelines : List Timeline)
    (skeleton : Skeleton) (time alpha : ℚ)
    (h : ∀ tl ∈ timelines, Timeline_apply resolve tl skeleton time alpha = some skeleton) :
    ∀ (remaining i : Nat), i + remaining = timelines.length →
      applyTimelines resolve timelines time alpha remaining (i : Int) skeleton
        = some skeleton := by
  intro remaining
  induction remaining with
  | zero => intro i _; rfl
  | succ r ih =>
    intro i hi
    have hlt : i < timelines.length := by omega
    have hr : readAt timelines (i : Int) = some timelines[i] := by
      rw [readAt_nat, List.getElem?_eq_getElem hlt]
    have hmem : timelines[i] ∈ timelines := List.getElem_mem hlt
    unfold applyTimelines
    simp only [hr]
    simp only [h _ hmem]
    exact_mod_cast ih (i + 1) (by omega)

theorem shortestArc_eq (a b : ℚ) (m : ℤ) (hb : b = a + 360 * m) (h1 : -180 < b)
    (h2 : b < 180) : shortestArc a = b := by
  obtain ⟨m', hm, hlo, hhi, _⟩ := shortestArc_spec a
  have hdiff : shortestArc a - b = 360 * ((m' - m : ℤ) : ℚ) := by
    rw [hm, hb]; push_cast; ring
  have hlt : |(360 : ℚ) * ((m' - m : ℤ) : ℚ)| < 360 := by
    rw [← hdiff, abs_lt]; constructor <;> linarith
  have hz : m' - m = 0 := by
    by_contra hne
    have h1' : (1 : ℚ) ≤ |((m' - m : ℤ) : ℚ)| := by
      rw [← Int.cast_abs]
      exact_mod_cast Int.one_le_abs hne
    rw [abs_mul] at hlt
    have : |(360 : ℚ)| = 360 := abs_of_pos (by norm_num)
    rw [this] at hlt
    nlinarith
  rw [hz] at hdiff
  simp at hdiff
  linarith

theorem segment_unique {frames : List ℚ} {framesLength : Int} {frameSize frameCount : Nat}
    (hkey : Keyframes frames framesLength frameSize frameCount) {time : ℚ} {k k' : Nat}
    (hk1 : 1 ≤ k) (hk : k < frameCount) (h1 : frameAt frames frameSize (k - 1) 0 ≤ time)
    (h2 : time < frameAt frames frameSize k 0) (hk1' : 1 ≤ k') (hk' : k' < frameCount)
    (h1' : frameAt frames frameSize (k' - 1) 0 ≤ time)
    (h2' : time < frameAt frames frameSize k' 0) : k = k' := by
  rcases Nat.lt_trichotomy k k' with h | h | h
  · have := hkey.time_mono (k' - 1) (by omega) k (by omega)
    exact absurd (lt_of_lt_of_le h2 (le_trans this h1')) (lt_irrefl _)
  · exact h
  · have := hkey.time_mono (k - 1) (by omega) k' (by omega)
    exact absurd (lt_of_lt_of_le h2' (le_trans this h1)) (lt_irrefl _)

theorem exampleRotate170_wellFormed : exampleRotate170.WellFormed 2 2 := by
  refine ⟨⟨rfl, rfl, ?_⟩, rfl⟩
  intro k hk
  have hk2 : k < 1 := by omega
  interval_cases k
  norm_num [frameAt, exampleRotate170]

theorem exampleRotate90_wellFormed : exampleRotate90.WellFormed 2 2 := by
  refine ⟨⟨rfl, rfl, ?_⟩, rfl⟩
  intro k hk
  have hk2 : k < 1 := by omega
  interval_cases k
  norm_num [frameAt, exampleRotate90]

/-- The curve evaluator on a segment whose first coefficient is the LINEAR sentinel. -/
theorem getCurvePercent_of_linear (self : CurveTimeline) (i : Int) (t : ℚ)
    (h : readAt self.curves (i * 6) = some CURVE_LINEAR) :
    CurveTimeline_getCurvePercent self i t = some t := by
  unfold CurveTimeline_getCurvePercent
  simp only [h]
  simp

theorem exampleAttachment_wellFormed : exampleAttachment.WellFormed 2 := by
  refine ⟨⟨rfl, rfl, ?_⟩, rfl⟩
  intro k hk
  have hk2 : k < 1 := by omega
  interval_cases k
  norm_num [frameAt, exampleAttachment]

theorem whileAbove180_gt (a : ℚ) (h : 180 < a) : -180 < whileAbove180 a := by
  obtain ⟨m, h1, _, h3, h4⟩ := whileAbove180_spec a
  rcases h4 (by linarith) with h5 | h5
  · exact h5
  · subst h5
    rw [h1]; simp; linarith

/-- The quotient rounded toward zero, for a nonnegative quotient. -/
theorem trunc_of_nonneg (q : ℚ) (h : 0 ≤ q) :
    ((Int.tdiv q.num q.den : ℤ) : ℚ) ≤ q ∧ q < ((Int.tdiv q.num q.den : ℤ) : ℚ) + 1 := by
  have hnum : 0 ≤ q.num := Rat.num_nonneg.mpr h
  have e : Int.tdiv q.num q.den = ⌊q⌋ := by
    rw [Int.tdiv_eq_ediv hnum (by exact_mod_cast Nat.zero_le _), Rat.floor_def]
  rw [e]
  exact ⟨Int.floor_le q, Int.lt_floor_add_one q⟩

/-- The quotient rounded toward zero, for a nonpositive quotient. -/
theorem trunc_of_nonpos (q : ℚ) (h : q ≤ 0) :
    q ≤ ((Int.tdiv q.num q.den : ℤ) : ℚ) ∧ ((Int.tdiv q.num q.den : ℤ) : ℚ) - 1 < q := by
  obtain ⟨h1, h2⟩ := trunc_of_nonneg (-q) (by linarith)
  have e : Int.tdiv (-q).num (-q).den = -Int.tdiv q.num q.den := by
    rw [Rat.neg_num, Rat.neg_den, Int.neg_tdiv]
  rw [e] at h1 h2
  push_cast at h1 h2
  constructor <;> linarith

/-- `fmodf x y` for `y ≠ 0`: `x` less a whole multiple of `y`, smaller than `y` in absolute
value, and never of the sign opposite to `x`. -/
theorem fmodf_spec (x y : ℚ) (hy : y ≠ 0) :
    (∃ m : ℤ, fmodf x y = x - m * y) ∧ |fmodf x y| < |y| ∧
      (0 ≤ x → 0 ≤ fmodf x y) ∧ (x ≤ 0 → fmodf x y ≤ 0) := by
  have hx : x = x / y * y := by field_simp
  have hf : fmodf x y = (x / y - ((Int.tdiv (x / y).num (x / y).den : ℤ) : ℚ)) * y := by
    unfold fmodf
    rw [sub_mul, ← hx]
  rcases le_total 0 (x / y) with hq | hq
  · obtain ⟨h1, h2⟩ := trunc_of_nonneg (x / y) hq
    have hfrac0 : 0 ≤ x / y - ((Int.tdiv (x / y).num (x / y).den : ℤ) : ℚ) := by linarith
    have hfrac1 : x / y - ((Int.tdiv (x / y).num (x / y).den : ℤ) : ℚ) < 1 := by linarith
    refine ⟨⟨_, rfl⟩, ?_, ?_, ?_⟩
    · rw [hf, abs_mul, abs_of_nonneg hfrac0]
      have : 0 < |y| := abs_pos.mpr hy
      nlinarith
    · intro h0
      rw [hf]
      rcases lt_or_gt_of_ne hy with hneg | hpos
      · have hq0 : x / y ≤ 0 := div_nonpos_of_nonneg_of_nonpos h0 hneg.le
        have hq1 : x / y = 0 := le_antisymm hq0 hq
        have hx0 : x = 0 := by rw [hx, hq1, zero_mul]
        subst hx0
        simp
      · exact mul_nonneg hfrac0 hpos.le
    · intro h0
      rw [hf]
      rcases lt_or_gt_of_ne hy with hneg | hpos
      · exact mul_nonpos_of_nonneg_of_nonpos hfrac0 hneg.le
      · have hq0 : x / y ≤ 0 := div_nonpos_of_nonpos_of_nonneg h0 hpos.le
        have hq1 : x / y = 0 := le_antisymm hq0 hq
        have hx0 : x = 0 := by rw [hx, hq1, zero_mul]
        subst hx0
        simp
  · obtain ⟨h1, h2⟩ := trunc_of_nonpos (x / y) hq
    have hfrac0 : x / y - ((Int.tdiv (x / y).num (x / y).den : ℤ) : ℚ) ≤ 0 := by linarith
    have hfrac1 : -1 < x / y - ((Int.tdiv (x / y).num (x / y).den : ℤ) : ℚ) := by linarith
    refine ⟨⟨_, rfl⟩, ?_, ?_, ?_⟩
    · rw [hf, abs_mul, abs_of_nonpos hfrac0]
      have : 0 < |y| := abs_pos.mpr hy
      nlinarith
    · intro h0
      rw [hf]
      rcases lt_or_gt_of_ne hy with hneg | hpos
      · exact mul_nonneg_of_nonpos_of_nonpos hfrac0 hneg.le
      · have hq0 : 0 ≤ x / y := div_nonneg h0 hpos.le
        have hq1 : x / y = 0 := le_antisymm hq hq0
        have hx0 : x = 0 := by rw [hx, hq1, zero_mul]
        subst hx0
        simp
    · intro h0
      rw [hf]
      rcases lt_or_gt_of_ne hy with hneg | hpos
      · have hq0 : 0 ≤ x / y := div_nonneg_of_nonpos h0 hneg.le
        have hq1 : x / y = 0 := le_antisymm hq hq0
        have hx0 : x = 0 := by rw [hx, hq1, zero_mul]
        subst hx0
        simp
      · exact mul_nonpos_of_nonpos_of_nonneg hfrac0 hpos.le

theorem fmodf_example_pos : fmodf (5 / 2) 2 = 1 / 2 := by
  have h : ((5 : ℚ) / 2 / 2) = 5 / 4 := by norm_num
  have hn : ((5 : ℚ) / 4).num = 5 := by norm_num
  have hd : ((5 : ℚ) / 4).den = 4 := by norm_num
  unfold fmodf
  rw [h, hn, hd]
  norm_num [show Int.tdiv 5 4 = 1 from rfl]

theorem fmodf_example_neg : fmodf (-5 / 2) 2 = -1 / 2 := by
  have h : ((-5 : ℚ) / 2 / 2) = -5 / 4 := by norm_num
  have hn : ((-5 : ℚ) / 4).num = -5 := by norm_num
  have hd : ((-5 : ℚ) / 4).den = 4 := by norm_num
  unfold fmodf
  rw [h, hn, hd]
  norm_num [show Int.tdiv 5 4 = 1 from rfl]

theorem readAt_set_same {α : Type} (xs : List α) (i : Int) (v w : α)
    (h : readAt xs i = some v) : readAt (xs.set i.toNat w) i = some w := by
  unfold readAt at h ⊢
  split_ifs at h ⊢ with h0
  have h2 : i.toNat < xs.length := by
    by_contra hc
    rw [List.getElem?_eq_none (not_lt.mp hc)] at h
    exact absurd h (by simp)
  rw [List.getElem?_set]
  simp [h2]

theorem exampleTranslateB_wellFormed : exampleTranslateB.WellFormed 3 2 := by
  refine ⟨⟨rfl, rfl, ?_⟩, rfl⟩
  intro k hk
  have hk2 : k < 1 := by omega
  interval_cases k
  norm_num [frameAt, exampleTranslateB]

/-! ## The curve entry of a segment -/

theorem percent_eq_raw (t0 t1 time : ℚ) (h0 : t0 ≤ time) (h1 : time < t1) :
    1 - (time - t1) / (t0 - t1) = (time - t0) / (t1 - t0) := by
  have hd : t1 - t0 ≠ 0 := by linarith
  have hne : t0 - t1 ≠ 0 := by linarith
  field_simp
  ring

theorem Timeline.keyframes_of_wellFormed {tl : Timeline} {n : Nat} (hwf : tl.WellFormed n) :
    Keyframes tl.frames tl.framesLength tl.frameSize n := by
  cases tl <;> exact hwf.1

theorem Timeline.frameSize_pos (tl : Timeline) : 0 < tl.frameSize := by
  cases tl <;> simp [Timeline.frameSize]

theorem Timeline.curves_length {tl : Timeline} {n : Nat} (hcurved : tl.Curved)
    (hwf : tl.WellFormed n) : tl.curves.length = (n - 1) * 6 := by
  cases tl with
  | attachment self => exact absurd hcurved (by simp [Timeline.Curved])
  | rotate self => exact hwf.2
  | translate self => exact hwf.2
  | scale self => exact hwf.2
  | color self => exact hwf.2

theorem Timeline.withCurves_curves (tl : Timeline) : tl.withCurves tl.curves = tl := by
  cases tl <;> rfl

theorem writeAt_length {α : Type} (xs xs' : List α) (a : Int) (v : α)
    (h : writeAt xs a v = some xs') : xs'.length = xs.length := by
  unfold writeAt at h
  split_ifs at h
  rw [← Option.some.inj h, List.length_set]

theorem readAt_writeAt_ne {α : Type} (xs xs' : List α) (a b : Int) (v : α)
    (h : writeAt xs a v = some xs') (hne : b ≠ a) : readAt xs' b = readAt xs b := by
  unfold writeAt at h
  split_ifs at h with ha hlt
  rw [← Option.some.inj h]
  unfold readAt
  split_ifs with hb
  · rfl
  · rw [List.getElem?_set]
    have : a.toNat ≠ b.toNat := by omega
    simp [this]

/-- The three setters write inside entry `j` only and keep the length of the array. -/
theorem curve_setters_frame (c : List ℚ) (j : Int) (c' : CurveTimeline)
    (h : CurveTimeline_setLinear { curves := c } j = some c' ∨
      CurveTimeline_setStepped { curves := c } j = some c' ∨
      ∃ cx1 cy1 cx2 cy2, CurveTimeline_setCurve { curves := c } j cx1 cy1 cx2 cy2 = some c') :
    c'.curves.length = c.length ∧
      ∀ i : Int, i ≠ j → ∀ o : Int, 0 ≤ o → o < 6 →
        readAt c'.curves (i * 6 + o) = readAt c (i * 6 + o) := by
  rcases h with h | h | ⟨cx1, cy1, cx2, cy2, h⟩
  · unfold CurveTimeline_setLinear at h
    cases hw : writeAt c (j * 6) CURVE_LINEAR with
    | none => simp [hw] at h
    | some l =>
      simp only [hw, Option.map_some'] at h
      rw [← Option.some.inj h]
      exact ⟨writeAt_length _ _ _ _ hw, fun i hi o ho0 ho1 =>
        readAt_writeAt_ne _ _ _ _ _ hw (by omega)⟩
  · unfold CurveTimeline_setStepped at h
    cases hw : writeAt c (j * 6) CURVE_STEPPED with
    | none => simp [hw] at h
    | some l =>
      simp only [hw, Option.map_some'] at h
      rw [← Option.some.inj h]
      exact ⟨writeAt_length _ _ _ _ hw, fun i hi o ho0 ho1 =>
        readAt_writeAt_ne _ _ _ _ _ hw (by omega)⟩
  · unfold CurveTimeline_setCurve at h
    dsimp only at h
    split at h
    · exact absurd h (by simp)
    · rename_i l0 hw0
      split at h
      · exact absurd h (by simp)
      · rename_i l1 hw1
        split at h
        · exact absurd h (by simp)
        · rename_i l2 hw2
          split at h
          · exact absurd h (by simp)
          · rename_i l3 hw3
            split at h
            · exact absurd h (by simp)
            · rename_i l4 hw4
              split at h
              · exact absurd h (by simp)
              · rename_i l5 hw5
                rw [← Option.some.inj h]
                constructor
                · show l5.length = c.length
                  rw [writeAt_length _ _ _ _ hw5, writeAt_length _ _ _ _ hw4,
                    writeAt_length _ _ _ _ hw3, writeAt_length _ _ _ _ hw2,
                    writeAt_length _ _ _ _ hw1, writeAt_length _ _ _ _ hw0]
                · intro i hi o ho0 ho1
                  show readAt l5 (i * 6 + o) = readAt c (i * 6 + o)
                  rw [readAt_writeAt_ne _ _ _ _ _ hw5 (by omega),
                    readAt_writeAt_ne _ _ _ _ _ hw4 (by omega),
                    readAt_writeAt_ne _ _ _ _ _ hw3 (by omega),
                    readAt_writeAt_ne _ _ _ _ _ hw2 (by omega),
                    readAt_writeAt_ne _ _ _ _ _ hw1 (by omega),
                    readAt_writeAt_ne _ _ _ _ _ hw0 (by omega)]

theorem exampleTranslate3_wellFormed : exampleTranslate3.WellFormed 3 3 := by
  refine ⟨⟨rfl, rfl, ?_⟩, rfl⟩
  intro k hk
  have hk2 : k < 2 := by omega
  interval_cases k <;> norm_num [frameAt, exampleTranslate3]

/-! ## Bézier curves -/

theorem readAt_writeAt_same {α : Type} (xs xs' : List α) (a : Int) (v : α)
    (h : writeAt xs a v = some xs') : readAt xs' a = some v := by
  unfold writeAt at h
  split_ifs at h with ha hlt
  rw [← Option.some.inj h]
  unfold readAt
  rw [if_neg ha, List.getElem?_set]
  simp [hlt]

/-- The loop of the curve evaluator walks the samples of the Bézier curve: entered at sample
`j` with the forward differences of the cubic at `j`, it returns what the polyline search
returns from index `j` on. -/
theorem getCurvePercentLoop_bezier (cx1 cy1 cx2 cy2 t dddfx dddfy : ℚ)
    (h3x : dddfx = ((cx1 - cx2) * 3 + 1) * (6 / 1000))
    (h3y : dddfy = ((cy1 - cy2) * 3 + 1) * (6 / 1000)) :
    ∀ (i j : Nat), 1 ≤ j → j + i = 9 → ∀ dfx dfy ddfx ddfy x y : ℚ,
      x = bezier cx1 cx2 ((j : ℚ) / 10) → y = bezier cy1 cy2 ((j : ℚ) / 10) →
      dfx = bezier cx1 cx2 ((j : ℚ) / 10) - bezier cx1 cx2 (((j - 1 : Nat) : ℚ) / 10) →
      dfy = bezier cy1 cy2 ((j : ℚ) / 10) - bezier cy1 cy2 (((j - 1 : Nat) : ℚ) / 10) →
      ddfx = bezier cx1 cx2 (((j + 1 : Nat) : ℚ) / 10) - 2 * bezier cx1 cx2 ((j : ℚ) / 10)
        + bezier cx1 cx2 (((j - 1 : Nat) : ℚ) / 10) →
      ddfy = bezier cy1 cy2 (((j + 1 : Nat) : ℚ) / 10) - 2 * bezier cy1 cy2 ((j : ℚ) / 10)
        + bezier cy1 cy2 (((j - 1 : Nat) : ℚ) / 10) →
      getCurvePercentLoop t dddfx dddfy i dfx dfy ddfx ddfy x y
        = match (List.range' j (i + 1)).find?
            (fun k : Nat => decide (t ≤ bezier cx1 cx2 ((k : ℚ) / 10))) with
          | some k =>
            interpolate (bezier cx1 cx2 (((k - 1 : Nat) : ℚ) / 10))
              (bezier cy1 cy2 (((k - 1 : Nat) : ℚ) / 10))
              (bezier cx1 cx2 ((k : ℚ) / 10)) (bezier cy1 cy2 ((k : ℚ) / 10)) t
          | none => interpolate (bezier cx1 cx2 (9 / 10)) (bezier cy1 cy2 (9 / 10)) 1 1 t := by
  subst h3x
  subst h3y
  intro i
  induction i with
  | zero =>
    intro j hj1 hj dfx dfy ddfx ddfy x y hx hy hdx hdy _ _
    have hj9 : j = 9 := by omega
    subst hj9
    rw [getCurvePercentLoop]
    by_cases hge : x ≥ t
    · have hp : t ≤ bezier cx1 cx2 (((9 : Nat) : ℚ) / 10) := by rw [← hx]; exact hge
      simp only [hge, if_true, List.range', List.find?, hp, decide_True]
      rw [hdx, hdy, hx, hy]
      simp only [sub_sub_cancel]
      rfl
    · have hp : ¬ t ≤ bezier cx1 cx2 (((9 : Nat) : ℚ) / 10) := by rw [← hx]; exact hge
      simp only [hge, if_false, List.range', List.find?, hp, decide_False]
      rw [hx, hy]
      norm_num [interpolate]
  | succ i ih =>
    intro j hj1 hj dfx dfy ddfx ddfy x y hx hy hdx hdy hddx hddy
    rw [getCurvePercentLoop]
    by_cases hge : x ≥ t
    · have hp : t ≤ bezier cx1 cx2 ((j : ℚ) / 10) := by rw [← hx]; exact hge
      simp only [hge, if_true, List.range', List.find?, hp, decide_True]
      rw [hdx, hdy, hx, hy]
      simp only [sub_sub_cancel]
      rfl
    · have hp : ¬ t ≤ bezier cx1 cx2 ((j : ℚ) / 10) := by rw [← hx]; exact hge
      simp only [hge, if_false, List.range', List.find?, hp, decide_False]
      have hjc : ((j - 1 : Nat) : ℚ) = (j : ℚ) - 1 := by
        rw [Nat.cast_sub hj1]; simp
      apply ih (j + 1) (by omega) (by omega)
      · rw [hx, hdx, hddx, hjc]; push_cast; ring
      · rw [hy, hdy, hddy, hjc]; push_cast; ring
      · rw [hdx, hddx, hjc]; simp only [Nat.add_sub_cancel]; push_cast; ring
      · rw [hdy, hddy, hjc]; simp only [Nat.add_sub_cancel]; push_cast; ring
      · rw [hddx, hjc]; simp only [Nat.add_sub_cancel, bezier]; push_cast; ring
      · rw [hddy, hjc]; simp only [Nat.add_sub_cancel, bezier]; push_cast; ring

/-- After `CurveTimeline_setCurve`, the evaluator follows the polyline through the ten
samples of the cubic, whenever the first stored coefficient is not a sentinel. -/
theorem getCurvePercent_after_setCurve (self c : CurveTimeline) (frameIndex : Int)
    (cx1 cy1 cx2 cy2 t dfx : ℚ)
    (hset : CurveTimeline_setCurve self frameIndex cx1 cy1 cx2 cy2 = some c)
    (hdfx : readAt c.curves (frameIndex * 6) = some dfx) (hlin : dfx ≠ CURVE_LINEAR)
    (hstep : dfx ≠ CURVE_STEPPED) :
    dfx = bezier cx1 cx2 (1 / 10) ∧
      CurveTimeline_getCurvePercent c frameIndex t
        = some (bezierPolyline cx1 cy1 cx2 cy2 t) := by
  unfold CurveTimeline_setCurve at hset
  dsimp only at hset
  split at hset
  · exact absurd hset (by simp)
  rename_i l0 hw0
  split at hset
  · exact absurd hset (by simp)
  rename_i l1 hw1
  split at hset
  · exact absurd hset (by simp)
  rename_i l2 hw2
  split at hset
  · exact absurd hset (by simp)
  rename_i l3 hw3
  split at hset
  · exact absurd hset (by simp)
  rename_i l4 hw4
  split at hset
  · exact absurd hset (by simp)
  rename_i l5 hw5
  have hc : c.curves = l5 := by rw [← Option.some.inj hset]
  have r0 := readAt_writeAt_same _ _ _ _ hw0
  have r1 := readAt_writeAt_same _ _ _ _ hw1
  have r2 := readAt_writeAt_same _ _ _ _ hw2
  have r3 := readAt_writeAt_same _ _ _ _ hw3
  have r4 := readAt_writeAt_same _ _ _ _ hw4
  have r5 := readAt_writeAt_same _ _ _ _ hw5
  rw [← readAt_writeAt_ne _ _ _ _ _ hw1 (by omega), ← readAt_writeAt_ne _ _ _ _ _ hw2 (by omega),
    ← readAt_writeAt_ne _ _ _ _ _ hw3 (by omega), ← readAt_writeAt_ne _ _ _ _ _ hw4 (by omega),
    ← readAt_writeAt_ne _ _ _ _ _ hw5 (by omega), ← hc] at r0
  rw [← readAt_writeAt_ne _ _ _ _ _ hw2 (by omega), ← readAt_writeAt_ne _ _ _ _ _ hw3 (by omega),
    ← readAt_writeAt_ne _ _ _ _ _ hw4 (by omega), ← readAt_writeAt_ne _ _ _ _ _ hw5 (by omega),
    ← hc] at r1
  rw [← readAt_writeAt_ne _ _ _ _ _ hw3 (by omega), ← readAt_writeAt_ne _ _ _ _ _ hw4 (by omega),
    ← readAt_writeAt_ne _ _ _ _ _ hw5 (by omega), ← hc] at r2
  rw [← readAt_writeAt_ne _ _ _ _ _ hw4 (by omega), ← readAt_writeAt_ne _ _ _ _ _ hw5 (by omega),
    ← hc] at r3
  rw [← readAt_writeAt_ne _ _ _ _ _ hw5 (by omega), ← hc] at r4
  rw [← hc] at r5
  have hd : dfx = bezier cx1 cx2 (1 / 10) := by
    rw [hdfx] at r0
    rw [Option.some.inj r0]
    norm_num [bezier, CURVE_SEGMENTS]
    ring
  refine ⟨hd, ?_⟩
  rw [hdfx] at r0
  unfold CurveTimeline_getCurvePercent
  simp only [hdfx]
  simp only [hlin, hstep, if_false]
  simp only [r1]
  simp only [r2]
  simp only [r3]
  simp only [r4]
  simp only [r5]
  have h8 : (CURVE_SEGMENTS - 2).toNat = 8 := rfl
  rw [h8, bezierPolyline]
  congr 1
  have hx0 : bezier cx1 cx2 (((1 - 1 : Nat) : ℚ) / 10) = 0 := by norm_num [bezier]
  have hy0 : bezier cy1 cy2 (((1 - 1 : Nat) : ℚ) / 10) = 0 := by norm_num [bezier]
  apply getCurvePercentLoop_bezier cx1 cy1 cx2 cy2 t _ _ _ _ 8 1 le_rfl rfl
  · rw [hd]; norm_num
  · norm_num [bezier, CURVE_SEGMENTS]; ring
  · rw [hx0, hd]; norm_num
  · rw [hy0]; norm_num [bezier, CURVE_SEGMENTS]; ring
  · rw [hx0]; norm_num [bezier, CURVE_SEGMENTS]; ring
  · rw [hy0]; norm_num [bezier, CURVE_SEGMENTS]; ring
  · norm_num [CURVE_SEGMENTS]
  · norm_num [CURVE_SEGMENTS]

/-- For control abscissae at most 1, the cubic stays strictly below 1 before the end of the
parameter interval. -/
theorem bezier_lt_one (c1 c2 s : ℚ) (h1 : c1 ≤ 1) (h2 : c2 ≤ 1) (hs0 : 0 ≤ s) (hs1 : s < 1) :
    bezier c1 c2 s < 1 := by
  unfold bezier
  have a : 0 ≤ 3 * (1 - s) ^ 2 * s := by positivity
  have hs : 0 ≤ 1 - s := by linarith
  have b : 0 ≤ 3 * (1 - s) * s ^ 2 := by positivity
  have e1 : 3 * (1 - s) ^ 2 * s * c1 ≤ 3 * (1 - s) ^ 2 * s := mul_le_of_le_one_right a h1
  have e2 : 3 * (1 - s) * s ^ 2 * c2 ≤ 3 * (1 - s) * s ^ 2 := mul_le_of_le_one_right b h2
  have e3 : 0 < (1 - s) ^ 3 := by have : 0 < 1 - s := by linarith
                                  positivity
  nlinarith [e1, e2, e3]

/-- The first coefficient stored by `CurveTimeline_setCurve` is the abscissa of the cubic at
one tenth. -/
theorem setCurve_first_coefficient (self c : CurveTimeline) (frameIndex : Int)
    (cx1 cy1 cx2 cy2 : ℚ)
    (hset : CurveTimeline_setCurve self frameIndex cx1 cy1 cx2 cy2 = some c) :
    readAt c.curves (frameIndex * 6) = some (bezier cx1 cx2 (1 / 10)) := by
  unfold CurveTimeline_setCurve at hset
  dsimp only at hset
  split at hset
  · exact absurd hset (by simp)
  rename_i l0 hw0
  split at hset
  · exact absurd hset (by simp)
  rename_i l1 hw1
  split at hset
  · exact absurd hset (by simp)
  rename_i l2 hw2
  split at hset
  · exact absurd hset (by simp)
  rename_i l3 hw3
  split at hset
  · exact absurd hset (by simp)
  rename_i l4 hw4
  split at hset
  · exact absurd hset (by simp)
  rename_i l5 hw5
  have hc : c.curves = l5 := by rw [← Option.some.inj hset]
  have r0 := readAt_writeAt_same _ _ _ _ hw0
  rw [← readAt_writeAt_ne _ _ _ _ _ hw1 (by omega), ← readAt_writeAt_ne _ _ _ _ _ hw2 (by omega),
    ← readAt_writeAt_ne _ _ _ _ _ hw3 (by omega), ← readAt_writeAt_ne _ _ _ _ _ hw4 (by omega),
    ← readAt_writeAt_ne _ _ _ _ _ hw5 (by omega), ← hc] at r0
  rw [r0]
  congr 1
  norm_num [bezier, CURVE_SEGMENTS]
  ring

/-! ## Atlas name lookup -/

theorem char_toNat_inj (a b : Char) (h : (a.toNat : Int) - (b.toNat : Int) = 0) : a = b := by
  have h1 : a.toNat = b.toNat := by omega
  rw [← Char.ofNat_toNat a, ← Char.ofNat_toNat b, h1]

/-- On a piece of the text without NUL, `strncmp` gives 0 exactly when the piece is a prefix
of the string. -/
theorem strncmp_spec (text : List Char) (n : Nat) :
    ∀ (s1 : List Char) (k : Nat), k + n ≤ text.length →
      Char.ofNat 0 ∉ (text.drop k).take n →
      ∃ r : Int, strncmp s1 text (k : Int) n = some r ∧
        (r = 0 ↔ (text.drop k).take n <+: s1) := by
  induction n with
  | zero =>
    intro s1 k _ _
    exact ⟨0, by simp [strncmp], by simp⟩
  | succ n ih =>
    intro s1 k hk hnul
    have hlt : k < text.length := by omega
    have hd : (text.drop k).take (n + 1) = text[k] :: (text.drop (k + 1)).take n := by
      rw [List.drop_eq_getElem_cons hlt, List.take_succ_cons]
    rw [hd] at hnul ⊢
    have hc2 : text[k] ≠ Char.ofNat 0 := fun h => hnul (by rw [h]; exact List.mem_cons_self _ _)
    have hnul2 : Char.ofNat 0 ∉ (text.drop (k + 1)).take n :=
      fun h => hnul (List.mem_cons_of_mem _ h)
    have hr : readAt text (k : Int) = some text[k] := by
      rw [readAt_nat, List.getElem?_eq_getElem hlt]
    cases s1 with
    | nil =>
      refine ⟨0 - (text[k].toNat : Int), by simp [strncmp, hr, hc2], ?_⟩
      constructor
      · intro h
        exact absurd (char_toNat_inj (Char.ofNat 0) text[k] (by simpa using h)).symm hc2
      · intro h
        simp at h
    | cons c1 s1 =>
      by_cases hc : c1 = text[k]
      · have hc1 : c1 ≠ Char.ofNat 0 := by rw [hc]; exact hc2
        obtain ⟨r, hr2, hiff⟩ := ih s1 (k + 1) (by omega) hnul2
        refine ⟨r, ?_, ?_⟩
        · rw [strncmp]
          simp only [hr]
          simp only [ne_eq, hc, not_true_eq_false, if_false]
          rw [← hc]
          simp only [hc1, if_false]
          exact_mod_cast hr2
        · rw [hiff, hc, List.cons_prefix_cons]
          simp
      · refine ⟨(c1.toNat : Int) - (text[k].toNat : Int), ?_, ?_⟩
        · rw [strncmp]
          simp only [hr]
          simp only [ne_eq, hc, not_false_eq_true, if_true]
        · constructor
          · intro h
            exact absurd (char_toNat_inj _ _ h) hc
          · intro h
            rw [List.cons_prefix_cons] at h
            exact absurd h.1.symm hc

/-- The loop of `indexOf` stops at the last of the first `m` names that has the token as a
prefix. -/
theorem indexOfLoop_spec (array : List String) (text : List Char) (str : Str) (length : Int)
    (k n : Nat) (hb : str.begin = (k : Int)) (hn : toSize length = n)
    (hk : k + n ≤ text.length) (hnul : Char.ofNat 0 ∉ (text.drop k).take n) :
    ∀ m : Nat, m ≤ array.length →
      ∃ r : Int, indexOfLoop array text str length m = some r ∧
        ((r = -1 ∧ ∀ (i : Nat) (s : String), i < m → array[i]? = some s →
            ¬ (text.drop k).take n <+: s.toList) ∨
          ∃ (i : Nat) (s : String), r = (i : Int) ∧ i < m ∧ array[i]? = some s ∧
            (text.drop k).take n <+: s.toList ∧
            ∀ (j : Nat) (s' : String), i < j → j < m → array[j]? = some s' →
              ¬ (text.drop k).take n <+: s'.toList) := by
  intro m
  induction m with
  | zero =>
    intro _
    exact ⟨-1, by simp [indexOfLoop], Or.inl ⟨rfl, by intro i s hi; omega⟩⟩
  | succ m ih =>
    intro hm
    have hlt : m < array.length := by omega
    have hr : readAt array (m : Int) = some array[m] := by
      rw [readAt_nat, List.getElem?_eq_getElem hlt]
    obtain ⟨r, hr2, hiff⟩ := strncmp_spec text n array[m].toList k hk hnul
    by_cases h0 : r = 0
    · refine ⟨(m : Int), ?_, Or.inr ⟨m, array[m], rfl, by omega,
        List.getElem?_eq_getElem hlt, hiff.mp h0, ?_⟩⟩
      · rw [indexOfLoop]
        simp only [hr]
        rw [hb, hn]
        simp only [hr2]
        simp [h0]
      · intro j s' h1 h2
        omega
    · obtain ⟨r', hr', hcases⟩ := ih (by omega)
      have hnot : ¬ (text.drop k).take n <+: array[m].toList := fun h => h0 (hiff.mpr h)
      refine ⟨r', ?_, ?_⟩
      · rw [indexOfLoop]
        simp only [hr]
        rw [hb, hn]
        simp only [hr2]
        simp only [h0, if_false]
        exact hr'
      · rcases hcases with ⟨hneg, hall⟩ | ⟨i, s, hri, him, hs, hpre, hlater⟩
        · refine Or.inl ⟨hneg, ?_⟩
          intro i s hi hs
          by_cases him : i = m
          · subst him
            rw [List.getElem?_eq_getElem hlt] at hs
            rw [← Option.some.inj hs]
            exact hnot
          · exact hall i s (by omega) hs
        · refine Or.inr ⟨i, s, hri, by omega, hs, hpre, ?_⟩
          intro j s' h1 h2 hs'
          by_cases hjm : j = m
          · subst hjm
            rw [List.getElem?_eq_getElem hlt] at hs'
            rw [← Option.some.inj hs']
            exact hnot
          · exact hlater j s' h1 (by omega) hs'

/-- With an empty token the loop of `indexOf` stops at once. -/
theorem indexOfLoop_empty (array : List String) (text : List Char) (str : Str) (m : Nat)
    (hm : m ≤ array.length) :
    indexOfLoop array text str 0 m = some ((m : Int) - 1) := by
  cases m with
  | zero => simp [indexOfLoop]
  | succ m =>
    have hlt : m < array.length := by omega
    have hr : readAt array (m : Int) = some array[m] := by
      rw [readAt_nat, List.getElem?_eq_getElem hlt]
    rw [indexOfLoop]
    simp only [hr]
    simp [toSize, strncmp]

/-! ## Atlas tuples -/

/-- Where the loop of `readTuple` can be left: by `return 0` only at index 0, otherwise at an
index from `i` to `i + remaining` that is not 0 unless no turn was to be made. -/
theorem readTupleLoop_index (text : List Char) :
    ∀ (remaining : Nat) (i : Int) (str : Str) (tuple : List Str) (b : Bool) (j : Int)
      (str1 : Str) (tuple1 : List Str), 0 ≤ i →
      readTupleLoop text remaining i str tuple = some (b, j, str1, tuple1) →
      (b = true → j = 0) ∧
        (b = false → i ≤ j ∧ j ≤ i + remaining ∧ (remaining ≠ 0 → j ≠ 0)) := by
  intro remaining
  induction remaining with
  | zero =>
    intro i str tuple b j str1 tuple1 _ h
    simp only [readTupleLoop, Option.some.injEq, Prod.mk.injEq] at h
    obtain ⟨hb, hj, -, -⟩ := h
    subst hb hj
    simp
  | succ n ih =>
    intro i str tuple b j str1 tuple1 hi0 h
    rw [readTupleLoop] at h
    split at h
    · exact absurd h (by simp)
    split at h
    · exact absurd h (by simp)
    split at h
    · exact absurd h (by simp)
    split at h
    · split at h
      · simp only [Option.some.injEq, Prod.mk.injEq] at h
        obtain ⟨hb, hj, -, -⟩ := h
        subst hb hj
        rename_i hi
        simp [hi]
      · simp only [Option.some.injEq, Prod.mk.injEq] at h
        obtain ⟨hb, hj, -, -⟩ := h
        subst hb hj
        rename_i hi
        exact ⟨by simp, fun _ => ⟨le_rfl, by omega, fun _ => hi⟩⟩
    · split at h
      · exact absurd h (by simp)
      split at h
      · exact absurd h (by simp)
      split at h
      · exact absurd h (by simp)
      obtain ⟨h1, h2⟩ := ih _ _ _ _ _ _ _ (by omega) h
      refine ⟨h1, fun hb => ?_⟩
      obtain ⟨h3, h4, -⟩ := h2 hb
      push_cast
      exact ⟨by omega, by omega, fun _ => by omega⟩

/-- Whenever `readTuple` returns, it returns 0, 2, 3 or 4. -/
theorem readTuple_range (text : List Char) (nextStart end_ : Int) (tuple : List Str)
    (r nextStart1 : Int) (tuple1 : List Str)
    (h : readTuple text nextStart end_ tuple = some (r, nextStart1, tuple1)) :
    r = 0 ∨ r = 2 ∨ r = 3 ∨ r = 4 := by
  unfold readTuple at h
  split at h
  · exact absurd h (by simp)
  split at h
  · exact absurd h (by simp)
  split at h
  · exact absurd h (by simp)
  split at h
  · simp only [Option.some.injEq, Prod.mk.injEq] at h
    exact Or.inl h.1.symm
  split at h
  · exact absurd h (by simp)
  · simp only [Option.some.injEq, Prod.mk.injEq] at h
    exact Or.inl h.1.symm
  · rename_i hloop
    split at h
    · exact absurd h (by simp)
    split at h
    · exact absurd h (by simp)
    simp only [Option.some.injEq, Prod.mk.injEq] at h
    obtain ⟨h1, h2, h3⟩ := (readTupleLoop_index text _ _ _ _ _ _ _ _ le_rfl hloop).2 rfl
    have h4 := h3 (by decide)
    have h5 := h.1
    omega

/-! ## Atlas lines -/

theorem readAt_append (X Y : List Char) (i : Int) (j : Nat) (h : i = (X.length : Int) + j) :
    readAt (X ++ Y) i = Y[j]? := by
  subst h
  have e : ((X.length : Int) + j) = ((X.length + j : Nat) : Int) := by push_cast; rfl
  rw [e, readAt_nat, List.getElem?_append_right (by omega)]
  congr 1
  omega

theorem readAt_mid (X L Y : List Char) (i : Int) (j : Nat) (h : i = (X.length : Int) + j)
    (hj : j < L.length) : readAt (X ++ (L ++ Y)) i = some L[j] := by
  rw [readAt_append X _ i j h, List.getElem?_append_left hj, List.getElem?_eq_getElem hj]

/-- The scan of `readLine` steps over the byte it starts on and stops at the first `\n`
after it, or at `end`. -/
theorem readLineScan_spec (text : List Char) (end_ : Int) :
    ∀ (n fuel : Nat) (p : Int), n < fuel →
      (∀ j : Nat, j < n →
        p + 1 + j ≠ end_ ∧ ∃ c, readAt text (p + 1 + j) = some c ∧ c ≠ '\n') →
      (p + 1 + n = end_ ∨ readAt text (p + 1 + n) = some '\n') →
      readLineScan text end_ fuel p = some (p + 1 + n) := by
  intro n
  induction n with
  | zero =>
    intro fuel p hf _ hstop
    obtain ⟨f, rfl⟩ : ∃ f, fuel = f + 1 := ⟨fuel - 1, by omega⟩
    rw [readLineScan]
    simp only [Nat.cast_zero, add_zero] at hstop ⊢
    by_cases he : p + 1 = end_
    · simp [he]
    · rcases hstop with h | h
      · exact absurd h he
      · simp [he, h]
  | succ n ih =>
    intro fuel p hf hall hstop
    obtain ⟨f, rfl⟩ : ∃ f, fuel = f + 1 := ⟨fuel - 1, by omega⟩
    obtain ⟨h0, c, hc, hcn⟩ := hall 0 (by omega)
    simp only [Nat.cast_zero, add_zero] at h0 hc
    rw [readLineScan]
    simp only [ne_eq, h0, not_false_eq_true, if_true, hc, hcn]
    have := ih f (p + 1) (by omega)
      (fun j hj => by
        have := hall (j + 1) (by omega)
        push_cast at this
        rw [show p + 1 + 1 + (j : Int) = p + 1 + ((j : Int) + 1) by ring]
        exact this)
      (by
        push_cast at hstop
        rw [show p + 1 + 1 + (n : Int) = p + 1 + ((n : Int) + 1) by ring]
        exact hstop)
    rw [this]
    congr 1
    push_cast
    ring

/-- The first loop of `trim` steps over the white space in front of the piece. -/
theorem trimBegin_spec (text : List Char) (end_ : Int) :
    ∀ (n fuel : Nat) (b : Int), n < fuel →
      (∀ j : Nat, j < n →
        b + j < end_ ∧ ∃ c, readAt text (b + j) = some c ∧ isspace c = true) →
      (∃ c, readAt text (b + n) = some c ∧ (isspace c = false ∨ end_ ≤ b + n)) →
      trimBegin text end_ fuel b = some (b + n) := by
  intro n
  induction n with
  | zero =>
    intro fuel b hf _ hstop
    obtain ⟨f, rfl⟩ : ∃ f, fuel = f + 1 := ⟨fuel - 1, by omega⟩
    obtain ⟨c, hc, hs⟩ := hstop
    simp only [Nat.cast_zero, add_zero] at hc hs ⊢
    rw [trimBegin]
    simp only [hc]
    rcases hs with hs | hs
    · simp [hs]
    · simp [not_lt.mpr hs]
  | succ n ih =>
    intro fuel b hf hall hstop
    obtain ⟨f, rfl⟩ : ∃ f, fuel = f + 1 := ⟨fuel - 1, by omega⟩
    obtain ⟨h0, c, hc, hcs⟩ := hall 0 (by omega)
    simp only [Nat.cast_zero, add_zero] at h0 hc
    rw [trimBegin]
    simp only [hc, hcs, h0, and_self, if_true]
    have := ih f (b + 1) (by omega)
      (fun j hj => by
        have := hall (j + 1) (by omega)
        push_cast at this
        rw [show b + 1 + (j : Int) = b + ((j : Int) + 1) by ring]
        exact this)
      (by
        push_cast at hstop
        rw [show b + 1 + (n : Int) = b + ((n : Int) + 1) by ring]
        exact hstop)
    rw [this]
    congr 1
    push_cast
    ring

/-- The second loop of `trim` steps back over the white space at the end of the piece. -/
theorem trimEnd_spec (text : List Char) (begin : Int) :
    ∀ (n fuel : Nat) (e : Int), n < fuel →
      (∀ j : Nat, j < n →
        begin ≤ e - j ∧ ∃ c, readAt text (e - j) = some c ∧ isspace c = true) →
      (∃ c, readAt text (e - n) = some c ∧ (isspace c = false ∨ e - n < begin)) →
      trimEnd text begin fuel e = some (e - n) := by
  intro n
  induction n with
  | zero =>
    intro fuel e hf _ hstop
    obtain ⟨f, rfl⟩ : ∃ f, fuel = f + 1 := ⟨fuel - 1, by omega⟩
    obtain ⟨c, hc, hs⟩ := hstop
    simp only [Nat.cast_zero, sub_zero] at hc hs ⊢
    rw [trimEnd]
    simp only [hc]
    rcases hs with hs | hs
    · simp [hs]
    · simp [not_le.mpr hs]
  | succ n ih =>
    intro fuel e hf hall hstop
    obtain ⟨f, rfl⟩ : ∃ f, fuel = f + 1 := ⟨fuel - 1, by omega⟩
    obtain ⟨h0, c, hc, hcs⟩ := hall 0 (by omega)
    simp only [Nat.cast_zero, sub_zero] at h0 hc
    rw [trimEnd]
    simp only [hc, hcs, ge_iff_le, h0, and_self, if_true]
    have := ih f (e - 1) (by omega)
      (fun j hj => by
        have := hall (j + 1) (by omega)
        push_cast at this
        rw [show e - 1 - (j : Int) = e - ((j : Int) + 1) by ring]
        exact this)
      (by
        push_cast at hstop
        rw [show e - 1 - (n : Int) = e - ((n : Int) + 1) by ring]
        exact hstop)
    rw [this]
    congr 1
    push_cast
    ring

/-- The piece between two offsets of a text given in three parts. -/
theorem slice_mid (X M Y : List Char) (b e : Int) (hb : b = (X.length : Int))
    (he : e = (X.length : Int) + M.length) : slice (X ++ (M ++ Y)) ⟨b, e⟩ = M := by
  subst hb he
  unfold slice
  simp

/-- On a piece that is white space only, followed by a byte that may be read, `trim` leaves
the empty piece at its end. -/
theorem trim_blank (pre A post : List Char) (c : Char)
    (hA : ∀ a ∈ A, isspace a = true) :
    trim (pre ++ (A ++ c :: post)) ⟨pre.length, (pre.length : Int) + A.length⟩
      = some ⟨(pre.length : Int) + A.length, (pre.length : Int) + A.length⟩ := by
  have h1 := trimBegin_spec (pre ++ (A ++ c :: post)) ((pre.length : Int) + A.length)
    A.length ((pre ++ (A ++ c :: post)).length + 1) pre.length
    (by simp only [List.length_append]; omega)
    (fun j hj => ⟨by omega, A[j], readAt_mid pre A _ _ j rfl hj, hA _ (List.getElem_mem _)⟩)
    ⟨c, by
      rw [← List.append_assoc, readAt_append (pre ++ A) _ _ 0 (by simp)]
      simp, Or.inr le_rfl⟩
  unfold trim
  simp only [h1]
  simp

/-- On a piece made of white space, a middle part that begins and ends with other
characters, and white space again, `trim` leaves the middle part. -/
theorem trim_middle (pre A M B post : List Char) (hA : ∀ a ∈ A, isspace a = true)
    (hB : ∀ a ∈ B, isspace a = true) (hM : M ≠ []) (hh : isspace (M.head hM) = false)
    (hl : isspace (M.getLast hM) = false) :
    trim (pre ++ (A ++ (M ++ (B ++ post))))
        ⟨pre.length, (pre.length : Int) + A.length + M.length + B.length⟩
      = some ⟨(pre.length : Int) + A.length, (pre.length : Int) + A.length + M.length⟩ := by
  have hMpos : 0 < M.length := List.length_pos.mpr hM
  have hlen : (pre ++ (A ++ (M ++ (B ++ post)))).length
      = pre.length + A.length + M.length + B.length + post.length := by
    simp only [List.length_append]; omega
  have hreadM : ∀ j : Nat, ∀ hj : j < M.length,
      readAt (pre ++ (A ++ (M ++ (B ++ post)))) ((pre.length : Int) + A.length + j)
        = some M[j] := by
    intro j hj
    rw [← List.append_assoc]
    exact readAt_mid (pre ++ A) M _ _ j (by simp) hj
  have hreadB : ∀ j : Nat, ∀ hj : j < B.length,
      readAt (pre ++ (A ++ (M ++ (B ++ post)))) ((pre.length : Int) + A.length + M.length + j)
        = some B[j] := by
    intro j hj
    rw [← List.append_assoc, ← List.append_assoc]
    exact readAt_mid (pre ++ A ++ M) B _ _ j (by simp only [List.length_append]; push_cast; ring) hj
  have h1 := trimBegin_spec (pre ++ (A ++ (M ++ (B ++ post))))
    ((pre.length : Int) + A.length + M.length + B.length)
    A.length ((pre ++ (A ++ (M ++ (B ++ post)))).length + 1) pre.length
    (by rw [hlen]; omega)
    (fun j hj => ⟨by omega, A[j], readAt_mid pre A _ _ j rfl hj, hA _ (List.getElem_mem _)⟩)
    ⟨M[0], by
      have := hreadM 0 hMpos
      simpa using this, Or.inl (by rw [← List.head_eq_getElem_zero hM]; exact hh)⟩
  have h2 := trimEnd_spec (pre ++ (A ++ (M ++ (B ++ post)))) ((pre.length : Int) + A.length)
    B.length ((pre ++ (A ++ (M ++ (B ++ post)))).length + 1)
    ((pre.length : Int) + A.length + M.length + B.length - 1)
    (by rw [hlen]; omega)
    (fun j hj => ⟨by omega, B[B.length - 1 - j], by
      rw [← hreadB (B.length - 1 - j) (by omega)]
      congr 1
      omega, hB _ (List.getElem_mem _)⟩)
    ⟨M[M.length - 1], by
      rw [← hreadM (M.length - 1) (by omega)]
      congr 1
      omega, Or.inl (by rw [← List.getLast_eq_getElem M hM]; exact hl)⟩
  unfold trim
  simp only [h1]
  have hne : ¬ ((pre.length : Int) + A.length
      = (pre.length : Int) + A.length + M.length + B.length) := by omega
  simp only [hne, if_false, h2]
  congr 2
  omega

theorem rdropWhile_append_rtakeWhile (p : Char → Bool) (l : List Char) :
    l.rdropWhile p ++ l.rtakeWhile p = l := by
  rw [List.rdropWhile, List.rtakeWhile, ← List.reverse_append, List.takeWhile_append_dropWhile,
    List.reverse_reverse]

/-- What `trim` does, in the words of `trimSpec`: on a line that lies in the text from
offset `pre.length`, it leaves the line without the white space at its two ends, provided
the line has other characters or a byte follows it. -/
theorem trim_trimSpec (pre L post : List Char) (h : trimSpec L ≠ [] ∨ post ≠ []) :
    ∃ s : Str, trim (pre ++ (L ++ post)) ⟨pre.length, (pre.length : Int) + L.length⟩ = some s ∧
      slice (pre ++ (L ++ post)) s = trimSpec L ∧
      s.end_ - s.begin = (trimSpec L).length := by
  have hAD : L.takeWhile isspace ++ L.dropWhile isspace = L := List.takeWhile_append_dropWhile _ _
  have hMB := rdropWhile_append_rtakeWhile isspace (L.dropWhile isspace)
  have hA : ∀ a ∈ L.takeWhile isspace, isspace a = true := fun a ha => List.mem_takeWhile_imp ha
  have hB : ∀ a ∈ (L.dropWhile isspace).rtakeWhile isspace, isspace a = true :=
    fun a ha => List.mem_rtakeWhile_imp ha
  by_cases hD : L.dropWhile isspace = []
  · have hT : trimSpec L = [] := by rw [trimSpec, hD]; rfl
    have hpost : post ≠ [] := by
      rcases h with h | h
      · exact absurd hT h
      · exact h
    obtain ⟨c, post1, rfl⟩ := List.exists_cons_of_ne_nil hpost
    have hL : L.takeWhile isspace = L := by
      have e := hAD
      rw [hD, List.append_nil] at e
      exact e
    have := trim_blank pre L post1 c (by rw [← hL]; exact hA)
    refine ⟨_, this, ?_, by simp [hT]⟩
    rw [hT]
    have e := slice_mid (pre ++ L) [] (c :: post1) ((pre.length : Int) + L.length)
      ((pre.length : Int) + L.length) (by simp) (by simp)
    simpa [List.append_assoc] using e
  · have hT : trimSpec L ≠ [] := by
      rw [trimSpec, Ne, List.rdropWhile_eq_nil_iff]
      intro hall
      have hne : 0 < (L.dropWhile isspace).length := List.length_pos.mpr hD
      have h1 := List.dropWhile_get_zero_not isspace L hne
      exact h1 (hall _ (List.get_mem _ _ _))
    have hhead : isspace ((trimSpec L).head hT) = false := by
      have e1 : (trimSpec L).head hT = (L.dropWhile isspace).head hD := by
        have : (trimSpec L ++ (L.dropWhile isspace).rtakeWhile isspace).head
            (by simp [hT]) = (L.dropWhile isspace).head hD := by
          congr 1
        rw [← this, List.head_append_of_ne_nil]
      rw [e1]
      simpa using List.head_dropWhile_not isspace L hD
    have hlast : isspace ((trimSpec L).getLast hT) = false := by
      simpa using List.rdropWhile_last_not isspace (L.dropWhile isspace) hT
    have := trim_middle pre (L.takeWhile isspace) (trimSpec L)
      ((L.dropWhile isspace).rtakeWhile isspace) post hA hB hT hhead hlast
    have hLeq : L = L.takeWhile isspace ++ (trimSpec L ++
        (L.dropWhile isspace).rtakeWhile isspace) := by
      rw [trimSpec, hMB, hAD]
    have hlen : (L.length : Int) = (L.takeWhile isspace).length + (trimSpec L).length
        + ((L.dropWhile isspace).rtakeWhile isspace).length := by
      conv_lhs => rw [hLeq]
      simp only [List.length_append]
      push_cast
      ring
    have htext : pre ++ (L ++ post) = pre ++ (L.takeWhile isspace ++ (trimSpec L ++
        ((L.dropWhile isspace).rtakeWhile isspace ++ post))) := by
      conv_lhs => rw [hLeq]
      simp only [List.append_assoc]
    refine ⟨⟨(pre.length : Int) + (L.takeWhile isspace).length,
      (pre.length : Int) + (L.takeWhile isspace).length + (trimSpec L).length⟩, ?_, ?_, ?_⟩
    · rw [htext, hlen, ← add_assoc, ← add_assoc]
      exact this
    · rw [htext, ← List.append_assoc]
      exact slice_mid _ _ _ _ _ (by simp) (by simp)
    · simp

/-- The scan of `readLine` ends beyond the byte it starts on. -/
theorem readLineScan_gt (text : List Char) (end_ : Int) :
    ∀ (fuel : Nat) (p q : Int), readLineScan text end_ fuel p = some q → p < q := by
  intro fuel
  induction fuel with
  | zero =>
    intro p q h
    simp [readLineScan] at h
  | succ f ih =>
    intro p q h
    rw [readLineScan] at h
    split at h
    · split at h
      · exact absurd h (by simp)
      · split at h
        · have := ih _ _ h
          omega
        · have := Option.some.inj h
          omega
    · have := Option.some.inj h
      omega

/-- A call of `readLine` that returns 1 moves `nextStart` forward. -/
theorem readLine_advances (text : List Char) (nextStart end_ : Int) (str s : Str)
    (nextStart1 : Int)
    (h : readLine text nextStart none end_ str = some (1, nextStart1, s)) :
    nextStart < nextStart1 := by
  unfold readLine at h
  dsimp only at h
  split at h
  · simp at h
  · split at h
    · exact absurd h (by simp)
    · rename_i q hq
      have hlt := readLineScan_gt _ _ _ _ _ hq
      split at h
      · exact absurd h (by simp)
      · split at h
        · simp only [Option.some.injEq, Prod.mk.injEq] at h
          omega
        · simp only [Option.some.injEq, Prod.mk.injEq] at h
          omega

/-- One call of `readLine` on a text that ends where `end` points: from the first byte of
a line `c :: L` with no `\n` after `c`, that is followed by `\n` or by the end of the text,
it returns 1, gives the line without the white space at its two ends, and leaves
`nextStart` after the `\n` or at the end. -/
theorem readLine_line (pre L rest : List Char) (c : Char) (str : Str) (hn : '\n' ∉ L)
    (hrest : rest = [] ∨ rest.head? = some '\n')
    (h : trimSpec (c :: L) ≠ [] ∨ rest ≠ []) :
    ∃ s : Str,
      readLine (pre ++ (c :: L ++ rest)) pre.length none
          ((pre ++ (c :: L ++ rest)).length : Int) str
        = some (1, (pre.length : Int) + (c :: L).length + (if rest = [] then 0 else 1), s) ∧
      slice (pre ++ (c :: L ++ rest)) s = trimSpec (c :: L) ∧
      s.end_ - s.begin = (trimSpec (c :: L)).length := by
  have hlen : ((pre ++ (c :: L ++ rest)).length : Int)
      = (pre.length : Int) + (L.length + 1) + rest.length := by
    simp only [List.length_append, List.length_cons]
    push_cast
    ring
  have hscan := readLineScan_spec (pre ++ (c :: L ++ rest))
    ((pre ++ (c :: L ++ rest)).length : Int) L.length
    ((pre ++ (c :: L ++ rest)).length + 1) pre.length
    (by simp only [List.length_append, List.length_cons]; omega)
    (fun j hj => ⟨by rw [hlen]; omega, L[j], by
      have := readAt_mid pre (c :: L) rest ((pre.length : Int) + 1 + j) (j + 1)
        (by push_cast; ring) (by simp only [List.length_cons]; omega)
      simpa using this, fun hc => hn (by rw [← hc]; exact List.getElem_mem _)⟩)
    (by
      rcases hrest with hr | hr
      · left
        rw [hlen, hr]
        simp only [List.length_nil, Nat.cast_zero, add_zero]
        omega
      · right
        obtain ⟨d, rest1, rfl⟩ : ∃ d rest1, rest = d :: rest1 := by
          cases rest with
          | nil => simp at hr
          | cons d rest1 => exact ⟨d, rest1, rfl⟩
        simp only [List.head?_cons, Option.some.injEq] at hr
        subst hr
        rw [← List.append_assoc, readAt_append (pre ++ (c :: L)) _ _ 0
          (by simp only [List.length_append, List.length_cons]; push_cast; ring)]
        simp)
  obtain ⟨s, hs, hslice, hsl⟩ := trim_trimSpec pre (c :: L) rest h
  refine ⟨s, ?_, hslice, hsl⟩
  unfold readLine
  dsimp only
  have hne : ¬ ((pre.length : Int) = ((pre ++ (c :: L ++ rest)).length : Int)) := by
    rw [hlen]; omega
  simp only [hne, if_false, hscan]
  have e : (pre.length : Int) + 1 + L.length = (pre.length : Int) + (c :: L).length := by
    simp only [List.length_cons]; push_cast; ring
  rw [e]
  simp only [hs]
  by_cases hr : rest = []
  · subst hr
    simp
  · have : ¬ ((pre.length : Int) + (c :: L).length = ((pre ++ (c :: L ++ rest)).length : Int)) := by
      rw [hlen]
      have : 0 < rest.length := List.length_pos.mpr hr
      simp only [List.length_cons]
      push_cast
      omega
    simp [hr, this]

theorem trimSpec_newline_cons (L : List Char) : trimSpec ('\n' :: L) = trimSpec L := by
  unfold trimSpec
  rw [List.dropWhile_cons_of_pos (by decide)]

theorem trimSpec_ne_nil (L : List Char) (h : ∃ c ∈ L, isspace c = false) : trimSpec L ≠ [] := by
  obtain ⟨c, hc, hs⟩ := h
  unfold trimSpec
  rw [Ne, List.rdropWhile_eq_nil_iff]
  intro hall
  have hD : L.dropWhile isspace ≠ [] := by
    rw [Ne, List.dropWhile_eq_nil_iff]
    intro h2
    rw [h2 c hc] at hs
    exact absurd hs (by decide)
  have hne : 0 < (L.dropWhile isspace).length := List.length_pos.mpr hD
  exact List.dropWhile_get_zero_not isspace L hne (hall _ (List.get_mem _ _ _))

/-! ## Rounding to binary32 -/

theorem roundHalfEven_intCast (n : ℤ) : Rounded.roundHalfEven (n : ℚ) = n := by
  simp [Rounded.roundHalfEven]

/-- A rational nearer than one half to an integer rounds to it. -/
theorem roundHalfEven_of_near (x : ℚ) (m : ℤ) (h : |x - m| < 1 / 2) :
    Rounded.roundHalfEven x = m := by
  rw [abs_lt] at h
  obtain ⟨h1, h2⟩ := h
  unfold Rounded.roundHalfEven
  by_cases hx : (m : ℚ) ≤ x
  · have hf : ⌊x⌋ = m := by
      rw [Int.floor_eq_iff]
      constructor
      · exact hx
      · linarith
    rw [hf]
    have : x - (m : ℚ) < 1 / 2 := by linarith
    rw [if_pos this]
  · have hx2 : x < m := not_le.mp hx
    have hf : ⌊x⌋ = m - 1 := by
      rw [Int.floor_eq_iff]
      push_cast
      constructor <;> linarith
    rw [hf]
    push_cast
    have h3 : ¬ (x - ((m : ℚ) - 1) < 1 / 2) := by
      rw [not_lt]; linarith
    have h4 : 1 / 2 < x - ((m : ℚ) - 1) := by linarith
    simp only [h3, if_false, h4, if_true]
    ring

/-- A rational half way between two integers rounds to the even one. -/
theorem roundHalfEven_of_tie (x : ℚ) (m : ℤ) (h : x = m + 1 / 2) :
    Rounded.roundHalfEven x = if m % 2 = 0 then m else m + 1 := by
  have hf : ⌊x⌋ = m := by
    rw [Int.floor_eq_iff]
    constructor <;> linarith
  unfold Rounded.roundHalfEven
  rw [hf]
  have h1 : ¬ (x - (m : ℚ) < 1 / 2) := by rw [not_lt]; linarith
  have h2 : ¬ (1 / 2 < x - (m : ℚ)) := by rw [not_lt]; linarith
  simp only [h1, h2, if_false]

/-- The exponent of the last place of a normal number. -/
theorem ulpExponent_eq (q : ℚ) (k : ℤ) (h1 : (2 : ℚ) ^ k ≤ |q|) (h2 : |q| < (2 : ℚ) ^ (k + 1))
    (hk : -126 ≤ k) : Rounded.ulpExponent q = k - 23 := by
  have hpos : 0 < |q| := lt_of_lt_of_le (by positivity) h1
  have hlog : Int.log 2 |q| = k := by
    apply le_antisymm
    · have := (Int.lt_zpow_iff_log_lt (by norm_num : 1 < 2) hpos).mp (by exact_mod_cast h2)
      omega
    · exact (Int.zpow_le_iff_le_log (by norm_num : 1 < 2) hpos).mp (by exact_mod_cast h1)
  unfold Rounded.ulpExponent
  rw [hlog, max_eq_left hk]

/-- How `binary32` is evaluated: with the exponent of the last place and the rounded
significand at hand. -/
theorem binary32_eq (q : ℚ) (e m : ℤ) (he : Rounded.ulpExponent q = e)
    (hm : Rounded.roundHalfEven (q / 2 ^ e) = m) (hfin : |(m : ℚ) * 2 ^ e| < 2 ^ 128) :
    Rounded.binary32 q = some ((m : ℚ) * 2 ^ e) := by
  unfold Rounded.binary32
  simp only [he, hm, hfin, if_true]

/-- A binary32 number, `m * 2 ^ e` with `|m| < 2 ^ 24` and `-149 ≤ e ≤ 104`, is its own
rounding. -/
theorem binary32_of_float (m e : ℤ) (hm : |m| < 2 ^ 24) (he : -149 ≤ e) (he2 : e ≤ 104) :
    Rounded.binary32 ((m : ℚ) * 2 ^ e) = some ((m : ℚ) * 2 ^ e) := by
  by_cases hm0 : m = 0
  · subst hm0
    have : Rounded.ulpExponent 0 = -23 := by
      simp [Rounded.ulpExponent, Int.log_zero_right]
    simp only [Int.cast_zero, zero_mul]
    have h := binary32_eq 0 (-23) 0 this (by simp [Rounded.roundHalfEven]) (by simp)
    simpa using h
  · have hmq : |(m : ℚ)| < 2 ^ 24 := by exact_mod_cast hm
    have hm1 : (1 : ℚ) ≤ |(m : ℚ)| := by
      have : 1 ≤ |m| := Int.one_le_abs hm0
      exact_mod_cast this
    have h2pos : (0 : ℚ) < 2 ^ e := by positivity
    have habs : |(m : ℚ) * 2 ^ e| = |(m : ℚ)| * 2 ^ e := by
      rw [abs_mul, abs_of_pos h2pos]
    have hpos : 0 < |(m : ℚ) * 2 ^ e| := by rw [habs]; positivity
    have hlt : |(m : ℚ) * 2 ^ e| < (2 : ℚ) ^ (e + 24) := by
      rw [habs, zpow_add₀ (by norm_num), mul_comm]
      exact mul_lt_mul_of_pos_left (by exact_mod_cast hmq) h2pos
    have hlog : Int.log 2 |(m : ℚ) * 2 ^ e| < e + 24 :=
      (Int.lt_zpow_iff_log_lt (by norm_num : 1 < 2) hpos).mp (by exact_mod_cast hlt)
    have hE : Rounded.ulpExponent ((m : ℚ) * 2 ^ e) ≤ e := by
      unfold Rounded.ulpExponent
      rcases max_cases (Int.log 2 |(m : ℚ) * 2 ^ e|) (-126) with ⟨h, _⟩ | ⟨h, _⟩ <;>
        rw [h] <;> omega
    obtain ⟨d, hd⟩ : ∃ d : ℕ, e = Rounded.ulpExponent ((m : ℚ) * 2 ^ e) + d :=
      ⟨(e - Rounded.ulpExponent ((m : ℚ) * 2 ^ e)).toNat, by omega⟩
    have hdiv : (m : ℚ) * 2 ^ e / 2 ^ Rounded.ulpExponent ((m : ℚ) * 2 ^ e)
        = ((m * 2 ^ d : ℤ) : ℚ) := by
      have h0 : (2 : ℚ) ^ Rounded.ulpExponent ((m : ℚ) * 2 ^ e) ≠ 0 := by positivity
      rw [div_eq_iff h0]
      conv_lhs => rw [hd]
      rw [zpow_add₀ (by norm_num), zpow_natCast]
      push_cast
      ring
    have h := binary32_eq ((m : ℚ) * 2 ^ e) _ (m * 2 ^ d) rfl
      (by rw [hdiv, roundHalfEven_intCast])
      (by
        rw [← hdiv, div_mul_cancel₀ _ (by positivity)]
        calc |(m : ℚ) * 2 ^ e| < (2 : ℚ) ^ (e + 24) := hlt
          _ ≤ (2 : ℚ) ^ (128 : ℤ) := zpow_le_zpow_right₀ (by norm_num) (by omega)
          _ = 2 ^ 128 := by norm_num)
    rw [h, ← hdiv, div_mul_cancel₀ _ (by positivity)]

/-- Evaluation of `binary32` at a normal number that is not half way between two binary32
numbers. -/
theorem binary32_near (q : ℚ) (k m : ℤ) (hk : -126 ≤ k) (h1 : (2 : ℚ) ^ k ≤ |q|)
    (h2 : |q| < (2 : ℚ) ^ (k + 1)) (hm : |q / 2 ^ (k - 23) - m| < 1 / 2)
    (hfin : |(m : ℚ) * 2 ^ (k - 23)| < 2 ^ 128) :
    Rounded.binary32 q = some ((m : ℚ) * 2 ^ (k - 23)) :=
  binary32_eq q (k - 23) m (ulpExponent_eq q k h1 h2 hk) (roundHalfEven_of_near _ _ hm) hfin

/-- Evaluation of `binary32` at a normal number half way between two binary32 numbers, the
lower of which has the even significand `m`. -/
theorem binary32_tie_even (q : ℚ) (k m : ℤ) (hk : -126 ≤ k) (h1 : (2 : ℚ) ^ k ≤ |q|)
    (h2 : |q| < (2 : ℚ) ^ (k + 1)) (hm : q / 2 ^ (k - 23) = m + 1 / 2) (heven : m % 2 = 0)
    (hfin : |(m : ℚ) * 2 ^ (k - 23)| < 2 ^ 128) :
    Rounded.binary32 q = some ((m : ℚ) * 2 ^ (k - 23)) :=
  binary32_eq q (k - 23) m (ulpExponent_eq q k h1 h2 hk)
    (by rw [roundHalfEven_of_tie _ _ hm, if_pos heven]) hfin

/-! ## The timelines in float arithmetic -/

theorem fadd_some (fl : ℚ → Option ℚ) (a b : ℚ) :
    Rounded.fadd fl (some a) (some b) = fl (a + b) := by
  simp only [Rounded.fadd]

theorem fsub_some (fl : ℚ → Option ℚ) (a b : ℚ) :
    Rounded.fsub fl (some a) (some b) = fl (a - b) := by
  simp only [Rounded.fsub]

theorem fmul_some (fl : ℚ → Option ℚ) (a b : ℚ) :
    Rounded.fmul fl (some a) (some b) = fl (a * b) := by
  simp only [Rounded.fmul]

theorem fdiv_some (fl : ℚ → Option ℚ) (a b : ℚ) (hb : b ≠ 0) :
    Rounded.fdiv fl (some a) (some b) = fl (a / b) := by
  simp [Rounded.fdiv, hb]

/-- At or after its last keyframe a Translate timeline moves the bone toward the setup
position plus the last keyframe's values, whatever the rounding. -/
theorem Rounded_TranslateTimeline_apply_after_last (fl : ℚ → Option ℚ) (self : BaseTimeline)
    (skeleton : Skeleton) (bone : Bone) (time alpha : ℚ) (n : Nat) (hn : 1 ≤ n)
    (hwf : self.WellFormed 3 n) (hbone : readAt skeleton.bones self.boneIndex = some bone)
    (htime : frameAt self.frames 3 (n - 1) 0 ≤ time) :
    Rounded._TranslateTimeline_apply fl self skeleton time alpha
      = Rounded.translateTo fl skeleton self.boneIndex bone
          (Rounded.fadd fl bone.data.x (frameAt self.frames 3 (n - 1) 1))
          (Rounded.fadd fl bone.data.y (frameAt self.frames 3 (n - 1) 2)) alpha := by
  obtain ⟨⟨hlen, hfl, hinc⟩, hcurves⟩ := hwf
  have hkey : Keyframes self.frames self.framesLength 3 n := ⟨hlen, hfl, hinc⟩
  have r0 := readAt_frame self.frames 3 n 0 0 0 hlen (by omega) (by omega) rfl
  have r1 := readAt_frame self.frames 3 n (n - 1) 0 (self.framesLength - 3) hlen (by omega)
    (by omega) (by omega)
  have r2 := readAt_frame self.frames 3 n (n - 1) 1 (self.framesLength - 2) hlen (by omega)
    (by omega) (by omega)
  have r3 := readAt_frame self.frames 3 n (n - 1) 2 (self.framesLength - 1) hlen (by omega)
    (by omega) (by omega)
  have hmono := hkey.time_mono (n - 1) (by omega) 0 (by omega)
  have hnot0 : ¬ time < frameAt self.frames 3 0 0 := not_lt.mpr (le_trans hmono htime)
  unfold Rounded._TranslateTimeline_apply Rounded.translateTo Rounded.blend
  simp only [r0, hnot0, if_false]
  simp only [hbone]
  simp only [r1]
  simp only [ge_iff_le, htime, if_true]
  simp only [r2]
  simp only [r3]

/-- Between keyframes `k - 1` and `k` the locator returns the offset of keyframe `k`; the
time is then not before the first keyframe and before the last. -/
theorem segment_search (frames : List ℚ) (framesLength : Int) (step n k : Nat) (time : ℚ)
    (hkey : Keyframes frames framesLength step n) (hstep : 0 < step)
    (hk1 : 1 ≤ k) (hk : k < n) (hlo : frameAt frames step (k - 1) 0 ≤ time)
    (hhi : time < frameAt frames step k 0) :
    binarySearch frames framesLength time step = some ((k : Int) * step) ∧
      frameAt frames step 0 0 ≤ time ∧ time < frameAt frames step (n - 1) 0 := by
  have h0 : frameAt frames step 0 0 ≤ time :=
    le_trans (hkey.time_mono (k - 1) (by omega) 0 (by omega)) hlo
  have h1 : time < frameAt frames step (n - 1) 0 :=
    lt_of_lt_of_le hhi (hkey.time_mono (n - 1) (by omega) k (by omega))
  obtain ⟨hlen, hfl, hinc⟩ := hkey
  have hkey2 : Keyframes frames ((n * step : Nat) : Int) step n := ⟨hlen, rfl, hinc⟩
  obtain ⟨k', hs, hk1', hk', hlo', hhi', _⟩ :=
    binarySearch_segment frames time step n hkey2 hstep (by omega) h0 h1
  have hkk : k' = k := segment_unique hkey2 hk1' hk' hlo' hhi' hk1 hk hlo hhi
  subst hkk
  rw [hfl]
  exact ⟨hs, h0, h1⟩

/-- Between keyframes `k - 1` and `k` a Translate timeline hands the clamped progress to the
curve evaluator at entry `k - 1` and moves the bone toward the setup position plus the
interpolated keyframe values, whatever the rounding. -/
theorem Rounded_TranslateTimeline_apply_between (fl : ℚ → Option ℚ) (self : BaseTimeline)
    (skeleton : Skeleton) (bone : Bone) (time alpha : ℚ) (n k : Nat)
    (hwf : self.WellFormed 3 n) (hbone : readAt skeleton.bones self.boneIndex = some bone)
    (hk1 : 1 ≤ k) (hk : k < n) (hlo : frameAt self.frames 3 (k - 1) 0 ≤ time)
    (hhi : time < frameAt self.frames 3 k 0) :
    Rounded._TranslateTimeline_apply fl self skeleton time alpha
      = match Rounded.progress fl time (frameAt self.frames 3 (k - 1) 0)
          (frameAt self.frames 3 k 0) with
        | none => none
        | some percent =>
        match Rounded.CurveTimeline_getCurvePercent fl self.super ((k - 1 : Nat) : Int)
          (clampPercent percent) with
        | none => none
        | some percent =>
        Rounded.translateTo fl skeleton self.boneIndex bone
          (Rounded.fadd fl (Rounded.fadd fl bone.data.x (frameAt self.frames 3 (k - 1) 1))
            (Rounded.fmul fl
              (Rounded.fsub fl (frameAt self.frames 3 k 1) (frameAt self.frames 3 (k - 1) 1))
              percent))
          (Rounded.fadd fl (Rounded.fadd fl bone.data.y (frameAt self.frames 3 (k - 1) 2))
            (Rounded.fmul fl
              (Rounded.fsub fl (frameAt self.frames 3 k 2) (frameAt self.frames 3 (k - 1) 2))
              percent))
          alpha := by
  obtain ⟨hs, h0, h1⟩ := segment_search self.frames self.framesLength 3 n k time hwf.1
    (by omega) hk1 hk hlo hhi
  obtain ⟨⟨hlen, hfl, hinc⟩, hcurves⟩ := hwf
  have r0 := readAt_frame self.frames 3 n 0 0 0 hlen (by omega) (by omega) rfl
  have r1 := readAt_frame self.frames 3 n (n - 1) 0 (self.framesLength - 3) hlen (by omega)
    (by omega) (by omega)
  have r2 := readAt_frame self.frames 3 n (k - 1) 1 ((k : Int) * 3 - 2) hlen
    (by omega) (by omega) (by omega)
  have r3 := readAt_frame self.frames 3 n (k - 1) 2 ((k : Int) * 3 - 1) hlen
    (by omega) (by omega) (by omega)
  have r4 := readAt_frame self.frames 3 n k 0 ((k : Int) * 3) hlen hk
    (by omega) (by omega)
  have r5 := readAt_frame self.frames 3 n (k - 1) 0
    ((k : Int) * 3 + TRANSLATE_LAST_FRAME_TIME) hlen (by omega) (by omega)
    (by unfold TRANSLATE_LAST_FRAME_TIME; omega)
  have r6 := readAt_frame self.frames 3 n k 1 ((k : Int) * 3 + TRANSLATE_FRAME_X) hlen
    hk (by omega) (by unfold TRANSLATE_FRAME_X; omega)
  have r7 := readAt_frame self.frames 3 n k 2 ((k : Int) * 3 + TRANSLATE_FRAME_Y) hlen
    hk (by omega) (by unfold TRANSLATE_FRAME_Y; omega)
  have hidx : Int.tdiv ((k : Int) * 3) 3 - 1 = ((k - 1 : Nat) : Int) := by
    have : Int.tdiv ((k : Int) * 3) 3 = k := Int.mul_tdiv_cancel _ (by norm_num)
    rw [this]; omega
  have hnot0 : ¬ time < frameAt self.frames 3 0 0 := not_lt.mpr h0
  have hnot1 : ¬ frameAt self.frames 3 (n - 1) 0 ≤ time := not_le.mpr h1
  simp only [Nat.cast_ofNat] at hs
  unfold Rounded._TranslateTimeline_apply Rounded.translateTo Rounded.blend Rounded.progress
  simp only [r0, hnot0, if_false]
  simp only [hbone]
  simp only [r1]
  simp only [ge_iff_le, hnot1, if_false]
  simp only [hs]
  simp only [r2]
  simp only [r3]
  simp only [r4]
  simp only [r5]
  simp only [hidx]
  simp only [r6]
  simp only [r7]

/-- In exact arithmetic the raw progress is `(time - tLower) / (tUpper - tLower)`. -/
theorem progress_unrounded (time tLower tUpper : ℚ) (h0 : tLower ≤ time) (h1 : time < tUpper) :
    Rounded.progress Rounded.unrounded time tLower tUpper
      = some ((time - tLower) / (tUpper - tLower)) := by
  have hne : tLower - tUpper ≠ 0 := by
    intro h
    linarith
  unfold Rounded.progress
  rw [fsub_some, fsub_some]
  simp only [Rounded.unrounded]
  rw [fdiv_some _ _ _ hne]
  simp only [Rounded.unrounded]
  rw [fsub_some]
  simp only [Rounded.unrounded]
  rw [percent_eq_raw _ _ _ h0 h1]

theorem blend_unrounded (current target alpha : ℚ) :
    Rounded.blend Rounded.unrounded current (some target) alpha
      = some (current + (target - current) * alpha) := by
  simp only [Rounded.blend, fsub_some, fmul_some, fadd_some, Rounded.unrounded]

theorem translateTo_unrounded (skeleton : Skeleton) (boneIndex : Int) (bone : Bone)
    (targetX targetY alpha : ℚ) (hbone : readAt skeleton.bones boneIndex = some bone) :
    Rounded.translateTo Rounded.unrounded skeleton boneIndex bone (some targetX) (some targetY)
        alpha
      = some { skeleton with
          bones := skeleton.bones.set boneIndex.toNat
            { bone with
              x := bone.x + (targetX - bone.x) * alpha
              y := bone.y + (targetY - bone.y) * alpha } } := by
  unfold Rounded.translateTo
  simp only [blend_unrounded]
  exact setBone_of_readAt _ _ _ _ hbone

/-- How a blend is evaluated, one operation after the other. -/
theorem blend_eq (fl : ℚ → Option ℚ) (current : ℚ) (target : Option ℚ) (alpha t d e r : ℚ)
    (h0 : target = some t) (h1 : fl (t - current) = some d) (h2 : fl (d * alpha) = some e)
    (h3 : fl (current + e) = some r) : Rounded.blend fl current target alpha = some r := by
  subst h0
  unfold Rounded.blend
  rw [fsub_some, h1, fmul_some, h2, fadd_some, h3]

theorem translateTo_eq (fl : ℚ → Option ℚ) (skeleton : Skeleton) (boneIndex : Int)
    (bone : Bone) (targetX targetY : Option ℚ) (alpha x y : ℚ)
    (hx : Rounded.blend fl bone.x targetX alpha = some x)
    (hy : Rounded.blend fl bone.y targetY alpha = some y) :
    Rounded.translateTo fl skeleton boneIndex bone targetX targetY alpha
      = setBone skeleton boneIndex { bone with x := x, y := y } := by
  unfold Rounded.translateTo
  simp only [hx, hy]

theorem scaleTo_eq (fl : ℚ → Option ℚ) (skeleton : Skeleton) (boneIndex : Int)
    (bone : Bone) (targetX targetY : Option ℚ) (alpha x y : ℚ)
    (hx : Rounded.blend fl bone.scaleX targetX alpha = some x)
    (hy : Rounded.blend fl bone.scaleY targetY alpha = some y) :
    Rounded.scaleTo fl skeleton boneIndex bone targetX targetY alpha
      = setBone skeleton boneIndex { bone with scaleX := x, scaleY := y } := by
  unfold Rounded.scaleTo
  simp only [hx, hy]

theorem exampleTranslateHalf_wellFormed : exampleTranslateHalf.WellFormed 3 2 := by
  refine ⟨⟨rfl, rfl, ?_⟩, rfl⟩
  intro k hk
  have : k = 0 := by omega
  subst this
  norm_num [frameAt, exampleTranslateHalf]

theorem binary32_half : Rounded.binary32 (1 / 2) = some (1 / 2) := by
  have h := binary32_of_float 1 (-1) (by norm_num) (by norm_num) (by norm_num)
  norm_num at h
  exact h

theorem binary32_zero : Rounded.binary32 0 = some 0 := by
  have h := binary32_of_float 0 0 (by norm_num) (by norm_num) (by norm_num)
  norm_num at h
  exact h

/-- In binary32, `1/2 - 2 ^ 24` is half way between `-(2 ^ 24 - 1)` and `-2 ^ 24` and
rounds to the latter. -/
theorem binary32_half_sub : Rounded.binary32 (1 / 2 - 16777216) = some (-16777216) := by
  have h := binary32_tie_even (1 / 2 - 16777216) 23 (-16777216) (by norm_num)
    (by norm_num [abs_of_neg]) (by norm_num [abs_of_neg]) (by norm_num) (by norm_num)
    (by norm_num [abs_of_neg])
  rw [h]
  norm_num

theorem binary32_neg_two_pow : Rounded.binary32 (-16777216) = some (-16777216) := by
  have h := binary32_of_float (-1) 24 (by norm_num) (by norm_num) (by norm_num)
  norm_num at h
  exact h

/-- At or after its last keyframe a Scale timeline moves the bone's scale toward the setup
scale minus 1 plus the last keyframe's values, whatever the rounding. -/
theorem Rounded_ScaleTimeline_apply_after_last (fl : ℚ → Option ℚ) (self : BaseTimeline)
    (skeleton : Skeleton) (bone : Bone) (time alpha : ℚ) (n : Nat) (hn : 1 ≤ n)
    (hwf : self.WellFormed 3 n) (hbone : readAt skeleton.bones self.boneIndex = some bone)
    (htime : frameAt self.frames 3 (n - 1) 0 ≤ time) :
    Rounded._ScaleTimeline_apply fl self skeleton time alpha
      = Rounded.scaleTo fl skeleton self.boneIndex bone
          (Rounded.fadd fl (Rounded.fsub fl bone.data.scaleX (1 : ℚ))
            (frameAt self.frames 3 (n - 1) 1))
          (Rounded.fadd fl (Rounded.fsub fl bone.data.scaleY (1 : ℚ))
            (frameAt self.frames 3 (n - 1) 2)) alpha := by
  obtain ⟨⟨hlen, hfl, hinc⟩, hcurves⟩ := hwf
  have hkey : Keyframes self.frames self.framesLength 3 n := ⟨hlen, hfl, hinc⟩
  have r0 := readAt_frame self.frames 3 n 0 0 0 hlen (by omega) (by omega) rfl
  have r1 := readAt_frame self.frames 3 n (n - 1) 0 (self.framesLength - 3) hlen (by omega)
    (by omega) (by omega)
  have r2 := readAt_frame self.frames 3 n (n - 1) 1 (self.framesLength - 2) hlen (by omega)
    (by omega) (by omega)
  have r3 := readAt_frame self.frames 3 n (n - 1) 2 (self.framesLength - 1) hlen (by omega)
    (by omega) (by omega)
  have hmono := hkey.time_mono (n - 1) (by omega) 0 (by omega)
  have hnot0 : ¬ time < frameAt self.frames 3 0 0 := not_lt.mpr (le_trans hmono htime)
  unfold Rounded._ScaleTimeline_apply Rounded.scaleTo Rounded.blend
  simp only [r0, hnot0, if_false]
  simp only [hbone]
  simp only [r1]
  simp only [ge_iff_le, htime, if_true]
  simp only [r2]
  simp only [r3]

/-- Between keyframes `k - 1` and `k` a Scale timeline hands the clamped progress to the
curve evaluator at entry `k - 1` and moves the bone's scale toward the setup scale minus 1
plus the interpolated keyframe values, whatever the rounding. -/
theorem Rounded_ScaleTimeline_apply_between (fl : ℚ → Option ℚ) (self : BaseTimeline)
    (skeleton : Skeleton) (bone : Bone) (time alpha : ℚ) (n k : Nat)
    (hwf : self.WellFormed 3 n) (hbone : readAt skeleton.bones self.boneIndex = some bone)
    (hk1 : 1 ≤ k) (hk : k < n) (hlo : frameAt self.frames 3 (k - 1) 0 ≤ time)
    (hhi : time < frameAt self.frames 3 k 0) :
    Rounded._ScaleTimeline_apply fl self skeleton time alpha
      = match Rounded.progress fl time (frameAt self.frames 3 (k - 1) 0)
          (frameAt self.frames 3 k 0) with
        | none => none
        | some percent =>
        match Rounded.CurveTimeline_getCurvePercent fl self.super ((k - 1 : Nat) : Int)
          (clampPercent percent) with
        | none => none
        | some percent =>
        Rounded.scaleTo fl skeleton self.boneIndex bone
          (Rounded.fadd fl (Rounded.fadd fl (Rounded.fsub fl bone.data.scaleX (1 : ℚ)) (frameAt self.frames 3 (k - 1) 1))
            (Rounded.fmul fl
              (Rounded.fsub fl (frameAt self.frames 3 k 1) (frameAt self.frames 3 (k - 1) 1))
              percent))
          (Rounded.fadd fl (Rounded.fadd fl (Rounded.fsub fl bone.data.scaleY (1 : ℚ)) (frameAt self.frames 3 (k - 1) 2))
            (Rounded.fmul fl
              (Rounded.fsub fl (frameAt self.frames 3 k 2) (frameAt self.frames 3 (k - 1) 2))
              percent))
          alpha := by
  obtain ⟨hs, h0, h1⟩ := segment_search self.frames self.framesLength 3 n k time hwf.1
    (by omega) hk1 hk hlo hhi
  obtain ⟨⟨hlen, hfl, hinc⟩, hcurves⟩ := hwf
  have r0 := readAt_frame self.frames 3 n 0 0 0 hlen (by omega) (by omega) rfl
  have r1 := readAt_frame self.frames 3 n (n - 1) 0 (self.framesLength - 3) hlen (by omega)
    (by omega) (by omega)
  have r2 := readAt_frame self.frames 3 n (k - 1) 1 ((k : Int) * 3 - 2) hlen
    (by omega) (by omega) (by omega)
  have r3 := readAt_frame self.frames 3 n (k - 1) 2 ((k : Int) * 3 - 1) hlen
    (by omega) (by omega) (by omega)
  have r4 := readAt_frame self.frames 3 n k 0 ((k : Int) * 3) hlen hk
    (by omega) (by omega)
  have r5 := readAt_frame self.frames 3 n (k - 1) 0
    ((k : Int) * 3 + TRANSLATE_LAST_FRAME_TIME) hlen (by omega) (by omega)
    (by unfold TRANSLATE_LAST_FRAME_TIME; omega)
  have r6 := readAt_frame self.frames 3 n k 1 ((k : Int) * 3 + TRANSLATE_FRAME_X) hlen
    hk (by omega) (by unfold TRANSLATE_FRAME_X; omega)
  have r7 := readAt_frame self.frames 3 n k 2 ((k : Int) * 3 + TRANSLATE_FRAME_Y) hlen
    hk (by omega) (by unfold TRANSLATE_FRAME_Y; omega)
  have hidx : Int.tdiv ((k : Int) * 3) 3 - 1 = ((k - 1 : Nat) : Int) := by
    have : Int.tdiv ((k : Int) * 3) 3 = k := Int.mul_tdiv_cancel _ (by norm_num)
    rw [this]; omega
  have hnot0 : ¬ time < frameAt self.frames 3 0 0 := not_lt.mpr h0
  have hnot1 : ¬ frameAt self.frames 3 (n - 1) 0 ≤ time := not_le.mpr h1
  simp only [Nat.cast_ofNat] at hs
  unfold Rounded._ScaleTimeline_apply Rounded.scaleTo Rounded.blend Rounded.progress
  simp only [r0, hnot0, if_false]
  simp only [hbone]
  simp only [r1]
  simp only [ge_iff_le, hnot1, if_false]
  simp only [hs]
  simp only [r2]
  simp only [r3]
  simp only [r4]
  simp only [r5]
  simp only [hidx]
  simp only [r6]
  simp only [r7]

theorem scaleTo_unrounded (skeleton : Skeleton) (boneIndex : Int) (bone : Bone)
    (targetX targetY alpha : ℚ) (hbone : readAt skeleton.bones boneIndex = some bone) :
    Rounded.scaleTo Rounded.unrounded skeleton boneIndex bone (some targetX) (some targetY)
        alpha
      = some { skeleton with
          bones := skeleton.bones.set boneIndex.toNat
            { bone with
              scaleX := bone.scaleX + (targetX - bone.scaleX) * alpha
              scaleY := bone.scaleY + (targetY - bone.scaleY) * alpha } } := by
  unfold Rounded.scaleTo
  simp only [blend_unrounded]
  exact setBone_of_readAt _ _ _ _ hbone

theorem exampleScaleTenth_wellFormed : exampleScaleTenth.WellFormed 3 2 := by
  refine ⟨⟨rfl, rfl, ?_⟩, rfl⟩
  intro k hk
  have : k = 0 := by omega
  subst this
  norm_num [frameAt, exampleScaleTenth]

theorem binary32_one : Rounded.binary32 1 = some 1 := by
  have h := binary32_of_float 1 0 (by norm_num) (by norm_num) (by norm_num)
  norm_num at h
  exact h

/-- The binary32 number nearest to `0.1`. -/
theorem binary32_tenth :
    Rounded.binary32 (13421773 / 134217728) = some (13421773 / 134217728) := by
  have h := binary32_of_float 13421773 (-27) (by norm_num) (by norm_num) (by norm_num)
  norm_num at h
  exact h

/-- In binary32, `0.1f - 1` is rounded: the exact difference needs 27 bits. -/
theorem binary32_tenth_sub_one :
    Rounded.binary32 (13421773 / 134217728 - 1) = some (-7549747 / 8388608) := by
  have h := binary32_near (13421773 / 134217728 - 1) (-1) (-15099494) (by norm_num)
    (by norm_num [abs_of_neg]) (by norm_num [abs_of_neg]) (by norm_num [abs_lt])
    (by norm_num [abs_of_neg])
  rw [h]
  norm_num

theorem binary32_tenth_sub_one_self :
    Rounded.binary32 (-7549747 / 8388608) = some (-7549747 / 8388608) := by
  have h := binary32_of_float (-7549747) (-23) (by norm_num) (by norm_num) (by norm_num)
  norm_num at h
  rw [neg_div]
  exact h

theorem binary32_one_sub :
    Rounded.binary32 (838861 / 8388608) = some (838861 / 8388608) := by
  have h := binary32_of_float 838861 (-23) (by norm_num) (by norm_num) (by norm_num)
  norm_num at h
  exact h

/-! ## The angle loops in float arithmetic -/

/-- On a set of amounts that the rounding leaves exact and that is closed under the turn
`amount - 360`, the first loop with fuel computes what the loop in exact arithmetic
computes. -/
theorem whileAbove180_exact (fl : ℚ → Option ℚ) (S : ℚ → Prop)
    (hS : ∀ a, S a → 180 < a → fl (a - 360) = some (a - 360) ∧ S (a - 360)) :
    ∀ (fuel : Nat) (a : ℚ), S a → a ≤ 180 + 360 * fuel →
      Rounded.whileAbove180 fl (fuel + 1) a = some (whileAbove180 a) ∧ S (whileAbove180 a) := by
  intro fuel
  induction fuel with
  | zero =>
    intro a ha h
    have hle : ¬ a > 180 := by
      rw [not_lt]
      simpa using h
    rw [Rounded.whileAbove180, whileAbove180]
    simp only [hle, if_false]
    exact ⟨trivial, ha⟩
  | succ n ih =>
    intro a ha h
    rw [Rounded.whileAbove180, whileAbove180]
    by_cases hgt : 180 < a
    · obtain ⟨h1, h2⟩ := hS a ha hgt
      simp only [gt_iff_lt, hgt, if_true, h1]
      exact ih (a - 360) h2 (by push_cast at h; linarith)
    · simp only [gt_iff_lt, hgt, if_false]
      exact ⟨trivial, ha⟩

/-- The same for the second loop and the turn `amount + 360`. -/
theorem whileBelowNeg180_exact (fl : ℚ → Option ℚ) (S : ℚ → Prop)
    (hS : ∀ a, S a → a < -180 → fl (a + 360) = some (a + 360) ∧ S (a + 360)) :
    ∀ (fuel : Nat) (a : ℚ), S a → -180 - 360 * fuel ≤ a →
      Rounded.whileBelowNeg180 fl (fuel + 1) a = some (whileBelowNeg180 a) ∧
        S (whileBelowNeg180 a) := by
  intro fuel
  induction fuel with
  | zero =>
    intro a ha h
    have hle : ¬ a < -180 := by
      rw [not_lt]
      simpa using h
    rw [Rounded.whileBelowNeg180, whileBelowNeg180]
    simp only [hle, if_false]
    exact ⟨trivial, ha⟩
  | succ n ih =>
    intro a ha h
    rw [Rounded.whileBelowNeg180, whileBelowNeg180]
    by_cases hlt : a < -180
    · obtain ⟨h1, h2⟩ := hS a ha hlt
      simp only [hlt, if_true, h1]
      exact ih (a + 360) h2 (by push_cast at h; linarith)
    · simp only [hlt, if_false]
      exact ⟨trivial, ha⟩

/-- The fuel of the loops covers the turns that exact arithmetic needs. -/
theorem turns_spec (a : ℚ) :
    ∃ fuel : Nat, Rounded.turns a = fuel + 1 ∧ a ≤ 180 + 360 * fuel ∧ -180 - 360 * fuel ≤ a := by
  refine ⟨(⌈|a| / 180⌉).toNat, rfl, ?_, ?_⟩
  all_goals
    have h1 : |a| / 180 ≤ (⌈|a| / 180⌉ : ℚ) := Int.le_ceil _
    have h2 : (0 : ℚ) ≤ |a| / 180 := by positivity
    have h3 : (0 : ℤ) ≤ ⌈|a| / 180⌉ := Int.ceil_nonneg h2
    have h4 : ((⌈|a| / 180⌉.toNat : ℕ) : ℚ) = (⌈|a| / 180⌉ : ℚ) := by
      have : ((⌈|a| / 180⌉.toNat : ℕ) : ℤ) = ⌈|a| / 180⌉ := Int.toNat_of_nonneg h3
      exact_mod_cast this
    rw [h4]
    have h5 : |a| ≤ 180 * (⌈|a| / 180⌉ : ℚ) := by
      have := (div_le_iff₀ (by norm_num : (0 : ℚ) < 180)).mp h1
      linarith
    have h6 := le_abs_self a
    have h7 := neg_abs_le a
    have h8 : (0 : ℚ) ≤ (⌈|a| / 180⌉ : ℚ) := by exact_mod_cast h3
    linarith

/-- On a set of amounts that the rounding leaves exact and that is closed under the turns,
the two loops compute what they compute in exact arithmetic. -/
theorem shortestArc_exact (fl : ℚ → Option ℚ) (S : ℚ → Prop)
    (hup : ∀ a, S a → 180 < a → fl (a - 360) = some (a - 360) ∧ S (a - 360))
    (hdown : ∀ a, S a → a < -180 → fl (a + 360) = some (a + 360) ∧ S (a + 360))
    (a : ℚ) (ha : S a) :
    Rounded.shortestArc fl (some a) = some (shortestArc a) ∧ S (shortestArc a) := by
  obtain ⟨f1, hf1, hb1, _⟩ := turns_spec a
  obtain ⟨h1, h2⟩ := whileAbove180_exact fl S hup f1 a ha hb1
  obtain ⟨f2, hf2, _, hb2⟩ := turns_spec (whileAbove180 a)
  obtain ⟨h3, h4⟩ := whileBelowNeg180_exact fl S hdown f2 _ h2 hb2
  unfold Rounded.shortestArc shortestArc
  simp only [hf1, h1, hf2, h3]
  exact ⟨trivial, h4⟩

/-- In exact arithmetic the two loops with fuel are the two loops. -/
theorem shortestArc_unrounded (a : ℚ) :
    Rounded.shortestArc Rounded.unrounded (some a) = some (shortestArc a) :=
  (shortestArc_exact Rounded.unrounded (fun _ => True) (fun _ _ _ => ⟨rfl, trivial⟩)
    (fun _ _ _ => ⟨rfl, trivial⟩) a trivial).1

/-- A binary32 number below `2 ^ 27` in magnitude has its last place at `2 ^ 3` or lower. -/
theorem isBinary32_small (a : ℚ) (h : Rounded.IsBinary32 a) (hlt : |a| < 2 ^ 27) :
    ∃ m e : ℤ, a = (m : ℚ) * 2 ^ e ∧ |m| < 2 ^ 24 ∧ -149 ≤ e ∧ e ≤ 3 := by
  obtain ⟨m, e, ha, hm, he1, he2⟩ := h
  by_cases he : e ≤ 3
  · exact ⟨m, e, ha, hm, he1, he⟩
  · obtain ⟨d, hd⟩ : ∃ d : ℕ, e = 3 + d := ⟨(e - 3).toNat, by omega⟩
    refine ⟨m * 2 ^ d, 3, ?_, ?_, by norm_num, le_rfl⟩
    · rw [ha, hd, zpow_add₀ (by norm_num), zpow_natCast]
      push_cast
      ring
    · have h1 : |a| = |(m : ℚ)| * 2 ^ d * 8 := by
        rw [ha, hd, zpow_add₀ (by norm_num), zpow_natCast, abs_mul, abs_mul,
          abs_of_pos (by positivity : (0 : ℚ) < 2 ^ (3 : ℤ)),
          abs_of_pos (by positivity : (0 : ℚ) < 2 ^ d)]
        norm_num
        ring
      have h2 : |(m : ℚ)| * 2 ^ d < 2 ^ 24 := by
        rw [h1] at hlt
        norm_num at hlt ⊢
        linarith
      have h3 : ((|m * 2 ^ d| : ℤ) : ℚ) = |(m : ℚ)| * 2 ^ d := by
        push_cast
        rw [abs_mul, abs_of_pos (by positivity : (0 : ℚ) < 2 ^ d)]
      have h4 : ((|m * 2 ^ d| : ℤ) : ℚ) < ((2 ^ 24 : ℤ) : ℚ) := by
        rw [h3]
        exact_mod_cast h2
      exact_mod_cast h4

/-- In binary32 a turn of the loops is exact on the amounts below `2 ^ 27`: the difference
keeps the last place of the amount and is smaller in magnitude. -/
theorem binary32_turn (a b : ℚ) (h : ∃ m e : ℤ, a = (m : ℚ) * 2 ^ e ∧ |m| < 2 ^ 24 ∧
      -149 ≤ e ∧ e ≤ 3)
    (hb : b = a - 360 ∨ b = a + 360) (hlt : |b| < |a|) :
    Rounded.binary32 b = some b ∧
      ∃ m e : ℤ, b = (m : ℚ) * 2 ^ e ∧ |m| < 2 ^ 24 ∧ -149 ≤ e ∧ e ≤ 3 := by
  obtain ⟨m, e, ha, hm, he1, he2⟩ := h
  obtain ⟨d, hd⟩ : ∃ d : ℕ, 3 = e + d := ⟨(3 - e).toNat, by omega⟩
  have h8 : (2 : ℚ) ^ e * 2 ^ d = 8 := by
    have : (2 : ℚ) ^ ((3 : ℤ)) = 2 ^ e * 2 ^ (d : ℤ) := by
      rw [← zpow_add₀ (by norm_num), ← hd]
    rw [zpow_natCast] at this
    rw [← this]
    norm_num
  have h2pos : (0 : ℚ) < 2 ^ e := by positivity
  have key : ∀ s : ℤ, b = a + 360 * s → (s = 1 ∨ s = -1) →
      Rounded.binary32 b = some b ∧
        ∃ m e : ℤ, b = (m : ℚ) * 2 ^ e ∧ |m| < 2 ^ 24 ∧ -149 ≤ e ∧ e ≤ 3 := by
    intro s hs _
    have hbm : b = ((m + 45 * 2 ^ d * s : ℤ) : ℚ) * 2 ^ e := by
      rw [hs, ha]
      push_cast
      have : (360 : ℚ) = 45 * (2 ^ e * 2 ^ d) := by rw [h8]; norm_num
      rw [this]
      ring
    have hm' : |m + 45 * 2 ^ d * s| < 2 ^ 24 := by
      have h1 : |b| = |((m + 45 * 2 ^ d * s : ℤ) : ℚ)| * 2 ^ e := by
        rw [hbm, abs_mul, abs_of_pos h2pos]
      have h2 : |a| = |(m : ℚ)| * 2 ^ e := by
        rw [ha, abs_mul, abs_of_pos h2pos]
      rw [h1, h2] at hlt
      have h3 : |((m + 45 * 2 ^ d * s : ℤ) : ℚ)| < |(m : ℚ)| :=
        lt_of_mul_lt_mul_right hlt (le_of_lt h2pos)
      have h4 : ((|m + 45 * 2 ^ d * s| : ℤ) : ℚ) < ((|m| : ℤ) : ℚ) := by
        push_cast
        push_cast at h3
        exact h3
      have h5 : |m + 45 * 2 ^ d * s| < |m| := by exact_mod_cast h4
      omega
    refine ⟨?_, _, e, hbm, hm', he1, he2⟩
    have := binary32_of_float (m + 45 * 2 ^ d * s) e hm' he1 (by omega)
    rw [← hbm] at this
    exact this
  rcases hb with hb | hb
  · exact key (-1) (by rw [hb]; push_cast; ring) (Or.inr rfl)
  · exact key 1 (by rw [hb]; push_cast; ring) (Or.inl rfl)

/-- In binary32, on an amount below `2 ^ 27` in magnitude, the two loops end and compute
what they compute in exact arithmetic. -/
theorem shortestArc_binary32 (a : ℚ) (h : Rounded.IsBinary32 a) (hlt : |a| < 2 ^ 27) :
    Rounded.shortestArc Rounded.binary32 (some a) = some (shortestArc a) :=
  (shortestArc_exact Rounded.binary32
    (fun a => ∃ m e : ℤ, a = (m : ℚ) * 2 ^ e ∧ |m| < 2 ^ 24 ∧ -149 ≤ e ∧ e ≤ 3)
    (fun a ha hgt => binary32_turn a (a - 360) ha (Or.inl rfl) (by
      rw [abs_of_pos (by linarith : (0 : ℚ) < a), abs_lt]
      constructor <;> linarith))
    (fun a ha hgt => binary32_turn a (a + 360) ha (Or.inr rfl) (by
      rw [abs_of_neg (by linarith : a < 0), abs_lt]
      constructor <;> linarith))
    a (isBinary32_small a h hlt)).1

/-- The two loops in exact arithmetic bring any amount into `[-180, 180]` by whole turns, and
to `-180` only from `-180` less a whole number of turns. -/
theorem shortestArc_closed_range (a : ℚ) :
    (∃ m : ℤ, shortestArc a = a + 360 * m) ∧ -180 ≤ shortestArc a ∧ shortestArc a ≤ 180 ∧
      (shortestArc a = -180 → ∃ j : ℕ, a = -180 - 360 * j) := by
  obtain ⟨m, hm, hlo, hhi, _⟩ := shortestArc_spec a
  refine ⟨⟨m, hm⟩, hlo, hhi, ?_⟩
  intro h
  rcases lt_or_le 180 a with ha | ha
  · exfalso
    have h1 := whileAbove180_gt a ha
    obtain ⟨m2, k1, _, k3, _⟩ := whileBelowNeg180_spec (whileAbove180 a)
    have := k3 h1.le
    subst this
    rw [shortestArc, k1] at h
    simp at h
    linarith
  · obtain ⟨m1, h1, _, h3, _⟩ := whileAbove180_spec a
    have := h3 ha
    subst this
    have e : whileAbove180 a = a := by rw [h1]; simp
    obtain ⟨m2, k1, _, _, _⟩ := whileBelowNeg180_spec a
    refine ⟨m2, ?_⟩
    rw [shortestArc, e, k1] at h
    linarith

/-- In binary32, `10 ^ 10 - 360` rounds back to `10 ^ 10`: the last place of `10 ^ 10` is
`2 ^ 10 = 1024`. -/
theorem binary32_ten_pow_ten : Rounded.binary32 (10 ^ 10 - 360) = some (10 ^ 10) := by
  have h := binary32_near (10 ^ 10 - 360) 33 9765625 (by norm_num)
    (by norm_num [abs_of_pos]) (by norm_num [abs_of_pos]) (by norm_num [abs_lt])
    (by norm_num [abs_of_pos])
  rw [h]
  norm_num

/-- In binary32 the first loop never ends on the amount `10 ^ 10`. -/
theorem whileAbove180_ten_pow_ten (fuel : Nat) :
    Rounded.whileAbove180 Rounded.binary32 fuel (10 ^ 10) = none := by
  induction fuel with
  | zero => rw [Rounded.whileAbove180]
  | succ n ih =>
    rw [Rounded.whileAbove180]
    have h : (10 ^ 10 : ℚ) > 180 := by norm_num
    simp only [h, if_true, binary32_ten_pow_ten]
    exact ih

/-! ## The Rotate timeline in float arithmetic -/

/-- A binary32 number is its own rounding. -/
theorem binary32_fixed (q : ℚ) (h : Rounded.IsBinary32 q) : Rounded.binary32 q = some q := by
  obtain ⟨m, e, hq, hm, he, he2⟩ := h
  rw [hq]
  exact binary32_of_float m e hm he he2

/-- At or after its last keyframe a Rotate timeline turns the bone toward the setup rotation
plus the last keyframe's angle, whatever the rounding. -/
theorem Rounded_RotateTimeline_apply_after_last (fl : ℚ → Option ℚ) (self : BaseTimeline)
    (skeleton : Skeleton) (bone : Bone) (time alpha : ℚ) (n : Nat) (hn : 1 ≤ n)
    (hwf : self.WellFormed 2 n) (hbone : readAt skeleton.bones self.boneIndex = some bone)
    (htime : frameAt self.frames 2 (n - 1) 0 ≤ time) :
    Rounded._RotateTimeline_apply fl self skeleton time alpha
      = Rounded.rotateTo fl skeleton self.boneIndex bone
          (Rounded.fadd fl bone.data.rotation (frameAt self.frames 2 (n - 1) 1)) alpha := by
  obtain ⟨⟨hlen, hfl, hinc⟩, hcurves⟩ := hwf
  have hkey : Keyframes self.frames self.framesLength 2 n := ⟨hlen, hfl, hinc⟩
  have r0 := readAt_frame self.frames 2 n 0 0 0 hlen (by omega) (by omega) rfl
  have r1 := readAt_frame self.frames 2 n (n - 1) 0 (self.framesLength - 2) hlen (by omega)
    (by omega) (by omega)
  have r2 := readAt_frame self.frames 2 n (n - 1) 1 (self.framesLength - 1) hlen (by omega)
    (by omega) (by omega)
  have hmono := hkey.time_mono (n - 1) (by omega) 0 (by omega)
  have hnot0 : ¬ time < frameAt self.frames 2 0 0 := not_lt.mpr (le_trans hmono htime)
  unfold Rounded._RotateTimeline_apply Rounded.rotateTo
  simp only [r0, hnot0, if_false]
  simp only [hbone]
  simp only [r1]
  simp only [ge_iff_le, htime, if_true]
  simp only [r2]

/-- Between keyframes `k - 1` and `k` a Rotate timeline hands the clamped progress to the
curve evaluator at entry `k - 1`, reduces the difference of the two angles by the two loops
and turns the bone toward the setup rotation plus the interpolated angle, whatever the
rounding. -/
theorem Rounded_RotateTimeline_apply_between (fl : ℚ → Option ℚ) (self : BaseTimeline)
    (skeleton : Skeleton) (bone : Bone) (time alpha : ℚ) (n k : Nat)
    (hwf : self.WellFormed 2 n) (hbone : readAt skeleton.bones self.boneIndex = some bone)
    (hk1 : 1 ≤ k) (hk : k < n) (hlo : frameAt self.frames 2 (k - 1) 0 ≤ time)
    (hhi : time < frameAt self.frames 2 k 0) :
    Rounded._RotateTimeline_apply fl self skeleton time alpha
      = match Rounded.progress fl time (frameAt self.frames 2 (k - 1) 0)
          (frameAt self.frames 2 k 0) with
        | none => none
        | some percent =>
        match Rounded.CurveTimeline_getCurvePercent fl self.super ((k - 1 : Nat) : Int)
          (clampPercent percent) with
        | none => none
        | some percent =>
        match Rounded.shortestArc fl
          (Rounded.fsub fl (frameAt self.frames 2 k 1) (frameAt self.frames 2 (k - 1) 1)) with
        | none => none
        | some amount =>
        Rounded.rotateTo fl skeleton self.boneIndex bone
          (Rounded.fadd fl bone.data.rotation
            (Rounded.fadd fl (frameAt self.frames 2 (k - 1) 1) (Rounded.fmul fl amount percent)))
          alpha := by
  obtain ⟨hs, h0, h1⟩ := segment_search self.frames self.framesLength 2 n k time hwf.1
    (by omega) hk1 hk hlo hhi
  obtain ⟨⟨hlen, hfl, hinc⟩, hcurves⟩ := hwf
  have r0 := readAt_frame self.frames 2 n 0 0 0 hlen (by omega) (by omega) rfl
  have r1 := readAt_frame self.frames 2 n (n - 1) 0 (self.framesLength - 2) hlen (by omega)
    (by omega) (by omega)
  have r2 := readAt_frame self.frames 2 n (k - 1) 1 ((k : Int) * 2 - 1) hlen
    (by omega) (by omega) (by omega)
  have r3 := readAt_frame self.frames 2 n k 0 ((k : Int) * 2) hlen hk
    (by omega) (by omega)
  have r4 := readAt_frame self.frames 2 n (k - 1) 0
    ((k : Int) * 2 + ROTATE_LAST_FRAME_TIME) hlen (by omega) (by omega)
    (by unfold ROTATE_LAST_FRAME_TIME; omega)
  have r5 := readAt_frame self.frames 2 n k 1 ((k : Int) * 2 + ROTATE_FRAME_VALUE) hlen
    hk (by omega) (by unfold ROTATE_FRAME_VALUE; omega)
  have hidx : Int.tdiv ((k : Int) * 2) 2 - 1 = ((k - 1 : Nat) : Int) := by
    have : Int.tdiv ((k : Int) * 2) 2 = k := Int.mul_tdiv_cancel _ (by norm_num)
    rw [this]; omega
  have hnot0 : ¬ time < frameAt self.frames 2 0 0 := not_lt.mpr h0
  have hnot1 : ¬ frameAt self.frames 2 (n - 1) 0 ≤ time := not_le.mpr h1
  simp only [Nat.cast_ofNat] at hs
  unfold Rounded._RotateTimeline_apply Rounded.rotateTo Rounded.progress
  simp only [r0, hnot0, if_false]
  simp only [hbone]
  simp only [r1]
  simp only [ge_iff_le, hnot1, if_false]
  simp only [hs]
  simp only [r2]
  simp only [r3]
  simp only [r4]
  simp only [hidx]
  simp only [r5]

/-- In exact arithmetic the bone turns by the shortest arc toward the target, times the
weight. -/
theorem rotateTo_unrounded (skeleton : Skeleton) (boneIndex : Int) (bone : Bone)
    (target alpha : ℚ) (hbone : readAt skeleton.bones boneIndex = some bone) :
    Rounded.rotateTo Rounded.unrounded skeleton boneIndex bone (some target) alpha
      = some { skeleton with
          bones := skeleton.bones.set boneIndex.toNat
            { bone with
              rotation := bone.rotation + shortestArc (target - bone.rotation) * alpha } } := by
  unfold Rounded.rotateTo
  rw [fsub_some]
  simp only [Rounded.unrounded]
  rw [shortestArc_unrounded]
  simp only [fmul_some, fadd_some, Rounded.unrounded]
  exact setBone_of_readAt _ _ _ _ hbone

/-- How a turn toward a target is evaluated, one operation after the other. -/
theorem rotateTo_eq (fl : ℚ → Option ℚ) (skeleton : Skeleton) (boneIndex : Int)
    (bone : Bone) (target : Option ℚ) (alpha t d a e r : ℚ)
    (h0 : target = some t) (h1 : fl (t - bone.rotation) = some d)
    (h2 : Rounded.shortestArc fl (some d) = some a) (h3 : fl (a * alpha) = some e)
    (h4 : fl (bone.rotation + e) = some r) :
    Rounded.rotateTo fl skeleton boneIndex bone target alpha
      = setBone skeleton boneIndex { bone with rotation := r } := by
  subst h0
  unfold Rounded.rotateTo
  rw [fsub_some, h1, h2]
  simp only [fmul_some, h3, fadd_some, h4]

/-- A value equal to a binary32 number is rounded to it. -/
theorem binary32_of_eq (q r : ℚ) (h : q = r) (hr : Rounded.IsBinary32 r) :
    Rounded.binary32 q = some r := by
  rw [h]
  exact binary32_fixed r hr

/-- How the raw progress is evaluated, one operation after the other. -/
theorem progress_eq (fl : ℚ → Option ℚ) (time tLower tUpper a b c r : ℚ)
    (h1 : fl (time - tUpper) = some a) (h2 : fl (tLower - tUpper) = some b) (hb : b ≠ 0)
    (h3 : fl (a / b) = some c) (h4 : fl (1 - c) = some r) :
    Rounded.progress fl time tLower tUpper = some r := by
  unfold Rounded.progress
  rw [fsub_some, h1, fsub_some, h2, fdiv_some _ _ _ hb, h3, fsub_some, h4]

theorem Rounded_getCurvePercent_of_linear (fl : ℚ → Option ℚ) (self : CurveTimeline) (i : Int)
    (t : ℚ) (h : readAt self.curves (i * 6) = some CURVE_LINEAR) :
    Rounded.CurveTimeline_getCurvePercent fl self i t = some t := by
  unfold Rounded.CurveTimeline_getCurvePercent
  simp only [h]
  simp

theorem clampPercent_of_mem (p : ℚ) (h0 : 0 ≤ p) (h1 : p ≤ 1) : clampPercent p = p := by
  unfold clampPercent
  rw [if_neg (not_lt.mpr h0), if_neg (not_lt.mpr h1)]

/-- Between keyframes `k - 1` and `k` of a Rotate timeline, from the values of the progress,
of the curve evaluator and of the reduced difference of the two angles. -/
theorem Rounded_RotateTimeline_apply_of_values (fl : ℚ → Option ℚ) (self : BaseTimeline)
    (skeleton : Skeleton) (bone : Bone) (time alpha : ℚ) (n k : Nat)
    (hwf : self.WellFormed 2 n) (hbone : readAt skeleton.bones self.boneIndex = some bone)
    (hk1 : 1 ≤ k) (hk : k < n) (hlo : frameAt self.frames 2 (k - 1) 0 ≤ time)
    (hhi : time < frameAt self.frames 2 k 0) (percent p d : ℚ)
    (h1 : Rounded.progress fl time (frameAt self.frames 2 (k - 1) 0)
      (frameAt self.frames 2 k 0) = some percent)
    (h2 : Rounded.CurveTimeline_getCurvePercent fl self.super ((k - 1 : Nat) : Int)
      (clampPercent percent) = some p)
    (h3 : Rounded.shortestArc fl
      (Rounded.fsub fl (frameAt self.frames 2 k 1) (frameAt self.frames 2 (k - 1) 1))
        = some d) :
    Rounded._RotateTimeline_apply fl self skeleton time alpha
      = Rounded.rotateTo fl skeleton self.boneIndex bone
          (Rounded.fadd fl bone.data.rotation
            (Rounded.fadd fl (frameAt self.frames 2 (k - 1) 1) (Rounded.fmul fl d p)))
          alpha := by
  rw [Rounded_RotateTimeline_apply_between fl self skeleton bone time alpha n k hwf hbone hk1 hk
    hlo hhi]
  simp only [h1, h2, h3]

/-- In binary32 the two loops leave a binary32 amount of at most 180 in magnitude as it
is. -/
theorem shortestArc_binary32_small (a : ℚ) (h : Rounded.IsBinary32 a) (ha : |a| ≤ 180) :
    Rounded.shortestArc Rounded.binary32 (some a) = some a := by
  rw [shortestArc_binary32 a h (lt_of_le_of_lt ha (by norm_num)), shortestArc_of_abs_le a ha]

/-- The raw progress at the time `0.1f` between key times 0 and 1, in binary32:
`0.1f - 1` is rounded, and the progress comes out as `838861 / 2 ^ 23`, above `0.1f`. -/
theorem progress_binary32_tenth :
    Rounded.progress Rounded.binary32 (13421773 / 134217728) 0 1 = some (838861 / 8388608) :=
  progress_eq _ _ _ _ (-7549747 / 8388608) (-1) (7549747 / 8388608) (838861 / 8388608)
    binary32_tenth_sub_one
    (binary32_of_eq _ _ (by norm_num)
      ⟨-1, 0, by norm_num, by norm_num, by norm_num, by norm_num⟩)
    (by norm_num)
    (binary32_of_eq _ _ (by norm_num)
      ⟨7549747, -23, by norm_num, by norm_num, by norm_num, by norm_num⟩)
    (binary32_of_eq _ _ (by norm_num)
      ⟨838861, -23, by norm_num, by norm_num, by norm_num, by norm_num⟩)

/-- The raw progress at the time `1/2` between key times 0 and 1, in binary32. -/
theorem progress_binary32_half :
    Rounded.progress Rounded.binary32 (1 / 2) 0 1 = some (1 / 2) :=
  progress_eq _ _ _ _ (-1 / 2) (-1) (1 / 2) (1 / 2)
    (binary32_of_eq _ _ (by norm_num)
      ⟨-1, -1, by norm_num, by norm_num, by norm_num, by norm_num⟩)
    (binary32_of_eq _ _ (by norm_num)
      ⟨-1, 0, by norm_num, by norm_num, by norm_num, by norm_num⟩)
    (by norm_num)
    (binary32_of_eq _ _ (by norm_num)
      ⟨1, -1, by norm_num, by norm_num, by norm_num, by norm_num⟩)
    (binary32_of_eq _ _ (by norm_num)
      ⟨1, -1, by norm_num, by norm_num, by norm_num, by norm_num⟩)

/-- In binary32, `90 * (838861 / 2 ^ 23)` is rounded to `4718593 / 2 ^ 19`. -/
theorem binary32_ninety_tenth :
    Rounded.binary32 (90 * (838861 / 8388608)) = some (4718593 / 524288) := by
  have h := binary32_near (90 * (838861 / 8388608)) 3 9437186 (by norm_num)
    (by norm_num [abs_of_pos]) (by norm_num [abs_of_pos]) (by norm_num [abs_lt])
    (by norm_num [abs_of_pos])
  rw [h]
  norm_num

/-- The Rotate example `(0, 0)`, `(1, 90)` on the pose at rest at the time `0.1f`, weight 1,
in binary32: the rotation becomes `4718593 / 2 ^ 19 = 9.0000019...`. -/
theorem rotate90_tenth_binary32 :
    Rounded._RotateTimeline_apply Rounded.binary32 exampleRotate90 restPose
        (13421773 / 134217728) 1
      = some { bones := [⟨⟨0, 0, 0, 1, 1⟩, 0, 0, 4718593 / 524288, 1, 1⟩],
               slots := [⟨1, 1, 1, 1, none⟩] } := by
  have e0 : frameAt exampleRotate90.frames 2 (1 - 1) 0 = 0 := by
    norm_num [frameAt, exampleRotate90]
  have e1 : frameAt exampleRotate90.frames 2 1 0 = 1 := by
    norm_num [frameAt, exampleRotate90]
  have e2 : frameAt exampleRotate90.frames 2 (1 - 1) 1 = 0 := by
    norm_num [frameAt, exampleRotate90]
  have e3 : frameAt exampleRotate90.frames 2 1 1 = 90 := by
    norm_num [frameAt, exampleRotate90]
  have hx : Rounded.IsBinary32 (4718593 / 524288) :=
    ⟨4718593, -19, by norm_num, by norm_num, by norm_num, by norm_num⟩
  have h90 : Rounded.IsBinary32 90 :=
    ⟨90, 0, by norm_num, by norm_num, by norm_num, by norm_num⟩
  rw [Rounded_RotateTimeline_apply_of_values Rounded.binary32 exampleRotate90 restPose
    ⟨⟨0, 0, 0, 1, 1⟩, 0, 0, 0, 1, 1⟩ (13421773 / 134217728) 1 2 1 exampleRotate90_wellFormed
    rfl (by norm_num) (by norm_num) (by rw [e0]; norm_num) (by rw [e1]; norm_num)
    (838861 / 8388608) (838861 / 8388608) 90
    (by rw [e0, e1]; exact progress_binary32_tenth)
    (by
      rw [clampPercent_of_mem _ (by norm_num) (by norm_num)]
      exact Rounded_getCurvePercent_of_linear _ _ _ _ (by rfl))
    (by
      rw [e2, e3, fsub_some, binary32_of_eq (90 - 0) 90 (by norm_num) h90]
      exact shortestArc_binary32_small 90 h90 (by norm_num [abs_of_pos]))]
  rw [e2]
  have t : Rounded.fadd Rounded.binary32 (some (0 : ℚ))
      (Rounded.fadd Rounded.binary32 (some (0 : ℚ))
        (Rounded.fmul Rounded.binary32 (some (90 : ℚ)) (some (838861 / 8388608))))
      = some (4718593 / 524288) := by
    rw [fmul_some, binary32_ninety_tenth, fadd_some,
      binary32_of_eq (0 + 4718593 / 524288) _ (by norm_num) hx, fadd_some,
      binary32_of_eq (0 + 4718593 / 524288) _ (by norm_num) hx]
  rw [rotateTo_eq Rounded.binary32 _ _ _ _ 1 (4718593 / 524288) (4718593 / 524288)
    (4718593 / 524288) (4718593 / 524288) (4718593 / 524288) t
    (binary32_of_eq _ _ (by norm_num) hx)
    (shortestArc_binary32_small _ hx (by norm_num [abs_of_pos]))
    (binary32_of_eq _ _ (by norm_num) hx) (binary32_of_eq _ _ (by norm_num) hx)]
  simp [setBone, writeAt, restPose, exampleRotate90]

/-- The Rotate example `(0, 170)`, `(1, -170)` on the pose at rest at the time `1/2`,
weight 1, in binary32: every operation is exact and the rotation becomes 180. -/
theorem rotate170_half_binary32 :
    Rounded._RotateTimeline_apply Rounded.binary32 exampleRotate170 restPose (1 / 2) 1
      = some { bones := [⟨⟨0, 0, 0, 1, 1⟩, 0, 0, 180, 1, 1⟩],
               slots := [⟨1, 1, 1, 1, none⟩] } := by
  have e0 : frameAt exampleRotate170.frames 2 (1 - 1) 0 = 0 := by
    norm_num [frameAt, exampleRotate170]
  have e1 : frameAt exampleRotate170.frames 2 1 0 = 1 := by
    norm_num [frameAt, exampleRotate170]
  have e2 : frameAt exampleRotate170.frames 2 (1 - 1) 1 = 170 := by
    norm_num [frameAt, exampleRotate170]
  have e3 : frameAt exampleRotate170.frames 2 1 1 = -170 := by
    norm_num [frameAt, exampleRotate170]
  have hx : Rounded.IsBinary32 180 :=
    ⟨180, 0, by norm_num, by norm_num, by norm_num, by norm_num⟩
  have h340 : Rounded.IsBinary32 (-340) :=
    ⟨-340, 0, by norm_num, by norm_num, by norm_num, by norm_num⟩
  have h10 : Rounded.IsBinary32 10 :=
    ⟨10, 0, by norm_num, by norm_num, by norm_num, by norm_num⟩
  have harc : shortestArc (-340) = 20 :=
    shortestArc_eq _ 20 1 (by norm_num) (by norm_num) (by norm_num)
  rw [Rounded_RotateTimeline_apply_of_values Rounded.binary32 exampleRotate170 restPose
    ⟨⟨0, 0, 0, 1, 1⟩, 0, 0, 0, 1, 1⟩ (1 / 2) 1 2 1 exampleRotate170_wellFormed
    rfl (by norm_num) (by norm_num) (by rw [e0]; norm_num) (by rw [e1]; norm_num)
    (1 / 2) (1 / 2) 20
    (by rw [e0, e1]; exact progress_binary32_half)
    (by
      rw [clampPercent_of_mem _ (by norm_num) (by norm_num)]
      exact Rounded_getCurvePercent_of_linear _ _ _ _ (by rfl))
    (by
      rw [e2, e3, fsub_some, binary32_of_eq (-170 - 170) (-340) (by norm_num) h340,
        shortestArc_binary32 (-340) h340 (by norm_num [abs_of_neg]), harc])]
  rw [e2]
  have t : Rounded.fadd Rounded.binary32 (some (0 : ℚ))
      (Rounded.fadd Rounded.binary32 (some (170 : ℚ))
        (Rounded.fmul Rounded.binary32 (some (20 : ℚ)) (some (1 / 2))))
      = some 180 := by
    rw [fmul_some, binary32_of_eq (20 * (1 / 2)) 10 (by norm_num) h10, fadd_some,
      binary32_of_eq (170 + 10) 180 (by norm_num) hx, fadd_some,
      binary32_of_eq (0 + 180) 180 (by norm_num) hx]
  rw [rotateTo_eq Rounded.binary32 _ _ _ _ 1 180 180 180 180 180 t
    (binary32_of_eq _ _ (by norm_num) hx)
    (shortestArc_binary32_small _ hx (by norm_num [abs_of_pos]))
    (binary32_of_eq _ _ (by norm_num) hx) (binary32_of_eq _ _ (by norm_num) hx)]
  simp [setBone, writeAt, restPose, exampleRotate170]

/-- The Rotate example `(0, 0)`, `(1, 90)` on the pose at rest at the time `1/2`, weight 1,
in binary32: every operation is exact and the rotation becomes 45. -/
theorem rotate90_half_binary32 :
    Rounded._RotateTimeline_apply Rounded.binary32 exampleRotate90 restPose (1 / 2) 1
      = some { bones := [⟨⟨0, 0, 0, 1, 1⟩, 0, 0, 45, 1, 1⟩],
               slots := [⟨1, 1, 1, 1, none⟩] } := by
  have e0 : frameAt exampleRotate90.frames 2 (1 - 1) 0 = 0 := by
    norm_num [frameAt, exampleRotate90]
  have e1 : frameAt exampleRotate90.frames 2 1 0 = 1 := by
    norm_num [frameAt, exampleRotate90]
  have e2 : frameAt exampleRotate90.frames 2 (1 - 1) 1 = 0 := by
    norm_num [frameAt, exampleRotate90]
  have e3 : frameAt exampleRotate90.frames 2 1 1 = 90 := by
    norm_num [frameAt, exampleRotate90]
  have hx : Rounded.IsBinary32 45 :=
    ⟨45, 0, by norm_num, by norm_num, by norm_num, by norm_num⟩
  have h90 : Rounded.IsBinary32 90 :=
    ⟨90, 0, by norm_num, by norm_num, by norm_num, by norm_num⟩
  rw [Rounded_RotateTimeline_apply_of_values Rounded.binary32 exampleRotate90 restPose
    ⟨⟨0, 0, 0, 1, 1⟩, 0, 0, 0, 1, 1⟩ (1 / 2) 1 2 1 exampleRotate90_wellFormed
    rfl (by norm_num) (by norm_num) (by rw [e0]; norm_num) (by rw [e1]; norm_num)
    (1 / 2) (1 / 2) 90
    (by rw [e0, e1]; exact progress_binary32_half)
    (by
      rw [clampPercent_of_mem _ (by norm_num) (by norm_num)]
      exact Rounded_getCurvePercent_of_linear _ _ _ _ (by rfl))
    (by
      rw [e2, e3, fsub_some, binary32_of_eq (90 - 0) 90 (by norm_num) h90]
      exact shortestArc_binary32_small 90 h90 (by norm_num [abs_of_pos]))]
  rw [e2]
  have t : Rounded.fadd Rounded.binary32 (some (0 : ℚ))
      (Rounded.fadd Rounded.binary32 (some (0 : ℚ))
        (Rounded.fmul Rounded.binary32 (some (90 : ℚ)) (some (1 / 2))))
      = some 45 := by
    rw [fmul_some, binary32_of_eq (90 * (1 / 2)) 45 (by norm_num) hx, fadd_some,
      binary32_of_eq (0 + 45) 45 (by norm_num) hx, fadd_some,
      binary32_of_eq (0 + 45) 45 (by norm_num) hx]
  rw [rotateTo_eq Rounded.binary32 _ _ _ _ 1 45 45 45 45 45 t
    (binary32_of_eq _ _ (by norm_num) hx)
    (shortestArc_binary32_small _ hx (by norm_num [abs_of_pos]))
    (binary32_of_eq _ _ (by norm_num) hx) (binary32_of_eq _ _ (by norm_num) hx)]
  simp [setBone, writeAt, restPose, exampleRotate90]

/-- An animation of one timeline, not looped: `Animation_apply` is the timeline's apply with
weight 1. -/
theorem Rounded_Animation_apply_single (fl : ℚ → Option ℚ) (resolve : Resolver)
    (tl : Timeline) (skeleton : Skeleton) (time duration : ℚ) :
    Rounded.Animation_apply fl resolve
        { timelineCount := 1, timelines := [tl], duration := duration } skeleton time 0
      = Rounded.Timeline_apply fl resolve tl skeleton time 1 := by
  simp only [Rounded.Animation_apply, Rounded.applyTimelines, readAt]
  simp
  cases Rounded.Timeline_apply fl resolve tl skeleton time 1 <;> rfl

/-! ## The Color timeline and the curved timelines in float arithmetic -/

/-- At or after its last keyframe a Color timeline stores the last keyframe's colour in the
slot, with no arithmetic and without reading the weight. -/
theorem Rounded_ColorTimeline_apply_after_last (fl : ℚ → Option ℚ) (self : ColorTimeline)
    (skeleton : Skeleton) (slot : Slot) (time alpha : ℚ) (n : Nat) (hn : 1 ≤ n)
    (hwf : self.WellFormed n) (hslot : readAt skeleton.slots self.slotIndex = some slot)
    (htime : frameAt self.frames 5 (n - 1) 0 ≤ time) :
    Rounded._ColorTimeline_apply fl self skeleton time alpha
      = some { skeleton with
          slots := skeleton.slots.set self.slotIndex.toNat
            { slot with
              r := frameAt self.frames 5 (n - 1) 1
              g := frameAt self.frames 5 (n - 1) 2
              b := frameAt self.frames 5 (n - 1) 3
              a := frameAt self.frames 5 (n - 1) 4 } } := by
  obtain ⟨⟨hlen, hfl, hinc⟩, _⟩ := hwf
  have hmono := Keyframes.time_mono ⟨hlen, hfl, hinc⟩ (n - 1) (by omega) 0 (by omega)
  have r0 := readAt_frame self.frames 5 n 0 0 0 hlen (by omega) (by omega) rfl
  have r1 := readAt_frame self.frames 5 n (n - 1) 0 (self.framesLength - 5) hlen (by omega)
    (by omega) (by omega)
  have r2 := readAt_frame self.frames 5 n (n - 1) 1 (self.framesLength - 1 - 3) hlen
    (by omega) (by omega) (by omega)
  have r3 := readAt_frame self.frames 5 n (n - 1) 2 (self.framesLength - 1 - 2) hlen
    (by omega) (by omega) (by omega)
  have r4 := readAt_frame self.frames 5 n (n - 1) 3 (self.framesLength - 1 - 1) hlen
    (by omega) (by omega) (by omega)
  have r5 := readAt_frame self.frames 5 n (n - 1) 4 (self.framesLength - 1) hlen
    (by omega) (by omega) (by omega)
  have hnot : ¬ time < frameAt self.frames 5 0 0 := not_lt.mpr (le_trans hmono htime)
  unfold Rounded._ColorTimeline_apply
  simp only [r0, hnot, if_false]
  simp only [hslot]
  simp only [r1]
  simp only [ge_iff_le, htime, if_true]
  simp only [r2]
  simp only [r3]
  simp only [r4]
  simp only [r5]
  exact setSlot_of_readAt _ _ _ _ hslot

/-- Between keyframes `k - 1` and `k` a Color timeline hands the clamped progress to the
curve evaluator at entry `k - 1` and moves the slot's colour toward the interpolated
colour, whatever the rounding. -/
theorem Rounded_ColorTimeline_apply_between (fl : ℚ → Option ℚ) (self : ColorTimeline)
    (skeleton : Skeleton) (slot : Slot) (time alpha : ℚ) (n k : Nat)
    (hwf : self.WellFormed n) (hslot : readAt skeleton.slots self.slotIndex = some slot)
    (hk1 : 1 ≤ k) (hk : k < n) (hlo : frameAt self.frames 5 (k - 1) 0 ≤ time)
    (hhi : time < frameAt self.frames 5 k 0) :
    Rounded._ColorTimeline_apply fl self skeleton time alpha
      = match Rounded.progress fl time (frameAt self.frames 5 (k - 1) 0)
          (frameAt self.frames 5 k 0) with
        | none => none
        | some percent =>
        match Rounded.CurveTimeline_getCurvePercent fl self.super ((k - 1 : Nat) : Int)
          (clampPercent percent) with
        | none => none
        | some percent =>
        Rounded.colorTo fl skeleton self.slotIndex slot
          (Rounded.lerp fl (frameAt self.frames 5 (k - 1) 1) (frameAt self.frames 5 k 1)
            percent)
          (Rounded.lerp fl (frameAt self.frames 5 (k - 1) 2) (frameAt self.frames 5 k 2)
            percent)
          (Rounded.lerp fl (frameAt self.frames 5 (k - 1) 3) (frameAt self.frames 5 k 3)
            percent)
          (Rounded.lerp fl (frameAt self.frames 5 (k - 1) 4) (frameAt self.frames 5 k 4)
            percent)
          alpha := by
  obtain ⟨hs, h0, h1⟩ := segment_search self.frames self.framesLength 5 n k time hwf.1
    (by omega) hk1 hk hlo hhi
  obtain ⟨⟨hlen, hfl, hinc⟩, hcurves⟩ := hwf
  have r0 := readAt_frame self.frames 5 n 0 0 0 hlen (by omega) (by omega) rfl
  have r1 := readAt_frame self.frames 5 n (n - 1) 0 (self.framesLength - 5) hlen (by omega)
    (by omega) (by omega)
  have q1 := readAt_frame self.frames 5 n (k - 1) 1 ((k : Int) * 5 - 4) hlen
    (by omega) (by omega) (by omega)
  have q2 := readAt_frame self.frames 5 n (k - 1) 2 ((k : Int) * 5 - 3) hlen
    (by omega) (by omega) (by omega)
  have q3 := readAt_frame self.frames 5 n (k - 1) 3 ((k : Int) * 5 - 2) hlen
    (by omega) (by omega) (by omega)
  have q4 := readAt_frame self.frames 5 n (k - 1) 4 ((k : Int) * 5 - 1) hlen
    (by omega) (by omega) (by omega)
  have r4 := readAt_frame self.frames 5 n k 0 ((k : Int) * 5) hlen hk
    (by omega) (by omega)
  have r5 := readAt_frame self.frames 5 n (k - 1) 0
    ((k : Int) * 5 + COLOR_LAST_FRAME_TIME) hlen (by omega) (by omega)
    (by unfold COLOR_LAST_FRAME_TIME; omega)
  have s1 := readAt_frame self.frames 5 n k 1 ((k : Int) * 5 + COLOR_FRAME_R) hlen
    hk (by omega) (by unfold COLOR_FRAME_R; omega)
  have s2 := readAt_frame self.frames 5 n k 2 ((k : Int) * 5 + COLOR_FRAME_G) hlen
    hk (by omega) (by unfold COLOR_FRAME_G; omega)
  have s3 := readAt_frame self.frames 5 n k 3 ((k : Int) * 5 + COLOR_FRAME_B) hlen
    hk (by omega) (by unfold COLOR_FRAME_B; omega)
  have s4 := readAt_frame self.frames 5 n k 4 ((k : Int) * 5 + COLOR_FRAME_A) hlen
    hk (by omega) (by unfold COLOR_FRAME_A; omega)
  have hidx : Int.tdiv ((k : Int) * 5) 5 - 1 = ((k - 1 : Nat) : Int) := by
    have : Int.tdiv ((k : Int) * 5) 5 = k := Int.mul_tdiv_cancel _ (by norm_num)
    rw [this]; omega
  have hnot0 : ¬ time < frameAt self.frames 5 0 0 := not_lt.mpr h0
  have hnot1 : ¬ frameAt self.frames 5 (n - 1) 0 ≤ time := not_le.mpr h1
  simp only [Nat.cast_ofNat] at hs
  unfold Rounded._ColorTimeline_apply Rounded.colorTo Rounded.lerp Rounded.blend
    Rounded.progress
  simp only [r0, hnot0, if_false]
  simp only [hslot]
  simp only [r1]
  simp only [ge_iff_le, hnot1, if_false]
  simp only [hs]
  simp only [q1]
  simp only [q2]
  simp only [q3]
  simp only [q4]
  simp only [r4]
  simp only [r5]
  simp only [hidx]
  simp only [s1]
  simp only [s2]
  simp only [s3]
  simp only [s4]

theorem Rounded_getCurvePercent_congr (fl : ℚ → Option ℚ) (c1 c2 : List ℚ) (i : Int) (t : ℚ)
    (h : ∀ o : Int, 0 ≤ o → o < 6 → readAt c1 (i * 6 + o) = readAt c2 (i * 6 + o)) :
    Rounded.CurveTimeline_getCurvePercent fl { curves := c1 } i t
      = Rounded.CurveTimeline_getCurvePercent fl { curves := c2 } i t := by
  have h0 := h 0 (by norm_num) (by norm_num)
  rw [add_zero] at h0
  unfold Rounded.CurveTimeline_getCurvePercent
  simp only [h0, h 1 (by norm_num) (by norm_num), h 2 (by norm_num) (by norm_num),
    h 3 (by norm_num) (by norm_num), h 4 (by norm_num) (by norm_num),
    h 5 (by norm_num) (by norm_num)]

/-- Between keyframes `k - 1` and `k` every curved timeline, whatever its curve array, hands
the clamped raw progress between the two key times to the curve evaluator at entry `k - 1`
and leaves the pose that belongs to the value returned. -/
theorem Rounded_Timeline_apply_between (fl : ℚ → Option ℚ) (resolve : Resolver)
    (tl : Timeline) (skeleton : Skeleton) (time alpha : ℚ) (n k : Nat) (hcurved : tl.Curved)
    (hwf : tl.WellFormed n) (htarget : tl.TargetIn skeleton) (hk1 : 1 ≤ k) (hk : k < n)
    (ht0 : frameAt tl.frames tl.frameSize (k - 1) 0 ≤ time)
    (ht1 : time < frameAt tl.frames tl.frameSize k 0) (curves : List ℚ)
    (hlen : curves.length = (n - 1) * 6) :
    Rounded.Timeline_apply fl resolve (tl.withCurves curves) skeleton time alpha
      = match Rounded.progress fl time (frameAt tl.frames tl.frameSize (k - 1) 0)
          (frameAt tl.frames tl.frameSize k 0) with
        | none => none
        | some raw =>
        match Rounded.CurveTimeline_getCurvePercent fl { curves := curves }
          ((k - 1 : Nat) : Int) (clampPercent raw) with
        | none => none
        | some p => Rounded.segmentPose fl tl skeleton k alpha p := by
  cases tl with
  | rotate self =>
    obtain ⟨bone, hbone⟩ := readAt_bone_of_target skeleton self.boneIndex htarget
    show Rounded._RotateTimeline_apply fl { self with super := { curves := curves } } skeleton
      time alpha = _
    rw [Rounded_RotateTimeline_apply_between fl { self with super := { curves := curves } }
      skeleton bone time alpha n k ⟨hwf.1, hlen⟩ hbone hk1 hk ht0 ht1]
    simp only [Rounded.segmentPose, hbone]
    rfl
  | translate self =>
    obtain ⟨bone, hbone⟩ := readAt_bone_of_target skeleton self.boneIndex htarget
    show Rounded._TranslateTimeline_apply fl { self with super := { curves := curves } }
      skeleton time alpha = _
    rw [Rounded_TranslateTimeline_apply_between fl { self with super := { curves := curves } }
      skeleton bone time alpha n k ⟨hwf.1, hlen⟩ hbone hk1 hk ht0 ht1]
    simp only [Rounded.segmentPose, hbone]
    rfl
  | scale self =>
    obtain ⟨bone, hbone⟩ := readAt_bone_of_target skeleton self.boneIndex htarget
    show Rounded._ScaleTimeline_apply fl { self with super := { curves := curves } }
      skeleton time alpha = _
    rw [Rounded_ScaleTimeline_apply_between fl { self with super := { curves := curves } }
      skeleton bone time alpha n k ⟨hwf.1, hlen⟩ hbone hk1 hk ht0 ht1]
    simp only [Rounded.segmentPose, hbone]
    rfl
  | color self =>
    obtain ⟨slot, hslot⟩ := readAt_slot_of_target skeleton self.slotIndex htarget
    show Rounded._ColorTimeline_apply fl { self with super := { curves := curves } }
      skeleton time alpha = _
    rw [Rounded_ColorTimeline_apply_between fl { self with super := { curves := curves } }
      skeleton slot time alpha n k ⟨hwf.1, hlen⟩ hslot hk1 hk ht0 ht1]
    simp only [Rounded.segmentPose, hslot]
    rfl
  | attachment self => exact hcurved.elim

/-! ## Curve entries -/

theorem setLinear_entry (c : List ℚ) (j : Int) (c' : CurveTimeline)
    (h : CurveTimeline_setLinear { curves := c } j = some c') :
    c'.curves.length = c.length ∧ readAt c'.curves (j * 6) = some CURVE_LINEAR := by
  unfold CurveTimeline_setLinear at h
  cases hw : writeAt c (j * 6) CURVE_LINEAR with
  | none => simp [hw] at h
  | some l =>
    simp only [hw, Option.map_some'] at h
    rw [← Option.some.inj h]
    exact ⟨writeAt_length _ _ _ _ hw, readAt_writeAt_same _ _ _ _ hw⟩

theorem setStepped_entry (c : List ℚ) (j : Int) (c' : CurveTimeline)
    (h : CurveTimeline_setStepped { curves := c } j = some c') :
    c'.curves.length = c.length ∧ readAt c'.curves (j * 6) = some CURVE_STEPPED := by
  unfold CurveTimeline_setStepped at h
  cases hw : writeAt c (j * 6) CURVE_STEPPED with
  | none => simp [hw] at h
  | some l =>
    simp only [hw, Option.map_some'] at h
    rw [← Option.some.inj h]
    exact ⟨writeAt_length _ _ _ _ hw, readAt_writeAt_same _ _ _ _ hw⟩

theorem Rounded_getCurvePercent_linear_entry (fl : ℚ → Option ℚ) (cs : List ℚ) (i : Int)
    (t : ℚ) (h : readAt cs (i * 6) = some CURVE_LINEAR) :
    Rounded.CurveTimeline_getCurvePercent fl { curves := cs } i t = some t := by
  unfold Rounded.CurveTimeline_getCurvePercent
  simp only [h]
  simp

theorem Rounded_getCurvePercent_stepped_entry (fl : ℚ → Option ℚ) (cs : List ℚ) (i : Int)
    (t : ℚ) (h : readAt cs (i * 6) = some CURVE_STEPPED) :
    Rounded.CurveTimeline_getCurvePercent fl { curves := cs } i t = some 0 := by
  unfold Rounded.CurveTimeline_getCurvePercent
  simp only [h]
  simp [CURVE_LINEAR, CURVE_STEPPED]

/-! ## Evaluation of the examples in binary32 -/

/-- A rational that is an integer below `2 ^ 24` in magnitude is a binary32 number. -/
theorem isBinary32_of_int (r : ℚ) (z : ℤ) (h : r = z) (hz : |z| < 2 ^ 24) :
    Rounded.IsBinary32 r :=
  ⟨z, 0, by rw [h]; simp, hz, by norm_num, by norm_num⟩

/-- A rational that is an integer below `2 ^ 24` in magnitude, halved, is a binary32
number. -/
theorem isBinary32_of_half (r : ℚ) (z : ℤ) (h : r = z / 2) (hz : |z| < 2 ^ 24) :
    Rounded.IsBinary32 r :=
  ⟨z, -1, by rw [h]; norm_num; ring, hz, by norm_num, by norm_num⟩

/-- Between keyframes `k - 1` and `k` of a Translate timeline, from the values of the
progress and of the curve evaluator. -/
theorem Rounded_TranslateTimeline_apply_of_values (fl : ℚ → Option ℚ) (self : BaseTimeline)
    (skeleton : Skeleton) (bone : Bone) (time alpha : ℚ) (n k : Nat)
    (hwf : self.WellFormed 3 n) (hbone : readAt skeleton.bones self.boneIndex = some bone)
    (hk1 : 1 ≤ k) (hk : k < n) (hlo : frameAt self.frames 3 (k - 1) 0 ≤ time)
    (hhi : time < frameAt self.frames 3 k 0) (percent p : ℚ)
    (h1 : Rounded.progress fl time (frameAt self.frames 3 (k - 1) 0)
      (frameAt self.frames 3 k 0) = some percent)
    (h2 : Rounded.CurveTimeline_getCurvePercent fl self.super ((k - 1 : Nat) : Int)
      (clampPercent percent) = some p) :
    Rounded._TranslateTimeline_apply fl self skeleton time alpha
      = Rounded.translateTo fl skeleton self.boneIndex bone
          (Rounded.fadd fl (Rounded.fadd fl bone.data.x (frameAt self.frames 3 (k - 1) 1))
            (Rounded.fmul fl
              (Rounded.fsub fl (frameAt self.frames 3 k 1) (frameAt self.frames 3 (k - 1) 1))
              p))
          (Rounded.fadd fl (Rounded.fadd fl bone.data.y (frameAt self.frames 3 (k - 1) 2))
            (Rounded.fmul fl
              (Rounded.fsub fl (frameAt self.frames 3 k 2) (frameAt self.frames 3 (k - 1) 2))
              p))
          alpha := by
  rw [Rounded_TranslateTimeline_apply_between fl self skeleton bone time alpha n k hwf hbone hk1
    hk hlo hhi]
  simp only [h1, h2]

/-- How the interpolated target of a Translate or Scale timeline is evaluated, one operation
after the other. -/
theorem target_eq (fl : ℚ → Option ℚ) (setup : Option ℚ) (lower upper p s a d e r : ℚ)
    (h0 : setup = some s) (h1 : fl (s + lower) = some a) (h2 : fl (upper - lower) = some d)
    (h3 : fl (d * p) = some e) (h4 : fl (a + e) = some r) :
    Rounded.fadd fl (Rounded.fadd fl setup (some lower))
      (Rounded.fmul fl (Rounded.fsub fl (some upper) (some lower)) (some p)) = some r := by
  subst h0
  rw [fadd_some, h1, fsub_some, h2, fmul_some, h3, fadd_some, h4]

/-- The raw progress at the time `3/2` between key times 1 and 2, in binary32. -/
theorem progress_binary32_three_halves :
    Rounded.progress Rounded.binary32 (3 / 2) 1 2 = some (1 / 2) :=
  progress_eq _ _ _ _ (-1 / 2) (-1) (1 / 2) (1 / 2)
    (binary32_of_eq _ _ (by norm_num) (isBinary32_of_half _ (-1) (by norm_num) (by norm_num)))
    (binary32_of_eq _ _ (by norm_num) (isBinary32_of_int _ (-1) (by norm_num) (by norm_num)))
    (by norm_num)
    (binary32_of_eq _ _ (by norm_num) (isBinary32_of_half _ 1 (by norm_num) (by norm_num)))
    (binary32_of_eq _ _ (by norm_num) (isBinary32_of_half _ 1 (by norm_num) (by norm_num)))

/-- An operation whose exact result is an integer below `2 ^ 24` in magnitude is exact in
binary32. -/
theorem binary32_int (q r : ℚ) (z : ℤ) (h : q = r) (hr : r = z) (hz : |z| < 2 ^ 24) :
    Rounded.binary32 q = some r :=
  binary32_of_eq q r h (isBinary32_of_int r z hr hz)

/-- An operation whose exact result is half an integer below `2 ^ 24` in magnitude is exact
in binary32. -/
theorem binary32_half_int (q r : ℚ) (z : ℤ) (h : q = r) (hr : r = z / 2) (hz : |z| < 2 ^ 24) :
    Rounded.binary32 q = some r :=
  binary32_of_eq q r h (isBinary32_of_half r z hr hz)

/-- The three-keyframe Translate example on the example pose at the time `1/2`, weight 1,
in binary32: between keyframes 0 and 1 the entry 0 (linear) is consulted and the bone ends
at the setup `(10, 20)` plus `(5, 5)`. -/
theorem translate3_half_binary32 :
    Rounded._TranslateTimeline_apply Rounded.binary32 exampleTranslate3 examplePose (1 / 2) 1
      = some { bones := [⟨⟨10, 20, 0, 1, 1⟩, 15, 25, 0, 1, 1⟩],
               slots := [⟨1, 1, 1, 1, none⟩] } := by
  have e0 : frameAt exampleTranslate3.frames 3 (1 - 1) 0 = 0 := by
    norm_num [frameAt, exampleTranslate3]
  have e1 : frameAt exampleTranslate3.frames 3 1 0 = 1 := by
    norm_num [frameAt, exampleTranslate3]
  have e2 : frameAt exampleTranslate3.frames 3 (1 - 1) 1 = 0 := by
    norm_num [frameAt, exampleTranslate3]
  have e3 : frameAt exampleTranslate3.frames 3 1 1 = 10 := by
    norm_num [frameAt, exampleTranslate3]
  have e4 : frameAt exampleTranslate3.frames 3 (1 - 1) 2 = 0 := by
    norm_num [frameAt, exampleTranslate3]
  have e5 : frameAt exampleTranslate3.frames 3 1 2 = 10 := by
    norm_num [frameAt, exampleTranslate3]
  rw [Rounded_TranslateTimeline_apply_of_values Rounded.binary32 exampleTranslate3 examplePose
    ⟨⟨10, 20, 0, 1, 1⟩, 1, 2, 0, 1, 1⟩ (1 / 2) 1 3 1 exampleTranslate3_wellFormed
    rfl (by norm_num) (by norm_num) (by rw [e0]; norm_num) (by rw [e1]; norm_num)
    (1 / 2) (1 / 2)
    (by rw [e0, e1]; exact progress_binary32_half)
    (by
      rw [clampPercent_of_mem _ (by norm_num) (by norm_num)]
      exact Rounded_getCurvePercent_of_linear _ _ _ _ (by rfl))]
  rw [e2, e3, e4, e5]
  rw [translateTo_eq Rounded.binary32 _ _ _ _ _ 1 15 25
    (blend_eq _ _ _ 1 15 14 14 15
      (target_eq _ _ _ _ _ 10 10 10 5 15 rfl
        (binary32_int _ _ 10 (by norm_num) (by norm_num) (by norm_num))
        (binary32_int _ _ 10 (by norm_num) (by norm_num) (by norm_num))
        (binary32_int _ _ 5 (by norm_num) (by norm_num) (by norm_num))
        (binary32_int _ _ 15 (by norm_num) (by norm_num) (by norm_num)))
      (binary32_int _ _ 14 (by norm_num) (by norm_num) (by norm_num))
      (binary32_int _ _ 14 (by norm_num) (by norm_num) (by norm_num))
      (binary32_int _ _ 15 (by norm_num) (by norm_num) (by norm_num)))
    (blend_eq _ _ _ 1 25 23 23 25
      (target_eq _ _ _ _ _ 20 20 10 5 25 rfl
        (binary32_int _ _ 20 (by norm_num) (by norm_num) (by norm_num))
        (binary32_int _ _ 10 (by norm_num) (by norm_num) (by norm_num))
        (binary32_int _ _ 5 (by norm_num) (by norm_num) (by norm_num))
        (binary32_int _ _ 25 (by norm_num) (by norm_num) (by norm_num)))
      (binary32_int _ _ 23 (by norm_num) (by norm_num) (by norm_num))
      (binary32_int _ _ 23 (by norm_num) (by norm_num) (by norm_num))
      (binary32_int _ _ 25 (by norm_num) (by norm_num) (by norm_num)))]
  simp [setBone, writeAt, examplePose, exampleTranslate3]

/-- The three-keyframe Translate example on the example pose at the time `3/2`, weight 1,
in binary32: between keyframes 1 and 2 the entry 1 (stepped) is consulted and the bone
holds the setup `(10, 20)` plus keyframe 1's `(10, 10)`. -/
theorem translate3_three_halves_binary32 :
    Rounded._TranslateTimeline_apply Rounded.binary32 exampleTranslate3 examplePose (3 / 2) 1
      = some { bones := [⟨⟨10, 20, 0, 1, 1⟩, 20, 30, 0, 1, 1⟩],
               slots := [⟨1, 1, 1, 1, none⟩] } := by
  have e0 : frameAt exampleTranslate3.frames 3 (2 - 1) 0 = 1 := by
    norm_num [frameAt, exampleTranslate3]
  have e1 : frameAt exampleTranslate3.frames 3 2 0 = 2 := by
    norm_num [frameAt, exampleTranslate3]
  have e2 : frameAt exampleTranslate3.frames 3 (2 - 1) 1 = 10 := by
    norm_num [frameAt, exampleTranslate3]
  have e3 : frameAt exampleTranslate3.frames 3 2 1 = 20 := by
    norm_num [frameAt, exampleTranslate3]
  have e4 : frameAt exampleTranslate3.frames 3 (2 - 1) 2 = 10 := by
    norm_num [frameAt, exampleTranslate3]
  have e5 : frameAt exampleTranslate3.frames 3 2 2 = 20 := by
    norm_num [frameAt, exampleTranslate3]
  rw [Rounded_TranslateTimeline_apply_of_values Rounded.binary32 exampleTranslate3 examplePose
    ⟨⟨10, 20, 0, 1, 1⟩, 1, 2, 0, 1, 1⟩ (3 / 2) 1 3 2 exampleTranslate3_wellFormed
    rfl (by norm_num) (by norm_num) (by rw [e0]; norm_num) (by rw [e1]; norm_num)
    (1 / 2) 0
    (by rw [e0, e1]; exact progress_binary32_three_halves)
    (by
      rw [clampPercent_of_mem _ (by norm_num) (by norm_num)]
      exact Rounded_getCurvePercent_stepped_entry _ _ _ _ (by rfl))]
  rw [e2, e3, e4, e5]
  rw [translateTo_eq Rounded.binary32 _ _ _ _ _ 1 20 30
    (blend_eq _ _ _ 1 20 19 19 20
      (target_eq _ _ _ _ _ 10 20 10 0 20 rfl
        (binary32_int _ _ 20 (by norm_num) (by norm_num) (by norm_num))
        (binary32_int _ _ 10 (by norm_num) (by norm_num) (by norm_num))
        (binary32_int _ _ 0 (by norm_num) (by norm_num) (by norm_num))
        (binary32_int _ _ 20 (by norm_num) (by norm_num) (by norm_num)))
      (binary32_int _ _ 19 (by norm_num) (by norm_num) (by norm_num))
      (binary32_int _ _ 19 (by norm_num) (by norm_num) (by norm_num))
      (binary32_int _ _ 20 (by norm_num) (by norm_num) (by norm_num)))
    (blend_eq _ _ _ 1 30 28 28 30
      (target_eq _ _ _ _ _ 20 30 10 0 30 rfl
        (binary32_int _ _ 30 (by norm_num) (by norm_num) (by norm_num))
        (binary32_int _ _ 10 (by norm_num) (by norm_num) (by norm_num))
        (binary32_int _ _ 0 (by norm_num) (by norm_num) (by norm_num))
        (binary32_int _ _ 30 (by norm_num) (by norm_num) (by norm_num)))
      (binary32_int _ _ 28 (by norm_num) (by norm_num) (by norm_num))
      (binary32_int _ _ 28 (by norm_num) (by norm_num) (by norm_num))
      (binary32_int _ _ 30 (by norm_num) (by norm_num) (by norm_num)))]
  simp [setBone, writeAt, examplePose, exampleTranslate3]

/-- In binary32, `90 * 0.1f` is rounded to 9. -/
theorem binary32_ninety_times_tenth :
    Rounded.binary32 (90 * (13421773 / 134217728)) = some 9 := by
  have h := binary32_near (90 * (13421773 / 134217728)) 3 9437184 (by norm_num)
    (by norm_num [abs_of_pos]) (by norm_num [abs_of_pos]) (by norm_num [abs_lt])
    (by norm_num [abs_of_pos])
  rw [h]
  norm_num

/-- The raw progress at the time `1 - 2 ^ (-24)` between key times -3 and 1, in binary32:
the quotient `2 ^ (-26)` is too small to show in `1 - 2 ^ (-26)`, which rounds to 1. -/
theorem progress_binary32_one :
    Rounded.progress Rounded.binary32 (16777215 / 16777216) (-3) 1 = some 1 := by
  refine progress_eq _ _ _ _ (-1 / 16777216) (-4) (1 / 67108864) 1
    (binary32_of_eq _ _ (by norm_num)
      ⟨-1, -24, by norm_num, by norm_num, by norm_num, by norm_num⟩)
    (binary32_int _ _ (-4) (by norm_num) (by norm_num) (by norm_num))
    (by norm_num)
    (binary32_of_eq _ _ (by norm_num)
      ⟨1, -26, by norm_num, by norm_num, by norm_num, by norm_num⟩) ?_
  have h := binary32_near (1 - 1 / 67108864) (-1) 16777216 (by norm_num)
    (by norm_num [abs_of_pos]) (by norm_num [abs_of_pos]) (by norm_num [abs_lt])
    (by norm_num [abs_of_pos])
  rw [h]
  norm_num

/-- The pose of the Rotate example `(0, 0)`, `(1, 90)` on the pose at rest for the curve
value `0.1f`, weight 1, in binary32: the rotation 9. -/
theorem segmentPose_rotate90_tenth :
    Rounded.segmentPose Rounded.binary32 (.rotate exampleRotate90) restPose 1 1
        (13421773 / 134217728)
      = some { bones := [⟨⟨0, 0, 0, 1, 1⟩, 0, 0, 9, 1, 1⟩],
               slots := [⟨1, 1, 1, 1, none⟩] } := by
  have e2 : frameAt exampleRotate90.frames 2 (1 - 1) 1 = 0 := by
    norm_num [frameAt, exampleRotate90]
  have e3 : frameAt exampleRotate90.frames 2 1 1 = 90 := by
    norm_num [frameAt, exampleRotate90]
  have h9 : Rounded.IsBinary32 9 := isBinary32_of_int 9 9 (by norm_num) (by norm_num)
  have h90 : Rounded.IsBinary32 90 := isBinary32_of_int 90 90 (by norm_num) (by norm_num)
  have hb : readAt restPose.bones exampleRotate90.boneIndex
      = some ⟨⟨0, 0, 0, 1, 1⟩, 0, 0, 0, 1, 1⟩ := rfl
  have harc : Rounded.shortestArc Rounded.binary32
      (Rounded.fsub Rounded.binary32 (some (90 : ℚ)) (some (0 : ℚ))) = some 90 := by
    rw [fsub_some, binary32_of_eq (90 - 0) 90 (by norm_num) h90]
    exact shortestArc_binary32_small 90 h90 (by norm_num [abs_of_pos])
  have t : Rounded.fadd Rounded.binary32 (some (0 : ℚ))
      (Rounded.fadd Rounded.binary32 (some (0 : ℚ))
        (Rounded.fmul Rounded.binary32 (some (90 : ℚ)) (some (13421773 / 134217728))))
      = some 9 := by
    rw [fmul_some, binary32_ninety_times_tenth, fadd_some,
      binary32_of_eq (0 + 9) 9 (by norm_num) h9, fadd_some,
      binary32_of_eq (0 + 9) 9 (by norm_num) h9]
  simp only [Rounded.segmentPose, hb, e2, e3, harc]
  rw [rotateTo_eq Rounded.binary32 _ _ _ _ 1 9 9 9 9 9 t
    (binary32_of_eq _ _ (by norm_num) h9)
    (shortestArc_binary32_small _ h9 (by norm_num [abs_of_pos]))
    (binary32_of_eq _ _ (by norm_num) h9) (binary32_of_eq _ _ (by norm_num) h9)]
  simp [setBone, writeAt, restPose, exampleRotate90]

theorem exampleRotateUnit_wellFormed : exampleRotateUnit.WellFormed 2 2 := by
  refine ⟨⟨rfl, rfl, ?_⟩, rfl⟩
  intro k hk
  have : k = 0 := by omega
  subst this
  norm_num [frameAt, exampleRotateUnit]

/-- In binary32, `2 ^ 24 + 1` lies half way between `2 ^ 24` and `2 ^ 24 + 2` and is rounded
to `2 ^ 24`, whose significand is even. -/
theorem binary32_two_pow_succ : Rounded.binary32 (16777216 + 1) = some 16777216 := by
  have h := binary32_tie_even (16777216 + 1) 24 8388608 (by norm_num)
    (by norm_num [abs_of_pos]) (by norm_num [abs_of_pos]) (by norm_num) (by norm_num)
    (by norm_num [abs_of_pos])
  rw [h]
  norm_num

/-- The example Translate timeline on the example pose at its last keyframe's time, weight 1,
in binary32: the bone ends at the setup `(10, 20)` plus the stored `(5, 5)`. -/
theorem translate_end_binary32 :
    Rounded._TranslateTimeline_apply Rounded.binary32 exampleTranslate examplePose 1 1
      = some { bones := [⟨⟨10, 20, 0, 1, 1⟩, 15, 25, 0, 1, 1⟩],
               slots := [⟨1, 1, 1, 1, none⟩] } := by
  rw [Rounded_TranslateTimeline_apply_after_last _ exampleTranslate examplePose
    ⟨⟨10, 20, 0, 1, 1⟩, 1, 2, 0, 1, 1⟩ 1 1 2 (by norm_num) exampleTranslate_wellFormed
    rfl (by norm_num [frameAt, exampleTranslate])]
  have e1 : frameAt exampleTranslate.frames 3 (2 - 1) 1 = 5 := by
    norm_num [frameAt, exampleTranslate]
  have e2 : frameAt exampleTranslate.frames 3 (2 - 1) 2 = 5 := by
    norm_num [frameAt, exampleTranslate]
  have tx : Rounded.fadd Rounded.binary32 (some (10 : ℚ)) (some 5) = some 15 := by
    rw [fadd_some, binary32_int _ 15 15 (by norm_num) (by norm_num) (by norm_num)]
  have ty : Rounded.fadd Rounded.binary32 (some (20 : ℚ)) (some 5) = some 25 := by
    rw [fadd_some, binary32_int _ 25 25 (by norm_num) (by norm_num) (by norm_num)]
  rw [e1, e2]
  rw [translateTo_eq Rounded.binary32 _ _ _ _ _ 1 15 25
    (blend_eq _ _ _ 1 15 14 14 15 tx
      (binary32_int _ _ 14 (by norm_num) (by norm_num) (by norm_num))
      (binary32_int _ _ 14 (by norm_num) (by norm_num) (by norm_num))
      (binary32_int _ _ 15 (by norm_num) (by norm_num) (by norm_num)))
    (blend_eq _ _ _ 1 25 23 23 25 ty
      (binary32_int _ _ 23 (by norm_num) (by norm_num) (by norm_num))
      (binary32_int _ _ 23 (by norm_num) (by norm_num) (by norm_num))
      (binary32_int _ _ 25 (by norm_num) (by norm_num) (by norm_num)))]
  simp [setBone, writeAt, examplePose, exampleTranslate]

/-- The Rotate example with last angle 1 on a bone with setup rotation `2 ^ 24` and current
rotation `2 ^ 24`, at the last keyframe's time, weight 1, in binary32: `2 ^ 24 + 1` is
rounded to `2 ^ 24` and the rotation stays `2 ^ 24`. -/
theorem rotate_end_binary32 :
    Rounded._RotateTimeline_apply Rounded.binary32 exampleRotateUnit farTurnPose 1 1
      = some farTurnPose := by
  rw [Rounded_RotateTimeline_apply_after_last _ exampleRotateUnit farTurnPose
    ⟨⟨0, 0, 16777216, 1, 1⟩, 0, 0, 16777216, 1, 1⟩ 1 1 2 (by norm_num)
    exampleRotateUnit_wellFormed rfl (by norm_num [frameAt, exampleRotateUnit])]
  have e1 : frameAt exampleRotateUnit.frames 2 (2 - 1) 1 = 1 := by
    norm_num [frameAt, exampleRotateUnit]
  have h0 : Rounded.IsBinary32 0 := isBinary32_of_int 0 0 (by norm_num) (by norm_num)
  have t : Rounded.fadd Rounded.binary32 (some (16777216 : ℚ)) (some 1) = some 16777216 := by
    rw [fadd_some, binary32_two_pow_succ]
  rw [e1]
  rw [rotateTo_eq Rounded.binary32 _ _ _ _ 1 16777216 0 0 0 16777216 t
    (binary32_of_eq _ _ (by norm_num) h0)
    (shortestArc_binary32_small _ h0 (by norm_num))
    (binary32_of_eq _ _ (by norm_num) h0)
    (binary32_of_eq _ _ (by norm_num)
      ⟨1, 24, by norm_num, by norm_num, by norm_num, by norm_num⟩)]
  simp [setBone, writeAt, farTurnPose, exampleRotateUnit]

/-! ## Two timelines on one bone -/

theorem blend_none (fl : ℚ → Option ℚ) (current alpha : ℚ) :
    Rounded.blend fl current none alpha = none := by
  simp [Rounded.blend, Rounded.fsub, Rounded.fmul, Rounded.fadd]

theorem translateTo_none_left (fl : ℚ → Option ℚ) (skeleton : Skeleton) (boneIndex : Int)
    (bone : Bone) (targetY : Option ℚ) (alpha : ℚ) :
    Rounded.translateTo fl skeleton boneIndex bone none targetY alpha = none := by
  unfold Rounded.translateTo
  simp only [blend_none]

theorem translateTo_none_right (fl : ℚ → Option ℚ) (skeleton : Skeleton) (boneIndex : Int)
    (bone : Bone) (targetX : Option ℚ) (alpha : ℚ) :
    Rounded.translateTo fl skeleton boneIndex bone targetX none alpha = none := by
  unfold Rounded.translateTo
  simp only [blend_none]
  cases Rounded.blend fl bone.x targetX alpha <;> rfl

/-- What a Translate timeline makes the bone move toward at a time from its first keyframe
on: for every rounding, targets `X`, `Y` that depend on the setup position only, not on the
pose the timeline is applied to, nor on the weight. -/
theorem Rounded_TranslateTimeline_value (fl : ℚ → Option ℚ) (self : BaseTimeline) (time : ℚ)
    (n : Nat) (hn : 1 ≤ n) (hwf : self.WellFormed 3 n)
    (h0 : frameAt self.frames 3 0 0 ≤ time) :
    ∃ X Y : ℚ → Option ℚ, ∀ (skeleton : Skeleton) (bone : Bone) (alpha : ℚ),
      readAt skeleton.bones self.boneIndex = some bone →
      Rounded._TranslateTimeline_apply fl self skeleton time alpha
        = Rounded.translateTo fl skeleton self.boneIndex bone (X bone.data.x) (Y bone.data.y)
            alpha := by
  by_cases hend : frameAt self.frames 3 (n - 1) 0 ≤ time
  · exact ⟨fun s => Rounded.fadd fl s (frameAt self.frames 3 (n - 1) 1),
      fun s => Rounded.fadd fl s (frameAt self.frames 3 (n - 1) 2),
      fun skeleton bone alpha hbone =>
        Rounded_TranslateTimeline_apply_after_last fl self skeleton bone time alpha n hn hwf
          hbone hend⟩
  · have h1 : time < frameAt self.frames 3 (n - 1) 0 := not_le.mp hend
    have hkey : Keyframes self.frames ((n * 3 : Nat) : Int) 3 n := ⟨hwf.1.1, rfl, hwf.1.2.2⟩
    obtain ⟨k, _, hk1, hk, hlo, hhi, _⟩ :=
      binarySearch_segment self.frames time 3 n hkey (by omega)
        (two_le_count_of_between h0 h1) h0 h1
    refine ⟨fun s =>
        match Rounded.progress fl time (frameAt self.frames 3 (k - 1) 0)
          (frameAt self.frames 3 k 0) with
        | none => none
        | some percent =>
        match Rounded.CurveTimeline_getCurvePercent fl self.super ((k - 1 : Nat) : Int)
          (clampPercent percent) with
        | none => none
        | some p =>
          Rounded.fadd fl (Rounded.fadd fl s (frameAt self.frames 3 (k - 1) 1))
            (Rounded.fmul fl
              (Rounded.fsub fl (frameAt self.frames 3 k 1) (frameAt self.frames 3 (k - 1) 1))
              p),
      fun s =>
        match Rounded.progress fl time (frameAt self.frames 3 (k - 1) 0)
          (frameAt self.frames 3 k 0) with
        | none => none
        | some percent =>
        match Rounded.CurveTimeline_getCurvePercent fl self.super ((k - 1 : Nat) : Int)
          (clampPercent percent) with
        | none => none
        | some p =>
          Rounded.fadd fl (Rounded.fadd fl s (frameAt self.frames 3 (k - 1) 2))
            (Rounded.fmul fl
              (Rounded.fsub fl (frameAt self.frames 3 k 2) (frameAt self.frames 3 (k - 1) 2))
              p), ?_⟩
    intro skeleton bone alpha hbone
    rw [Rounded_TranslateTimeline_apply_between fl self skeleton bone time alpha n k hwf hbone
      hk1 hk hlo hhi]
    cases Rounded.progress fl time (frameAt self.frames 3 (k - 1) 0)
      (frameAt self.frames 3 k 0) with
    | none => exact (translateTo_none_left _ _ _ _ _ _).symm
    | some percent =>
      dsimp only
      cases Rounded.CurveTimeline_getCurvePercent fl self.super ((k - 1 : Nat) : Int)
        (clampPercent percent) with
      | none => exact (translateTo_none_left _ _ _ _ _ _).symm
      | some p => rfl

/-- An animation of two timelines applies the first to the pose given and the second to the
result, both at the wrapped time and with weight 1. -/
theorem Rounded_Animation_apply_pair (fl : ℚ → Option ℚ) (resolve : Resolver)
    (A B : Timeline) (duration : ℚ) (skeleton : Skeleton) (time : ℚ) (loop : Int) :
    Rounded.Animation_apply fl resolve
        { timelineCount := 2, timelines := [A, B], duration := duration } skeleton time loop
      = (Rounded.Timeline_apply fl resolve A skeleton (wrappedTime duration time loop) 1).bind
          (fun s => Rounded.Timeline_apply fl resolve B s (wrappedTime duration time loop) 1) := by
  have r0 : readAt [A, B] 0 = some A := rfl
  have r1 : readAt [A, B] (0 + 1) = some B := rfl
  show Rounded.applyTimelines fl resolve [A, B] (wrappedTime duration time loop) 1 2 0 skeleton
    = _
  unfold Rounded.applyTimelines
  simp only [r0]
  cases hAr : Rounded.Timeline_apply fl resolve A skeleton (wrappedTime duration time loop) 1 with
  | none => rfl
  | some s =>
    simp only [Option.some_bind]
    unfold Rounded.applyTimelines
    simp only [r1]
    cases hBr : Rounded.Timeline_apply fl resolve B s (wrappedTime duration time loop) 1 with
    | none => rfl
    | some s2 => simp [Rounded.applyTimelines]

theorem exampleTranslateFar_wellFormed : exampleTranslateFar.WellFormed 3 2 := by
  refine ⟨⟨rfl, rfl, ?_⟩, rfl⟩
  intro k hk
  have : k = 0 := by omega
  subst this
  norm_num [frameAt, exampleTranslateFar]

theorem exampleTranslateLate_wellFormed : exampleTranslateLate.WellFormed 3 2 := by
  refine ⟨⟨rfl, rfl, ?_⟩, rfl⟩
  intro k hk
  have : k = 0 := by omega
  subst this
  norm_num [frameAt, exampleTranslateLate]

/-- Before its first keyframe a Translate timeline returns the pose as it is, whatever the
rounding. -/
theorem Rounded_TranslateTimeline_apply_before_first (fl : ℚ → Option ℚ)
    (self : BaseTimeline) (skeleton : Skeleton) (time alpha first : ℚ)
    (h : readAt self.frames 0 = some first) (ht : time < first) :
    Rounded._TranslateTimeline_apply fl self skeleton time alpha = some skeleton := by
  unfold Rounded._TranslateTimeline_apply
  simp only [h, ht, if_true]

theorem wrappedTime_of_not_loop (duration time : ℚ) : wrappedTime duration time 0 = time := by
  simp [wrappedTime]

/-- In binary32, `21/2 - 16777226` lies half way between `-16777215` and `-16777216` and is
rounded to `-16777216 = -2 ^ 24`. -/
theorem binary32_far_difference :
    Rounded.binary32 (21 / 2 - 16777226) = some (-16777216) := by
  have h := binary32_tie_even (21 / 2 - 16777226) 23 (-16777216) (by norm_num)
    (by norm_num [abs_of_neg]) (by norm_num [abs_of_neg]) (by norm_num) (by norm_num)
    (by norm_num [abs_of_neg])
  rw [h]
  norm_num

/-- The far Translate example on the pose with setup `x = 10` at its last keyframe's time,
weight 1, in binary32: the bone is moved to `x = 10 + 2 ^ 24`. -/
theorem translateFar_end_binary32 :
    Rounded._TranslateTimeline_apply Rounded.binary32 exampleTranslateFar tenPose 1 1
      = some { bones := [⟨⟨10, 0, 0, 1, 1⟩, 16777226, 0, 0, 1, 1⟩], slots := [] } := by
  rw [Rounded_TranslateTimeline_apply_after_last _ exampleTranslateFar tenPose
    ⟨⟨10, 0, 0, 1, 1⟩, 10, 0, 0, 1, 1⟩ 1 1 2 (by norm_num) exampleTranslateFar_wellFormed
    rfl (by norm_num [frameAt, exampleTranslateFar])]
  have e1 : frameAt exampleTranslateFar.frames 3 (2 - 1) 1 = 16777216 := by
    norm_num [frameAt, exampleTranslateFar]
  have e2 : frameAt exampleTranslateFar.frames 3 (2 - 1) 2 = 0 := by
    norm_num [frameAt, exampleTranslateFar]
  have hfar : Rounded.IsBinary32 16777226 :=
    ⟨8388613, 1, by norm_num, by norm_num, by norm_num, by norm_num⟩
  have hpow : Rounded.IsBinary32 16777216 :=
    ⟨1, 24, by norm_num, by norm_num, by norm_num, by norm_num⟩
  have tx : Rounded.fadd Rounded.binary32 (some (10 : ℚ)) (some 16777216) = some 16777226 := by
    rw [fadd_some, binary32_of_eq _ 16777226 (by norm_num) hfar]
  have ty : Rounded.fadd Rounded.binary32 (some (0 : ℚ)) (some 0) = some 0 := by
    rw [fadd_some, binary32_int _ 0 0 (by norm_num) (by norm_num) (by norm_num)]
  rw [e1, e2]
  rw [translateTo_eq Rounded.binary32 _ _ _ _ _ 1 16777226 0
    (blend_eq _ _ _ 1 16777226 16777216 16777216 16777226 tx
      (binary32_of_eq _ _ (by norm_num) hpow)
      (binary32_of_eq _ _ (by norm_num) hpow)
      (binary32_of_eq _ _ (by norm_num) hfar))
    (blend_eq _ _ _ 1 0 0 0 0 ty
      (binary32_int _ _ 0 (by norm_num) (by norm_num) (by norm_num))
      (binary32_int _ _ 0 (by norm_num) (by norm_num) (by norm_num))
      (binary32_int _ _ 0 (by norm_num) (by norm_num) (by norm_num)))]
  simp [setBone, writeAt, tenPose, exampleTranslateFar]

/-- The half Translate example on the pose the far example leaves, at its last keyframe's
time, weight 1, in binary32: `21/2 - (10 + 2 ^ 24)` is rounded to `-2 ^ 24` and the bone
ends at `x = 10`. -/
theorem translateHalf_after_far_binary32 :
    Rounded._TranslateTimeline_apply Rounded.binary32 exampleTranslateHalf
        { bones := [⟨⟨10, 0, 0, 1, 1⟩, 16777226, 0, 0, 1, 1⟩], slots := [] } 1 1
      = some { bones := [⟨⟨10, 0, 0, 1, 1⟩, 10, 1 / 2, 0, 1, 1⟩], slots := [] } := by
  rw [Rounded_TranslateTimeline_apply_after_last _ exampleTranslateHalf
    { bones := [⟨⟨10, 0, 0, 1, 1⟩, 16777226, 0, 0, 1, 1⟩], slots := [] }
    ⟨⟨10, 0, 0, 1, 1⟩, 16777226, 0, 0, 1, 1⟩ 1 1 2 (by norm_num) exampleTranslateHalf_wellFormed
    rfl (by norm_num [frameAt, exampleTranslateHalf])]
  have e1 : frameAt exampleTranslateHalf.frames 3 (2 - 1) 1 = 1 / 2 := by
    norm_num [frameAt, exampleTranslateHalf]
  have e2 : frameAt exampleTranslateHalf.frames 3 (2 - 1) 2 = 1 / 2 := by
    norm_num [frameAt, exampleTranslateHalf]
  have hpow : Rounded.IsBinary32 (-16777216) :=
    ⟨-1, 24, by norm_num, by norm_num, by norm_num, by norm_num⟩
  have tx : Rounded.fadd Rounded.binary32 (some (10 : ℚ)) (some (1 / 2)) = some (21 / 2) := by
    rw [fadd_some, binary32_half_int _ (21 / 2) 21 (by norm_num) (by norm_num) (by norm_num)]
  have ty : Rounded.fadd Rounded.binary32 (some (0 : ℚ)) (some (1 / 2)) = some (1 / 2) := by
    rw [fadd_some, zero_add, binary32_half]
  rw [e1, e2]
  rw [translateTo_eq Rounded.binary32 _ _ _ _ _ 1 10 (1 / 2)
    (blend_eq _ _ _ 1 (21 / 2) (-16777216) (-16777216) 10 tx
      binary32_far_difference
      (binary32_of_eq _ _ (by norm_num) hpow)
      (binary32_int _ _ 10 (by norm_num) (by norm_num) (by norm_num)))
    (blend_eq _ _ _ 1 (1 / 2) (1 / 2) (1 / 2) (1 / 2) ty
      (by rw [sub_zero]; exact binary32_half) (by rw [mul_one]; exact binary32_half)
      (by rw [zero_add]; exact binary32_half))]
  simp [setBone, writeAt, exampleTranslateHalf]

/-- The half Translate example alone on the pose with setup `x = 10`, at its last keyframe's
time, weight 1, in binary32: the bone ends at `x = 21/2`. -/
theorem translateHalf_end_binary32 :
    Rounded._TranslateTimeline_apply Rounded.binary32 exampleTranslateHalf tenPose 1 1
      = some { bones := [⟨⟨10, 0, 0, 1, 1⟩, 21 / 2, 1 / 2, 0, 1, 1⟩], slots := [] } := by
  rw [Rounded_TranslateTimeline_apply_after_last _ exampleTranslateHalf tenPose
    ⟨⟨10, 0, 0, 1, 1⟩, 10, 0, 0, 1, 1⟩ 1 1 2 (by norm_num) exampleTranslateHalf_wellFormed
    rfl (by norm_num [frameAt, exampleTranslateHalf])]
  have e1 : frameAt exampleTranslateHalf.frames 3 (2 - 1) 1 = 1 / 2 := by
    norm_num [frameAt, exampleTranslateHalf]
  have e2 : frameAt exampleTranslateHalf.frames 3 (2 - 1) 2 = 1 / 2 := by
    norm_num [frameAt, exampleTranslateHalf]
  have tx : Rounded.fadd Rounded.binary32 (some (10 : ℚ)) (some (1 / 2)) = some (21 / 2) := by
    rw [fadd_some, binary32_half_int _ (21 / 2) 21 (by norm_num) (by norm_num) (by norm_num)]
  have ty : Rounded.fadd Rounded.binary32 (some (0 : ℚ)) (some (1 / 2)) = some (1 / 2) := by
    rw [fadd_some, zero_add, binary32_half]
  rw [e1, e2]
  rw [translateTo_eq Rounded.binary32 _ _ _ _ _ 1 (21 / 2) (1 / 2)
    (blend_eq _ _ _ 1 (21 / 2) (1 / 2) (1 / 2) (21 / 2) tx
      (binary32_half_int _ _ 1 (by norm_num) (by norm_num) (by norm_num))
      (binary32_half_int _ _ 1 (by norm_num) (by norm_num) (by norm_num))
      (binary32_half_int _ _ 21 (by norm_num) (by norm_num) (by norm_num)))
    (blend_eq _ _ _ 1 (1 / 2) (1 / 2) (1 / 2) (1 / 2) ty
      (by rw [sub_zero]; exact binary32_half) (by rw [mul_one]; exact binary32_half)
      (by rw [zero_add]; exact binary32_half))]
  simp [setBone, writeAt, tenPose, exampleTranslateHalf]

/-- The example Translate timeline on the example pose at the time `1/2`, weight 1, in
binary32: the bone ends at the setup `(10, 20)` plus `(5/2, 5/2)`. -/
theorem translate_half_binary32 :
    Rounded._TranslateTimeline_apply Rounded.binary32 exampleTranslate examplePose (1 / 2) 1
      = some { bones := [⟨⟨10, 20, 0, 1, 1⟩, 25 / 2, 45 / 2, 0, 1, 1⟩],
               slots := [⟨1, 1, 1, 1, none⟩] } := by
  have e0 : frameAt exampleTranslate.frames 3 (1 - 1) 0 = 0 := by
    norm_num [frameAt, exampleTranslate]
  have e1 : frameAt exampleTranslate.frames 3 1 0 = 1 := by
    norm_num [frameAt, exampleTranslate]
  have e2 : frameAt exampleTranslate.frames 3 (1 - 1) 1 = 0 := by
    norm_num [frameAt, exampleTranslate]
  have e3 : frameAt exampleTranslate.frames 3 1 1 = 5 := by
    norm_num [frameAt, exampleTranslate]
  have e4 : frameAt exampleTranslate.frames 3 (1 - 1) 2 = 0 := by
    norm_num [frameAt, exampleTranslate]
  have e5 : frameAt exampleTranslate.frames 3 1 2 = 5 := by
    norm_num [frameAt, exampleTranslate]
  rw [Rounded_TranslateTimeline_apply_of_values Rounded.binary32 exampleTranslate examplePose
    ⟨⟨10, 20, 0, 1, 1⟩, 1, 2, 0, 1, 1⟩ (1 / 2) 1 2 1 exampleTranslate_wellFormed
    rfl (by norm_num) (by norm_num) (by rw [e0]; norm_num) (by rw [e1]; norm_num)
    (1 / 2) (1 / 2)
    (by rw [e0, e1]; exact progress_binary32_half)
    (by
      rw [clampPercent_of_mem _ (by norm_num) (by norm_num)]
      exact Rounded_getCurvePercent_of_linear _ _ _ _ (by rfl))]
  rw [e2, e3, e4, e5]
  rw [translateTo_eq Rounded.binary32 _ _ _ _ _ 1 (25 / 2) (45 / 2)
    (blend_eq _ _ _ 1 (25 / 2) (23 / 2) (23 / 2) (25 / 2)
      (target_eq _ _ _ _ _ 10 10 5 (5 / 2) (25 / 2) rfl
        (binary32_int _ _ 10 (by norm_num) (by norm_num) (by norm_num))
        (binary32_int _ _ 5 (by norm_num) (by norm_num) (by norm_num))
        (binary32_half_int _ _ 5 (by norm_num) (by norm_num) (by norm_num))
        (binary32_half_int _ _ 25 (by norm_num) (by norm_num) (by norm_num)))
      (binary32_half_int _ _ 23 (by norm_num) (by norm_num) (by norm_num))
      (binary32_half_int _ _ 23 (by norm_num) (by norm_num) (by norm_num))
      (binary32_half_int _ _ 25 (by norm_num) (by norm_num) (by norm_num)))
    (blend_eq _ _ _ 1 (45 / 2) (41 / 2) (41 / 2) (45 / 2)
      (target_eq _ _ _ _ _ 20 20 5 (5 / 2) (45 / 2) rfl
        (binary32_int _ _ 20 (by norm_num) (by norm_num) (by norm_num))
        (binary32_int _ _ 5 (by norm_num) (by norm_num) (by norm_num))
        (binary32_half_int _ _ 5 (by norm_num) (by norm_num) (by norm_num))
        (binary32_half_int _ _ 45 (by norm_num) (by norm_num) (by norm_num)))
      (binary32_half_int _ _ 41 (by norm_num) (by norm_num) (by norm_num))
      (binary32_half_int _ _ 41 (by norm_num) (by norm_num) (by norm_num))
      (binary32_half_int _ _ 45 (by norm_num) (by norm_num) (by norm_num)))]
  simp [setBone, writeAt, examplePose, exampleTranslate]

/-- The late Translate example alone on the example pose at the time `5/2`, past its last
keyframe, weight 1, in binary32: the bone ends at the setup `(10, 20)` plus `(7, 7)`. -/
theorem translateLate_end_binary32 :
    Rounded._TranslateTimeline_apply Rounded.binary32 exampleTranslateLate examplePose (5 / 2) 1
      = some { bones := [⟨⟨10, 20, 0, 1, 1⟩, 17, 27, 0, 1, 1⟩],
               slots := [⟨1, 1, 1, 1, none⟩] } := by
  rw [Rounded_TranslateTimeline_apply_after_last _ exampleTranslateLate examplePose
    ⟨⟨10, 20, 0, 1, 1⟩, 1, 2, 0, 1, 1⟩ (5 / 2) 1 2 (by norm_num)
    exampleTranslateLate_wellFormed rfl (by norm_num [frameAt, exampleTranslateLate])]
  have e1 : frameAt exampleTranslateLate.frames 3 (2 - 1) 1 = 7 := by
    norm_num [frameAt, exampleTranslateLate]
  have e2 : frameAt exampleTranslateLate.frames 3 (2 - 1) 2 = 7 := by
    norm_num [frameAt, exampleTranslateLate]
  have tx : Rounded.fadd Rounded.binary32 (some (10 : ℚ)) (some 7) = some 17 := by
    rw [fadd_some, binary32_int _ 17 17 (by norm_num) (by norm_num) (by norm_num)]
  have ty : Rounded.fadd Rounded.binary32 (some (20 : ℚ)) (some 7) = some 27 := by
    rw [fadd_some, binary32_int _ 27 27 (by norm_num) (by norm_num) (by norm_num)]
  rw [e1, e2]
  rw [translateTo_eq Rounded.binary32 _ _ _ _ _ 1 17 27
    (blend_eq _ _ _ 1 17 16 16 17 tx
      (binary32_int _ _ 16 (by norm_num) (by norm_num) (by norm_num))
      (binary32_int _ _ 16 (by norm_num) (by norm_num) (by norm_num))
      (binary32_int _ _ 17 (by norm_num) (by norm_num) (by norm_num)))
    (blend_eq _ _ _ 1 27 25 25 27 ty
      (binary32_int _ _ 25 (by norm_num) (by norm_num) (by norm_num))
      (binary32_int _ _ 25 (by norm_num) (by norm_num) (by norm_num))
      (binary32_int _ _ 27 (by norm_num) (by norm_num) (by norm_num)))]
  simp [setBone, writeAt, examplePose, exampleTranslateLate]

/-! ## Weight 0 -/

/-- C1: for every timeline variant (Rotate, Translate, Scale, Color, Attachment) with
`frameCount ≥ 2`, every weight `alpha` and every time strictly before the first keyframe's
time, `Timeline_apply` returns the pose it was given: no bone and no slot field changes. -/
theorem Timeline_apply_before_first (resolve : Resolver) (tl : Timeline) (skeleton : Skeleton)
    (time alpha : ℚ) (frameCount : Nat) (hcount : 2 ≤ frameCount)
    (hlen : tl.frames.length = frameCount * tl.frameSize)
    (htime : time < frameAt tl.frames tl.frameSize 0 0) :
    Timeline_apply resolve tl skeleton time alpha = some skeleton :=
  apply_of_lt_first resolve tl skeleton time alpha frameCount (by omega) hlen htime

/-- Witness of C1: a Color timeline with keyframes at times 1 and 2, applied at time 0 with
weight 1/2 to a pose of one bone and one slot. -/
theorem Timeline_apply_before_first_witness :
    Timeline_apply (fun _ _ _ => some 7)
      (Timeline.color
        { super := _CurveTimeline_init 2, framesLength := 10,
          frames := [1, 0, 0, 0, 0, 2, 1, 1, 1, 1], slotIndex := 0 })
      examplePose 0 (1 / 2)
      = some examplePose :=
  Timeline_apply_before_first _ _ _ 0 (1 / 2) 2 (by norm_num) (by rfl)
    (by norm_num [frameAt, Timeline.frames, Timeline.frameSize])

/-- C3: for every segment index `frameIndex` of a curve array built for `frameCount`
keyframes and every `t` (in particular every `t` in `[0,1]`),
`CurveTimeline_getCurvePercent` returns `t` after `CurveTimeline_setLinear` on that segment,
returns `t` on the array as `_CurveTimeline_init` leaves it (all coefficients 0, never set),
and returns `0` after `CurveTimeline_setStepped` on that segment. -/
theorem getCurvePercent_linear_stepped (self : CurveTimeline) (frameCount frameIndex : Int)
    (t : ℚ) (hlen : (self.curves.length : Int) = (frameCount - 1) * 6) (h0 : 0 ≤ frameIndex)
    (h1 : frameIndex < frameCount - 1) :
    ((CurveTimeline_setLinear self frameIndex).bind
        fun c => CurveTimeline_getCurvePercent c frameIndex t) = some t ∧
      CurveTimeline_getCurvePercent (_CurveTimeline_init frameCount) frameIndex t = some t ∧
      ((CurveTimeline_setStepped self frameIndex).bind
        fun c => CurveTimeline_getCurvePercent c frameIndex t) = some 0 := by
  have hi0 : 0 ≤ frameIndex * 6 := by omega
  have hi1 : frameIndex * 6 < self.curves.length := by omega
  have hi2 : (frameIndex * 6).toNat < self.curves.length := by omega
  have hneg : ¬ frameIndex * 6 < 0 := by omega
  refine ⟨?_, ?_, ?_⟩
  · rw [CurveTimeline_setLinear, writeAt_of_lt _ _ _ hi0 hi1]
    simp [CurveTimeline_getCurvePercent, readAt, hneg, hi2, CURVE_LINEAR]
  · have hi3 : (frameIndex * 6).toNat < ((frameCount - 1) * 6).toNat := by omega
    simp [CurveTimeline_getCurvePercent, _CurveTimeline_init, CALLOC, readAt, hneg, hi3,
      CURVE_LINEAR]
  · rw [CurveTimeline_setStepped, writeAt_of_lt _ _ _ hi0 hi1]
    simp [CurveTimeline_getCurvePercent, readAt, hneg, hi2, CURVE_LINEAR, CURVE_STEPPED]

/-- Witness of C3: the first segment of the curve array of a three-keyframe timeline. -/
theorem getCurvePercent_linear_stepped_witness :
    ((CurveTimeline_setLinear (_CurveTimeline_init 3) 0).bind
        fun c => CurveTimeline_getCurvePercent c 0 (1 / 3)) = some (1 / 3) ∧
      CurveTimeline_getCurvePercent (_CurveTimeline_init 3) 0 (1 / 3) = some (1 / 3) ∧
      ((CurveTimeline_setStepped (_CurveTimeline_init 3) 0).bind
        fun c => CurveTimeline_getCurvePercent c 0 (1 / 3)) = some 0 :=
  getCurvePercent_linear_stepped (_CurveTimeline_init 3) 3 0 (1 / 3) (by rfl) (by norm_num)
    (by norm_num)

/-- C6: for every animation, pose, time and loop flag, `Animation_mix` with weight 1 returns
exactly what `Animation_apply` returns (the same pose, or the same failure). -/
theorem Animation_mix_one_eq_apply (resolve : Resolver) (self : Animation)
    (skeleton : Skeleton) (time : ℚ) (loop : Int) :
    Animation_mix resolve self skeleton time loop 1
      = Animation_apply resolve self skeleton time loop := rfl

/-- C9: Attachment timeline, discrete hold. For strictly increasing keyframe times and every
time at or after the first keyframe's time (and every weight), apply sets the slot's
attachment to the resolution of the name stored at keyframe `k`, the keyframe with the
greatest time `≤ time`, or clears it (null) when that name is absent; nothing is
interpolated and nothing else in the pose changes. -/
theorem AttachmentTimeline_discrete_hold (resolve : Resolver) (self : AttachmentTimeline)
    (skeleton : Skeleton) (slot : Slot) (time alpha : ℚ) (n : Nat) (hn : 1 ≤ n)
    (hwf : self.WellFormed n) (hslot : readAt skeleton.slots self.slotIndex = some slot)
    (h0 : frameAt self.frames 1 0 0 ≤ time) :
    ∃ k : Nat, k < n ∧ frameAt self.frames 1 k 0 ≤ time ∧
      (∀ j, j < n → frameAt self.frames 1 j 0 ≤ time → j ≤ k) ∧
      _AttachmentTimeline_apply resolve self skeleton time alpha
        = some { skeleton with
            slots := skeleton.slots.set self.slotIndex.toNat
              { slot with
                attachment :=
                  match self.attachmentNames.getD k none with
                  | some name => resolve skeleton self.slotIndex name
                  | none => none } } := by
  obtain ⟨k, hk, hk1, hk2, h⟩ :=
    AttachmentTimeline_apply_from_first resolve self skeleton slot time alpha n hn hwf hslot h0
  refine ⟨k, hk, hk1, hk2, ?_⟩
  rw [h]
  cases self.attachmentNames.getD k none <;> rfl

/-- Witness of C9, the example of the claim: keyframes `(0, "skinA")` and `(1, null)` give
the handle of `"skinA"` at time 1/2 and a cleared slot at time 1. -/
theorem AttachmentTimeline_discrete_hold_witness :
    _AttachmentTimeline_apply exampleResolver exampleAttachment restPose (1 / 2) 1
        = some { restPose with slots := [⟨1, 1, 1, 1, some 7⟩] } ∧
      _AttachmentTimeline_apply exampleResolver exampleAttachment
          { restPose with slots := [⟨1, 1, 1, 1, some 7⟩] } 1 1
        = some { restPose with slots := [⟨1, 1, 1, 1, none⟩] } := by
  constructor
  · obtain ⟨k, hk, hk1, _, h⟩ :=
      AttachmentTimeline_discrete_hold exampleResolver exampleAttachment restPose
        ⟨1, 1, 1, 1, none⟩ (1 / 2) 1 2 (by norm_num) exampleAttachment_wellFormed rfl
        (by norm_num [frameAt, exampleAttachment])
    have hk0 : k = 0 := by
      have hk' : k = 0 ∨ k = 1 := by omega
      rcases hk' with h' | h'
      · exact h'
      · subst h'
        norm_num [frameAt, exampleAttachment] at hk1
    subst hk0
    rw [h]
    simp [exampleAttachment, exampleResolver, restPose]
  · obtain ⟨k, hk, _, hk2, h⟩ :=
      AttachmentTimeline_discrete_hold exampleResolver exampleAttachment
        { restPose with slots := [⟨1, 1, 1, 1, some 7⟩] }
        ⟨1, 1, 1, 1, some 7⟩ 1 1 2 (by norm_num) exampleAttachment_wellFormed rfl
        (by norm_num [frameAt, exampleAttachment])
    have hk1 : k = 1 := by
      have := hk2 1 (by norm_num) (by norm_num [frameAt, exampleAttachment])
      omega
    subst hk1
    rw [h]
    simp [exampleAttachment, restPose]

/-- C17: the Attachment timeline ignores the weight: for every attachment timeline, pose and
time, applying it with any two weights `w1` and `w2` gives the same result (the same pose,
or the same failure). -/
theorem AttachmentTimeline_weight_irrelevant (resolve : Resolver) (self : AttachmentTimeline)
    (skeleton : Skeleton) (time w1 w2 : ℚ) :
    _AttachmentTimeline_apply resolve self skeleton time w1
      = _AttachmentTimeline_apply resolve self skeleton time w2 := rfl

theorem exampleScale_wellFormed : exampleScale.WellFormed 3 2 := by
  refine ⟨⟨rfl, rfl, ?_⟩, rfl⟩
  intro k hk
  have hk2 : k < 1 := by omega
  interval_cases k
  norm_num [frameAt, exampleScale]

/-- C12, as amended: when `loop` is set and the duration is nonzero, `Animation_apply` and
`Animation_mix` pass `fmodf(time, duration)` to every timeline. That time differs from the
given time by a whole multiple of the duration, is smaller than the duration in absolute
value and never has the sign opposite to the given time: for a time `≥ 0` and a duration
`> 0` it lies in `[0, duration)`, for a negative time it is `≤ 0`. When `loop` is clear or
the duration is 0 the time is passed unchanged. -/
theorem Animation_loop_time (resolve : Resolver) (self : Animation) (skeleton : Skeleton)
    (time alpha : ℚ) (loop : Int) :
    (loop ≠ 0 → self.duration ≠ 0 →
      Animation_apply resolve self skeleton time loop
        = applyTimelines resolve self.timelines (fmodf time self.duration) 1
            self.timelineCount.toNat 0 skeleton ∧
      Animation_mix resolve self skeleton time loop alpha
        = applyTimelines resolve self.timelines (fmodf time self.duration) alpha
            self.timelineCount.toNat 0 skeleton ∧
      (∃ m : ℤ, fmodf time self.duration = time - m * self.duration) ∧
      |fmodf time self.duration| < |self.duration| ∧
      (0 ≤ time → 0 < self.duration →
        0 ≤ fmodf time self.duration ∧ fmodf time self.duration < self.duration) ∧
      (0 ≤ time → 0 ≤ fmodf time self.duration) ∧
      (time ≤ 0 → fmodf time self.duration ≤ 0)) ∧
    (loop = 0 ∨ self.duration = 0 →
      Animation_apply resolve self skeleton time loop
        = applyTimelines resolve self.timelines time 1 self.timelineCount.toNat 0 skeleton ∧
      Animation_mix resolve self skeleton time loop alpha
        = applyTimelines resolve self.timelines time alpha self.timelineCount.toNat 0
            skeleton) := by
  constructor
  · intro hl hd
    obtain ⟨hm, habs, hpos, hneg⟩ := fmodf_spec time self.duration hd
    refine ⟨?_, ?_, hm, habs, ?_, hpos, hneg⟩
    · simp [Animation_apply, hl, hd]
    · simp [Animation_mix, hl, hd]
    · intro h0 hdpos
      refine ⟨hpos h0, ?_⟩
      have := lt_of_le_of_lt (le_abs_self _) habs
      rwa [abs_of_pos hdpos] at this
  · intro h
    have hc : ¬ (loop ≠ 0 ∧ self.duration ≠ 0) := by
      rcases h with h | h
      · exact fun hc => hc.1 h
      · exact fun hc => hc.2 h
    constructor
    · unfold Animation_apply
      simp only [if_neg hc]
    · unfold Animation_mix
      simp only [if_neg hc]

/-- Witness of C12: time 5/2 looped over a duration of 2 is passed on as 1/2. -/
theorem Animation_loop_time_witness :
    Animation_apply exampleResolver
        { timelineCount := 1, timelines := [.translate exampleTranslate], duration := 2 }
        examplePose (5 / 2) 1
      = applyTimelines exampleResolver [.translate exampleTranslate] (1 / 2) 1 1 0
          examplePose := by
  have h := ((Animation_loop_time exampleResolver
    { timelineCount := 1, timelines := [.translate exampleTranslate], duration := 2 }
    examplePose (5 / 2) 1 1).1 (by norm_num) (by norm_num)).1
  rw [h]
  simp only [fmodf_example_pos]
  rfl

/-- Counterexample to C12 as stated: time -5/2 looped over a duration of 2 is passed on as
-1/2, which is not in `[0, 2)`. The example Attachment timeline, whose first keyframe is at
time 0, therefore leaves the slot's attachment alone, which it does for no time `≥ 0`. -/
theorem Animation_loop_time_counterexample :
    fmodf (-5 / 2) 2 = -1 / 2 ∧
      Animation_apply exampleResolver
          { timelineCount := 1, timelines := [.attachment exampleAttachment], duration := 2 }
          skinnedPose (-5 / 2) 1
        = some skinnedPose ∧
      ∀ t : ℚ, 0 ≤ t →
        applyTimelines exampleResolver [.attachment exampleAttachment] t 1 1 0 skinnedPose
          ≠ some skinnedPose := by
  refine ⟨fmodf_example_neg, ?_, ?_⟩
  · have h : Animation_apply exampleResolver
          { timelineCount := 1, timelines := [.attachment exampleAttachment], duration := 2 }
          skinnedPose (-5 / 2) 1
        = applyTimelines exampleResolver [.attachment exampleAttachment] (fmodf (-5 / 2) 2) 1
            1 0 skinnedPose := by
      simp [Animation_apply]
    rw [h, fmodf_example_neg]
    refine applyTimelines_of_fixed exampleResolver _ skinnedPose _ 1 ?_ 1 0 rfl
    intro tl htl
    rw [List.mem_singleton] at htl
    subst htl
    exact apply_of_lt_first exampleResolver _ skinnedPose _ 1 2 (by norm_num) rfl
      (by norm_num [frameAt, Timeline.frames, Timeline.frameSize, exampleAttachment])
  · intro t ht
    obtain ⟨k, hk, _, _, h⟩ :=
      AttachmentTimeline_apply_from_first exampleResolver exampleAttachment skinnedPose
        ⟨1, 1, 1, 1, some 3⟩ t 1 2 (by norm_num) exampleAttachment_wellFormed rfl
        (by norm_num [frameAt, exampleAttachment]; exact ht)
    have hr : readAt [Timeline.attachment exampleAttachment] 0
        = some (Timeline.attachment exampleAttachment) := rfl
    unfold applyTimelines
    simp only [hr]
    simp only [Timeline_apply, h]
    unfold applyTimelines
    have hk' : k = 0 ∨ k = 1 := by omega
    rcases hk' with h' | h' <;> subst h' <;>
      simp [exampleAttachment, exampleResolver, skinnedPose]

/-- C16, the code at the failing input: the example Color timeline at its last keyframe's
time with weight 1/2 on a slot whose colour is all 0 sets every channel to the keyframe's 1,
where the claim's `current + (last - current) * w` is 1/2; between the keyframes, at time
1/2, the same weight blends (1/4 is half way from 0 to the interpolated 1/2). -/
theorem ColorTimeline_at_end_ignores_weight :
    _ColorTimeline_apply exampleColor darkPose 1 (1 / 2)
        = some { darkPose with slots := [⟨1, 1, 1, 1, none⟩] } ∧
      (0 : ℚ) + (1 - 0) * (1 / 2) ≠ 1 ∧
      _ColorTimeline_apply exampleColor darkPose (1 / 2) (1 / 2)
        = some { darkPose with slots := [⟨1 / 4, 1 / 4, 1 / 4, 1 / 4, none⟩] } := by
  have hwf : exampleColor.WellFormed 2 := by
    refine ⟨⟨rfl, rfl, ?_⟩, rfl⟩
    intro k hk
    have hk2 : k < 1 := by omega
    interval_cases k
    norm_num [frameAt, exampleColor]
  refine ⟨?_, by norm_num, ?_⟩
  · rw [ColorTimeline_apply_after_last exampleColor darkPose ⟨0, 0, 0, 0, none⟩ 1 (1 / 2) 2
      (by norm_num) hwf rfl (by norm_num [frameAt, exampleColor])]
    norm_num [frameAt, exampleColor, darkPose]
  · obtain ⟨k, p, hk1, hk, _, _, hp, h⟩ :=
      ColorTimeline_apply_between exampleColor darkPose ⟨0, 0, 0, 0, none⟩ (1 / 2) (1 / 2) 2
        hwf rfl (by norm_num [frameAt, exampleColor]) (by norm_num [frameAt, exampleColor])
    have hk' : k = 1 := by omega
    subst hk'
    rw [getCurvePercent_of_linear exampleColor.super ((1 - 1 : Nat) : Int) _ (by rfl)] at hp
    have hp' := (Option.some.inj hp).symm
    subst hp'
    rw [h]
    norm_num [frameAt, exampleColor, darkPose]

/-- C15: Bézier evaluation equals polyline interpolation of the true cubic. In exact
arithmetic, for all control points `(cx1, cy1, cx2, cy2)` whose first computed coefficient
`dfx` (which is `B_x(1/10)`) is neither sentinel and every `t` (in `[0,1]` or not),
`CurveTimeline_getCurvePercent` after `CurveTimeline_setCurve` returns
`bezierPolyline cx1 cy1 cx2 cy2 t`: the linear interpolation in `y`, with `x` as parameter,
between the samples `B((k - 1)/10)` and `B(k/10)` of the cubic Bézier `B` with control points
`(0,0)`, `(cx1,cy1)`, `(cx2,cy2)`, `(1,1)`, where `k` is the first index in `1..9` with
`B_x(k/10) ≥ t`, and between `B(9/10)` and `(1,1)` if there is no such `k`. -/
theorem getCurvePercent_bezier (self c : CurveTimeline) (frameIndex : Int)
    (cx1 cy1 cx2 cy2 t dfx : ℚ)
    (hset : CurveTimeline_setCurve self frameIndex cx1 cy1 cx2 cy2 = some c)
    (hdfx : readAt c.curves (frameIndex * 6) = some dfx) (hlin : dfx ≠ CURVE_LINEAR)
    (hstep : dfx ≠ CURVE_STEPPED) :
    dfx = bezier cx1 cx2 (1 / 10) ∧
      CurveTimeline_getCurvePercent c frameIndex t
        = some (bezierPolyline cx1 cy1 cx2 cy2 t) :=
  getCurvePercent_after_setCurve self c frameIndex cx1 cy1 cx2 cy2 t dfx hset hdfx hlin hstep

/-- Witness of C15: control points `(1/4, 0)` and `(3/4, 1)` on the curve array of a
two-keyframe timeline, at `t = 1/2`: the fifth sample is `B(1/2) = (1/2, 1/2)`, so the
polyline and the evaluator give 1/2. -/
theorem getCurvePercent_bezier_witness :
    CurveTimeline_setCurve (_CurveTimeline_init 2) 0 (1 / 4) 0 (3 / 4) 1
        = some { curves := [41 / 500, 7 / 250, 3 / 250, 6 / 125, -3 / 1000, -3 / 250] } ∧
      bezierPolyline (1 / 4) 0 (3 / 4) 1 (1 / 2) = 1 / 2 ∧
      CurveTimeline_getCurvePercent
          { curves := [41 / 500, 7 / 250, 3 / 250, 6 / 125, -3 / 1000, -3 / 250] } 0 (1 / 2)
        = some (1 / 2) := by
  have hset : CurveTimeline_setCurve (_CurveTimeline_init 2) 0 (1 / 4) 0 (3 / 4) 1
      = some { curves := [41 / 500, 7 / 250, 3 / 250, 6 / 125, -3 / 1000, -3 / 250] } := by
    simp [CurveTimeline_setCurve, _CurveTimeline_init, CALLOC, writeAt, CURVE_SEGMENTS,
      List.replicate]
    norm_num
  have hpoly : bezierPolyline (1 / 4) 0 (3 / 4) 1 (1 / 2) = 1 / 2 := by
    norm_num [bezierPolyline, List.range', List.find?, bezier, interpolate]
  have h := (getCurvePercent_bezier (_CurveTimeline_init 2)
    { curves := [41 / 500, 7 / 250, 3 / 250, 6 / 125, -3 / 1000, -3 / 250] } 0 (1 / 4) 0
    (3 / 4) 1 (1 / 2) (41 / 500) hset rfl (by norm_num [CURVE_LINEAR])
    (by norm_num [CURVE_STEPPED])).2
  rw [hpoly] at h
  exact ⟨hset, hpoly, h⟩

/-- C21: Bézier curves fix the endpoints. In exact arithmetic, for all control points with
`cx1` and `cx2` in `[0,1]` and any `cy1`, `cy2`, once `CurveTimeline_setCurve` has stored the
coefficients of segment `frameIndex`, the first coefficient is strictly positive, hence
neither the LINEAR sentinel 0 nor the STEPPED sentinel -1, and
`CurveTimeline_getCurvePercent` returns 0 at `t = 0` and 1 at `t = 1`. The two divisors met
on these paths, the first coefficient (at `t = 0`) and `1 - B_x(9/10)` (at `t = 1`), are
positive, so no division by zero occurs. -/
theorem getCurvePercent_endpoints (self c : CurveTimeline) (frameIndex : Int)
    (cx1 cy1 cx2 cy2 : ℚ) (h1 : 0 ≤ cx1) (h1u : cx1 ≤ 1) (h2 : 0 ≤ cx2) (h2u : cx2 ≤ 1)
    (hset : CurveTimeline_setCurve self frameIndex cx1 cy1 cx2 cy2 = some c) :
    ∃ dfx : ℚ, readAt c.curves (frameIndex * 6) = some dfx ∧ 0 < dfx ∧
      dfx ≠ CURVE_LINEAR ∧ dfx ≠ CURVE_STEPPED ∧ 0 < 1 - bezier cx1 cx2 (9 / 10) ∧
      CurveTimeline_getCurvePercent c frameIndex 0 = some 0 ∧
      CurveTimeline_getCurvePercent c frameIndex 1 = some 1 := by
  have hr := setCurve_first_coefficient self c frameIndex cx1 cy1 cx2 cy2 hset
  have hpos : 0 < bezier cx1 cx2 (1 / 10) := by
    norm_num [bezier]
    nlinarith
  have hlin : bezier cx1 cx2 (1 / 10) ≠ CURVE_LINEAR := by
    rw [CURVE_LINEAR]; exact ne_of_gt hpos
  have hstep : bezier cx1 cx2 (1 / 10) ≠ CURVE_STEPPED := by
    rw [CURVE_STEPPED]; intro h; rw [h] at hpos; norm_num at hpos
  have h9 : bezier cx1 cx2 (9 / 10) < 1 := bezier_lt_one _ _ _ h1u h2u (by norm_num) (by norm_num)
  refine ⟨_, hr, hpos, hlin, hstep, by linarith, ?_, ?_⟩
  · rw [(getCurvePercent_after_setCurve self c frameIndex cx1 cy1 cx2 cy2 0 _ hset hr hlin
      hstep).2]
    congr 1
    have hf : (List.range' 1 9).find? (fun k : Nat => decide ((0 : ℚ) ≤ bezier cx1 cx2 ((k : ℚ) / 10)))
        = some 1 := by
      rw [show List.range' 1 9 = 1 :: List.range' 2 8 from rfl, List.find?_cons_of_pos]
      simpa using le_of_lt hpos
    unfold bezierPolyline
    rw [hf]
    norm_num [interpolate, bezier]
  · rw [(getCurvePercent_after_setCurve self c frameIndex cx1 cy1 cx2 cy2 1 _ hset hr hlin
      hstep).2]
    congr 1
    have hf : (List.range' 1 9).find? (fun k : Nat => decide ((1 : ℚ) ≤ bezier cx1 cx2 ((k : ℚ) / 10)))
        = none := by
      rw [List.find?_eq_none]
      intro k hk
      rw [List.mem_range'_1] at hk
      have hk1 : (1 : ℚ) ≤ (k : ℚ) := by exact_mod_cast hk.1
      have hk2 : (k : ℚ) ≤ 9 := by
        have : k ≤ 9 := by omega
        exact_mod_cast this
      have := bezier_lt_one cx1 cx2 ((k : ℚ) / 10) h1u h2u (by positivity)
        (by rw [div_lt_one (by norm_num)]; linarith)
      simpa using this
    unfold bezierPolyline
    rw [hf]
    have hne : (1 : ℚ) - bezier cx1 cx2 (9 / 10) ≠ 0 := by linarith
    simp only [interpolate]
    field_simp

/-- Witness of C21: control points `(1/4, 0)` and `(3/4, 1)` on the curve array of a
two-keyframe timeline: the first coefficient is 41/500 and the evaluator gives 0 at 0 and 1
at 1. -/
theorem getCurvePercent_endpoints_witness :
    CurveTimeline_setCurve (_CurveTimeline_init 2) 0 (1 / 4) 0 (3 / 4) 1
        = some { curves := [41 / 500, 7 / 250, 3 / 250, 6 / 125, -3 / 1000, -3 / 250] } ∧
      CurveTimeline_getCurvePercent
          { curves := [41 / 500, 7 / 250, 3 / 250, 6 / 125, -3 / 1000, -3 / 250] } 0 0
        = some 0 ∧
      CurveTimeline_getCurvePercent
          { curves := [41 / 500, 7 / 250, 3 / 250, 6 / 125, -3 / 1000, -3 / 250] } 0 1
        = some 1 := by
  have hset : CurveTimeline_setCurve (_CurveTimeline_init 2) 0 (1 / 4) 0 (3 / 4) 1
      = some { curves := [41 / 500, 7 / 250, 3 / 250, 6 / 125, -3 / 1000, -3 / 250] } := by
    simp [CurveTimeline_setCurve, _CurveTimeline_init, CALLOC, writeAt, CURVE_SEGMENTS,
      List.replicate]
    norm_num
  obtain ⟨_, _, _, _, _, _, h0, h1⟩ := getCurvePercent_endpoints (_CurveTimeline_init 2)
    { curves := [41 / 500, 7 / 250, 3 / 250, 6 / 125, -3 / 1000, -3 / 250] } 0 (1 / 4) 0
    (3 / 4) 1 (by norm_num) (by norm_num) (by norm_num) (by norm_num) hset
  exact ⟨hset, h0, h1⟩

/-- C24, as amended: Atlas name lookup is a last-match prefix test. For a token inside the
text that holds no NUL and a `count` within the array, `indexOf (array, count, token)`
returns the greatest index `i < count` such that the token is a prefix of `array[i]`, and
-1 when no name below `count` has the token as a prefix. So an empty token yields
`count - 1`, and the filter token "MipMap" resolves to index 6 (`MipMapLinearLinear`), not
to index 2 (`MipMap`). -/
theorem indexOf_last_match (array : List String) (count : Int) (text : List Char) (str : Str)
    (hb : 0 ≤ str.begin) (hbe : str.begin ≤ str.end_) (he : str.end_ ≤ text.length)
    (hnul : Char.ofNat 0 ∉ slice text str) (hc : count ≤ array.length) :
    (∃ r : Int, indexOf array count text str = some r ∧
      ((r = -1 ∧ ∀ (i : Nat) (s : String), (i : Int) < count → array[i]? = some s →
          ¬ slice text str <+: s.toList) ∨
        ∃ (i : Nat) (s : String), r = (i : Int) ∧ (i : Int) < count ∧ array[i]? = some s ∧
          slice text str <+: s.toList ∧
          ∀ (j : Nat) (s' : String), i < j → (j : Int) < count → array[j]? = some s' →
            ¬ slice text str <+: s'.toList)) ∧
    (str.begin = str.end_ → 0 ≤ count → indexOf array count text str = some (count - 1)) ∧
    indexOf textureFilterNames 7 ['M', 'i', 'p', 'M', 'a', 'p'] ⟨0, 6⟩ = some 6 ∧
    textureFilterNames[6]? = some "MipMapLinearLinear" ∧
    textureFilterNames[2]? = some "MipMap" := by
  refine ⟨?_, ?_, by decide, by decide, by decide⟩
  · have hsz : toSize (str.end_ - str.begin) = (str.end_ - str.begin).toNat := by
      simp [toSize, not_lt.mpr (sub_nonneg.mpr hbe)]
    have hm : count.toNat ≤ array.length := by omega
    obtain ⟨r, hr, hcases⟩ := indexOfLoop_spec array text str (str.end_ - str.begin)
      str.begin.toNat (str.end_ - str.begin).toNat (by omega) hsz (by omega) hnul
      count.toNat hm
    refine ⟨r, hr, ?_⟩
    rcases hcases with ⟨hneg, hall⟩ | ⟨i, s, hri, him, hs, hpre, hlater⟩
    · exact Or.inl ⟨hneg, fun i s hi hs => hall i s (by omega) hs⟩
    · exact Or.inr ⟨i, s, hri, by omega, hs, hpre,
        fun j s' h1 h2 hs' => hlater j s' h1 (by omega) hs'⟩
  · intro hemp h0
    have hm : count.toNat ≤ array.length := by omega
    have := indexOfLoop_empty array text str count.toNat hm
    unfold indexOf
    simp only [hemp, sub_self]
    rw [this]
    congr 1
    omega

/-- Witness of C24: in the text `filter: Linear,Nearest`, the token `Linear` (offsets 8 to
14) is found among the seven filter names at index 1, the only name that begins with it;
the empty token at offset 8 is found at index 6. -/
theorem indexOf_last_match_witness :
    (∃ r : Int, indexOf textureFilterNames 7 "filter: Linear,Nearest\n".toList ⟨8, 14⟩ = some r ∧
        r = 1) ∧
      indexOf textureFilterNames 7 "filter: Linear,Nearest\n".toList ⟨8, 8⟩ = some 6 := by
  obtain ⟨r, hr, -⟩ := (indexOf_last_match textureFilterNames 7
    "filter: Linear,Nearest\n".toList ⟨8, 14⟩
    (by decide) (by decide) (by decide) (by decide) (by decide)).1
  have h2 := (indexOf_last_match textureFilterNames 7 "filter: Linear,Nearest\n".toList ⟨8, 8⟩
    (by decide) (by decide) (by decide) (by decide) (by decide)).2.1 rfl (by decide)
  refine ⟨⟨r, hr, ?_⟩, h2⟩
  have h1 : indexOf textureFilterNames 7 "filter: Linear,Nearest\n".toList ⟨8, 14⟩ = some 1 := by
    decide
  rw [h1] at hr
  exact (Option.some.inj hr).symm

/-- C23: on the line `xy: 1, 2, 3`, which holds three comma-separated values, `readTuple`
returns 3 (with the pieces of the three values in `tuple`), a value that is neither 0, 2
nor 4; on lines with two and with four values it returns 2 and 4. -/
theorem readTuple_three_values :
    readLine "xy: 1, 2, 3\n".toList 0 (some 0) 0 ⟨0, 0⟩ = some (1, 0, ⟨0, 0⟩) ∧
      readTuple "xy: 1, 2, 3\n".toList 0 12 [⟨0, 0⟩, ⟨0, 0⟩, ⟨0, 0⟩, ⟨0, 0⟩]
        = some (3, 12, [⟨4, 4⟩, ⟨7, 7⟩, ⟨10, 11⟩, ⟨0, 0⟩]) ∧
      readTuple "xy: 1, 2\n".toList 0 9 [⟨0, 0⟩, ⟨0, 0⟩, ⟨0, 0⟩, ⟨0, 0⟩]
        = some (2, 9, [⟨4, 4⟩, ⟨7, 8⟩, ⟨0, 0⟩, ⟨0, 0⟩]) ∧
      readTuple "split: 1, 2, 3, 4\n".toList 0 18 [⟨0, 0⟩, ⟨0, 0⟩, ⟨0, 0⟩, ⟨0, 0⟩]
        = some (4, 18, [⟨7, 7⟩, ⟨10, 10⟩, ⟨13, 13⟩, ⟨16, 17⟩]) := by
  refine ⟨by decide, by decide, by decide, by decide⟩

/-- C22: the line reader of the atlas swallows a lone blank line. A call of `readLine` that
returns 1 moves `nextStart` forward by at least one byte: the byte it starts on is stepped
over before any test for `\n`. So on a text that holds, from `nextStart`, a line `L1`,
`\n\n` and a line `L2` (both without `\n`, `L1` non-empty, `L2` not all white space and so
non-empty; `L2` ends the text or is followed by `\n`), the first call gives `L1` without the white space
at its ends and the next call gives `L2` without the white space at its ends, a piece of
non-zero length: no call in between gives the empty line, which is what `Atlas_readAtlas`
tests for (`str.end - str.begin == 0`) to end a page. When `L2` ends the text, the call
after these returns 0. -/
theorem readLine_swallows_blank_line (pre L1 L2 rest text : List Char) (end_ : Int)
    (str : Str) (h1 : L1 ≠ []) (hn1 : '\n' ∉ L1) (hn2 : '\n' ∉ L2)
    (hw : ∃ c ∈ L2, isspace c = false) (hrest : rest = [] ∨ rest.head? = some '\n')
    (htext : text = pre ++ (L1 ++ ('\n' :: '\n' :: (L2 ++ rest))))
    (hend : end_ = (text.length : Int)) :
    (∀ (t : List Char) (n e n1 : Int) (s0 s : Str),
        readLine t n none e s0 = some (1, n1, s) → n < n1) ∧
      readLine text 0 (some (pre.length : Int)) 0 str = some (1, (pre.length : Int), str) ∧
      ∃ s1 s2 : Str,
        readLine text pre.length none end_ str
            = some (1, (pre.length : Int) + L1.length + 1, s1) ∧
          slice text s1 = trimSpec L1 ∧
          readLine text ((pre.length : Int) + L1.length + 1) none end_ s1
            = some (1, (pre.length : Int) + L1.length + 2 + L2.length
                + (if rest = [] then 0 else 1), s2) ∧
          slice text s2 = trimSpec L2 ∧
          s2.end_ - s2.begin ≠ 0 ∧
          (rest = [] → readLine text end_ none end_ s2 = some (0, end_, s2)) := by
  refine ⟨fun t n e n1 s0 s h => readLine_advances t n e s0 s n1 h, rfl, ?_⟩
  obtain ⟨c1, L1t, rfl⟩ := List.exists_cons_of_ne_nil h1
  have hn1t : '\n' ∉ L1t := fun h => hn1 (List.mem_cons_of_mem _ h)
  obtain ⟨s1, hs1, hsl1, -⟩ := readLine_line pre L1t ('\n' :: '\n' :: (L2 ++ rest)) c1 str hn1t
    (Or.inr rfl) (Or.inr (by simp))
  have hT2 : trimSpec ('\n' :: L2) ≠ [] := by
    rw [trimSpec_newline_cons]
    exact trimSpec_ne_nil L2 hw
  obtain ⟨s2, hs2, hsl2, hlen2⟩ := readLine_line (pre ++ (c1 :: L1t ++ ['\n'])) L2 rest '\n' s1
    hn2 hrest (Or.inl hT2)
  have ht1 : text = pre ++ (c1 :: L1t ++ '\n' :: '\n' :: (L2 ++ rest)) := by
    rw [htext]
  have ht2 : text = pre ++ (c1 :: L1t ++ ['\n']) ++ ('\n' :: L2 ++ rest) := by
    rw [htext]
    simp
  refine ⟨s1, s2, ?_, ?_, ?_, ?_, ?_, ?_⟩
  · rw [hend, ht1]
    simpa using hs1
  · rw [ht1]
    exact hsl1
  · rw [hend, ht2]
    have e : ((pre ++ (c1 :: L1t ++ ['\n'])).length : Int)
        = (pre.length : Int) + (c1 :: L1t).length + 1 := by
      simp only [List.length_append, List.length_cons, List.length_nil]
      push_cast
      ring
    rw [e] at hs2
    rw [hs2]
    congr 3
    simp only [List.length_cons]
    push_cast
    omega
  · rw [ht2, hsl2, trimSpec_newline_cons]
  · rw [hlen2]
    have : 0 < (trimSpec ('\n' :: L2)).length := List.length_pos.mpr hT2
    omega
  · intro _
    unfold readLine
    simp

/-- Witness of C22: on the text `ab`, `\n\n`, `cd`, the first call gives `ab` (offsets 0 to
2), the second gives `cd` (offsets 4 to 6) and the third returns 0. -/
theorem readLine_swallows_blank_line_witness :
    readLine ['a', 'b', '\n', '\n', 'c', 'd'] 0 none 6 ⟨0, 0⟩ = some (1, 3, ⟨0, 2⟩) ∧
      readLine ['a', 'b', '\n', '\n', 'c', 'd'] 3 none 6 ⟨0, 2⟩ = some (1, 6, ⟨4, 6⟩) ∧
      readLine ['a', 'b', '\n', '\n', 'c', 'd'] 6 none 6 ⟨4, 6⟩ = some (0, 6, ⟨4, 6⟩) ∧
      slice ['a', 'b', '\n', '\n', 'c', 'd'] ⟨4, 6⟩ = trimSpec ['c', 'd'] := by
  obtain ⟨-, -, s1, s2, e1, -, e2, e3, -, e4⟩ := readLine_swallows_blank_line [] ['a', 'b']
    ['c', 'd'] [] ['a', 'b', '\n', '\n', 'c', 'd'] 6 ⟨0, 0⟩ (by simp) (by decide)
    (by decide) ⟨'c', by simp, by decide⟩ (Or.inl rfl) rfl rfl
  have d1 : readLine ['a', 'b', '\n', '\n', 'c', 'd'] 0 none 6 ⟨0, 0⟩ = some (1, 3, ⟨0, 2⟩) := by
    decide
  have hs1 : s1 = ⟨0, 2⟩ := by
    have := e1.symm.trans d1
    simp only [Option.some.injEq, Prod.mk.injEq] at this
    exact this.2.2
  subst hs1
  have d2 : readLine ['a', 'b', '\n', '\n', 'c', 'd'] 3 none 6 ⟨0, 2⟩ = some (1, 6, ⟨4, 6⟩) := by
    decide
  have hs2 : s2 = ⟨4, 6⟩ := by
    have := e2.symm.trans d2
    simp only [Option.some.injEq, Prod.mk.injEq] at this
    exact this.2.2
  subst hs2
  exact ⟨d1, d2, e4 rfl, e3⟩

/-- C10: Translate timeline. At or after the first keyframe's time and for every weight
`w`, apply moves `bone.x` to the `float` value of
`current.x + (setup.x + X(t) - current.x) * w`, every operation rounded in this order
(`Rounded.translateTo`), for every rounding `fl`: at or after the last keyframe `X(t)` is
the last keyframe's `x`; between keyframes `k - 1` and `k` the sum `setup.x + X(t)` is
computed as `setup.x + lower.x + (upper.x - lower.x) * p`, with `p` the value of the curve
evaluator at the clamped raw progress. Likewise for `y`. In exact arithmetic
(`Rounded.unrounded`) the result is `current.x + (setup.x + X(t) - current.x) * w`, and
with `w = 1` it is `setup.x + X(t)`, whatever the current value. -/
theorem TranslateTimeline_apply_formula (fl : ℚ → Option ℚ) (self : BaseTimeline)
    (skeleton : Skeleton) (bone : Bone) (time w : ℚ) (n : Nat) (hn : 1 ≤ n)
    (hwf : self.WellFormed 3 n) (hbone : readAt skeleton.bones self.boneIndex = some bone)
    (h0 : frameAt self.frames 3 0 0 ≤ time) :
    (frameAt self.frames 3 (n - 1) 0 ≤ time →
      Rounded._TranslateTimeline_apply fl self skeleton time w
        = Rounded.translateTo fl skeleton self.boneIndex bone
            (Rounded.fadd fl bone.data.x (frameAt self.frames 3 (n - 1) 1))
            (Rounded.fadd fl bone.data.y (frameAt self.frames 3 (n - 1) 2)) w ∧
      Rounded._TranslateTimeline_apply Rounded.unrounded self skeleton time w
        = some { skeleton with
            bones := skeleton.bones.set self.boneIndex.toNat
              { bone with
                x := bone.x + (bone.data.x + frameAt self.frames 3 (n - 1) 1 - bone.x) * w
                y := bone.y + (bone.data.y + frameAt self.frames 3 (n - 1) 2 - bone.y) * w } } ∧
      Rounded._TranslateTimeline_apply Rounded.unrounded self skeleton time 1
        = some { skeleton with
            bones := skeleton.bones.set self.boneIndex.toNat
              { bone with
                x := bone.data.x + frameAt self.frames 3 (n - 1) 1
                y := bone.data.y + frameAt self.frames 3 (n - 1) 2 } }) ∧
    (time < frameAt self.frames 3 (n - 1) 0 →
      ∃ k : Nat, 1 ≤ k ∧ k < n ∧
        frameAt self.frames 3 (k - 1) 0 ≤ time ∧ time < frameAt self.frames 3 k 0 ∧
        Rounded._TranslateTimeline_apply fl self skeleton time w
          = (match Rounded.progress fl time (frameAt self.frames 3 (k - 1) 0)
              (frameAt self.frames 3 k 0) with
            | none => none
            | some percent =>
            match Rounded.CurveTimeline_getCurvePercent fl self.super ((k - 1 : Nat) : Int)
              (clampPercent percent) with
            | none => none
            | some p =>
            Rounded.translateTo fl skeleton self.boneIndex bone
              (Rounded.fadd fl (Rounded.fadd fl bone.data.x (frameAt self.frames 3 (k - 1) 1))
                (Rounded.fmul fl
                  (Rounded.fsub fl (frameAt self.frames 3 k 1)
                    (frameAt self.frames 3 (k - 1) 1)) p))
              (Rounded.fadd fl (Rounded.fadd fl bone.data.y (frameAt self.frames 3 (k - 1) 2))
                (Rounded.fmul fl
                  (Rounded.fsub fl (frameAt self.frames 3 k 2)
                    (frameAt self.frames 3 (k - 1) 2)) p))
              w) ∧
        ∀ p : ℚ,
          Rounded.CurveTimeline_getCurvePercent Rounded.unrounded self.super
              ((k - 1 : Nat) : Int)
              ((time - frameAt self.frames 3 (k - 1) 0)
                / (frameAt self.frames 3 k 0 - frameAt self.frames 3 (k - 1) 0)) = some p →
          Rounded._TranslateTimeline_apply Rounded.unrounded self skeleton time w
            = some { skeleton with
                bones := skeleton.bones.set self.boneIndex.toNat
                  { bone with
                    x := bone.x
                      + (bone.data.x
                          + (frameAt self.frames 3 (k - 1) 1
                            + (frameAt self.frames 3 k 1 - frameAt self.frames 3 (k - 1) 1) * p)
                          - bone.x) * w
                    y := bone.y
                      + (bone.data.y
                          + (frameAt self.frames 3 (k - 1) 2
                            + (frameAt self.frames 3 k 2 - frameAt self.frames 3 (k - 1) 2) * p)
                          - bone.y) * w } } ∧
          Rounded._TranslateTimeline_apply Rounded.unrounded self skeleton time 1
            = some { skeleton with
                bones := skeleton.bones.set self.boneIndex.toNat
                  { bone with
                    x := bone.data.x
                      + (frameAt self.frames 3 (k - 1) 1
                        + (frameAt self.frames 3 k 1 - frameAt self.frames 3 (k - 1) 1) * p)
                    y := bone.data.y
                      + (frameAt self.frames 3 (k - 1) 2
                        + (frameAt self.frames 3 k 2 - frameAt self.frames 3 (k - 1) 2) * p) } }) := by
  constructor
  · intro h1
    refine ⟨Rounded_TranslateTimeline_apply_after_last fl self skeleton bone time w n hn hwf
      hbone h1, ?_, ?_⟩
    · rw [Rounded_TranslateTimeline_apply_after_last _ self skeleton bone time w n hn hwf hbone
        h1]
      simp only [fadd_some, Rounded.unrounded]
      exact translateTo_unrounded _ _ _ _ _ _ hbone
    · rw [Rounded_TranslateTimeline_apply_after_last _ self skeleton bone time 1 n hn hwf hbone
        h1]
      simp only [fadd_some, Rounded.unrounded]
      rw [translateTo_unrounded _ _ _ _ _ _ hbone]
      simp only [mul_one, add_sub_cancel]
  · intro h1
    have hkey : Keyframes self.frames ((n * 3 : Nat) : Int) 3 n := ⟨hwf.1.1, rfl, hwf.1.2.2⟩
    obtain ⟨k, _, hk1, hk, hlo, hhi, _⟩ :=
      binarySearch_segment self.frames time 3 n hkey (by omega)
        (two_le_count_of_between h0 h1) h0 h1
    refine ⟨k, hk1, hk, hlo, hhi,
      Rounded_TranslateTimeline_apply_between fl self skeleton bone time w n k hwf hbone hk1 hk
        hlo hhi, ?_⟩
    intro p hp
    obtain ⟨hc1, _, _⟩ := clampPercent_raw _ _ time hlo hhi
    have hc : clampPercent ((time - frameAt self.frames 3 (k - 1) 0)
        / (frameAt self.frames 3 k 0 - frameAt self.frames 3 (k - 1) 0))
        = (time - frameAt self.frames 3 (k - 1) 0)
          / (frameAt self.frames 3 k 0 - frameAt self.frames 3 (k - 1) 0) := by
      have e := hc1
      rw [percent_eq_raw _ _ _ hlo hhi] at e
      exact e
    constructor
    · rw [Rounded_TranslateTimeline_apply_between _ self skeleton bone time w n k hwf hbone hk1
        hk hlo hhi, progress_unrounded _ _ _ hlo hhi]
      simp only [hc, hp]
      simp only [fadd_some, fsub_some, fmul_some, Rounded.unrounded]
      rw [translateTo_unrounded _ _ _ _ _ _ hbone]
      simp only [add_assoc]
    · rw [Rounded_TranslateTimeline_apply_between _ self skeleton bone time 1 n k hwf hbone hk1
        hk hlo hhi, progress_unrounded _ _ _ hlo hhi]
      simp only [hc, hp]
      simp only [fadd_some, fsub_some, fmul_some, Rounded.unrounded]
      rw [translateTo_unrounded _ _ _ _ _ _ hbone]
      simp only [mul_one, add_sub_cancel, add_assoc]

/-- Witness of C10: the example Translate timeline (keyframes `(0, 0, 0)` and `(1, 5, 5)`)
at time 1 on the example pose (setup `(10, 20)`, current `(1, 2)`) in exact arithmetic:
weight 1/4 gives `(9/2, 31/4)` and weight 1 gives `(15, 25)`, the setup plus `(5, 5)`. -/
theorem TranslateTimeline_apply_formula_witness :
    Rounded._TranslateTimeline_apply Rounded.unrounded exampleTranslate examplePose 1 (1 / 4)
        = some { bones := [⟨⟨10, 20, 0, 1, 1⟩, 9 / 2, 31 / 4, 0, 1, 1⟩],
                 slots := [⟨1, 1, 1, 1, none⟩] } ∧
      Rounded._TranslateTimeline_apply Rounded.unrounded exampleTranslate examplePose 1 1
        = some { bones := [⟨⟨10, 20, 0, 1, 1⟩, 15, 25, 0, 1, 1⟩],
                 slots := [⟨1, 1, 1, 1, none⟩] } := by
  obtain ⟨-, h1, h2⟩ := (TranslateTimeline_apply_formula Rounded.binary32 exampleTranslate
    examplePose ⟨⟨10, 20, 0, 1, 1⟩, 1, 2, 0, 1, 1⟩ 1 (1 / 4) 2 (by norm_num)
    exampleTranslate_wellFormed rfl
    (by norm_num [frameAt, exampleTranslate])).1 (by norm_num [frameAt, exampleTranslate])
  constructor
  · rw [h1]
    norm_num [frameAt, exampleTranslate, examplePose]
  · rw [h2]
    norm_num [frameAt, exampleTranslate, examplePose]

/-- Counterexample to C10 as stated, in binary32: setup `x = 0`, current
`x = 2 ^ 24 = 16777216`, last keyframe `x = 1/2`, weight 1, at the last keyframe's time. The
code computes `0 + 1/2 = 1/2`, then `1/2 - 2 ^ 24`, which rounds to `-2 ^ 24`, then
`2 ^ 24 + -2 ^ 24 = 0`: the bone ends at `x = 0`, not at the setup plus the keyframe value,
`1/2`. -/
theorem TranslateTimeline_apply_formula_counterexample :
    Rounded._TranslateTimeline_apply Rounded.binary32 exampleTranslateHalf farPose 1 1
        = some { bones := [⟨⟨0, 0, 0, 1, 1⟩, 0, 1 / 2, 0, 1, 1⟩], slots := [] } ∧
      (0 : ℚ) ≠ 0 + 1 / 2 := by
  constructor
  · rw [Rounded_TranslateTimeline_apply_after_last _ exampleTranslateHalf farPose
      ⟨⟨0, 0, 0, 1, 1⟩, 16777216, 0, 0, 1, 1⟩ 1 1 2 (by norm_num) exampleTranslateHalf_wellFormed
      (by simp [readAt, farPose, exampleTranslateHalf])
      (by norm_num [frameAt, exampleTranslateHalf])]
    have e1 : frameAt exampleTranslateHalf.frames 3 (2 - 1) 1 = 1 / 2 := by
      norm_num [frameAt, exampleTranslateHalf]
    have e2 : frameAt exampleTranslateHalf.frames 3 (2 - 1) 2 = 1 / 2 := by
      norm_num [frameAt, exampleTranslateHalf]
    have t : Rounded.fadd Rounded.binary32 (some (0 : ℚ)) (some (1 / 2)) = some (1 / 2) := by
      rw [fadd_some, zero_add, binary32_half]
    rw [e1, e2]
    rw [translateTo_eq Rounded.binary32 _ _ _ _ _ 1 0 (1 / 2)
      (blend_eq _ _ _ 1 (1 / 2) (-16777216) (-16777216) 0 t binary32_half_sub
        (by rw [mul_one]; exact binary32_neg_two_pow)
        (by rw [add_neg_cancel]; exact binary32_zero))
      (blend_eq _ _ _ 1 (1 / 2) (1 / 2) (1 / 2) (1 / 2) t
        (by rw [sub_zero]; exact binary32_half) (by rw [mul_one]; exact binary32_half)
        (by rw [zero_add]; exact binary32_half))]
    simp [setBone, writeAt, farPose, exampleTranslateHalf]
  · norm_num

/-- C11: Scale timeline. At or after the first keyframe's time and for every weight `w`,
apply moves `bone.scaleX` to the `float` value of
`current + (setup.scaleX - 1 + S(t) - current) * w`, every operation rounded in this order
(`Rounded.scaleTo`), for every rounding `fl`: at or after the last keyframe `S(t)` is the
last keyframe's value; between keyframes `k - 1` and `k` the sum `setup.scaleX - 1 + S(t)` is
computed as `setup.scaleX - 1 + lower + (upper - lower) * p`, with `p` the value of the curve
evaluator at the clamped raw progress. Likewise for `scaleY`. In exact arithmetic
(`Rounded.unrounded`) the result is `current + (setup.scaleX - 1 + S(t) - current) * w`, and
with `w = 1` it is `setup.scaleX - 1 + S(t)`, whatever the current value. -/
theorem ScaleTimeline_apply_formula (fl : ℚ → Option ℚ) (self : BaseTimeline)
    (skeleton : Skeleton) (bone : Bone) (time w : ℚ) (n : Nat) (hn : 1 ≤ n)
    (hwf : self.WellFormed 3 n) (hbone : readAt skeleton.bones self.boneIndex = some bone)
    (h0 : frameAt self.frames 3 0 0 ≤ time) :
    (frameAt self.frames 3 (n - 1) 0 ≤ time →
      Rounded._ScaleTimeline_apply fl self skeleton time w
        = Rounded.scaleTo fl skeleton self.boneIndex bone
            (Rounded.fadd fl (Rounded.fsub fl bone.data.scaleX (1 : ℚ)) (frameAt self.frames 3 (n - 1) 1))
            (Rounded.fadd fl (Rounded.fsub fl bone.data.scaleY (1 : ℚ)) (frameAt self.frames 3 (n - 1) 2)) w ∧
      Rounded._ScaleTimeline_apply Rounded.unrounded self skeleton time w
        = some { skeleton with
            bones := skeleton.bones.set self.boneIndex.toNat
              { bone with
                scaleX := bone.scaleX + (bone.data.scaleX - 1 + frameAt self.frames 3 (n - 1) 1 - bone.scaleX) * w
                scaleY := bone.scaleY + (bone.data.scaleY - 1 + frameAt self.frames 3 (n - 1) 2 - bone.scaleY) * w } } ∧
      Rounded._ScaleTimeline_apply Rounded.unrounded self skeleton time 1
        = some { skeleton with
            bones := skeleton.bones.set self.boneIndex.toNat
              { bone with
                scaleX := bone.data.scaleX - 1 + frameAt self.frames 3 (n - 1) 1
                scaleY := bone.data.scaleY - 1 + frameAt self.frames 3 (n - 1) 2 } }) ∧
    (time < frameAt self.frames 3 (n - 1) 0 →
      ∃ k : Nat, 1 ≤ k ∧ k < n ∧
        frameAt self.frames 3 (k - 1) 0 ≤ time ∧ time < frameAt self.frames 3 k 0 ∧
        Rounded._ScaleTimeline_apply fl self skeleton time w
          = (match Rounded.progress fl time (frameAt self.frames 3 (k - 1) 0)
              (frameAt self.frames 3 k 0) with
            | none => none
            | some percent =>
            match Rounded.CurveTimeline_getCurvePercent fl self.super ((k - 1 : Nat) : Int)
              (clampPercent percent) with
            | none => none
            | some p =>
            Rounded.scaleTo fl skeleton self.boneIndex bone
              (Rounded.fadd fl (Rounded.fadd fl (Rounded.fsub fl bone.data.scaleX (1 : ℚ)) (frameAt self.frames 3 (k - 1) 1))
                (Rounded.fmul fl
                  (Rounded.fsub fl (frameAt self.frames 3 k 1)
                    (frameAt self.frames 3 (k - 1) 1)) p))
              (Rounded.fadd fl (Rounded.fadd fl (Rounded.fsub fl bone.data.scaleY (1 : ℚ)) (frameAt self.frames 3 (k - 1) 2))
                (Rounded.fmul fl
                  (Rounded.fsub fl (frameAt self.frames 3 k 2)
                    (frameAt self.frames 3 (k - 1) 2)) p))
              w) ∧
        ∀ p : ℚ,
          Rounded.CurveTimeline_getCurvePercent Rounded.unrounded self.super
              ((k - 1 : Nat) : Int)
              ((time - frameAt self.frames 3 (k - 1) 0)
                / (frameAt self.frames 3 k 0 - frameAt self.frames 3 (k - 1) 0)) = some p →
          Rounded._ScaleTimeline_apply Rounded.unrounded self skeleton time w
            = some { skeleton with
                bones := skeleton.bones.set self.boneIndex.toNat
                  { bone with
                    scaleX := bone.scaleX
                      + (bone.data.scaleX - 1
                          + (frameAt self.frames 3 (k - 1) 1
                            + (frameAt self.frames 3 k 1 - frameAt self.frames 3 (k - 1) 1) * p)
                          - bone.scaleX) * w
                    scaleY := bone.scaleY
                      + (bone.data.scaleY - 1
                          + (frameAt self.frames 3 (k - 1) 2
                            + (frameAt self.frames 3 k 2 - frameAt self.frames 3 (k - 1) 2) * p)
                          - bone.scaleY) * w } } ∧
          Rounded._ScaleTimeline_apply Rounded.unrounded self skeleton time 1
            = some { skeleton with
                bones := skeleton.bones.set self.boneIndex.toNat
                  { bone with
                    scaleX := bone.data.scaleX - 1
                      + (frameAt self.frames 3 (k - 1) 1
                        + (frameAt self.frames 3 k 1 - frameAt self.frames 3 (k - 1) 1) * p)
                    scaleY := bone.data.scaleY - 1
                      + (frameAt self.frames 3 (k - 1) 2
                        + (frameAt self.frames 3 k 2 - frameAt self.frames 3 (k - 1) 2) * p) } }) := by
  constructor
  · intro h1
    refine ⟨Rounded_ScaleTimeline_apply_after_last fl self skeleton bone time w n hn hwf
      hbone h1, ?_, ?_⟩
    · rw [Rounded_ScaleTimeline_apply_after_last _ self skeleton bone time w n hn hwf hbone
        h1]
      simp only [fadd_some, fsub_some, Rounded.unrounded]
      exact scaleTo_unrounded _ _ _ _ _ _ hbone
    · rw [Rounded_ScaleTimeline_apply_after_last _ self skeleton bone time 1 n hn hwf hbone
        h1]
      simp only [fadd_some, fsub_some, Rounded.unrounded]
      rw [scaleTo_unrounded _ _ _ _ _ _ hbone]
      simp only [mul_one, add_sub_cancel]
  · intro h1
    have hkey : Keyframes self.frames ((n * 3 : Nat) : Int) 3 n := ⟨hwf.1.1, rfl, hwf.1.2.2⟩
    obtain ⟨k, _, hk1, hk, hlo, hhi, _⟩ :=
      binarySearch_segment self.frames time 3 n hkey (by omega)
        (two_le_count_of_between h0 h1) h0 h1
    refine ⟨k, hk1, hk, hlo, hhi,
      Rounded_ScaleTimeline_apply_between fl self skeleton bone time w n k hwf hbone hk1 hk
        hlo hhi, ?_⟩
    intro p hp
    obtain ⟨hc1, _, _⟩ := clampPercent_raw _ _ time hlo hhi
    have hc : clampPercent ((time - frameAt self.frames 3 (k - 1) 0)
        / (frameAt self.frames 3 k 0 - frameAt self.frames 3 (k - 1) 0))
        = (time - frameAt self.frames 3 (k - 1) 0)
          / (frameAt self.frames 3 k 0 - frameAt self.frames 3 (k - 1) 0) := by
      have e := hc1
      rw [percent_eq_raw _ _ _ hlo hhi] at e
      exact e
    constructor
    · rw [Rounded_ScaleTimeline_apply_between _ self skeleton bone time w n k hwf hbone hk1
        hk hlo hhi, progress_unrounded _ _ _ hlo hhi]
      simp only [hc, hp]
      simp only [fadd_some, fsub_some, fmul_some, Rounded.unrounded]
      rw [scaleTo_unrounded _ _ _ _ _ _ hbone]
      simp only [add_assoc]
    · rw [Rounded_ScaleTimeline_apply_between _ self skeleton bone time 1 n k hwf hbone hk1
        hk hlo hhi, progress_unrounded _ _ _ hlo hhi]
      simp only [hc, hp]
      simp only [fadd_some, fsub_some, fmul_some, Rounded.unrounded]
      rw [scaleTo_unrounded _ _ _ _ _ _ hbone]
      simp only [mul_one, add_sub_cancel, add_assoc]

/-- Witness of C11: the example Scale timeline (keyframes `(0, 1, 1)` and `(1, 3, 5)`) at
time 1 on the example pose (setup scale `(1, 1)`, current scale `(1, 1)`) in exact
arithmetic: weight 1/4 gives the scale `(3/2, 2)` and weight 1 gives `(3, 5)`, the keyframe
scale. -/
theorem ScaleTimeline_apply_formula_witness :
    Rounded._ScaleTimeline_apply Rounded.unrounded exampleScale examplePose 1 (1 / 4)
        = some { bones := [⟨⟨10, 20, 0, 1, 1⟩, 1, 2, 0, 3 / 2, 2⟩],
                 slots := [⟨1, 1, 1, 1, none⟩] } ∧
      Rounded._ScaleTimeline_apply Rounded.unrounded exampleScale examplePose 1 1
        = some { bones := [⟨⟨10, 20, 0, 1, 1⟩, 1, 2, 0, 3, 5⟩],
                 slots := [⟨1, 1, 1, 1, none⟩] } := by
  obtain ⟨-, h1, h2⟩ := (ScaleTimeline_apply_formula Rounded.binary32 exampleScale
    examplePose ⟨⟨10, 20, 0, 1, 1⟩, 1, 2, 0, 1, 1⟩ 1 (1 / 4) 2 (by norm_num)
    exampleScale_wellFormed rfl
    (by norm_num [frameAt, exampleScale])).1 (by norm_num [frameAt, exampleScale])
  constructor
  · rw [h1]
    norm_num [frameAt, exampleScale, examplePose]
  · rw [h2]
    norm_num [frameAt, exampleScale, examplePose]

/-- Counterexample to C11 as stated, in binary32: at the rest pose (setup scale 1, current
scale 1), weight 1, at the last keyframe, whose scale is `0.1f = 13421773 / 2 ^ 27`. The code
computes `1 - 1 + 0.1f = 0.1f`, then `0.1f - 1`, which rounds to `-7549747 / 2 ^ 23`, then
`1 + -7549747 / 2 ^ 23 = 838861 / 2 ^ 23`, about `0.10000002384`: the bone's `scaleX` is not
the keyframe scale. -/
theorem ScaleTimeline_apply_formula_counterexample :
    Rounded._ScaleTimeline_apply Rounded.binary32 exampleScaleTenth restPose 1 1
        = some { bones := [⟨⟨0, 0, 0, 1, 1⟩, 0, 0, 0, 838861 / 8388608, 1⟩],
                 slots := [⟨1, 1, 1, 1, none⟩] } ∧
      (838861 / 8388608 : ℚ) ≠ 1 - 1 + 13421773 / 134217728 := by
  constructor
  · rw [Rounded_ScaleTimeline_apply_after_last _ exampleScaleTenth restPose
      ⟨⟨0, 0, 0, 1, 1⟩, 0, 0, 0, 1, 1⟩ 1 1 2 (by norm_num) exampleScaleTenth_wellFormed
      (by simp [readAt, restPose, exampleScaleTenth])
      (by norm_num [frameAt, exampleScaleTenth])]
    have e1 : frameAt exampleScaleTenth.frames 3 (2 - 1) 1 = 13421773 / 134217728 := by
      norm_num [frameAt, exampleScaleTenth]
    have e2 : frameAt exampleScaleTenth.frames 3 (2 - 1) 2 = 1 := by
      norm_num [frameAt, exampleScaleTenth]
    have tx : Rounded.fadd Rounded.binary32
        (Rounded.fsub Rounded.binary32 (some (1 : ℚ)) (some (1 : ℚ)))
        (some (13421773 / 134217728)) = some (13421773 / 134217728) := by
      rw [fsub_some, sub_self, binary32_zero, fadd_some, zero_add, binary32_tenth]
    have ty : Rounded.fadd Rounded.binary32
        (Rounded.fsub Rounded.binary32 (some (1 : ℚ)) (some (1 : ℚ)))
        (some (1 : ℚ)) = some 1 := by
      rw [fsub_some, sub_self, binary32_zero, fadd_some, zero_add, binary32_one]
    rw [e1, e2]
    rw [scaleTo_eq Rounded.binary32 _ _ _ _ _ 1 (838861 / 8388608) 1
      (blend_eq _ _ _ 1 (13421773 / 134217728) (-7549747 / 8388608) (-7549747 / 8388608)
        (838861 / 8388608) tx binary32_tenth_sub_one
        (by rw [mul_one]; exact binary32_tenth_sub_one_self)
        (by norm_num; exact binary32_one_sub))
      (blend_eq _ _ _ 1 1 0 0 1 ty
        (by rw [sub_self]; exact binary32_zero) (by rw [mul_one]; exact binary32_zero)
        (by rw [add_zero]; exact binary32_one))]
    simp [setBone, writeAt, restPose, exampleScaleTenth]
  · norm_num

/-- C19: range of the angle reduction. In exact arithmetic, for every input angle, and in
binary32, for every input angle that is a binary32 number below `2 ^ 27` in magnitude, each
shortest-arc reduction of the Rotate timeline (the two `while` loops) ends and yields a value
in the closed interval `[-180, 180]` that differs from the input by a whole multiple of 360;
the value is `-180` only for an input that is `-180` less a whole number of turns. -/
theorem shortestArc_range (a : ℚ) :
    (∃ r : ℚ, Rounded.shortestArc Rounded.unrounded (some a) = some r ∧
      (∃ m : ℤ, r = a + 360 * m) ∧ -180 ≤ r ∧ r ≤ 180 ∧
      (r = -180 → ∃ j : ℕ, a = -180 - 360 * j)) ∧
    (Rounded.IsBinary32 a → |a| < 2 ^ 27 →
      ∃ r : ℚ, Rounded.shortestArc Rounded.binary32 (some a) = some r ∧
        (∃ m : ℤ, r = a + 360 * m) ∧ -180 ≤ r ∧ r ≤ 180 ∧
        (r = -180 → ∃ j : ℕ, a = -180 - 360 * j)) := by
  obtain ⟨h1, h2, h3, h4⟩ := shortestArc_closed_range a
  exact ⟨⟨_, shortestArc_unrounded a, h1, h2, h3, h4⟩,
    fun hf hlt => ⟨_, shortestArc_binary32 a hf hlt, h1, h2, h3, h4⟩⟩

/-- Witness of C19: in binary32 the amount 340 (`85 * 2 ^ 2`) is reduced to -20. -/
theorem shortestArc_range_witness :
    Rounded.shortestArc Rounded.binary32 (some 340) = some (-20) := by
  obtain ⟨r, hr, ⟨m, hm⟩, hlo, hhi, -⟩ := (shortestArc_range 340).2
    ⟨85, 2, by norm_num, by norm_num, by norm_num, by norm_num⟩ (by norm_num [abs_of_pos])
  have h1 : (m : ℚ) < 0 := by
    by_contra hcon
    rw [not_lt] at hcon
    linarith
  have h2 : (-2 : ℚ) < m := by
    by_contra hcon
    rw [not_lt] at hcon
    linarith
  have h3 : m < 0 := by exact_mod_cast h1
  have h4 : -2 < m := by exact_mod_cast h2
  have h5 : m = -1 := by omega
  rw [hr, hm, h5]
  norm_num

/-- Counterexample to C19 as stated, in binary32: the amount `-180` is left at `-180`, which
is not in the half-open interval `(-180, 180]`; and on the amount `10 ^ 10` the subtraction of
360 is rounded back to `10 ^ 10`, so that the first loop never ends, whatever the fuel. -/
theorem shortestArc_range_counterexample :
    Rounded.shortestArc Rounded.binary32 (some (-180)) = some (-180) ∧
      ¬ ((-180 : ℚ) < -180) ∧
      Rounded.binary32 (10 ^ 10 - 360) = some (10 ^ 10) ∧
      ∀ fuel : Nat, Rounded.whileAbove180 Rounded.binary32 fuel (10 ^ 10) = none := by
  refine ⟨?_, by norm_num, binary32_ten_pow_ten, whileAbove180_ten_pow_ten⟩
  have h := shortestArc_binary32 (-180) ⟨-45, 2, by norm_num, by norm_num, by norm_num,
    by norm_num⟩ (by norm_num [abs_of_neg])
  rw [h, shortestArc_of_abs_le _ (by norm_num)]

/-- C7: Rotate timeline, shortest arc. For a time between keyframes `k - 1` and `k` with
angles `a0` and `a1` and weight 1, for every rounding `fl`: the code reduces `a1 - a0` by the
two loops to `d`, takes the curve progress `p` from the curve evaluator, forms
`setup + (a0 + d * p)` and turns the bone toward it along the shortest arc
(`Rounded.rotateTo`), every operation rounded in this order. In exact arithmetic
(`Rounded.unrounded`) the new rotation is `setup + a0 + d * p` plus a whole number of
turns, where `d` is `a1 - a0` plus a whole number of turns and `|d| ≤ 180`, and it differs
from the previous rotation by at most 180. In binary32, between the angles 170 and -170 at
the linear midpoint, with setup 0 and current rotation 0, the rotation becomes 180. -/
theorem RotateTimeline_shortest_arc (fl : ℚ → Option ℚ) (self : BaseTimeline)
    (skeleton : Skeleton) (bone : Bone) (time : ℚ) (n k : Nat) (hwf : self.WellFormed 2 n)
    (hbone : readAt skeleton.bones self.boneIndex = some bone) (hk1 : 1 ≤ k) (hk : k < n)
    (hlo : frameAt self.frames 2 (k - 1) 0 ≤ time) (hhi : time < frameAt self.frames 2 k 0) :
    Rounded._RotateTimeline_apply fl self skeleton time 1
      = (match Rounded.progress fl time (frameAt self.frames 2 (k - 1) 0)
          (frameAt self.frames 2 k 0) with
        | none => none
        | some percent =>
        match Rounded.CurveTimeline_getCurvePercent fl self.super ((k - 1 : Nat) : Int)
          (clampPercent percent) with
        | none => none
        | some p =>
        match Rounded.shortestArc fl
          (Rounded.fsub fl (frameAt self.frames 2 k 1) (frameAt self.frames 2 (k - 1) 1)) with
        | none => none
        | some d =>
        Rounded.rotateTo fl skeleton self.boneIndex bone
          (Rounded.fadd fl bone.data.rotation
            (Rounded.fadd fl (frameAt self.frames 2 (k - 1) 1) (Rounded.fmul fl d p)))
          1) ∧
    (∀ p : ℚ,
      Rounded.CurveTimeline_getCurvePercent Rounded.unrounded self.super ((k - 1 : Nat) : Int)
          ((time - frameAt self.frames 2 (k - 1) 0)
            / (frameAt self.frames 2 k 0 - frameAt self.frames 2 (k - 1) 0)) = some p →
      ∃ (d rotation : ℚ) (m₁ m₂ : ℤ),
        d = frameAt self.frames 2 k 1 - frameAt self.frames 2 (k - 1) 1 + 360 * m₁ ∧
        |d| ≤ 180 ∧
        rotation = bone.data.rotation + frameAt self.frames 2 (k - 1) 1 + d * p + 360 * m₂ ∧
        |rotation - bone.rotation| ≤ 180 ∧
        Rounded._RotateTimeline_apply Rounded.unrounded self skeleton time 1
          = some { skeleton with
              bones := skeleton.bones.set self.boneIndex.toNat
                { bone with rotation := rotation } }) ∧
    Rounded._RotateTimeline_apply Rounded.binary32 exampleRotate170 restPose (1 / 2) 1
      = some { bones := [⟨⟨0, 0, 0, 1, 1⟩, 0, 0, 180, 1, 1⟩],
               slots := [⟨1, 1, 1, 1, none⟩] } := by
  refine ⟨Rounded_RotateTimeline_apply_between fl self skeleton bone time 1 n k hwf hbone hk1 hk
    hlo hhi, ?_, rotate170_half_binary32⟩
  intro p hp
  obtain ⟨hc1, _, _⟩ := clampPercent_raw _ _ time hlo hhi
  have hc : clampPercent ((time - frameAt self.frames 2 (k - 1) 0)
      / (frameAt self.frames 2 k 0 - frameAt self.frames 2 (k - 1) 0))
      = (time - frameAt self.frames 2 (k - 1) 0)
        / (frameAt self.frames 2 k 0 - frameAt self.frames 2 (k - 1) 0) := by
    have e := hc1
    rw [percent_eq_raw _ _ _ hlo hhi] at e
    exact e
  obtain ⟨m₁, hm₁, _, _, _⟩ :=
    shortestArc_spec (frameAt self.frames 2 k 1 - frameAt self.frames 2 (k - 1) 1)
  obtain ⟨m₂, hm₂, h1, h2, _⟩ :=
    shortestArc_spec (bone.data.rotation
      + (frameAt self.frames 2 (k - 1) 1
        + shortestArc (frameAt self.frames 2 k 1 - frameAt self.frames 2 (k - 1) 1) * p)
      - bone.rotation)
  refine ⟨shortestArc (frameAt self.frames 2 k 1 - frameAt self.frames 2 (k - 1) 1),
    bone.rotation
      + shortestArc (bone.data.rotation
          + (frameAt self.frames 2 (k - 1) 1
            + shortestArc (frameAt self.frames 2 k 1 - frameAt self.frames 2 (k - 1) 1) * p)
          - bone.rotation) * 1,
    m₁, m₂, hm₁, abs_shortestArc_le _, ?_, ?_, ?_⟩
  rotate_left 2
  · rw [Rounded_RotateTimeline_apply_of_values Rounded.unrounded self skeleton bone time 1 n k
      hwf hbone hk1 hk hlo hhi _ p
      (shortestArc (frameAt self.frames 2 k 1 - frameAt self.frames 2 (k - 1) 1))
      (progress_unrounded _ _ _ hlo hhi) (by rw [hc]; exact hp)
      (by rw [fsub_some]; exact shortestArc_unrounded _)]
    simp only [fadd_some, fmul_some, Rounded.unrounded]
    rw [rotateTo_unrounded _ _ _ _ _ hbone]
  · rw [hm₂]
    ring
  · rw [mul_one, add_sub_cancel_left]
    exact abs_le.mpr ⟨h1, h2⟩

/-- Witness of C7: the Rotate timeline with keyframes `(0, 170)` and `(1, -170)` at time
1/2 on the pose at rest, in binary32. -/
theorem RotateTimeline_shortest_arc_witness :
    Rounded._RotateTimeline_apply Rounded.binary32 exampleRotate170 restPose (1 / 2) 1
      = some { bones := [⟨⟨0, 0, 0, 1, 1⟩, 0, 0, 180, 1, 1⟩],
               slots := [⟨1, 1, 1, 1, none⟩] } :=
  (RotateTimeline_shortest_arc Rounded.binary32 exampleRotate170 restPose
    ⟨⟨0, 0, 0, 1, 1⟩, 0, 0, 0, 1, 1⟩ (1 / 2) 2 1 exampleRotate170_wellFormed rfl
    (by norm_num) (by norm_num) (by norm_num [frameAt, exampleRotate170])
    (by norm_num [frameAt, exampleRotate170])).2.2

/-- Counterexample to C7 as stated, in binary32: keyframes `(0, 0)` and `(1, 90)`, linear,
setup 0 and current rotation 0, weight 1, at the time `0.1f = 13421773 / 2 ^ 27`. The
progress is computed as `838861 / 2 ^ 23` and the product `90 * progress` is rounded, so
the bone ends at `4718593 / 2 ^ 19 = 9.0000019...`, which is not a whole number of turns
away from `setup + a0 + d * p`, whether `p` is the progress the code computed or the exact
ratio `(time - t0) / (t1 - t0)`. -/
theorem RotateTimeline_shortest_arc_counterexample :
    Rounded._RotateTimeline_apply Rounded.binary32 exampleRotate90 restPose
        (13421773 / 134217728) 1
      = some { bones := [⟨⟨0, 0, 0, 1, 1⟩, 0, 0, 4718593 / 524288, 1, 1⟩],
               slots := [⟨1, 1, 1, 1, none⟩] } ∧
    Rounded.progress Rounded.binary32 (13421773 / 134217728) 0 1
      = some (838861 / 8388608) ∧
    ∀ (p : ℚ) (m₁ m₂ : ℤ), p = 838861 / 8388608 ∨ p = 13421773 / 134217728 →
      |(90 - 0 + 360 * m₁ : ℚ)| ≤ 180 →
      (4718593 / 524288 : ℚ) ≠ 0 + 0 + (90 - 0 + 360 * m₁) * p + 360 * m₂ := by
  refine ⟨rotate90_tenth_binary32, progress_binary32_tenth, ?_⟩
  intro p m₁ m₂ hp hd h
  rw [abs_le] at hd
  obtain ⟨hd1, hd2⟩ := hd
  have h1 : (-1 : ℚ) < m₁ := by linarith
  have h2 : (m₁ : ℚ) < 1 := by linarith
  have h3 : -1 < m₁ := by exact_mod_cast h1
  have h4 : m₁ < 1 := by exact_mod_cast h2
  have h5 : m₁ = 0 := by omega
  subst h5
  rcases hp with hp | hp
  · subst hp
    have h6 : (-1 : ℚ) < m₂ := by
      by_contra hc
      rw [not_lt] at hc
      norm_num at h
      linarith
    have h7 : (m₂ : ℚ) < 1 := by
      by_contra hc
      rw [not_lt] at hc
      norm_num at h
      linarith
    have h8 : -1 < m₂ := by exact_mod_cast h6
    have h9 : m₂ < 1 := by exact_mod_cast h7
    have h10 : m₂ = 0 := by omega
    subst h10
    norm_num at h
  · subst hp
    have h6 : (-1 : ℚ) < m₂ := by
      by_contra hc
      rw [not_lt] at hc
      norm_num at h
      linarith
    have h7 : (m₂ : ℚ) < 1 := by
      by_contra hc
      rw [not_lt] at hc
      norm_num at h
      linarith
    have h8 : -1 < m₂ := by exact_mod_cast h6
    have h9 : m₂ < 1 := by exact_mod_cast h7
    have h10 : m₂ = 0 := by omega
    subst h10
    norm_num at h

/-- C8: Rotate timeline, linear interpolation. For a linear segment between keyframes
`(t0, a0)` and `(t1, a1)` (keyframes `k - 1` and `k`) with `t0 ≤ time < t1`, weight 1, setup
rotation `s` and current rotation `r`, for every rounding `fl`: the code computes the
progress `1 - (time - t1) / (t0 - t1)`, clamps it, reduces `a1 - a0` by the two loops to
`d`, forms `s + (a0 + d * progress)` and turns the bone toward it along the shortest arc,
every operation rounded in this order. In exact arithmetic, with `|a1 - a0| ≤ 180` and
`|s + v - r| ≤ 180`, where `v = a0 + (a1 - a0) * (time - t0) / (t1 - t0)`, the bone
rotation becomes exactly `s + v`. In binary32, keyframes `(0, 0)` and `(1, 90)`,
`s = r = 0`, `Animation_apply(pose, 1/2, false)` gives rotation 45. -/
theorem RotateTimeline_linear (fl : ℚ → Option ℚ) (self : BaseTimeline) (skeleton : Skeleton)
    (bone : Bone) (time : ℚ) (n k : Nat) (hwf : self.WellFormed 2 n)
    (hbone : readAt skeleton.bones self.boneIndex = some bone) (hk1 : 1 ≤ k) (hk : k < n)
    (ht0 : frameAt self.frames 2 (k - 1) 0 ≤ time) (ht1 : time < frameAt self.frames 2 k 0)
    (hlinear : readAt self.super.curves (((k - 1 : Nat) : Int) * 6) = some CURVE_LINEAR) :
    Rounded._RotateTimeline_apply fl self skeleton time 1
      = (match Rounded.progress fl time (frameAt self.frames 2 (k - 1) 0)
          (frameAt self.frames 2 k 0) with
        | none => none
        | some percent =>
        match Rounded.shortestArc fl
          (Rounded.fsub fl (frameAt self.frames 2 k 1) (frameAt self.frames 2 (k - 1) 1)) with
        | none => none
        | some d =>
        Rounded.rotateTo fl skeleton self.boneIndex bone
          (Rounded.fadd fl bone.data.rotation
            (Rounded.fadd fl (frameAt self.frames 2 (k - 1) 1)
              (Rounded.fmul fl d (clampPercent percent))))
          1) ∧
    (|frameAt self.frames 2 k 1 - frameAt self.frames 2 (k - 1) 1| ≤ 180 →
      |bone.data.rotation
        + (frameAt self.frames 2 (k - 1) 1
          + (frameAt self.frames 2 k 1 - frameAt self.frames 2 (k - 1) 1)
            * (time - frameAt self.frames 2 (k - 1) 0)
            / (frameAt self.frames 2 k 0 - frameAt self.frames 2 (k - 1) 0))
        - bone.rotation| ≤ 180 →
      Rounded._RotateTimeline_apply Rounded.unrounded self skeleton time 1
        = some { skeleton with
            bones := skeleton.bones.set self.boneIndex.toNat
              { bone with
                rotation := bone.data.rotation
                  + (frameAt self.frames 2 (k - 1) 1
                    + (frameAt self.frames 2 k 1 - frameAt self.frames 2 (k - 1) 1)
                      * (time - frameAt self.frames 2 (k - 1) 0)
                      / (frameAt self.frames 2 k 0 - frameAt self.frames 2 (k - 1) 0)) } }) ∧
    Rounded.Animation_apply Rounded.binary32 exampleResolver
        { timelineCount := 1, timelines := [.rotate exampleRotate90], duration := 1 }
        restPose (1 / 2) 0
      = some { bones := [⟨⟨0, 0, 0, 1, 1⟩, 0, 0, 45, 1, 1⟩],
               slots := [⟨1, 1, 1, 1, none⟩] } := by
  refine ⟨?_, ?_, ?_⟩
  · rw [Rounded_RotateTimeline_apply_between fl self skeleton bone time 1 n k hwf hbone hk1 hk
      ht0 ht1]
    cases Rounded.progress fl time (frameAt self.frames 2 (k - 1) 0)
      (frameAt self.frames 2 k 0) with
    | none => rfl
    | some percent =>
      simp only [Rounded_getCurvePercent_of_linear fl self.super _ _ hlinear]
  · intro hd hr
    obtain ⟨hc1, _, _⟩ := clampPercent_raw _ _ time ht0 ht1
    have hc : clampPercent ((time - frameAt self.frames 2 (k - 1) 0)
        / (frameAt self.frames 2 k 0 - frameAt self.frames 2 (k - 1) 0))
        = (time - frameAt self.frames 2 (k - 1) 0)
          / (frameAt self.frames 2 k 0 - frameAt self.frames 2 (k - 1) 0) := by
      have e := hc1
      rw [percent_eq_raw _ _ _ ht0 ht1] at e
      exact e
    rw [Rounded_RotateTimeline_apply_of_values Rounded.unrounded self skeleton bone time 1 n k
      hwf hbone hk1 hk ht0 ht1 _ _
      (shortestArc (frameAt self.frames 2 k 1 - frameAt self.frames 2 (k - 1) 1))
      (progress_unrounded _ _ _ ht0 ht1)
      (by rw [hc]; exact Rounded_getCurvePercent_of_linear _ _ _ _ hlinear)
      (by rw [fsub_some]; exact shortestArc_unrounded _)]
    simp only [fadd_some, fmul_some, Rounded.unrounded]
    rw [rotateTo_unrounded _ _ _ _ _ hbone, shortestArc_of_abs_le _ hd, ← mul_div_assoc,
      shortestArc_of_abs_le _ hr]
    simp only [mul_one, add_sub_cancel]
  · rw [Rounded_Animation_apply_single]
    exact rotate90_half_binary32

/-- Witness of C8, the example of the claim: keyframes `(0, 0)` and `(1, 90)`, both linear,
setup rotation 0 and current rotation 0, time 1/2; in exact arithmetic the rotation
becomes 45. -/
theorem RotateTimeline_linear_witness :
    Rounded._RotateTimeline_apply Rounded.unrounded exampleRotate90 restPose (1 / 2) 1
      = some { bones := [⟨⟨0, 0, 0, 1, 1⟩, 0, 0, 45, 1, 1⟩],
               slots := [⟨1, 1, 1, 1, none⟩] } := by
  have h := (RotateTimeline_linear Rounded.unrounded exampleRotate90 restPose
    ⟨⟨0, 0, 0, 1, 1⟩, 0, 0, 0, 1, 1⟩ (1 / 2) 2 1 exampleRotate90_wellFormed rfl (by norm_num)
    (by norm_num) (by norm_num [frameAt, exampleRotate90])
    (by norm_num [frameAt, exampleRotate90]) (by rfl)).2.1
    (by norm_num [frameAt, exampleRotate90])
    (by norm_num [frameAt, exampleRotate90, abs_le])
  rw [h]
  norm_num [frameAt, exampleRotate90, restPose]

/-- Counterexample to C8 as stated, in binary32: keyframes `(0, 0)` and `(1, 90)`, linear,
`s = r = 0`, weight 1, at the time `0.1f = 13421773 / 2 ^ 27`. The conditions of the claim
hold (`|a1 - a0| = 90` and `|s + v - r| = 9.0000001...`), and the code sets the rotation to
`4718593 / 2 ^ 19 = 9.0000019...`, not to `s + v = 90 * 0.1f = 9.0000001...`. -/
theorem RotateTimeline_linear_counterexample :
    Rounded.Animation_apply Rounded.binary32 exampleResolver
        { timelineCount := 1, timelines := [.rotate exampleRotate90], duration := 1 }
        restPose (13421773 / 134217728) 0
      = some { bones := [⟨⟨0, 0, 0, 1, 1⟩, 0, 0, 4718593 / 524288, 1, 1⟩],
               slots := [⟨1, 1, 1, 1, none⟩] } ∧
    |(90 - 0 : ℚ)| ≤ 180 ∧
    |(0 + (0 + (90 - 0) * (13421773 / 134217728 - 0) / (1 - 0)) - 0 : ℚ)| ≤ 180 ∧
    (4718593 / 524288 : ℚ) ≠ 0 + (0 + (90 - 0) * (13421773 / 134217728 - 0) / (1 - 0)) := by
  refine ⟨?_, by norm_num [abs_le], by norm_num [abs_le], by norm_num⟩
  rw [Rounded_Animation_apply_single]
  exact rotate90_tenth_binary32

/-- C14, as amended: curve-to-segment association. When a curved timeline (Rotate,
Translate, Scale, Color) is evaluated at a time between keyframe `k - 1` and keyframe `k`,
the curve entry consulted is the one at index `k - 1`. For every rounding `fl` and whatever
the curve array: the code computes the raw progress between the two key times, clamps it,
hands it to the curve evaluator at entry `k - 1` and leaves the pose that belongs to the
value returned (`Rounded.segmentPose`, which does not read the curve array). So a curve
array that agrees with the timeline's on the six floats of entry `k - 1` gives the same
result; `CurveTimeline_setLinear`, `CurveTimeline_setStepped` or `CurveTimeline_setCurve`
with any `frameIndex` other than `k - 1` (with `frameIndex = k` in particular) does not
change the result; after `CurveTimeline_setStepped` with `frameIndex = k - 1` the segment
holds keyframe `k - 1`'s value (curve value 0), and after `CurveTimeline_setLinear` with
`frameIndex = k - 1` the curve value is the clamped progress itself. The entry written with
`frameIndex = j` so shapes the segment that departs from keyframe `j` and arrives at
keyframe `j + 1`. -/
theorem curve_entry_of_segment (fl : ℚ → Option ℚ) (resolve : Resolver) (tl : Timeline)
    (skeleton : Skeleton) (time alpha : ℚ) (n k : Nat) (hcurved : tl.Curved)
    (hwf : tl.WellFormed n) (htarget : tl.TargetIn skeleton) (hk1 : 1 ≤ k) (hk : k < n)
    (ht0 : frameAt tl.frames tl.frameSize (k - 1) 0 ≤ time)
    (ht1 : time < frameAt tl.frames tl.frameSize k 0) :
    (∀ curves : List ℚ, curves.length = (n - 1) * 6 →
      Rounded.Timeline_apply fl resolve (tl.withCurves curves) skeleton time alpha
        = match Rounded.progress fl time (frameAt tl.frames tl.frameSize (k - 1) 0)
            (frameAt tl.frames tl.frameSize k 0) with
          | none => none
          | some raw =>
          match Rounded.CurveTimeline_getCurvePercent fl { curves := curves }
            ((k - 1 : Nat) : Int) (clampPercent raw) with
          | none => none
          | some p => Rounded.segmentPose fl tl skeleton k alpha p) ∧
    (∀ curves : List ℚ, curves.length = (n - 1) * 6 →
      (∀ o : Int, 0 ≤ o → o < 6 →
        readAt curves (((k - 1 : Nat) : Int) * 6 + o)
          = readAt tl.curves (((k - 1 : Nat) : Int) * 6 + o)) →
      Rounded.Timeline_apply fl resolve (tl.withCurves curves) skeleton time alpha
        = Rounded.Timeline_apply fl resolve tl skeleton time alpha) ∧
    (∀ (j : Int) (c : CurveTimeline), j ≠ ((k - 1 : Nat) : Int) →
      (CurveTimeline_setLinear { curves := tl.curves } j = some c ∨
        CurveTimeline_setStepped { curves := tl.curves } j = some c ∨
        ∃ cx1 cy1 cx2 cy2,
          CurveTimeline_setCurve { curves := tl.curves } j cx1 cy1 cx2 cy2 = some c) →
      Rounded.Timeline_apply fl resolve (tl.withCurves c.curves) skeleton time alpha
        = Rounded.Timeline_apply fl resolve tl skeleton time alpha) ∧
    (∀ c : CurveTimeline,
      CurveTimeline_setStepped { curves := tl.curves } ((k - 1 : Nat) : Int) = some c →
      Rounded.Timeline_apply fl resolve (tl.withCurves c.curves) skeleton time alpha
        = match Rounded.progress fl time (frameAt tl.frames tl.frameSize (k - 1) 0)
            (frameAt tl.frames tl.frameSize k 0) with
          | none => none
          | some _ => Rounded.segmentPose fl tl skeleton k alpha 0) ∧
    (∀ c : CurveTimeline,
      CurveTimeline_setLinear { curves := tl.curves } ((k - 1 : Nat) : Int) = some c →
      Rounded.Timeline_apply fl resolve (tl.withCurves c.curves) skeleton time alpha
        = match Rounded.progress fl time (frameAt tl.frames tl.frameSize (k - 1) 0)
            (frameAt tl.frames tl.frameSize k 0) with
          | none => none
          | some raw => Rounded.segmentPose fl tl skeleton k alpha (clampPercent raw)) := by
  have hF := Rounded_Timeline_apply_between fl resolve tl skeleton time alpha n k hcurved hwf
    htarget hk1 hk ht0 ht1
  have hlen := Timeline.curves_length hcurved hwf
  have hagree : ∀ curves : List ℚ, curves.length = (n - 1) * 6 →
      (∀ o : Int, 0 ≤ o → o < 6 →
        readAt curves (((k - 1 : Nat) : Int) * 6 + o)
          = readAt tl.curves (((k - 1 : Nat) : Int) * 6 + o)) →
      Rounded.Timeline_apply fl resolve (tl.withCurves curves) skeleton time alpha
        = Rounded.Timeline_apply fl resolve tl skeleton time alpha := by
    intro curves hl hag
    have h1 := hF curves hl
    have h2 := hF tl.curves hlen
    rw [Timeline.withCurves_curves] at h2
    rw [h1, h2]
    simp only [Rounded_getCurvePercent_congr fl curves tl.curves _ _ hag]
  refine ⟨hF, hagree, ?_, ?_, ?_⟩
  · intro j c hj hset
    obtain ⟨hl, hfr⟩ := curve_setters_frame tl.curves j c hset
    exact hagree c.curves (by rw [hl, hlen]) (fun o ho0 ho1 => hfr _ (Ne.symm hj) o ho0 ho1)
  · intro c hset
    obtain ⟨hl, he⟩ := setStepped_entry _ _ _ hset
    rw [hF c.curves (by rw [hl, hlen])]
    simp only [Rounded_getCurvePercent_stepped_entry fl c.curves _ _ he]
  · intro c hset
    obtain ⟨hl, he⟩ := setLinear_entry _ _ _ hset
    rw [hF c.curves (by rw [hl, hlen])]
    simp only [Rounded_getCurvePercent_linear_entry fl c.curves _ _ he]

/-- C18: raw progress. For every curved timeline with strictly increasing keyframe times and
every time with `first ≤ time < last`, the locator `binarySearch` finds the keyframe `k`
with `t_lower ≤ time < t_upper` (`t_lower`, `t_upper` the times of keyframes `k - 1` and
`k`). For every rounding `fl`, the progress passed to the curve evaluator (at entry
`k - 1`) is the clamp to `[0, 1]` of the `float` value of
`1 - (time - t_upper) / (t_lower - t_upper)`, every operation rounded in this order
(`Rounded.progress`). In exact arithmetic this value equals
`(time - t_lower) / (t_upper - t_lower)`, lies in `[0, 1)` and is left unchanged by the
clamp. -/
theorem raw_progress (fl : ℚ → Option ℚ) (resolve : Resolver) (tl : Timeline)
    (skeleton : Skeleton) (time alpha : ℚ) (n : Nat) (hcurved : tl.Curved)
    (hwf : tl.WellFormed n) (htarget : tl.TargetIn skeleton)
    (h0 : frameAt tl.frames tl.frameSize 0 0 ≤ time)
    (h1 : time < frameAt tl.frames tl.frameSize (n - 1) 0) :
    ∃ k : Nat, 1 ≤ k ∧ k < n ∧
      binarySearch tl.frames tl.framesLength time tl.frameSize
        = some ((k : Int) * tl.frameSize) ∧
      frameAt tl.frames tl.frameSize (k - 1) 0 ≤ time ∧
      time < frameAt tl.frames tl.frameSize k 0 ∧
      Rounded.Timeline_apply fl resolve tl skeleton time alpha
        = (match Rounded.progress fl time (frameAt tl.frames tl.frameSize (k - 1) 0)
            (frameAt tl.frames tl.frameSize k 0) with
          | none => none
          | some raw =>
          match Rounded.CurveTimeline_getCurvePercent fl { curves := tl.curves }
            ((k - 1 : Nat) : Int) (clampPercent raw) with
          | none => none
          | some p => Rounded.segmentPose fl tl skeleton k alpha p) ∧
      Rounded.progress Rounded.unrounded time (frameAt tl.frames tl.frameSize (k - 1) 0)
          (frameAt tl.frames tl.frameSize k 0)
        = some ((time - frameAt tl.frames tl.frameSize (k - 1) 0)
            / (frameAt tl.frames tl.frameSize k 0 - frameAt tl.frames tl.frameSize (k - 1) 0)) ∧
      0 ≤ (time - frameAt tl.frames tl.frameSize (k - 1) 0)
            / (frameAt tl.frames tl.frameSize k 0 - frameAt tl.frames tl.frameSize (k - 1) 0) ∧
      (time - frameAt tl.frames tl.frameSize (k - 1) 0)
            / (frameAt tl.frames tl.frameSize k 0 - frameAt tl.frames tl.frameSize (k - 1) 0)
          < 1 ∧
      clampPercent ((time - frameAt tl.frames tl.frameSize (k - 1) 0)
            / (frameAt tl.frames tl.frameSize k 0 - frameAt tl.frames tl.frameSize (k - 1) 0))
        = (time - frameAt tl.frames tl.frameSize (k - 1) 0)
            / (frameAt tl.frames tl.frameSize k 0
              - frameAt tl.frames tl.frameSize (k - 1) 0) := by
  have hkeys := Timeline.keyframes_of_wellFormed hwf
  have hpos := tl.frameSize_pos
  have hn : 2 ≤ n := two_le_count_of_between h0 h1
  have hkey2 : Keyframes tl.frames ((n * tl.frameSize : Nat) : Int) tl.frameSize n :=
    ⟨hkeys.1, rfl, hkeys.2.2⟩
  obtain ⟨k, hk, hk1, hk2, hk3, hk4, _⟩ :=
    binarySearch_segment tl.frames time tl.frameSize n hkey2 hpos hn h0 h1
  rw [← hkeys.2.1] at hk
  obtain ⟨hc, hge, hlt⟩ := clampPercent_raw _ _ time hk3 hk4
  have hF := Rounded_Timeline_apply_between fl resolve tl skeleton time alpha n k hcurved hwf
    htarget hk1 hk2 hk3 hk4 tl.curves (Timeline.curves_length hcurved hwf)
  rw [Timeline.withCurves_curves] at hF
  refine ⟨k, hk1, hk2, hk, hk3, hk4, hF, progress_unrounded _ _ _ hk3 hk4, hge, hlt, ?_⟩
  rw [percent_eq_raw _ _ _ hk3 hk4] at hc
  exact hc

/-- Witness of C14: the three-keyframe Translate example between its keyframes 0 and 1
(`k = 1`), in binary32; `CurveTimeline_setLinear` with `frameIndex = 1` rewrites its stepped
entry 1 and does not change the result. -/
theorem curve_entry_of_segment_witness :
    CurveTimeline_setLinear { curves := exampleTranslate3.super.curves } 1
        = some { curves := [0, 0, 0, 0, 0, 0, 0, 0, 0, 0, 0, 0] } ∧
      Rounded.Timeline_apply Rounded.binary32 exampleResolver
          ((Timeline.translate exampleTranslate3).withCurves
            [0, 0, 0, 0, 0, 0, 0, 0, 0, 0, 0, 0]) examplePose (1 / 2) 1
        = Rounded.Timeline_apply Rounded.binary32 exampleResolver
            (.translate exampleTranslate3) examplePose (1 / 2) 1 := by
  have hset : CurveTimeline_setLinear { curves := exampleTranslate3.super.curves } 1
      = some { curves := [0, 0, 0, 0, 0, 0, 0, 0, 0, 0, 0, 0] } := by
    simp [CurveTimeline_setLinear, writeAt, exampleTranslate3, CURVE_LINEAR]
  exact ⟨hset,
    (curve_entry_of_segment Rounded.binary32 exampleResolver (.translate exampleTranslate3)
      examplePose (1 / 2) 1 3 1 trivial exampleTranslate3_wellFormed
      (by norm_num [Timeline.TargetIn, exampleTranslate3, examplePose]) (by norm_num)
      (by norm_num)
      (by norm_num [frameAt, Timeline.frames, Timeline.frameSize, exampleTranslate3])
      (by norm_num [frameAt, Timeline.frames, Timeline.frameSize, exampleTranslate3])).2.2.1
      1 { curves := [0, 0, 0, 0, 0, 0, 0, 0, 0, 0, 0, 0] } (by norm_num) (Or.inl hset)⟩

/-- Counterexample to C14 as stated, in binary32: on the curve array of a three-keyframe
timeline `CurveTimeline_setStepped` with `frameIndex = 1` leaves entry 0 linear and entry 1
stepped. Between keyframes 0 and 1, at time 1/2, the Translate timeline with this array
interpolates linearly (setup `(10, 20)` plus `(5, 5)`), so the entry written with
`frameIndex = 1` does not shape the segment arriving at keyframe 1; between keyframes 1
and 2, at time 3/2, it holds keyframe 1's value `(10, 10)`, so that entry shapes the segment
departing from keyframe 1. -/
theorem curve_entry_of_segment_counterexample :
    CurveTimeline_setStepped (_CurveTimeline_init 3) 1 = some exampleTranslate3.super ∧
      Rounded._TranslateTimeline_apply Rounded.binary32 exampleTranslate3 examplePose (1 / 2) 1
        = some { bones := [⟨⟨10, 20, 0, 1, 1⟩, 15, 25, 0, 1, 1⟩],
                 slots := [⟨1, 1, 1, 1, none⟩] } ∧
      Rounded._TranslateTimeline_apply Rounded.binary32 exampleTranslate3 examplePose (3 / 2) 1
        = some { bones := [⟨⟨10, 20, 0, 1, 1⟩, 20, 30, 0, 1, 1⟩],
                 slots := [⟨1, 1, 1, 1, none⟩] } := by
  refine ⟨?_, translate3_half_binary32, translate3_three_halves_binary32⟩
  simp [CurveTimeline_setStepped, _CurveTimeline_init, CALLOC, writeAt, exampleTranslate3,
    CURVE_STEPPED, List.replicate]

/-- Witness of C18: the example Rotate timeline (keyframes at times 0 and 1) at time 1/4:
the locator returns the offset 2 of keyframe 1, and in exact arithmetic the progress between
the key times 0 and 1 is 1/4. -/
theorem raw_progress_witness :
    binarySearch exampleRotate90.frames exampleRotate90.framesLength (1 / 4) 2 = some 2 ∧
      Rounded.progress Rounded.unrounded (1 / 4) 0 1 = some (1 / 4) := by
  obtain ⟨k, hk1, hk2, hb, _, _, _, hp, _⟩ :=
    raw_progress Rounded.binary32 exampleResolver (.rotate exampleRotate90) restPose (1 / 4) 1 2
      trivial exampleRotate90_wellFormed
      (by norm_num [Timeline.TargetIn, exampleRotate90, restPose])
      (by norm_num [frameAt, Timeline.frames, Timeline.frameSize, exampleRotate90])
      (by norm_num [frameAt, Timeline.frames, Timeline.frameSize, exampleRotate90])
  have hk : k = 1 := by omega
  subst hk
  have e0 : frameAt (Timeline.rotate exampleRotate90).frames
      (Timeline.rotate exampleRotate90).frameSize (1 - 1) 0 = 0 := by
    norm_num [frameAt, Timeline.frames, Timeline.frameSize, exampleRotate90]
  have e1 : frameAt (Timeline.rotate exampleRotate90).frames
      (Timeline.rotate exampleRotate90).frameSize 1 0 = 1 := by
    norm_num [frameAt, Timeline.frames, Timeline.frameSize, exampleRotate90]
  rw [e0, e1] at hp
  constructor
  · simpa [Timeline.frames, Timeline.framesLength, Timeline.frameSize] using hb
  · rw [hp]
    norm_num

/-- Counterexample to C18 as stated, in binary32: the Rotate example with key times 0 and 1
at the time `0.1f = 13421773 / 2 ^ 27`. The difference `0.1f - 1` is rounded, the progress
comes out as `838861 / 2 ^ 23`, not as `(time - 0) / (1 - 0) = 0.1f`, and the bone ends at
`4718593 / 2 ^ 19 = 9.0000019...`, where the progress `0.1f` would have left it at 9. And
between the key times -3 and 1 at the time `1 - 2 ^ (-24)` the progress comes out as
exactly 1, outside `[0, 1)`. -/
theorem raw_progress_counterexample :
    Rounded.Timeline_apply Rounded.binary32 exampleResolver (.rotate exampleRotate90) restPose
        (13421773 / 134217728) 1
      = some { bones := [⟨⟨0, 0, 0, 1, 1⟩, 0, 0, 4718593 / 524288, 1, 1⟩],
               slots := [⟨1, 1, 1, 1, none⟩] } ∧
    frameAt exampleRotate90.frames 2 0 0 = 0 ∧ frameAt exampleRotate90.frames 2 1 0 = 1 ∧
    Rounded.progress Rounded.binary32 (13421773 / 134217728) 0 1
      = some (838861 / 8388608) ∧
    (838861 / 8388608 : ℚ) ≠ (13421773 / 134217728 - 0) / (1 - 0) ∧
    Rounded.segmentPose Rounded.binary32 (.rotate exampleRotate90) restPose 1 1
        ((13421773 / 134217728 - 0) / (1 - 0))
      = some { bones := [⟨⟨0, 0, 0, 1, 1⟩, 0, 0, 9, 1, 1⟩],
               slots := [⟨1, 1, 1, 1, none⟩] } ∧
    Rounded.progress Rounded.binary32 (16777215 / 16777216) (-3) 1 = some 1 ∧
    (-3 : ℚ) ≤ 16777215 / 16777216 ∧ (16777215 / 16777216 : ℚ) < 1 := by
  refine ⟨rotate90_tenth_binary32, by norm_num [frameAt, exampleRotate90],
    by norm_num [frameAt, exampleRotate90], progress_binary32_tenth, by norm_num, ?_,
    progress_binary32_one, by norm_num, by norm_num⟩
  rw [show ((13421773 / 134217728 - 0) / (1 - 0) : ℚ) = 13421773 / 134217728 by norm_num]
  exact segmentPose_rotate90_tenth

/-- C4, as amended: for every timeline variant, weight 1 and every time at or after the last
keyframe's time, the result of `Timeline_apply` does not depend on the time, for every
rounding `fl`. A Color timeline stores the last keyframe's `r`, `g`, `b`, `a` and an
Attachment timeline the resolution of the last keyframe's name, with no arithmetic. A
Rotate, Translate or Scale timeline moves the bone from its current value toward the setup
value plus the last keyframe's value (`setup - 1 + value` for Scale), every operation
rounded (`Rounded.rotateTo`, `Rounded.translateTo`, `Rounded.scaleTo`); in exact arithmetic
the result is the setup rotation plus the last angle plus a whole number of turns (within
180 of the previous rotation), the setup position plus the last value, the setup scale
minus 1 plus the last value. -/
theorem Timeline_apply_at_end (fl : ℚ → Option ℚ) (resolve : Resolver) (tl : Timeline)
    (skeleton : Skeleton) (time : ℚ) (n : Nat) (hn : 1 ≤ n) (hwf : tl.WellFormed n)
    (htarget : tl.TargetIn skeleton)
    (htime : frameAt tl.frames tl.frameSize (n - 1) 0 ≤ time) :
    match tl with
    | .rotate self =>
      ∃ bone : Bone, readAt skeleton.bones self.boneIndex = some bone ∧
        Rounded.Timeline_apply fl resolve (.rotate self) skeleton time 1
          = Rounded.rotateTo fl skeleton self.boneIndex bone
              (Rounded.fadd fl bone.data.rotation (frameAt self.frames 2 (n - 1) 1)) 1 ∧
        ∃ m : ℤ,
          |bone.data.rotation + frameAt self.frames 2 (n - 1) 1 + 360 * m - bone.rotation|
            ≤ 180 ∧
          Rounded.Timeline_apply Rounded.unrounded resolve (.rotate self) skeleton time 1
            = some { skeleton with
                bones := skeleton.bones.set self.boneIndex.toNat
                  { bone with
                    rotation :=
                      bone.data.rotation + frameAt self.frames 2 (n - 1) 1 + 360 * m } }
    | .translate self =>
      ∃ bone : Bone, readAt skeleton.bones self.boneIndex = some bone ∧
        Rounded.Timeline_apply fl resolve (.translate self) skeleton time 1
          = Rounded.translateTo fl skeleton self.boneIndex bone
              (Rounded.fadd fl bone.data.x (frameAt self.frames 3 (n - 1) 1))
              (Rounded.fadd fl bone.data.y (frameAt self.frames 3 (n - 1) 2)) 1 ∧
        Rounded.Timeline_apply Rounded.unrounded resolve (.translate self) skeleton time 1
          = some { skeleton with
              bones := skeleton.bones.set self.boneIndex.toNat
                { bone with
                  x := bone.data.x + frameAt self.frames 3 (n - 1) 1
                  y := bone.data.y + frameAt self.frames 3 (n - 1) 2 } }
    | .scale self =>
      ∃ bone : Bone, readAt skeleton.bones self.boneIndex = some bone ∧
        Rounded.Timeline_apply fl resolve (.scale self) skeleton time 1
          = Rounded.scaleTo fl skeleton self.boneIndex bone
              (Rounded.fadd fl (Rounded.fsub fl bone.data.scaleX (1 : ℚ))
                (frameAt self.frames 3 (n - 1) 1))
              (Rounded.fadd fl (Rounded.fsub fl bone.data.scaleY (1 : ℚ))
                (frameAt self.frames 3 (n - 1) 2)) 1 ∧
        Rounded.Timeline_apply Rounded.unrounded resolve (.scale self) skeleton time 1
          = some { skeleton with
              bones := skeleton.bones.set self.boneIndex.toNat
                { bone with
                  scaleX := bone.data.scaleX - 1 + frameAt self.frames 3 (n - 1) 1
                  scaleY := bone.data.scaleY - 1 + frameAt self.frames 3 (n - 1) 2 } }
    | .color self =>
      ∃ slot : Slot, readAt skeleton.slots self.slotIndex = some slot ∧
        Rounded.Timeline_apply fl resolve (.color self) skeleton time 1
          = some { skeleton with
              slots := skeleton.slots.set self.slotIndex.toNat
                { slot with
                  r := frameAt self.frames 5 (n - 1) 1
                  g := frameAt self.frames 5 (n - 1) 2
                  b := frameAt self.frames 5 (n - 1) 3
                  a := frameAt self.frames 5 (n - 1) 4 } }
    | .attachment self =>
      ∃ slot : Slot, readAt skeleton.slots self.slotIndex = some slot ∧
        Rounded.Timeline_apply fl resolve (.attachment self) skeleton time 1
          = some { skeleton with
              slots := skeleton.slots.set self.slotIndex.toNat
                { slot with
                  attachment := (self.attachmentNames.getD (n - 1) none).bind
                    (resolve skeleton self.slotIndex) } } := by
  cases tl with
  | rotate self =>
    obtain ⟨bone, hbone⟩ := readAt_bone_of_target skeleton self.boneIndex htarget
    obtain ⟨m, hm, hlo, hhi, _⟩ :=
      shortestArc_spec (bone.data.rotation + frameAt self.frames 2 (n - 1) 1 - bone.rotation)
    have heq : bone.rotation
        + shortestArc (bone.data.rotation + frameAt self.frames 2 (n - 1) 1 - bone.rotation) * 1
        = bone.data.rotation + frameAt self.frames 2 (n - 1) 1 + 360 * m := by
      rw [hm]; ring
    refine ⟨bone, hbone,
      Rounded_RotateTimeline_apply_after_last fl self skeleton bone time 1 n hn hwf hbone htime,
      m, ?_, ?_⟩
    · rw [← heq, mul_one, add_sub_cancel_left]
      exact abs_le.mpr ⟨hlo, hhi⟩
    · show Rounded._RotateTimeline_apply Rounded.unrounded self skeleton time 1 = _
      rw [Rounded_RotateTimeline_apply_after_last _ self skeleton bone time 1 n hn hwf hbone
        htime]
      simp only [fadd_some, Rounded.unrounded]
      rw [rotateTo_unrounded _ _ _ _ _ hbone, heq]
  | translate self =>
    obtain ⟨bone, hbone⟩ := readAt_bone_of_target skeleton self.boneIndex htarget
    refine ⟨bone, hbone,
      Rounded_TranslateTimeline_apply_after_last fl self skeleton bone time 1 n hn hwf hbone
        htime, ?_⟩
    show Rounded._TranslateTimeline_apply Rounded.unrounded self skeleton time 1 = _
    rw [Rounded_TranslateTimeline_apply_after_last _ self skeleton bone time 1 n hn hwf hbone
      htime]
    simp only [fadd_some, Rounded.unrounded]
    rw [translateTo_unrounded _ _ _ _ _ _ hbone]
    simp only [mul_one, add_sub_cancel]
  | scale self =>
    obtain ⟨bone, hbone⟩ := readAt_bone_of_target skeleton self.boneIndex htarget
    refine ⟨bone, hbone,
      Rounded_ScaleTimeline_apply_after_last fl self skeleton bone time 1 n hn hwf hbone
        htime, ?_⟩
    show Rounded._ScaleTimeline_apply Rounded.unrounded self skeleton time 1 = _
    rw [Rounded_ScaleTimeline_apply_after_last _ self skeleton bone time 1 n hn hwf hbone
      htime]
    simp only [fadd_some, fsub_some, Rounded.unrounded]
    rw [scaleTo_unrounded _ _ _ _ _ _ hbone]
    simp only [mul_one, add_sub_cancel]
  | color self =>
    obtain ⟨slot, hslot⟩ := readAt_slot_of_target skeleton self.slotIndex htarget
    exact ⟨slot, hslot,
      Rounded_ColorTimeline_apply_after_last fl self skeleton slot time 1 n hn hwf hslot htime⟩
  | attachment self =>
    obtain ⟨slot, hslot⟩ := readAt_slot_of_target skeleton self.slotIndex htarget
    refine ⟨slot, hslot, ?_⟩
    obtain ⟨k, hk, hk1, hk2, hk3⟩ :=
      AttachmentTimeline_apply_from_first resolve self skeleton slot time 1 n hn hwf hslot
        (le_trans (Keyframes.time_mono hwf.1 (n - 1) (by omega) 0 (by omega)) htime)
    have : k = n - 1 := by
      have := hk2 (n - 1) (by omega) htime
      omega
    subst this
    exact hk3

/-- Witness of C4: the example Translate timeline at time 7, six past its last keyframe, in
exact arithmetic: the bone ends at the setup `(10, 20)` plus the stored `(5, 5)`. -/
theorem Timeline_apply_at_end_witness :
    Rounded.Timeline_apply Rounded.unrounded exampleResolver (.translate exampleTranslate)
        examplePose 7 1
      = some { bones := [⟨⟨10, 20, 0, 1, 1⟩, 15, 25, 0, 1, 1⟩],
               slots := [⟨1, 1, 1, 1, none⟩] } := by
  obtain ⟨bone, hb, _, h⟩ :=
    Timeline_apply_at_end Rounded.binary32 exampleResolver (.translate exampleTranslate)
      examplePose 7 2 (by norm_num) exampleTranslate_wellFormed
      (by norm_num [Timeline.TargetIn, exampleTranslate, examplePose])
      (by norm_num [frameAt, Timeline.frames, Timeline.frameSize, exampleTranslate])
  have hb2 : bone = ⟨⟨10, 20, 0, 1, 1⟩, 1, 2, 0, 1, 1⟩ := by
    have : readAt examplePose.bones exampleTranslate.boneIndex
        = some ⟨⟨10, 20, 0, 1, 1⟩, 1, 2, 0, 1, 1⟩ := rfl
    rw [this] at hb
    exact (Option.some.inj hb).symm
  subst hb2
  rw [h]
  norm_num [frameAt, exampleTranslate, examplePose]

/-- Counterexample to C4 as stated, in binary32. A Translate timeline whose last keyframe
stores `x = 5`, `y = 5`, on a bone with setup `(10, 20)`, at the last keyframe's time and
weight 1 leaves the bone at `(15, 25)`, not at the stored `(5, 5)`: the stored value is
relative to the setup pose. And a Rotate timeline whose last keyframe stores the angle 1, on
a bone with setup rotation `2 ^ 24` and current rotation `2 ^ 24`, leaves the rotation at
`2 ^ 24`, which is neither the stored value nor a whole number of turns away from the setup
rotation plus the stored value. -/
theorem Timeline_apply_at_end_counterexample :
    Rounded.Timeline_apply Rounded.binary32 exampleResolver (.translate exampleTranslate)
        examplePose 1 1
      = some { bones := [⟨⟨10, 20, 0, 1, 1⟩, 15, 25, 0, 1, 1⟩],
               slots := [⟨1, 1, 1, 1, none⟩] } ∧
    frameAt exampleTranslate.frames 3 1 0 = 1 ∧ frameAt exampleTranslate.frames 3 1 1 = 5 ∧
    (15 : ℚ) ≠ 5 ∧
    Rounded.Timeline_apply Rounded.binary32 exampleResolver (.rotate exampleRotateUnit)
        farTurnPose 1 1
      = some { bones := [⟨⟨0, 0, 16777216, 1, 1⟩, 0, 0, 16777216, 1, 1⟩], slots := [] } ∧
    frameAt exampleRotateUnit.frames 2 1 0 = 1 ∧ frameAt exampleRotateUnit.frames 2 1 1 = 1 ∧
    (16777216 : ℚ) ≠ 1 ∧ ∀ m : ℤ, (16777216 : ℚ) ≠ 16777216 + 1 + 360 * m := by
  refine ⟨translate_end_binary32, by norm_num [frameAt, exampleTranslate],
    by norm_num [frameAt, exampleTranslate], by norm_num, rotate_end_binary32,
    by norm_num [frameAt, exampleRotateUnit], by norm_num [frameAt, exampleRotateUnit],
    by norm_num, ?_⟩
  intro m h
  have h1 : (360 * m : ℤ) = -1 := by
    have : ((360 * m : ℤ) : ℚ) = -1 := by push_cast; linarith
    exact_mod_cast this
  omega

/-- C13, as amended: timeline order and overwrite. `Animation_apply` applies its timelines
in index order, at the wrapped time (`fmodf(time, duration)` when `loop` is set and the
duration is not 0, else the time given): for two timelines, the first on the pose given, the
second on the result, for every rounding `fl`. For an animation holding two Translate
timelines `A`, `B` that target the same bone, with the wrapped time not before either
timeline's first keyframe, in exact arithmetic (`Rounded.unrounded`): when `A` returns a
pose and `B` alone, on the pose given, returns `result`, the animation returns `result`;
the effect of `A` is overwritten. -/
theorem Animation_apply_overwrite (fl : ℚ → Option ℚ) (resolve : Resolver)
    (A B : BaseTimeline) (duration : ℚ) (skeleton : Skeleton) (bone : Bone) (time : ℚ)
    (loop : Int) (nA nB : Nat) (hnA : 1 ≤ nA) (hnB : 1 ≤ nB) (hA : A.WellFormed 3 nA)
    (hB : B.WellFormed 3 nB) (hsame : A.boneIndex = B.boneIndex)
    (hbone : readAt skeleton.bones B.boneIndex = some bone)
    (htA : frameAt A.frames 3 0 0 ≤ wrappedTime duration time loop)
    (htB : frameAt B.frames 3 0 0 ≤ wrappedTime duration time loop) :
    Rounded.Animation_apply fl resolve
        { timelineCount := 2, timelines := [.translate A, .translate B],
          duration := duration } skeleton time loop
      = (Rounded.Timeline_apply fl resolve (.translate A) skeleton
            (wrappedTime duration time loop) 1).bind
          (fun s => Rounded.Timeline_apply fl resolve (.translate B) s
            (wrappedTime duration time loop) 1) ∧
    ∀ sA result : Skeleton,
      Rounded._TranslateTimeline_apply Rounded.unrounded A skeleton
          (wrappedTime duration time loop) 1 = some sA →
      Rounded._TranslateTimeline_apply Rounded.unrounded B skeleton
          (wrappedTime duration time loop) 1 = some result →
      Rounded.Animation_apply Rounded.unrounded resolve
          { timelineCount := 2, timelines := [.translate A, .translate B],
            duration := duration } skeleton time loop
        = some result := by
  refine ⟨Rounded_Animation_apply_pair fl resolve _ _ duration skeleton time loop, ?_⟩
  intro sA result hAs hBs
  obtain ⟨XA, YA, hXA⟩ := Rounded_TranslateTimeline_value Rounded.unrounded A
    (wrappedTime duration time loop) nA hnA hA htA
  obtain ⟨XB, YB, hXB⟩ := Rounded_TranslateTimeline_value Rounded.unrounded B
    (wrappedTime duration time loop) nB hnB hB htB
  have hboneA : readAt skeleton.bones A.boneIndex = some bone := by rw [hsame]; exact hbone
  rw [hXA skeleton bone 1 hboneA] at hAs
  rw [hXB skeleton bone 1 hbone] at hBs
  rw [Rounded_Animation_apply_pair]
  show (Rounded._TranslateTimeline_apply Rounded.unrounded A skeleton _ 1).bind
    (fun s => Rounded._TranslateTimeline_apply Rounded.unrounded B s _ 1) = _
  rw [hXA skeleton bone 1 hboneA]
  cases hxa : XA bone.data.x with
  | none =>
    rw [hxa, translateTo_none_left] at hAs
    exact absurd hAs (by simp)
  | some xa =>
  cases hya : YA bone.data.y with
  | none =>
    rw [hya, translateTo_none_right] at hAs
    exact absurd hAs (by simp)
  | some ya =>
  cases hxb : XB bone.data.x with
  | none =>
    rw [hxb, translateTo_none_left] at hBs
    exact absurd hBs (by simp)
  | some xb =>
  cases hyb : YB bone.data.y with
  | none =>
    rw [hyb, translateTo_none_right] at hBs
    exact absurd hBs (by simp)
  | some yb =>
  rw [hxb, hyb, translateTo_unrounded _ _ _ _ _ _ hbone] at hBs
  rw [translateTo_unrounded _ _ _ _ _ _ hboneA, Option.some_bind, hsame]
  have hbone2 := readAt_set_same skeleton.bones B.boneIndex bone
    { bone with
      x := bone.x + (xa - bone.x) * 1
      y := bone.y + (ya - bone.y) * 1 } hbone
  rw [hXB _ _ 1 hbone2]
  simp only [hxb, hyb]
  rw [translateTo_unrounded _ _ _ _ _ _ hbone2, ← hBs]
  simp only [mul_one, add_sub_cancel, List.set_set]

/-- Witness of C13: the two example Translate timelines on the example pose (setup
`(10, 20)`) at time 1, not looped, in exact arithmetic. In the order `A`, `B` the bone ends
at `(17, 27)`, the setup plus `B`'s `(7, 7)`. -/
theorem Animation_apply_overwrite_witness :
    Rounded.Animation_apply Rounded.unrounded exampleResolver
        { timelineCount := 2,
          timelines := [.translate exampleTranslate, .translate exampleTranslateB],
          duration := 1 } examplePose 1 0
      = some { bones := [⟨⟨10, 20, 0, 1, 1⟩, 17, 27, 0, 1, 1⟩],
               slots := [⟨1, 1, 1, 1, none⟩] } := by
  have hw : wrappedTime 1 1 0 = 1 := wrappedTime_of_not_loop 1 1
  have h := (Animation_apply_overwrite Rounded.binary32 exampleResolver exampleTranslate
    exampleTranslateB 1 examplePose ⟨⟨10, 20, 0, 1, 1⟩, 1, 2, 0, 1, 1⟩ 1 0 2 2 (by norm_num)
    (by norm_num) exampleTranslate_wellFormed exampleTranslateB_wellFormed rfl rfl
    (by rw [hw]; norm_num [frameAt, exampleTranslate])
    (by rw [hw]; norm_num [frameAt, exampleTranslateB])).2
  rw [hw] at h
  refine h { bones := [⟨⟨10, 20, 0, 1, 1⟩, 15, 25, 0, 1, 1⟩], slots := [⟨1, 1, 1, 1, none⟩] }
    _ ?_ ?_
  · rw [Rounded_TranslateTimeline_apply_after_last _ exampleTranslate examplePose
      ⟨⟨10, 20, 0, 1, 1⟩, 1, 2, 0, 1, 1⟩ 1 1 2 (by norm_num) exampleTranslate_wellFormed
      rfl (by norm_num [frameAt, exampleTranslate])]
    simp only [fadd_some, Rounded.unrounded]
    rw [translateTo_unrounded examplePose exampleTranslate.boneIndex
      ⟨⟨10, 20, 0, 1, 1⟩, 1, 2, 0, 1, 1⟩ _ _ _ rfl]
    norm_num [frameAt, exampleTranslate, examplePose]
  · rw [Rounded_TranslateTimeline_apply_after_last _ exampleTranslateB examplePose
      ⟨⟨10, 20, 0, 1, 1⟩, 1, 2, 0, 1, 1⟩ 1 1 2 (by norm_num) exampleTranslateB_wellFormed
      rfl (by norm_num [frameAt, exampleTranslateB])]
    simp only [fadd_some, Rounded.unrounded]
    rw [translateTo_unrounded examplePose exampleTranslateB.boneIndex
      ⟨⟨10, 20, 0, 1, 1⟩, 1, 2, 0, 1, 1⟩ _ _ _ rfl]
    norm_num [frameAt, exampleTranslateB, examplePose]

/-- Counterexample to C13 as stated, in binary32. Two Translate timelines on the bone with
setup `x = 10` and current `x = 10`, at time 1, not looped: `A` stores `x = 2 ^ 24`, `B`
stores `x = 1/2`. The pair leaves the bone at `x = 10`: `B` computes
`21/2 - (10 + 2 ^ 24)`, which is rounded to `-2 ^ 24`. `B` alone leaves it at `x = 21/2`.
And with `loop` set, duration 2 and time `5/2` (not before the first keyframe of either
timeline, times 0 and 1), the timelines run at the wrapped time `1/2`, before the first
keyframe of the later timeline: the pair leaves the bone at `(25/2, 45/2)`, the earlier
timeline's value, where the later timeline alone at time `5/2` leaves it at `(17, 27)`. -/
theorem Animation_apply_overwrite_counterexample :
    Rounded.Animation_apply Rounded.binary32 exampleResolver
        { timelineCount := 2,
          timelines := [.translate exampleTranslateFar, .translate exampleTranslateHalf],
          duration := 1 } tenPose 1 0
      = some { bones := [⟨⟨10, 0, 0, 1, 1⟩, 10, 1 / 2, 0, 1, 1⟩], slots := [] } ∧
    Rounded.Timeline_apply Rounded.binary32 exampleResolver (.translate exampleTranslateHalf)
        tenPose 1 1
      = some { bones := [⟨⟨10, 0, 0, 1, 1⟩, 21 / 2, 1 / 2, 0, 1, 1⟩], slots := [] } ∧
    frameAt exampleTranslateFar.frames 3 0 0 ≤ 1 ∧
    frameAt exampleTranslateHalf.frames 3 0 0 ≤ 1 ∧
    Rounded.Animation_apply Rounded.binary32 exampleResolver
        { timelineCount := 2,
          timelines := [.translate exampleTranslate, .translate exampleTranslateLate],
          duration := 2 } examplePose (5 / 2) 1
      = some { bones := [⟨⟨10, 20, 0, 1, 1⟩, 25 / 2, 45 / 2, 0, 1, 1⟩],
               slots := [⟨1, 1, 1, 1, none⟩] } ∧
    Rounded.Timeline_apply Rounded.binary32 exampleResolver (.translate exampleTranslateLate)
        examplePose (5 / 2) 1
      = some { bones := [⟨⟨10, 20, 0, 1, 1⟩, 17, 27, 0, 1, 1⟩],
               slots := [⟨1, 1, 1, 1, none⟩] } ∧
    frameAt exampleTranslate.frames 3 0 0 ≤ 5 / 2 ∧
    frameAt exampleTranslateLate.frames 3 0 0 ≤ 5 / 2 := by
  refine ⟨?_, translateHalf_end_binary32, by norm_num [frameAt, exampleTranslateFar],
    by norm_num [frameAt, exampleTranslateHalf], ?_, translateLate_end_binary32,
    by norm_num [frameAt, exampleTranslate], by norm_num [frameAt, exampleTranslateLate]⟩
  · rw [Rounded_Animation_apply_pair, wrappedTime_of_not_loop]
    show (Rounded._TranslateTimeline_apply Rounded.binary32 exampleTranslateFar tenPose 1
      1).bind (fun s => Rounded._TranslateTimeline_apply Rounded.binary32 exampleTranslateHalf
        s 1 1) = _
    rw [translateFar_end_binary32, Option.some_bind, translateHalf_after_far_binary32]
  · have hw : wrappedTime 2 (5 / 2) 1 = 1 / 2 := by
      have : wrappedTime 2 (5 / 2) 1 = fmodf (5 / 2) 2 := by simp [wrappedTime]
      rw [this, fmodf_example_pos]
    rw [Rounded_Animation_apply_pair, hw]
    show (Rounded._TranslateTimeline_apply Rounded.binary32 exampleTranslate examplePose
      (1 / 2) 1).bind (fun s => Rounded._TranslateTimeline_apply Rounded.binary32
        exampleTranslateLate s (1 / 2) 1) = _
    rw [translate_half_binary32, Option.some_bind,
      Rounded_TranslateTimeline_apply_before_first _ exampleTranslateLate _ (1 / 2) 1 1 rfl
        (by norm_num)]

/-- Counterexample to C24 as stated: the token `Linear`, NUL, `xyz` (ten bytes of the text).
`strncmp` stops at the NUL that ends the name `"Linear"`, so `indexOf` over the seven filter
names returns 1, though the token is a prefix of no name. -/
theorem indexOf_last_match_counterexample :
    indexOf textureFilterNames 7 ['L', 'i', 'n', 'e', 'a', 'r', Char.ofNat 0, 'x', 'y', 'z']
        ⟨0, 10⟩ = some 1 ∧
      textureFilterNames[1]? = some "Linear" ∧
      slice ['L', 'i', 'n', 'e', 'a', 'r', Char.ofNat 0, 'x', 'y', 'z'] ⟨0, 10⟩
        = ['L', 'i', 'n', 'e', 'a', 'r', Char.ofNat 0, 'x', 'y', 'z'] ∧
      ∀ s ∈ textureFilterNames,
        ¬ ['L', 'i', 'n', 'e', 'a', 'r', Char.ofNat 0, 'x', 'y', 'z'] <+: s.toList := by
  refine ⟨by decide, by decide, by decide, ?_⟩
  intro s hs h
  have hin : Char.ofNat 0 ∈ s.toList :=
    h.subset (by simp)
  simp only [textureFilterNames, List.mem_cons, List.mem_singleton, List.not_mem_nil,
    or_false] at hs
  rcases hs with rfl | rfl | rfl | rfl | rfl | rfl | rfl <;> revert hin <;> decide

end Spine
